import Mathlib

/-!
# go-breeze-connect: token registry, composite-key codec, tick decoder, watch sets

A shallow embedding of the streaming core of `go-breeze-connect`
(`src/breezeconnect.go`, `src/socketeventbreeze.go`) and theorems about it.

Conventions of the embedding:

* A Go call ends in one of three ways: it returns normally (`GoResult.ok`),
  it returns a non-nil `error` (`GoResult.err`), or it aborts with a run-time
  panic (`GoResult.panic`: index out of range, slice bounds out of range,
  failed type assertion, nil dereference, write to a nil map).
* Go strings are Lean strings; `strings.Split` with a one-character separator
  is `goSplit`.
* A Go `map[string]V` is an association list with distinct keys; a map that
  may be nil (`GoMap`) is an `Option` of one, `none` being the nil map.
* A Go `[]string` stored in a table is a list whose capacity equals its
  length, as the composite literals of `getStockScriptList` create it.
-/

set_option autoImplicit false

namespace BreezeConnect

/-! ## Go run-time model -/

/-- An `error` value: `errors.New(text)`, or `errors.New(fmt.Sprintf(format, args...))`
whose text is kept as the format together with its arguments. -/
inductive GoError where
  | new (text : String)
  | sprintf (format : String) (args : List String)
  deriving DecidableEq, Repr

/-- How a Go call ends: normal return, returned error, or run-time panic. -/
inductive GoResult (α : Type) where
  | ok (a : α)
  | err (e : GoError)
  | panic
  deriving DecidableEq, Repr

namespace GoResult

/-- Sequencing of Go statements: an error return or a panic ends the function. -/
def bind {α β : Type} : GoResult α → (α → GoResult β) → GoResult β
  | ok a, f => f a
  | err e, _ => err e
  | panic, _ => panic

instance : Monad GoResult where
  pure := GoResult.ok
  bind := GoResult.bind

/-- Whether the call returned normally. -/
def isOk {α : Type} : GoResult α → Bool
  | ok _ => true
  | _ => false

/-- Whether the call returned an error. -/
def isErr {α : Type} : GoResult α → Bool
  | err _ => true
  | _ => false

end GoResult

/-- Indexing `xs[i]` of a Go slice: panics when `i` is out of range. -/
def idx {α : Type} (xs : List α) (i : Nat) : GoResult α :=
  match xs.get? i with
  | some a => .ok a
  | none => .panic

/-- Splitting a character sequence at every occurrence of `sep`. -/
def splitChars (sep : Char) : List Char → List (List Char)
  | [] => [[]]
  | c :: cs =>
    if c = sep then [] :: splitChars sep cs
    else
      match splitChars sep cs with
      | [] => [[c]]
      | p :: ps => (c :: p) :: ps

/-- Go `strings.Split(s, sep)` for a one-character separator. -/
def goSplit (s : String) (sep : Char) : List String :=
  (splitChars sep s.data).map String.mk

/-- Go `strings.Contains(s, sep)` for a one-character `sep`. -/
def goContains (s : String) (sep : Char) : Bool :=
  s.data.contains sep

/-- Go `strings.Join(xs, sep)`. -/
def goJoin (xs : List String) (sep : String) : String :=
  sep.intercalate xs

/-! ## Go maps -/

/-- Reading `m[k]` of a non-nil map. -/
def Assoc.get? {V : Type} (m : List (String × V)) (k : String) : Option V :=
  match m with
  | [] => none
  | (k', v) :: rest => if k' = k then some v else Assoc.get? rest k

/-- Assignment `m[k] = v` on a non-nil map. -/
def Assoc.set {V : Type} (m : List (String × V)) (k : String) (v : V) : List (String × V) :=
  match m with
  | [] => [(k, v)]
  | (k', v') :: rest => if k' = k then (k, v) :: rest else (k', v') :: Assoc.set rest k v

/-- Go `delete(m, k)`. -/
def Assoc.erase {V : Type} (m : List (String × V)) (k : String) : List (String × V) :=
  m.filter (fun kv => decide (kv.1 ≠ k))

/-- The keys of a map. -/
def Assoc.keys {V : Type} (m : List (String × V)) : List String :=
  m.map Prod.fst

/-- A Go map that may be nil; `none` is the nil map. -/
abbrev GoMap (V : Type) := Option (List (String × V))

/-- Reading `m[k]`: a nil map reads as an empty one. -/
def GoMap.get? {V : Type} (m : GoMap V) (k : String) : Option V :=
  match m with
  | none => none
  | some kvs => Assoc.get? kvs k

/-- Reading `m[k]` of a `map[string]string`: the zero value `""` when absent. -/
def GoMap.str (m : GoMap String) (k : String) : String :=
  (GoMap.get? m k).getD ""

/-! ## Values of type `interface{}` -/

/-- The dynamic values that frames and records hold: what `encoding/json`
decodes into `interface{}` (`null`, `bool`, `float64` as a rational, `string`,
`[]interface{}`, `map[string]interface{}`), a `[][]string`, the
`[]map[string]interface{}` that `parseMarketDepth` builds, and `time`, which
stands for the string `time.Unix(sec, 0).Format(time.RFC3339)` (its text
depends on the local time zone of the process and is kept symbolic). -/
inductive GoVal where
  | null : GoVal
  | bool (b : Bool) : GoVal
  | num (x : ℚ) : GoVal
  | str (s : String) : GoVal
  | arr (xs : List GoVal) : GoVal
  | obj (kvs : List (String × GoVal)) : GoVal
  | strRows (rows : List (List String)) : GoVal
  | maps (rows : List (List (String × GoVal))) : GoVal
  | time (sec : Int) : GoVal

/-- A `map[string]interface{}` record. -/
abbrev Record := List (String × GoVal)

/-- Type assertion `v.(string)`. -/
def asString : GoVal → GoResult String
  | .str s => .ok s
  | _ => .panic

/-- Type assertion `v.(float64)`. -/
def asFloat : GoVal → GoResult ℚ
  | .num x => .ok x
  | _ => .panic

/-- Type assertion `v.([]interface{})`. -/
def asArr : GoVal → GoResult (List GoVal)
  | .arr xs => .ok xs
  | _ => .panic

/-- Type assertion `v.([][]string)`. -/
def asStrRows : GoVal → GoResult (List (List String))
  | .strRows rows => .ok rows
  | _ => .panic

/-- Conversion `int64(x)` of a `float64`: the fraction is discarded; outside the
`int64` range the amd64 result (the minimum `int64`) is taken. -/
def int64OfFloat (x : ℚ) : Int :=
  let t := Int.tdiv x.num (x.den : Int)
  if -(2 : Int) ^ 63 ≤ t ∧ t < (2 : Int) ^ 63 then t else -(2 : Int) ^ 63

/-- The string `time.Unix(int64(v.(float64)), 0).Format(time.RFC3339)`. -/
def unixTime (v : GoVal) : GoResult GoVal := do
  let x ← asFloat v
  pure (.time (int64OfFloat x))

/-! ## Sockets -/

/-- The transport of a channel: the text frames handed to `conn.Write`, oldest first. -/
structure Conn where
  written : List String := []
  closed : Bool := false
  deriving DecidableEq, Repr

/-- The state of a `SocketEventBreeze`. `conn` is nil until `Connect` dials;
`tokenlist` and `ohlcstate` are the two `map[string]bool` that
`NewSocketEventBreeze` makes; `cancelled` tells whether `cancel` was called on
the context. Two counters record what the handler has started so far: `dials`,
the transports that `websocket.Dial` opened for it, and `readLoops`, the
`readMessages` goroutines it launched. -/
structure SocketEventBreeze where
  conn : Option Conn := none
  tokenlist : List (String × Bool) := []
  ohlcstate : List (String × Bool) := []
  authentication : Bool := true
  cancelled : Bool := false
  dials : Nat := 0
  readLoops : Nat := 0
  deriving DecidableEq, Repr

/-! ## The instance -/

/-- The state of a `BreezeInstance` that the streaming core reads and writes. -/
structure BreezeInstance where
  UserID : String := ""
  SessionKey : String := ""
  SIORateRefreshHandler : Option SocketEventBreeze := none
  SIOOrderRefreshHandler : Option SocketEventBreeze := none
  SIOOhlcvStreamHandler : Option SocketEventBreeze := none
  StockScriptDictList : List (GoMap String) := List.replicate 6 none
  TokenScriptDictList : List (GoMap (List String)) := List.replicate 6 none
  TuxToUserValue : GoMap (GoMap String) := none
  OrderConnect : Int := 0
  Interval : String := ""
  ExceptMessage : GoMap String := none
  ConfigChannelIntervalMap : GoMap String := none
  ConfigIntervalTypesStream : List String := []
  ResponseMessage : GoMap String := none
  deriving DecidableEq, Repr

/-- The error `b.subscribeException(b.ExceptMessage[key])`. -/
def subscribeException (b : BreezeInstance) (key : String) : GoError :=
  .new (GoMap.str b.ExceptMessage key)

/-! ## `getStockTokenValue` -/

/-- The `exchangeCodeList` of `getStockTokenValue`, after the adjustment of the
`BFO` entry when no interval is set. -/
def tokenExchangeCodeList (b : BreezeInstance) : List (String × String) :=
  [("BSE", "1."), ("NSE", "4."), ("NDX", "13."), ("MCX", "6."), ("NFO", "4."),
   ("BFO", if b.Interval = "" then "8." else "2.")]

/-- The read `b.StockScriptDictList[i][key]`. -/
def stockScript (b : BreezeInstance) (i : Nat) (key : String) : GoResult String := do
  let m ← idx b.StockScriptDictList i
  pure (GoMap.str m key)

/-- The `contractDetailValue` that the `default` case of `getStockTokenValue` builds. -/
def contractDetailValue (b : BreezeInstance)
    (stockCode productType expiryDate strikePrice right : String) : GoResult String :=
  if expiryDate = "" then .err (subscribeException b "EXPIRY_DATE_EXCEPTION")
  else
    let code : GoResult String :=
      if productType = "futures" then .ok "FUT"
      else if productType = "options" then .ok "OPT"
      else .err (subscribeException b "PRODUCT_TYPE_EXCEPTION")
    match code with
    | .err e => .err e
    | .panic => .panic
    | .ok p =>
      let c := p ++ "-" ++ stockCode ++ "-" ++ expiryDate
      if productType = "options" then
        if strikePrice = "" then .err (subscribeException b "STRIKE_PRICE_EXCEPTION")
        else
          let c := c ++ "-" ++ strikePrice
          if right = "put" then .ok (c ++ "-PE")
          else if right = "call" then .ok (c ++ "-CE")
          else .err (subscribeException b "RIGHT_EXCEPTION")
      else .ok c

/-- The inner `switch exchangeCode` of the `default` case: the partition read. -/
def derivativeToken (b : BreezeInstance) (exchangeCode key : String) : GoResult String :=
  if exchangeCode = "NDX" then stockScript b 2 key
  else if exchangeCode = "MCX" then stockScript b 3 key
  else if exchangeCode = "NFO" then stockScript b 4 key
  else if exchangeCode = "BFO" then stockScript b 5 key
  else .ok ""

/-- The `switch exchangeCode` of `getStockTokenValue`: the `tokenValue` read from the registry. -/
def tokenValueOf (b : BreezeInstance)
    (exchangeCode stockCode productType expiryDate strikePrice right : String) :
    GoResult String :=
  if exchangeCode = "BSE" then stockScript b 0 stockCode
  else if exchangeCode = "NSE" then stockScript b 1 stockCode
  else do
    let key ← contractDetailValue b stockCode productType expiryDate strikePrice right
    derivativeToken b exchangeCode key

/-- Lines 270 to 281 of `getStockTokenValue`: the two ids built from the token read. -/
def tokenIds (b : BreezeInstance) (exchangeCodeName tokenValue : String)
    (getExchangeQuotes getMarketDepth : Bool) : GoResult (String × String) :=
  if tokenValue = "" then .err (subscribeException b "STOCK_INVALID_EXCEPTION")
  else
    .ok (if getExchangeQuotes then exchangeCodeName ++ "1!" ++ tokenValue else "",
         if getMarketDepth then exchangeCodeName ++ "2!" ++ tokenValue else "")

/-- Go `getStockTokenValue`: the quote id and the depth id of an instrument. -/
def getStockTokenValue (b : BreezeInstance)
    (exchangeCode stockCode productType expiryDate strikePrice right : String)
    (getExchangeQuotes getMarketDepth : Bool) : GoResult (String × String) :=
  if !getExchangeQuotes && !getMarketDepth then
    .err (subscribeException b "QUOTE_DEPTH_EXCEPTION")
  else
    match Assoc.get? (tokenExchangeCodeList b) exchangeCode with
    | none => .err (subscribeException b "EXCHANGE_CODE_EXCEPTION")
    | some exchangeCodeName =>
      if stockCode = "" then .err (subscribeException b "STOCK_CODE_EXCEPTION")
      else do
        let tokenValue ←
          tokenValueOf b exchangeCode stockCode productType expiryDate strikePrice right
        tokenIds b exchangeCodeName tokenValue getExchangeQuotes getMarketDepth

/-! ## `GetDataFromStockTokenValue` -/

/-- The `exchangeCodeList` of `GetDataFromStockTokenValue`. -/
def dataExchangeCodeList : List (String × String) :=
  [("1", "BSE"), ("4", "NSE"), ("13", "NDX"), ("6", "MCX")]

/-- The read `b.TokenScriptDictList[i][token]`; `none` is the nil slice. -/
def tokenScript (b : BreezeInstance) (i : Nat) (token : String) :
    GoResult (Option (List String)) := do
  let m ← idx b.TokenScriptDictList i
  pure (GoMap.get? m token)

/-- The `switch exchangeCodeName` of `GetDataFromStockTokenValue`: the entry
found and the exchange name after the NFO relabelling. -/
def lookupStockData (b : BreezeInstance) (exchangeCodeName stockToken : String) :
    GoResult (Option (List String) × String) :=
  if exchangeCodeName = "BSE" then do
    let sd ← tokenScript b 0 stockToken
    pure (sd, exchangeCodeName)
  else if exchangeCodeName = "NSE" then do
    let sd ← tokenScript b 1 stockToken
    match sd with
    | some d => pure (some d, exchangeCodeName)
    | none => do
      let sd4 ← tokenScript b 4 stockToken
      match sd4 with
      | some d => pure (some d, "NFO")
      | none => pure (none, exchangeCodeName)
  else if exchangeCodeName = "NDX" then do
    let sd ← tokenScript b 2 stockToken
    pure (sd, exchangeCodeName)
  else if exchangeCodeName = "MCX" then do
    let sd ← tokenScript b 3 stockToken
    pure (sd, exchangeCodeName)
  else pure (none, exchangeCodeName)

/-- The slice expression `xs[0:n]`: panics when `n` exceeds the capacity. -/
def sliceTo {α : Type} (xs : List α) (n : Nat) : GoResult (List α) :=
  if n ≤ xs.length then .ok (xs.take n) else .panic

/-- Lines 174 to 196 of `GetDataFromStockTokenValue`: the metadata built from a
registry entry. -/
def stockDataRecord (stockData : List String) (exchangeCodeName : String) : GoResult Record := do
  let stockName ← idx stockData 1
  let out : Record := [("stock_name", .str stockName)]
  if exchangeCodeName ≠ "NSE" ∧ exchangeCodeName ≠ "BSE" then do
    let composite ← idx stockData 0
    let productType ← idx (goSplit composite '-') 0
    let out :=
      if productType = "FUT" then Assoc.set out "product_type" (.str "Futures") else out
    let out :=
      if productType = "OPT" then Assoc.set out "product_type" (.str "Options") else out
    let dateParts ← sliceTo stockData 5
    let out := Assoc.set out "expiry_date" (.str (goJoin dateParts "-"))
    if stockData.length > 5 then do
      let strike ← idx stockData 5
      let out := Assoc.set out "strike_price" (.str strike)
      let right ← idx stockData 6
      if right = "PE" then pure (Assoc.set out "right" (.str "Put"))
      else if right = "CE" then pure (Assoc.set out "right" (.str "Call"))
      else pure out
    else pure out
  else pure out

/-- Lines 141 to 196 of `GetDataFromStockTokenValue`: the resolution of the
exchange id and the token split off the stream symbol. -/
def resolveStockToken (b : BreezeInstance) (inputStockToken exchangeType stockToken : String) :
    GoResult Record :=
  match Assoc.get? dataExchangeCodeList exchangeType with
  | none => .err (subscribeException b "WRONG_EXCHANGE_CODE_EXCEPTION")
  | some exchangeCodeName => do
    let found ← lookupStockData b exchangeCodeName stockToken
    match found.1 with
    | none =>
      .err (.sprintf (GoMap.str b.ExceptMessage "STOCK_NOT_EXIST_EXCEPTION")
        [found.2, inputStockToken])
    | some stockData => stockDataRecord stockData found.2

/-- Go `GetDataFromStockTokenValue`: the instrument metadata of a stream symbol. -/
def GetDataFromStockTokenValue (b : BreezeInstance) (inputStockToken : String) :
    GoResult Record :=
  match goSplit inputStockToken '.' with
  | exchangeType :: second :: _ =>
    match goSplit second '!' with
    | _ :: stockToken :: _ => resolveStockToken b inputStockToken exchangeType stockToken
    | _ => .err (subscribeException b "WRONG_EXCHANGE_CODE_EXCEPTION")
  | _ => .err (subscribeException b "WRONG_EXCHANGE_CODE_EXCEPTION")

/-! ## `parseData` -/

/-- A run of evaluations into a record: the entries of a map literal, or a run
of assignments `dict[key] = value`; a panic in any value aborts the whole. -/
def assign : List (String × GoResult GoVal) → Record → GoResult Record
  | [], r => .ok r
  | (k, v) :: rest, r => do
    let x ← v
    assign rest (Assoc.set r k x)

/-- The value `b.TuxToUserValue[table][data[i].(string)]`. -/
def tuxToUserValue (b : BreezeInstance) (table : String) (data : List GoVal) (i : Nat) :
    GoResult GoVal := do
  let v ← idx data i
  let code ← asString v
  pure (.str (GoMap.str ((GoMap.get? b.TuxToUserValue table).getD none) code))

/-- The map literal `iclickData` (frame length 19). -/
def iclickData (data : List GoVal) : GoResult Record :=
  assign
    [("stock_name", idx data 0), ("stock_code", idx data 1), ("action_type", idx data 2),
     ("expiry_date", idx data 3), ("strike_price", idx data 4), ("option_type", idx data 5),
     ("stock_description", idx data 6), ("recommended_price_and_date", idx data 7),
     ("recommended_price_from", idx data 8), ("recommended_price_to", idx data 9),
     ("recommended_date", idx data 10), ("target_price", idx data 11),
     ("sltp_price", idx data 12), ("part_profit_percentage", idx data 13),
     ("profit_price", idx data 14), ("exit_price", idx data 15),
     ("recommended_update", idx data 16), ("iclick_status", idx data 17),
     ("subscription_type", idx data 18)] []

/-- The map literal `strategyDict` (frame length 28). -/
def strategyDict (data : List GoVal) : GoResult Record :=
  assign
    [("strategy_date", idx data 0), ("modification_date", idx data 1),
     ("portfolio_id", idx data 2), ("call_action", idx data 3), ("portfolio_name", idx data 4),
     ("exchange_code", idx data 5), ("product_type", idx data 6), ("underlying", idx data 8),
     ("expiry_date", idx data 9), ("option_type", idx data 11), ("strike_price", idx data 12),
     ("action", idx data 13), ("recommended_price_from", idx data 14),
     ("recommended_price_to", idx data 15), ("minimum_lot_quantity", idx data 16),
     ("last_traded_price", idx data 17), ("best_bid_price", idx data 18),
     ("best_offer_price", idx data 19), ("last_traded_quantity", idx data 20),
     ("target_price", idx data 21), ("expected_profit_per_lot", idx data 22),
     ("stop_loss_price", idx data 23), ("expected_loss_per_lot", idx data 24),
     ("total_margin", idx data 25), ("leg_no", idx data 26), ("status", idx data 27)] []

/-- The entries of the map literal `orderDict` of the length-42 branch. -/
def orderEntriesV1 (b : BreezeInstance) (data : List GoVal) : List (String × GoResult GoVal) :=
    [("sourceNumber", idx data 0), ("group", idx data 1), ("userId", idx data 2),
     ("key", idx data 3), ("messageLength", idx data 4), ("requestType", idx data 5),
     ("messageSequence", idx data 6), ("messageDate", idx data 7), ("messageTime", idx data 8),
     ("messageCategory", idx data 9), ("messagePriority", idx data 10),
     ("messageType", idx data 11), ("orderMatchAccount", idx data 12),
     ("orderExchangeCode", idx data 13), ("stockCode", idx data 14),
     ("orderFlow", tuxToUserValue b "orderFlow" data 15),
     ("limitMarketFlag", tuxToUserValue b "limitMarketFlag" data 16),
     ("orderType", tuxToUserValue b "orderType" data 17), ("orderLimitRate", idx data 18),
     ("productType", tuxToUserValue b "productType" data 19),
     ("orderStatus", tuxToUserValue b "orderStatus" data 20), ("orderDate", idx data 21),
     ("orderTradeDate", idx data 22), ("orderReference", idx data 23),
     ("orderQuantity", idx data 24), ("openQuantity", idx data 25),
     ("orderExecutedQuantity", idx data 26), ("cancelledQuantity", idx data 27),
     ("expiredQuantity", idx data 28), ("orderDisclosedQuantity", idx data 29),
     ("orderStopLossTrigger", idx data 30), ("orderSquareFlag", idx data 31),
     ("orderAmountBlocked", idx data 32), ("orderPipeId", idx data 33), ("channel", idx data 34),
     ("exchangeSegmentCode", idx data 35), ("exchangeSegmentSettlement", idx data 36),
     ("segmentDescription", idx data 37), ("marginSquareOffMode", idx data 38),
     ("orderValidDate", idx data 40), ("orderMessageCharacter", idx data 41),
     ("averageExecutedRate", idx data 42), ("orderPriceImprovementFlag", idx data 43),
     ("orderMBCFlag", idx data 44), ("orderLimitOffset", idx data 45),
     ("systemPartnerCode", idx data 46)]

/-- The entries of the map literal `orderDict` of the length-43 branch. -/
def orderEntriesV2 (b : BreezeInstance) (data : List GoVal) : List (String × GoResult GoVal) :=
    [("sourceNumber", idx data 0), ("group", idx data 1), ("userId", idx data 2),
     ("key", idx data 3), ("messageLength", idx data 4), ("requestType", idx data 5),
     ("messageSequence", idx data 6), ("messageDate", idx data 7), ("messageTime", idx data 8),
     ("messageCategory", idx data 9), ("messagePriority", idx data 10),
     ("messageType", idx data 11), ("orderMatchAccount", idx data 12),
     ("orderExchangeCode", idx data 13), ("stockCode", idx data 14),
     ("orderFlow", tuxToUserValue b "orderFlow" data 21),
     ("limitMarketFlag", tuxToUserValue b "limitMarketFlag" data 22),
     ("orderType", tuxToUserValue b "orderType" data 23), ("orderLimitRate", idx data 24),
     ("productType", tuxToUserValue b "productType" data 15),
     ("orderStatus", tuxToUserValue b "orderStatus" data 25), ("orderReference", idx data 26),
     ("orderTotalQuantity", idx data 27), ("executedQuantity", idx data 28),
     ("cancelledQuantity", idx data 29), ("expiredQuantity", idx data 30),
     ("stopLossTrigger", idx data 31), ("specialFlag", idx data 32), ("pipeId", idx data 33),
     ("channel", idx data 34), ("modificationOrCancelFlag", idx data 35),
     ("tradeDate", idx data 36), ("acknowledgeNumber", idx data 37),
     ("stopLossOrderReference", idx data 37), ("totalAmountBlocked", idx data 38),
     ("averageExecutedRate", idx data 39), ("cancelFlag", idx data 40),
     ("squareOffMarket", idx data 41), ("quickExitFlag", idx data 42),
     ("stopValidTillDateFlag", idx data 43), ("priceImprovementFlag", idx data 44),
     ("conversionImprovementFlag", idx data 45), ("trailUpdateCondition", idx data 45),
     ("systemPartnerCode", idx data 46)]

/-- The label `fmt.Sprintf(name + "-%d", n)`. -/
def numbered (name : String) (n : Nat) : String :=
  name ++ "-" ++ toString n

/-- One iteration of the loop of `parseMarketDepth`: the dict of row `lis` at index `i`. -/
def depthRow (exchange : String) (i : Nat) (lis : List String) : GoResult Record :=
  let cell (j : Nat) : GoResult GoVal := do
    let s ← idx lis j
    pure (.str s)
  if exchange = "1" then
    assign
      [(numbered "BestBuyRate" (i + 1), cell 0), (numbered "BestBuyQty" (i + 1), cell 1),
       (numbered "BestSellRate" (i + 1), cell 2), (numbered "BestSellQty" (i + 1), cell 3)] []
  else if exchange = "8" then
    assign
      [(numbered "BestBuyRate" (i + 1), cell 0), (numbered "BestBuyQty" (i + 1), cell 1),
       (numbered "BuyNoOfOrders" (i + 1), cell 2), (numbered "BestSellRate" (i + 1), cell 3),
       (numbered "BestSellQty" (i + 1), cell 4), (numbered "SellNoOfOrders" (i + 1), cell 5)] []
  else
    assign
      [(numbered "BestBuyRate" (i + 1), cell 0), (numbered "BestBuyQty" (i + 1), cell 1),
       (numbered "BuyNoOfOrders" (i + 1), cell 2), (numbered "BuyFlag" (i + 1), cell 3),
       (numbered "BestSellRate" (i + 1), cell 4), (numbered "BestSellQty" (i + 1), cell 5),
       (numbered "SellNoOfOrders" (i + 1), cell 6), (numbered "SellFlag" (i + 1), cell 7)] []

/-- The loop of `parseMarketDepth` from row index `i` on. -/
def parseMarketDepthFrom (exchange : String) : Nat → List (List String) → GoResult (List Record)
  | _, [] => .ok []
  | i, lis :: rest => do
    let dict ← depthRow exchange i lis
    let depth ← parseMarketDepthFrom exchange (i + 1) rest
    pure (dict :: depth)

/-- Go `parseMarketDepth`. -/
def parseMarketDepth (data : List (List String)) (exchange : String) : GoResult (List Record) :=
  parseMarketDepthFrom exchange 0 data

/-- The loop `for i := 22; i < len(data); i++` of the commodity branch; `j` is `i - 22`. -/
def commodityRows : Nat → List GoVal → Record → GoResult Record
  | _, [], r => .ok r
  | j, v :: rest, r => do
    let cell (k : Nat) : GoResult GoVal := do
      let row ← asArr v
      idx row k
    let r ← assign
      [(numbered "Quantity" j, cell 0), (numbered "OrderPrice" j, cell 1),
       (numbered "TotalOrders" j, cell 2), (numbered "Reserved" j, cell 3),
       (numbered "SellQuantity" j, cell 4), (numbered "SellOrderPrice" j, cell 5),
       (numbered "SellTotalOrders" j, cell 6), (numbered "SellReserved" j, cell 7)] r
    commodityRows (j + 1) rest r

/-- The branch `exchange == "6"` of `parseData`. -/
def commodityDict (data : List GoVal) : GoResult Record := do
  let dataDict ← assign
    [("symbol", idx data 0), ("AndiOPVolume", idx data 1), ("Reserved", idx data 2),
     ("IndexFlag", idx data 3), ("ttq", idx data 4), ("last", idx data 5), ("ltq", idx data 6),
     ("ltt", idx data 7 >>= unixTime), ("AvgTradedPrice", idx data 8),
     ("TotalBuyQnt", idx data 9), ("TotalSellQnt", idx data 10), ("ReservedStr", idx data 11),
     ("ClosePrice", idx data 12), ("OpenPrice", idx data 13), ("HighPrice", idx data 14),
     ("LowPrice", idx data 15), ("ReservedShort", idx data 16),
     ("CurrOpenInterest", idx data 17), ("TotalTrades", idx data 18),
     ("HightestPriceEver", idx data 19), ("LowestPriceEver", idx data 20),
     ("TotalTradedValue", idx data 21)] []
  commodityRows 0 (data.drop 22) dataDict

/-- The assignments of the quote branch for a frame of 21 elements. -/
def quoteEntries21 (data : List GoVal) : List (String × GoResult GoVal) :=
    [("ttq", idx data 12), ("totalBuyQt", idx data 13), ("totalSellQ", idx data 14),
     ("ttv", idx data 15), ("trend", idx data 16), ("lowerCktLm", idx data 17),
     ("upperCktLm", idx data 18), ("ltt", idx data 19 >>= unixTime), ("close", idx data 20)]

/-- The assignments of the quote branch for a frame of 23 elements. -/
def quoteEntries23 (data : List GoVal) : List (String × GoResult GoVal) :=
    [("OI", idx data 12), ("CHNGOI", idx data 13), ("ttq", idx data 14),
     ("totalBuyQt", idx data 15), ("totalSellQ", idx data 16), ("ttv", idx data 17),
     ("trend", idx data 18), ("lowerCktLm", idx data 19), ("upperCktLm", idx data 20),
     ("ltt", idx data 21 >>= unixTime), ("close", idx data 22)]

/-- The first thirteen assignments of the quote branch. -/
def quoteHeader (data : List GoVal) : List (String × GoResult GoVal) :=
    [("symbol", idx data 0), ("open", idx data 1), ("last", idx data 2), ("high", idx data 3),
     ("low", idx data 4), ("change", idx data 5), ("bPrice", idx data 6), ("bQty", idx data 7),
     ("sPrice", idx data 8), ("sQty", idx data 9), ("ltq", idx data 10),
     ("avgPrice", idx data 11), ("quotes", .ok (.str "Quotes Data"))]

/-- The branch `dataType == "1"` of `parseData`. -/
def quoteDict (data : List GoVal) : GoResult Record := do
  let dataDict ← assign (quoteHeader data) []
  if data.length = 21 then assign (quoteEntries21 data) dataDict
  else if data.length = 23 then assign (quoteEntries23 data) dataDict
  else pure dataDict

/-- The last branch of `parseData`: a market-depth frame. -/
def depthDict (data : List GoVal) (exchange : String) : GoResult Record :=
  assign
    [("symbol", idx data 0), ("time", idx data 1 >>= unixTime),
     ("depth", do
        let v ← idx data 2
        let rows ← asStrRows v
        let depth ← parseMarketDepth rows exchange
        pure (.maps depth)),
     ("quotes", .ok (.str "Market Depth"))] []

/-- The closing `switch exchange` of `parseData`: the `exchange` label. -/
def exchangeLabel (exchange : String) (n : Nat) (dataDict : Record) : Record :=
  if exchange = "4" then
    if n = 21 then Assoc.set dataDict "exchange" (.str "NSE Equity")
    else if n = 23 then Assoc.set dataDict "exchange" (.str "NSE Futures & Options")
    else dataDict
  else if exchange = "1" then Assoc.set dataDict "exchange" (.str "BSE")
  else if exchange = "13" then Assoc.set dataDict "exchange" (.str "NSE Currency")
  else if exchange = "6" then Assoc.set dataDict "exchange" (.str "Commodity")
  else dataDict

/-- The test `s, ok := data[0].(string); ok && !strings.Contains(s, "!")`. -/
def isFlatHead : GoVal → Bool
  | .str s => !goContains s '!'
  | _ => false

/-- Lines 658 to 751 of `parseData`: a frame whose first element is `<exchange>!<dataType>`. -/
def parseTick (data : List GoVal) : GoResult Record := do
  let first ← idx data 0
  let s ← asString first
  let exchange ← idx (goSplit s '!') 0
  let dataType ← idx (goSplit s '!') 1
  let dataDict ←
    if exchange = "6" then commodityDict data
    else if dataType = "1" then quoteDict data
    else depthDict data exchange
  pure (exchangeLabel exchange data.length dataDict)

/-- Go `parseData`: the record of a frame; `none` is the nil map returned for
an empty frame. -/
def parseData (b : BreezeInstance) (data : List GoVal) : GoResult (Option Record) :=
  match data with
  | [] => .ok none
  | first :: _ =>
    if isFlatHead first ∧ data.length = 19 then some <$> iclickData data
    else if isFlatHead first ∧ data.length = 28 then some <$> strategyDict data
    else if isFlatHead first ∧ data.length = 42 then some <$> assign (orderEntriesV1 b data) []
    else if isFlatHead first ∧ data.length = 43 then some <$> assign (orderEntriesV2 b data) []
    else some <$> parseTick data

/-! ## `Watch` and `Unwatch` -/

/-- The argument `data interface{}` of `Watch` and `Unwatch`: a `string`, a
`[]string`, or a value of another type given by its `%v` text. -/
inductive WatchData where
  | one (token : String)
  | many (tokens : List String)
  | other (text : String)
  deriving DecidableEq, Repr

/-- The text `fmt.Sprintf("%v", data)`. -/
def WatchData.format : WatchData → String
  | .one token => token
  | .many tokens => "[" ++ " ".intercalate tokens ++ "]"
  | .other text => text

/-- The call `conn.Write(ctx, websocket.MessageText, frame)`. -/
def Conn.write (c : Conn) (frame : String) : Conn :=
  { c with written := c.written ++ [frame] }

/-- The join frame of `Watch`. -/
def joinFrame (data : WatchData) : String :=
  "\x7b\"type\": \"join\", \"data\": \"" ++ data.format ++ "\"\x7d"

/-- The leave frame of `Unwatch`. -/
def leaveFrame (data : WatchData) : String :=
  "\x7b\"type\": \"leave\", \"data\": \"" ++ data.format ++ "\"\x7d"

/-- The `switch v := data.(type)` of `Watch`: the token table with the given
tokens set. -/
def watched (tokenlist : List (String × Bool)) : WatchData → List (String × Bool)
  | .many v => v.foldl (fun m entry => Assoc.set m entry true) tokenlist
  | .one v => Assoc.set tokenlist v true
  | .other _ => tokenlist

/-- Go `Watch`: the state after the call, or the error returned when `conn` is nil. -/
def SocketEventBreeze.Watch (seb : SocketEventBreeze) (data : WatchData) :
    GoResult SocketEventBreeze :=
  match seb.conn with
  | some c =>
    .ok { seb with tokenlist := watched seb.tokenlist data,
                   conn := some (c.write (joinFrame data)) }
  | none => .err (.new "LIVESTREAM_SOCKET_CONNECTION_DISCONNECTED")

/-- The comparison `room == data` of a string with an `interface{}`. -/
def roomEq (room : String) : WatchData → Bool
  | .one token => decide (room = token)
  | _ => false

/-- The `switch v := data.(type)` of `Unwatch`: the token table with the given
tokens deleted. -/
def unwatched (tokenlist : List (String × Bool)) : WatchData → List (String × Bool)
  | .many v => v.foldl (fun m entry => Assoc.erase m entry) tokenlist
  | .one v => Assoc.erase tokenlist v
  | .other _ => tokenlist

/-- The two loops of `Unwatch` over `ohlcstate`: the rooms equal to `data` are
collected, then deleted. -/
def leftRooms (ohlcstate : List (String × Bool)) (data : WatchData) : List (String × Bool) :=
  let toBeRemoved := (Assoc.keys ohlcstate).filter (fun room => roomEq room data)
  toBeRemoved.foldl (fun m room => Assoc.erase m room) ohlcstate

/-- Go `Unwatch`: the state after the call. The final `seb.conn.Write`
dereferences `conn`, so a nil `conn` is a panic. -/
def SocketEventBreeze.Unwatch (seb : SocketEventBreeze) (data : WatchData) :
    GoResult SocketEventBreeze :=
  match seb.conn with
  | some c =>
    .ok { seb with tokenlist := unwatched seb.tokenlist data,
                   ohlcstate := leftRooms seb.ohlcstate data,
                   conn := some (c.write (leaveFrame data)) }
  | none => .panic

/-- The watch set of a channel: the keys of `tokenlist`. -/
def SocketEventBreeze.watchSet (seb : SocketEventBreeze) : Finset String :=
  (Assoc.keys seb.tokenlist).toFinset

/-- The room set of a channel: the keys of `ohlcstate`. -/
def SocketEventBreeze.roomSet (seb : SocketEventBreeze) : Finset String :=
  (Assoc.keys seb.ohlcstate).toFinset

/-- The frames handed to the transport so far; none when `conn` is nil. -/
def SocketEventBreeze.frames (seb : SocketEventBreeze) : List String :=
  match seb.conn with
  | some c => c.written
  | none => []

/-! ## Connection life cycle -/

/-- The frame of `Notify`. -/
def notifyFrame : String :=
  "\x7b\"type\": \"notify\"\x7d"

/-- Go `Notify`: the write dereferences `conn`, so a nil `conn` is a panic. -/
def SocketEventBreeze.Notify (seb : SocketEventBreeze) : GoResult SocketEventBreeze :=
  match seb.conn with
  | some c => .ok { seb with conn := some (c.write notifyFrame) }
  | none => .panic

/-- The join frame of `Rewatch` for the slice `tokens`. -/
def rewatchFrame (tokens : List String) : String :=
  "\x7b\"type\": \"join\", \"tokens\": \"" ++ (WatchData.many tokens).format ++ "\"\x7d"

/-- Go `Rewatch`. `order` is the sequence in which `range seb.tokenlist` yields
the keys, which Go leaves unspecified; it is the slice `tokens` of the source. -/
def SocketEventBreeze.Rewatch (seb : SocketEventBreeze) (order : List String) :
    GoResult SocketEventBreeze := do
  let seb ← seb.Notify
  if seb.tokenlist.length > 0 then
    match seb.conn with
    | some c => pure { seb with conn := some (c.write (rewatchFrame order)) }
    | none => .panic
  else pure seb

/-- The join frame of `WatchStreamData`. -/
def streamFrame (data : String) : String :=
  "\x7b\"type\": \"join\", \"data\": \"" ++ data ++ "\"\x7d"

/-- Go `WatchStreamData`: the state after the call, or the error returned when
`conn` is nil. The argument `channel` is not used by the source. -/
def SocketEventBreeze.WatchStreamData (seb : SocketEventBreeze) (data _channel : String) :
    GoResult SocketEventBreeze :=
  match seb.conn with
  | some c =>
    let ohlcstate :=
      if (Assoc.get? seb.ohlcstate data).getD false then seb.ohlcstate
      else Assoc.set seb.ohlcstate data true
    .ok { seb with ohlcstate := ohlcstate, conn := some (c.write (streamFrame data)) }
  | none => .err (.new "OHLC_SOCKET_CONNECTION_DISCONNECTED")

/-- What the network does during one `Connect`: `websocket.Dial` fails, or it
succeeds and the write of the authentication frame fails, or both succeed. -/
inductive Dial where
  | refused (e : GoError)
  | authFailed (e : GoError)
  | accepted
  deriving DecidableEq, Repr

/-- The authentication frame `wsjson.Write` sends: the JSON of the map with the
keys `user` and `token` (keys in sorted order), for strings that need no escaping. -/
def authFrame (userID sessionKey : String) : String :=
  "\x7b\"token\":\"" ++ sessionKey ++ "\",\"user\":\"" ++ userID ++ "\"\x7d\n"

/-- Go `Connect`: the handler after the call and the error returned. `Dial`
assigns `seb.conn` in every case, nil when it fails; a read loop is launched
only when both the dial and the authentication write succeed. -/
def SocketEventBreeze.Connect (seb : SocketEventBreeze) (userID sessionKey : String)
    (net : Dial) : SocketEventBreeze × Option GoError :=
  match net with
  | .refused e => ({ seb with conn := none }, some e)
  | .authFailed e => ({ seb with conn := some {}, dials := seb.dials + 1 }, some e)
  | .accepted =>
    ({ seb with conn := some { written := [authFrame userID sessionKey] },
                dials := seb.dials + 1, readLoops := seb.readLoops + 1 }, none)

/-- Go `OnDisconnect`: the context is cancelled, then `seb.conn.Close`
dereferences `conn`, so a nil `conn` is a panic. -/
def SocketEventBreeze.OnDisconnect (seb : SocketEventBreeze) : GoResult SocketEventBreeze :=
  match seb.conn with
  | some c => .ok { seb with cancelled := true, conn := some { c with closed := true } }
  | none => .panic

/-- What one `wsjson.Read` of the read loop returns: a decoded message, an error
that is a close error with the given status code, the error of a cancelled
context, or any other error. -/
inductive ReadOutcome where
  | message (msg : Record)
  | closeError (code : Int)
  | cancelled
  | otherError
  deriving Inhabited

/-- The value `websocket.CloseStatus(err)`: the code of a close error, and -1 for
an error that is not one. -/
def CloseStatus : ReadOutcome → Int
  | .closeError code => code
  | _ => -1

/-- The constant `websocket.StatusNormalClosure`. -/
def StatusNormalClosure : Int := 1000

/-- The progress of `readMessages` over a sequence of reads: the messages passed
to `handleMessage`, in order, and whether the function has returned. -/
structure ReadLoop where
  handled : List Record := []
  returned : Bool := false

/-- Go `readMessages`, run on the outcomes of its successive `wsjson.Read` calls:
a message is handled and the loop goes on; an error ends the loop when its close
status is the normal closure, and is logged and skipped otherwise. When the
outcomes are used up the loop is blocked in its next read. -/
def readMessages : List ReadOutcome → ReadLoop
  | [] => {}
  | .message msg :: rest =>
    let r := readMessages rest
    { r with handled := msg :: r.handled }
  | err :: rest =>
    if CloseStatus err = StatusNormalClosure then { returned := true }
    else readMessages rest

/-! ## Channel orchestration -/

/-- A message text: a table entry as it is, or `fmt.Sprintf(format, args...)`
kept as the format together with its arguments. -/
inductive Message where
  | text (s : String)
  | sprintf (format : String) (args : List String)
  deriving DecidableEq, Repr

/-- A `map[string]string` response. -/
abbrev Response := List (String × Message)

/-- Go `socketConnectionResponse`. -/
def socketConnectionResponse (message : Message) : Response :=
  [("message", message)]

/-- The response `b.socketConnectionResponse(b.ResponseMessage[key])`. -/
def responseOf (b : BreezeInstance) (key : String) : Response :=
  socketConnectionResponse (.text (GoMap.str b.ResponseMessage key))

/-- The response `b.socketConnectionResponse(fmt.Sprintf(b.ResponseMessage[key], arg))`. -/
def responseWith (b : BreezeInstance) (key arg : String) : Response :=
  socketConnectionResponse (.sprintf (GoMap.str b.ResponseMessage key) [arg])

/-- The two values a subscribe or unsubscribe call returns: the response map
(`none` for nil) and the error (`none` for nil). -/
structure Reply where
  response : Option Response := none
  error : Option GoError := none
  deriving DecidableEq, Repr

/-- Go `contains`. -/
def contains (s : List String) (str : String) : Bool :=
  s.any (fun v => decide (v = str))

/-- The list `STRATEGY_SUBSCRIPTION` of `config.go`. -/
def STRATEGY_SUBSCRIPTION : List String :=
  ["one_click_fno", "i_click_2_gain"]

/-- The list `INTERVAL_TYPES` of `config.go`. -/
def INTERVAL_TYPES : List String :=
  ["1minute", "5minute", "30minute", "1day"]

/-- The map `ChannelIntervalMap` of `config.go`. -/
def ChannelIntervalMap : GoMap String :=
  some [("1minute", "1MIN"), ("5minute", "5MIN"), ("30minute", "30MIN"), ("1second", "1SEC")]

/-- Go `NewSocketEventBreeze`. -/
def NewSocketEventBreeze : SocketEventBreeze :=
  {}

/-- The handler field after `if field == nil { field = NewSocketEventBreeze("/", b) }`. -/
def orNew (field : Option SocketEventBreeze) : SocketEventBreeze :=
  field.getD NewSocketEventBreeze

/-- Go `_wsConnect`: the instance after the call and the error returned; `net` is
what the network does if the call reaches a `Connect`. -/
def _wsConnect (b : BreezeInstance) (orderFlag ohlcvFlag strategyFlag : Bool) (net : Dial) :
    BreezeInstance × Option GoError :=
  if orderFlag || strategyFlag then
    let handler := orNew b.SIOOrderRefreshHandler
    if b.OrderConnect = 0 then
      let r := handler.Connect b.UserID b.SessionKey net
      ({ b with SIOOrderRefreshHandler := some r.1, OrderConnect := b.OrderConnect + 1 }, r.2)
    else ({ b with SIOOrderRefreshHandler := some handler }, none)
  else if ohlcvFlag then
    let r := (orNew b.SIOOhlcvStreamHandler).Connect b.UserID b.SessionKey net
    ({ b with SIOOhlcvStreamHandler := some r.1 }, r.2)
  else
    let r := (orNew b.SIORateRefreshHandler).Connect b.UserID b.SessionKey net
    ({ b with SIORateRefreshHandler := some r.1 }, r.2)

/-- Go `WSConnect`. -/
def WSConnect (b : BreezeInstance) (net : Dial) : BreezeInstance × Option GoError :=
  _wsConnect b false false false net

/-- One of the three blocks of `WSDisconnect`: a nil handler gives the
not-connected response, any other is disconnected and gives the disconnected one. -/
def disconnectHandler (b : BreezeInstance) (handler : Option SocketEventBreeze)
    (notConnected disconnected : String) : GoResult Response :=
  match handler with
  | none => .ok (responseOf b notConnected)
  | some seb => do
    let _ ← seb.OnDisconnect
    pure (responseOf b disconnected)

/-- Go `WSDisconnect`: the instance after the call and the responses returned. -/
def WSDisconnect (b : BreezeInstance) : GoResult (BreezeInstance × List Response) := do
  let r1 ← disconnectHandler b b.SIORateRefreshHandler
    "RATE_REFRESH_NOT_CONNECTED" "RATE_REFRESH_DISCONNECTED"
  let b := { b with SIORateRefreshHandler := none }
  let r2 ← disconnectHandler b b.SIOOhlcvStreamHandler
    "OHLCV_STREAM_NOT_CONNECTED" "OHLCV_STREAM_DISCONNECTED"
  let b := { b with SIOOhlcvStreamHandler := none }
  let r3 ← disconnectHandler b b.SIOOrderRefreshHandler
    "ORDER_REFRESH_NOT_CONNECTED" "ORDER_REFRESH_DISCONNECTED"
  let b :=
    match b.SIOOrderRefreshHandler with
    | none => b
    | some _ => { b with OrderConnect := 0, SIOOrderRefreshHandler := none }
  pure (b, [r1, r2, r3])

/-- A call `handler.Watch(data)` whose error is discarded; a nil handler is a
nil dereference. -/
def watchOn (handler : Option SocketEventBreeze) (data : WatchData) :
    GoResult SocketEventBreeze :=
  match handler with
  | none => .panic
  | some seb =>
    match seb.Watch data with
    | .ok s => .ok s
    | .err _ => .ok seb
    | .panic => .panic

/-- A call `handler.WatchStreamData(data, channel)` whose error is discarded. -/
def streamOn (handler : Option SocketEventBreeze) (data channel : String) :
    GoResult SocketEventBreeze :=
  match handler with
  | none => .panic
  | some seb =>
    match seb.WatchStreamData data channel with
    | .ok s => .ok s
    | .err _ => .ok seb
    | .panic => .panic

/-- A call `handler.Unwatch(data)` on a non-nil handler field. -/
def unwatchOn (handler : Option SocketEventBreeze) (data : WatchData) :
    GoResult SocketEventBreeze :=
  match handler with
  | none => .panic
  | some seb => seb.Unwatch data

/-- The OHLC block of `SubscribeFeeds`: the stream handler is connected when it
is nil, and then joins the room `token`. -/
def joinOhlc (b : BreezeInstance) (token interval : String) (net : Dial) :
    GoResult (BreezeInstance × Option GoError) :=
  let connected :=
    match b.SIOOhlcvStreamHandler with
    | none => _wsConnect b false true false net
    | some _ => (b, none)
  match connected.2 with
  | some e => .ok (connected.1, some e)
  | none => do
    let h ← streamOn connected.1.SIOOhlcvStreamHandler token interval
    pure ({ connected.1 with SIOOhlcvStreamHandler := some h }, none)

/-- The rate-refresh block of `SubscribeFeeds` for the two ids of an instrument:
each non-empty id is watched. -/
def watchIds (b : BreezeInstance) (quoteId depthId : String) : GoResult BreezeInstance := do
  let b ←
    if quoteId ≠ "" then do
      let h ← watchOn b.SIORateRefreshHandler (.one quoteId)
      pure { b with SIORateRefreshHandler := some h }
    else pure b
  if depthId ≠ "" then do
    let h ← watchOn b.SIORateRefreshHandler (.one depthId)
    pure { b with SIORateRefreshHandler := some h }
  else pure b

/-- Lines 297 to 356 of `SubscribeFeeds`: the routing of a request whose
interval has been validated and translated. -/
def subscribeRouted (b : BreezeInstance)
    (stockToken exchangeCode stockCode productType expiryDate strikePrice right interval : String)
    (getExchangeQuotes getMarketDepth getOrderNotification : Bool) (net : Dial) :
    GoResult (BreezeInstance × Reply) :=
  match b.SIORateRefreshHandler with
  | none => .ok (b, {})
  | some _ =>
    if b.SIOOrderRefreshHandler.isSome ∧ contains STRATEGY_SUBSCRIPTION stockToken = true then
      let c := _wsConnect b false false true net
      match c.2 with
      | some e => .ok (c.1, { error := some e })
      | none => do
        let h ← watchOn c.1.SIOOrderRefreshHandler (.one stockToken)
        pure ({ c.1 with SIOOrderRefreshHandler := some h },
          { response := some (responseWith b "STRATEGY_STREAM_SUBSCRIBED" stockToken) })
    else if getOrderNotification = true then
      let c := _wsConnect b true false false net
      match c.2 with
      | some e => .ok (c.1, { error := some e })
      | none =>
        match c.1.SIOOrderRefreshHandler with
        | none => .panic
        | some seb => do
          let h ← seb.Notify
          pure ({ c.1 with SIOOrderRefreshHandler := some h },
            { response := some (responseOf b "ORDER_NOTIFICATION_SUBSRIBED") })
    else if stockToken ≠ "" then
      if interval ≠ "" then do
        let r ← joinOhlc b stockToken interval net
        match r.2 with
        | some e => pure (r.1, { error := some e })
        | none =>
          pure (r.1, { response := some (responseWith b "STOCK_SUBSCRIBE_MESSAGE" stockToken) })
      else do
        let h ← watchOn b.SIORateRefreshHandler (.one stockToken)
        pure ({ b with SIORateRefreshHandler := some h },
          { response := some (responseWith b "STOCK_SUBSCRIBE_MESSAGE" stockToken) })
    else if getOrderNotification = true ∧ exchangeCode = "" then .ok (b, {})
    else
      match getStockTokenValue b exchangeCode stockCode productType expiryDate strikePrice right
          getExchangeQuotes getMarketDepth with
      | .panic => .panic
      | .err e => .ok (b, { error := some e })
      | .ok ids =>
        if interval ≠ "" then do
          let r ← joinOhlc b ids.1 interval net
          match r.2 with
          | some e => pure (r.1, { error := some e })
          | none =>
            pure (r.1, { response := some (responseWith b "STOCK_SUBSCRIBE_MESSAGE" stockCode) })
        else do
          let b2 ← watchIds b ids.1 ids.2
          pure (b2, { response := some (responseWith b "STOCK_SUBSCRIBE_MESSAGE" stockCode) })

/-- The test `b.SIORateRefreshHandler != nil && !b.SIORateRefreshHandler.Authentication`. -/
def unauthenticated (b : BreezeInstance) : Bool :=
  match b.SIORateRefreshHandler with
  | none => false
  | some seb => !seb.authentication

/-- Go `SubscribeFeeds`: the instance after the call and the values returned;
`net` is what the network does if the call reaches a `Connect`. -/
def SubscribeFeeds (b : BreezeInstance)
    (stockToken exchangeCode stockCode productType expiryDate strikePrice right interval : String)
    (getExchangeQuotes getMarketDepth getOrderNotification : Bool) (net : Dial) :
    GoResult (BreezeInstance × Reply) :=
  let b := { b with Interval := interval }
  if unauthenticated b = true then
    .ok (b, { error := some (.new (GoMap.str b.ExceptMessage "AUTHENICATION_EXCEPTION")) })
  else if interval ≠ "" ∧ contains b.ConfigIntervalTypesStream interval = false then
    .ok (b, { error := some (.new (GoMap.str b.ExceptMessage "STREAM_OHLC_INTERVAL_ERROR")) })
  else
    subscribeRouted b stockToken exchangeCode stockCode productType expiryDate strikePrice right
      (if interval ≠ "" then GoMap.str b.ConfigChannelIntervalMap interval else interval)
      getExchangeQuotes getMarketDepth getOrderNotification net

/-- The OHLC block of `UnsubscribeFeeds`: the room is left when the stream
handler exists. -/
def leaveOhlc (b : BreezeInstance) (token : String) : GoResult BreezeInstance :=
  match b.SIOOhlcvStreamHandler with
  | none => .ok b
  | some seb => do
    let h ← seb.Unwatch (.one token)
    pure { b with SIOOhlcvStreamHandler := some h }

/-- The rate-refresh block of `UnsubscribeFeeds` for the two ids of an
instrument: each non-empty id is unwatched. -/
def unwatchIds (b : BreezeInstance) (quoteId depthId : String) : GoResult BreezeInstance := do
  let b ←
    if quoteId ≠ "" then do
      let h ← unwatchOn b.SIORateRefreshHandler (.one quoteId)
      pure { b with SIORateRefreshHandler := some h }
    else pure b
  if depthId ≠ "" then do
    let h ← unwatchOn b.SIORateRefreshHandler (.one depthId)
    pure { b with SIORateRefreshHandler := some h }
  else pure b

/-- Lines 367 to 415 of `UnsubscribeFeeds`: the routing of a request whose
interval has been validated and translated. -/
def unsubscribeRouted (b : BreezeInstance)
    (stockToken exchangeCode stockCode productType expiryDate strikePrice right interval : String)
    (getExchangeQuotes getMarketDepth getOrderNotification : Bool) :
    GoResult (BreezeInstance × Reply) :=
  if getOrderNotification = true then
    match b.SIOOrderRefreshHandler with
    | some seb => do
      let _ ← seb.OnDisconnect
      pure ({ b with SIOOrderRefreshHandler := none, OrderConnect := 0 },
        { response := some (responseOf b "ORDER_REFRESH_DISCONNECTED") })
    | none => .ok (b, { response := some (responseOf b "ORDER_REFRESH_NOT_CONNECTED") })
  else if contains STRATEGY_SUBSCRIPTION stockToken = true then
    match b.SIOOrderRefreshHandler with
    | some seb => do
      let h ← seb.Unwatch (.one stockToken)
      pure ({ b with SIOOrderRefreshHandler := some h },
        { response := some (responseWith b "STRATEGY_STREAM_UNSUBSCRIBED" stockToken) })
    | none => .ok (b, { response := some (responseOf b "STRATEGY_STREAM_NOT_CONNECTED") })
  else
    match b.SIORateRefreshHandler with
    | none => .ok (b, {})
    | some _ =>
      if stockToken ≠ "" then do
        let b2 ←
          if interval ≠ "" then leaveOhlc b stockToken
          else do
            let h ← unwatchOn b.SIORateRefreshHandler (.one stockToken)
            pure { b with SIORateRefreshHandler := some h }
        pure (b2, { response := some (responseWith b "STOCK_UNSUBSCRIBE_MESSAGE" stockToken) })
      else
        match getStockTokenValue b exchangeCode stockCode productType expiryDate strikePrice
            right getExchangeQuotes getMarketDepth with
        | .panic => .panic
        | .err e => .ok (b, { error := some e })
        | .ok ids => do
          let b2 ← if interval ≠ "" then leaveOhlc b ids.1 else unwatchIds b ids.1 ids.2
          pure (b2, { response := some (responseWith b "STOCK_UNSUBSCRIBE_MESSAGE" stockCode) })

/-- Go `UnsubscribeFeeds`: the instance after the call and the values returned. -/
def UnsubscribeFeeds (b : BreezeInstance)
    (stockToken exchangeCode stockCode productType expiryDate strikePrice right interval : String)
    (getExchangeQuotes getMarketDepth getOrderNotification : Bool) :
    GoResult (BreezeInstance × Reply) :=
  if interval ≠ "" ∧ contains b.ConfigIntervalTypesStream interval = false then
    .ok (b, { error := some (.new (GoMap.str b.ExceptMessage "STREAM_OHLC_INTERVAL_ERROR")) })
  else
    unsubscribeRouted b stockToken exchangeCode stockCode productType expiryDate strikePrice right
      (if interval ≠ "" then GoMap.str b.ConfigChannelIntervalMap interval else interval)
      getExchangeQuotes getMarketDepth getOrderNotification

/-! ## `getStockScriptList` -/

/-- What the fetch of the reference file gives: `http.Get` fails, or
`reader.ReadAll` fails, or the records are read. -/
inductive Feed where
  | fetchFailed (e : GoError)
  | readFailed (e : GoError)
  | records (rows : List (List String))
  deriving DecidableEq, Repr

/-- The assignment `tables[i][key] = value`: an index out of range and an
assignment to an entry of a nil map are panics. -/
def setEntry {V : Type} (tables : List (GoMap V)) (i : Nat) (key : String) (value : V) :
    GoResult (List (GoMap V)) := do
  let m ← idx tables i
  match m with
  | none => .panic
  | some kvs => pure (tables.set i (some (Assoc.set kvs key value)))

/-- The two assignments of one `case` of the loop of `getStockScriptList`: the
row's token is stored under the field `keyAt`, and the pair of that field and
the display name under the token. -/
def storeRow (b : BreezeInstance) (row : List String) (i keyAt : Nat) :
    GoResult BreezeInstance := do
  let key ← idx row keyAt
  let token ← idx row 5
  let stock ← setEntry b.StockScriptDictList i key token
  let name ← idx row 1
  let tokens ← setEntry b.TokenScriptDictList i token [key, name]
  pure { b with StockScriptDictList := stock, TokenScriptDictList := tokens }

/-- One iteration of the loop of `getStockScriptList`. -/
def loadRow (b : BreezeInstance) (row : List String) : GoResult BreezeInstance := do
  let exchange ← idx row 2
  if exchange = "BSE" then storeRow b row 0 3
  else if exchange = "NSE" then storeRow b row 1 3
  else if exchange = "NDX" then storeRow b row 2 7
  else if exchange = "MCX" then storeRow b row 3 7
  else if exchange = "NFO" then storeRow b row 4 7
  else if exchange = "BFO" then storeRow b row 5 7
  else pure b

/-- The loop `for _, row := range records` of `getStockScriptList`. -/
def loadRows (b : BreezeInstance) : List (List String) → GoResult BreezeInstance
  | [] => .ok b
  | row :: rest => do
    let b ← loadRow b row
    loadRows b rest

/-- Go `getStockScriptList`: the instance after the call and the error returned.
Both tables are replaced by slices of six nil maps before the fetch. -/
def getStockScriptList (b : BreezeInstance) (feed : Feed) :
    GoResult (BreezeInstance × Option GoError) :=
  let b := { b with StockScriptDictList := List.replicate 6 none,
                    TokenScriptDictList := List.replicate 6 none }
  match feed with
  | .fetchFailed e => .ok (b, some e)
  | .readFailed e => .ok (b, some e)
  | .records rows => do
    let b ← loadRows b rows
    pure (b, none)

/-! ## Replay of rooms and teardown of the OHLC stream -/

/-- The join frame of `RewatchOHLC` for one room. -/
def roomFrame (room : String) : String :=
  "\x7b\"type\": \"join\", \"room\": \"" ++ room ++ "\"\x7d"

/-- Go `RewatchOHLC`, run on the sequence in which `range seb.ohlcstate` yields
the rooms, which Go leaves unspecified. Each iteration writes on `conn`, so a
nil `conn` is a panic as soon as there is a room. -/
def SocketEventBreeze.RewatchOHLC (seb : SocketEventBreeze) :
    List String → GoResult SocketEventBreeze
  | [] => .ok seb
  | room :: rest =>
    match seb.conn with
    | some c =>
      SocketEventBreeze.RewatchOHLC { seb with conn := some (c.write (roomFrame room)) } rest
    | none => .panic

/-- Lines 116 to 121 of `WSDisconnectOhlc`: the teardown of the OHLC handler. -/
def disconnectOhlcHandler (b : BreezeInstance) : GoResult (BreezeInstance × Response) :=
  match b.SIOOhlcvStreamHandler with
  | none => .ok (b, responseOf b "OHLCV_STREAM_NOT_CONNECTED")
  | some seb => do
    let _ ← seb.OnDisconnect
    pure ({ b with SIOOhlcvStreamHandler := none }, responseOf b "OHLCV_STREAM_DISCONNECTED")

/-- Go `WSDisconnectOhlc`: the instance after the call and the response
returned. The rate-refresh handler, when there is one, is disconnected and
cleared first. -/
def WSDisconnectOhlc (b : BreezeInstance) : GoResult (BreezeInstance × Response) :=
  match b.SIORateRefreshHandler with
  | some seb => do
    let _ ← seb.OnDisconnect
    disconnectOhlcHandler { b with SIORateRefreshHandler := none }
  | none => disconnectOhlcHandler b

/-! ## Dispatch of inbound messages -/

/-- A call of one of the two callbacks of the instance, with the record passed
to it (`none` is the nil map). -/
inductive Callback where
  | OnTicks (parsedData : Option Record)
  | OnTicks2 (parsedData : Option Record)

/-- What the dispatch uses of the instance besides the registry: whether the
fields `OnTicks` and `OnTicks2` are non-nil, and the methods `ParseData` and
`ParseOHLCData`, which take the bytes of a payload and are not part of the
sources at hand. The bytes `json.Marshal(v)` are represented by `v` itself. -/
structure Hooks where
  OnTicks : Bool
  OnTicks2 : Bool
  ParseData : GoVal → GoResult (Option Record)
  ParseOHLCData : GoVal → GoResult (Option Record)

/-- The loop `for k, v := range stockData` of `onMessage`, which assigns
`parsedData[k] = v`. -/
def mergeInto (parsedData : Record) (stockData : Record) : Record :=
  stockData.foldl (fun m kv => Assoc.set m kv.1 kv.2) parsedData

/-- The enrichment of `onMessage`: when the record has a non-nil `symbol`, the
metadata that `GetDataFromStockTokenValue` finds for it is merged into the
record; when the lookup returns an error its map is nil and nothing is merged. -/
def enrich (b : BreezeInstance) (parsedData : Option Record) : GoResult (Option Record) :=
  match parsedData with
  | none => .ok none
  | some r =>
    match Assoc.get? r "symbol" with
    | none => .ok (some r)
    | some .null => .ok (some r)
    | some symbol => do
      let s ← asString symbol
      match GetDataFromStockTokenValue b s with
      | .ok stockData => pure (some (mergeInto r stockData))
      | .err _ => pure (some r)
      | .panic => .panic

/-- Go `onMessage`: the callbacks called, in order. -/
def onMessage (b : BreezeInstance) (h : Hooks) (data : GoVal) : GoResult (List Callback) := do
  let parsedData ← h.ParseData data
  let parsedData ← enrich b parsedData
  let first := if h.OnTicks then [Callback.OnTicks parsedData] else []
  let second := if h.OnTicks2 then [Callback.OnTicks2 parsedData] else []
  pure (first ++ second)

/-- The map `FeedIntervalMap` of `config.go`, which `parseOhlcData` reads under
the name `config.feedIntervalMap`. -/
def FeedIntervalMap : GoMap String :=
  some [("1MIN", "1minute"), ("5MIN", "5minute"), ("30MIN", "30minute"), ("1SEC", "1second")]

/-- The value `splitData[i]` of an entry of a map literal of `parseOhlcData`. -/
def ohlcField (splitData : List String) (i : Nat) : GoResult GoVal :=
  GoVal.str <$> idx splitData i

/-- The value `config.feedIntervalMap[splitData[i]]` of the entry `interval`. -/
def ohlcInterval (splitData : List String) (i : Nat) : GoResult GoVal := do
  let key ← idx splitData i
  pure (.str (GoMap.str FeedIntervalMap key))

/-- Go `parseOhlcData`: the record of one comma-separated OHLC line. The
receiver is not used. -/
def parseOhlcData (_b : BreezeInstance) (data : String) : GoResult Record :=
  let splitData := goSplit data ','
  if splitData.length = 9 then
    assign
      [("interval", ohlcInterval splitData 8),
       ("exchange_code", ohlcField splitData 0),
       ("stock_code", ohlcField splitData 1),
       ("low", ohlcField splitData 2),
       ("high", ohlcField splitData 3),
       ("open", ohlcField splitData 4),
       ("close", ohlcField splitData 5),
       ("volume", ohlcField splitData 6),
       ("datetime", ohlcField splitData 7)] []
  else if splitData.length = 13 then
    assign
      [("interval", ohlcInterval splitData 12),
       ("exchange_code", ohlcField splitData 0),
       ("stock_code", ohlcField splitData 1),
       ("expiry_date", ohlcField splitData 2),
       ("strike_price", ohlcField splitData 3),
       ("right_type", ohlcField splitData 4),
       ("low", ohlcField splitData 5),
       ("high", ohlcField splitData 6),
       ("open", ohlcField splitData 7),
       ("close", ohlcField splitData 8),
       ("volume", ohlcField splitData 9),
       ("oi", ohlcField splitData 10),
       ("datetime", ohlcField splitData 11)] []
  else if splitData.length = 11 then
    assign
      [("interval", ohlcInterval splitData 10),
       ("exchange_code", ohlcField splitData 0),
       ("stock_code", ohlcField splitData 1),
       ("expiry_date", ohlcField splitData 2),
       ("low", ohlcField splitData 3),
       ("high", ohlcField splitData 4),
       ("open", ohlcField splitData 5),
       ("close", ohlcField splitData 6),
       ("volume", ohlcField splitData 7),
       ("oi", ohlcField splitData 8),
       ("datetime", ohlcField splitData 9)] []
  else .ok []

/-! ## Vocabulary of the statements -/

/-- The index of the partition of each exchange code in `StockScriptDictList` and
`TokenScriptDictList`. -/
def partitionIndex : List (String × Nat) :=
  [("BSE", 0), ("NSE", 1), ("NDX", 2), ("MCX", 3), ("NFO", 4), ("BFO", 5)]

/-- An instance whose NFO partition registers the future `FUT-NIFTY-28-Mar-2024`
under the token `53001`, as `getStockScriptList` writes an NFO row. -/
def nfoFutureInstance : BreezeInstance :=
  { StockScriptDictList :=
      [some [], some [], some [], some [], some [("FUT-NIFTY-28-Mar-2024", "53001")], some []],
    TokenScriptDictList :=
      [some [], some [], some [], some [],
       some [("53001", ["FUT-NIFTY-28-Mar-2024", "NIFTY"])], some []] }

/-- An instance whose BFO partition registers the future `FUT-SENSEX-28-Mar-2024`
under the token `870001`. -/
def bfoFutureInstance : BreezeInstance :=
  { StockScriptDictList :=
      [some [], some [], some [], some [], some [], some [("FUT-SENSEX-28-Mar-2024", "870001")]],
    TokenScriptDictList :=
      [some [], some [], some [], some [], some [],
       some [("870001", ["FUT-SENSEX-28-Mar-2024", "SENSEX"])]] }

/-- An instance whose NSE partition registers `RELIANCE` and whose NFO partition
registers the future `FUT-NIFTY-28-Mar-2024`, both under the token `2885`. -/
def sharedTokenInstance : BreezeInstance :=
  { StockScriptDictList :=
      [some [], some [("RELIANCE", "2885")], some [], some [],
       some [("FUT-NIFTY-28-Mar-2024", "2885")], some []],
    TokenScriptDictList :=
      [some [], some [("2885", ["RELIANCE", "RELIANCE INDUSTRIES"])], some [], some [],
       some [("2885", ["FUT-NIFTY-28-Mar-2024", "NIFTY"])], some []] }

/-- An instance whose NSE partition registers `RELIANCE` under the token `2885` and
whose NFO partition registers the option `OPT-NIFTY-28-Mar-2024-22000-CE` under
the token `43567`. -/
def nseNfoInstance : BreezeInstance :=
  { StockScriptDictList :=
      [some [], some [("RELIANCE", "2885")], some [], some [],
       some [("OPT-NIFTY-28-Mar-2024-22000-CE", "43567")], some []],
    TokenScriptDictList :=
      [some [], some [("2885", ["RELIANCE", "RELIANCE INDUSTRIES"])], some [], some [],
       some [("43567", ["OPT-NIFTY-28-Mar-2024-22000-CE", "NIFTY"])], some []] }

/-- The record holds, under each listed name, the frame element at the listed position. -/
def carries (r : Record) (data : List GoVal) (fields : List (String × Nat)) : Prop :=
  ∀ p ∈ fields, ∃ v, data.get? p.2 = some v ∧ Assoc.get? r p.1 = some v

/-- The twelve header fields of a quote record and their positions in the frame. -/
def quoteHeaderFields : List (String × Nat) :=
  [("symbol", 0), ("open", 1), ("last", 2), ("high", 3), ("low", 4), ("change", 5),
   ("bPrice", 6), ("bQty", 7), ("sPrice", 8), ("sQty", 9), ("ltq", 10), ("avgPrice", 11)]

/-- The fields that a 21-element quote frame adds, `ltt` apart. -/
def equityFields : List (String × Nat) :=
  [("ttq", 12), ("totalBuyQt", 13), ("totalSellQ", 14), ("ttv", 15), ("trend", 16),
   ("lowerCktLm", 17), ("upperCktLm", 18), ("close", 20)]

/-- The fields that a 23-element quote frame adds, `ltt` apart. -/
def derivativeFields : List (String × Nat) :=
  [("OI", 12), ("CHNGOI", 13), ("ttq", 14), ("totalBuyQt", 15), ("totalSellQ", 16),
   ("ttv", 17), ("trend", 18), ("lowerCktLm", 19), ("upperCktLm", 20), ("close", 22)]

/-- The 21-element frame of the concrete scenario. -/
def equityFrame : List GoVal :=
  [.str "4!1", .num 100, .num 101, .num 99, .num 102, .num 1, .num 100, .num 10, .num 101,
   .num 15, .num 5, .num 100.5, .num 1000, .num 600, .num 400, .num 50000, .str "up",
   .num 95, .num 105, .num 1699999999, .num 100]

/-- A 23-element frame whose first element is `6!1`: 21 numbers and a final row of
eight numbers. -/
def commodityQuoteFrame : List GoVal :=
  [.str "6!1", .num 0, .num 0, .num 0, .num 1000, .num 100, .num 5, .num 1699999999,
   .num 100, .num 600, .num 400, .num 0, .num 99, .num 100, .num 102, .num 98, .num 0,
   .num 12, .num 40, .num 120, .num 80, .num 50000,
   .arr [.num 10, .num 100, .num 2, .num 0, .num 15, .num 101, .num 3, .num 0]]

/-- A flat frame of 42 strings. -/
def orderFrame42 : List GoVal :=
  List.replicate 42 (.str "N")

/-- A channel whose transport is open and whose sets are empty. -/
def openSocket : SocketEventBreeze :=
  { conn := some {} }

/-- Whether a frame is a join frame: its text starts with the type `join`. -/
def isJoinFrame (frame : String) : Bool :=
  ("\x7b\"type\": \"join\"").data.isPrefixOf frame.data

/-- The number of join frames among the given frames. -/
def joinCount (frames : List String) : Nat :=
  frames.countP isJoinFrame

/-- A channel whose transport is open and whose watch set holds two tokens. -/
def twoTokenSocket : SocketEventBreeze :=
  { conn := some {}, tokenlist := [("4.1!2885", true), ("4.1!1594", true)] }

/-- The instance after a first `WSConnect` whose dial and authentication succeed. -/
def connectedInstance : BreezeInstance :=
  (WSConnect {} .accepted).1

/-- The connected instance after `SubscribeFeeds` for the stock token `4.1!2885`. -/
def subscribedInstance : BreezeInstance :=
  { connectedInstance with
    SIORateRefreshHandler :=
      some { conn := some { written := [authFrame "" "", joinFrame (.one "4.1!2885")] },
             tokenlist := [("4.1!2885", true)], dials := 1, readLoops := 1 } }

/-- The instance after a first `WSConnect` whose dial is refused. -/
def refusedInstance : BreezeInstance :=
  (WSConnect {} (.refused (.new "dial tcp: connection refused"))).1

/-- A row of the reference file for `RELIANCE` on NSE: display name in field 1,
exchange in field 2, symbol in field 3, token in field 5. -/
def relianceRow : List String :=
  ["", "RELIANCE INDUSTRIES", "NSE", "RELIANCE", "", "2885", "", ""]

/-- The instance `nseNfoInstance` with both tables replaced by six nil maps. -/
def clearedInstance : BreezeInstance :=
  { nseNfoInstance with
    StockScriptDictList := List.replicate 6 none
    TokenScriptDictList := List.replicate 6 none }

/-- An instance whose tables are those of `config.go` and which has no handler. -/
def configuredInstance : BreezeInstance :=
  { ConfigIntervalTypesStream := INTERVAL_TYPES, ConfigChannelIntervalMap := ChannelIntervalMap }

/-- The interval that `SubscribeFeeds` and `UnsubscribeFeeds` hand to the
channel operations: the entry of `ConfigChannelIntervalMap` for a non-empty
interval. -/
def channelCode (b : BreezeInstance) (interval : String) : String :=
  if interval ≠ "" then GoMap.str b.ConfigChannelIntervalMap interval else interval

/-- A textual control frame with one payload: `type` under the key `type` and
`value` under the key `key`. -/
def controlFrame (type key value : String) : String :=
  "\x7b\"type\": \"" ++ type ++ "\", \"" ++ key ++ "\": \"" ++ value ++ "\"\x7d"

/-- Whether a frame is a join or leave frame whose payload is under the key `data`. -/
def carriesData (frame : String) : Bool :=
  ("\x7b\"type\": \"join\", \"data\": \"").data.isPrefixOf frame.data ||
  ("\x7b\"type\": \"leave\", \"data\": \"").data.isPrefixOf frame.data

/-- A channel whose transport is open and which has joined the room `4.1!2885`. -/
def oneRoomSocket : SocketEventBreeze :=
  { conn := some {}, ohlcstate := [("4.1!2885", true)] }

/-- An instance whose three channels are open: rate refresh watching `4.1!2885`,
the OHLC stream with the room `4.1!2885`, and order refresh. -/
def streamingInstance : BreezeInstance :=
  { subscribedInstance with
    SIOOhlcvStreamHandler := some oneRoomSocket
    SIOOrderRefreshHandler := some openSocket
    OrderConnect := 1 }

/-- The counter of order connections is 0 or 1, and is 1 only while an
order-refresh handler exists. -/
def OrderCounterOk (b : BreezeInstance) : Prop :=
  (b.OrderConnect = 0 ∨ b.OrderConnect = 1) ∧
  (b.OrderConnect = 1 → b.SIOOrderRefreshHandler.isSome = true)

/-- The states reachable from a fresh instance (no handler, counter 0) through
`WSConnect`, `SubscribeFeeds`, `UnsubscribeFeeds`, `WSDisconnect` and
`WSDisconnectOhlc`, each call having returned. -/
inductive Reachable : BreezeInstance → Prop where
  | fresh (b : BreezeInstance) :
    b.SIORateRefreshHandler = none → b.SIOOhlcvStreamHandler = none →
    b.SIOOrderRefreshHandler = none → b.OrderConnect = 0 → Reachable b
  | connect (b : BreezeInstance) (net : Dial) : Reachable b → Reachable (WSConnect b net).1
  | subscribe (b b2 : BreezeInstance)
    (stockToken exchangeCode stockCode productType expiryDate strikePrice right interval : String)
    (q d n : Bool) (net : Dial) (reply : Reply) :
    Reachable b →
    SubscribeFeeds b stockToken exchangeCode stockCode productType expiryDate strikePrice right
      interval q d n net = .ok (b2, reply) →
    Reachable b2
  | unsubscribe (b b2 : BreezeInstance)
    (stockToken exchangeCode stockCode productType expiryDate strikePrice right interval : String)
    (q d n : Bool) (reply : Reply) :
    Reachable b →
    UnsubscribeFeeds b stockToken exchangeCode stockCode productType expiryDate strikePrice right
      interval q d n = .ok (b2, reply) →
    Reachable b2
  | disconnect (b b2 : BreezeInstance) (responses : List Response) :
    Reachable b → WSDisconnect b = .ok (b2, responses) → Reachable b2
  | disconnectOhlc (b b2 : BreezeInstance) (response : Response) :
    Reachable b → WSDisconnectOhlc b = .ok (b2, response) → Reachable b2

/-- The instance after `WSConnect` and a `SubscribeFeeds` for order
notifications, both dials accepted. -/
def notifiedInstance : BreezeInstance :=
  { connectedInstance with
    SIOOrderRefreshHandler := some { conn := some { written := [authFrame "" "", notifyFrame] },
                                     dials := 1, readLoops := 1 }
    OrderConnect := 1 }

/-- Where `parseData` takes the value of a field from: an element of the frame,
the calendar time of the epoch seconds in an element, an entry of an element
that is an array, the rows of an element decoded by `parseMarketDepth` for an
exchange id, or a fixed text. -/
inductive Source where
  | element (i : Nat)
  | time (i : Nat)
  | cell (i k : Nat)
  | depth (i : Nat) (exchange : String)
  | text (s : String)
  deriving DecidableEq, Repr

/-- The value of a source on a frame, evaluated as `parseData` evaluates it. -/
def Source.eval (data : List GoVal) : Source → GoResult GoVal
  | .element i => idx data i
  | .time i => idx data i >>= unixTime
  | .cell i k => do
    let v ← idx data i
    let row ← asArr v
    idx row k
  | .depth i exchange => do
    let v ← idx data i
    let rows ← asStrRows v
    let depth ← parseMarketDepth rows exchange
    pure (.maps depth)
  | .text s => .ok (.str s)

/-- The fields of the record of a 19-element flat frame and their positions. -/
def alertFields : List (String × Nat) :=
  [("stock_name", 0), ("stock_code", 1), ("action_type", 2), ("expiry_date", 3),
   ("strike_price", 4), ("option_type", 5), ("stock_description", 6),
   ("recommended_price_and_date", 7), ("recommended_price_from", 8),
   ("recommended_price_to", 9), ("recommended_date", 10), ("target_price", 11),
   ("sltp_price", 12), ("part_profit_percentage", 13), ("profit_price", 14),
   ("exit_price", 15), ("recommended_update", 16), ("iclick_status", 17),
   ("subscription_type", 18)]

/-- The fields of the record of a 28-element flat frame and their positions. -/
def strategyFields : List (String × Nat) :=
  [("strategy_date", 0), ("modification_date", 1), ("portfolio_id", 2), ("call_action", 3),
   ("portfolio_name", 4), ("exchange_code", 5), ("product_type", 6), ("underlying", 8),
   ("expiry_date", 9), ("option_type", 11), ("strike_price", 12), ("action", 13),
   ("recommended_price_from", 14), ("recommended_price_to", 15), ("minimum_lot_quantity", 16),
   ("last_traded_price", 17), ("best_bid_price", 18), ("best_offer_price", 19),
   ("last_traded_quantity", 20), ("target_price", 21), ("expected_profit_per_lot", 22),
   ("stop_loss_price", 23), ("expected_loss_per_lot", 24), ("total_margin", 25),
   ("leg_no", 26), ("status", 27)]

/-- The header fields of a commodity record that are frame elements, and their
positions; `ltt` is the calendar time of element 7. -/
def commodityHeaderFields : List (String × Nat) :=
  [("symbol", 0), ("AndiOPVolume", 1), ("Reserved", 2), ("IndexFlag", 3), ("ttq", 4),
   ("last", 5), ("ltq", 6), ("AvgTradedPrice", 8), ("TotalBuyQnt", 9), ("TotalSellQnt", 10),
   ("ReservedStr", 11), ("ClosePrice", 12), ("OpenPrice", 13), ("HighPrice", 14),
   ("LowPrice", 15), ("ReservedShort", 16), ("CurrOpenInterest", 17), ("TotalTrades", 18),
   ("HightestPriceEver", 19), ("LowestPriceEver", 20), ("TotalTradedValue", 21)]

/-- The eight fields of one depth block of a commodity record, and the entry of
the row each is taken from. -/
def depthBlockFields : List (String × Nat) :=
  [("Quantity", 0), ("OrderPrice", 1), ("TotalOrders", 2), ("Reserved", 3),
   ("SellQuantity", 4), ("SellOrderPrice", 5), ("SellTotalOrders", 6), ("SellReserved", 7)]

/-- The assignments of the commodity branch before its loop, in order. -/
def commodityHeaderEntries : List (String × Source) :=
  [("symbol", .element 0), ("AndiOPVolume", .element 1), ("Reserved", .element 2),
   ("IndexFlag", .element 3), ("ttq", .element 4), ("last", .element 5), ("ltq", .element 6),
   ("ltt", .time 7), ("AvgTradedPrice", .element 8), ("TotalBuyQnt", .element 9),
   ("TotalSellQnt", .element 10), ("ReservedStr", .element 11), ("ClosePrice", .element 12),
   ("OpenPrice", .element 13), ("HighPrice", .element 14), ("LowPrice", .element 15),
   ("ReservedShort", .element 16), ("CurrOpenInterest", .element 17),
   ("TotalTrades", .element 18), ("HightestPriceEver", .element 19),
   ("LowestPriceEver", .element 20), ("TotalTradedValue", .element 21)]

/-- The assignments of iteration `j` of the loop of the commodity branch. -/
def commodityBlock (j : Nat) : List (String × Source) :=
  depthBlockFields.map (fun p => (numbered p.1 j, Source.cell (22 + j) p.2))

/-- The assignments of the quote branch, in order, for a frame of `n` elements. -/
def quoteEntries (n : Nat) : List (String × Source) :=
  [("symbol", .element 0), ("open", .element 1), ("last", .element 2), ("high", .element 3),
   ("low", .element 4), ("change", .element 5), ("bPrice", .element 6), ("bQty", .element 7),
   ("sPrice", .element 8), ("sQty", .element 9), ("ltq", .element 10),
   ("avgPrice", .element 11), ("quotes", .text "Quotes Data")] ++
  (if n = 21 then
    [("ttq", .element 12), ("totalBuyQt", .element 13), ("totalSellQ", .element 14),
     ("ttv", .element 15), ("trend", .element 16), ("lowerCktLm", .element 17),
     ("upperCktLm", .element 18), ("ltt", .time 19), ("close", .element 20)]
  else if n = 23 then
    [("OI", .element 12), ("CHNGOI", .element 13), ("ttq", .element 14),
     ("totalBuyQt", .element 15), ("totalSellQ", .element 16), ("ttv", .element 17),
     ("trend", .element 18), ("lowerCktLm", .element 19), ("upperCktLm", .element 20),
     ("ltt", .time 21), ("close", .element 22)]
  else [])

/-- The assignments of the market-depth branch, in order. -/
def depthEntries (exchange : String) : List (String × Source) :=
  [("symbol", .element 0), ("time", .time 1), ("depth", .depth 2 exchange),
   ("quotes", .text "Market Depth")]

/-- The label that the closing `switch exchange` of `parseData` attaches to a
frame of `n` elements, if any. -/
def displayLabel (exchange : String) (n : Nat) : Option String :=
  if exchange = "4" then
    if n = 21 then some "NSE Equity"
    else if n = 23 then some "NSE Futures & Options"
    else none
  else if exchange = "1" then some "BSE"
  else if exchange = "13" then some "NSE Currency"
  else if exchange = "6" then some "Commodity"
  else none

/-- The assignment of the closing `switch exchange`, if any. -/
def labelEntries (exchange : String) (n : Nat) : List (String × Source) :=
  match displayLabel exchange n with
  | some label => [("exchange", .text label)]
  | none => []

/-- What decides the shape of a record: `none` for a frame whose first element
has no `!`, and otherwise the exchange id and the stream type, the first two
parts of the first element split at `!`. -/
def frameKind (data : List GoVal) : Option (String × String) :=
  match data with
  | .str s :: _ =>
    match goSplit s '!' with
    | exchange :: dataType :: _ => some (exchange, dataType)
    | _ => none
  | _ => none

/-- The assignments that `parseData` performs, in order, on a frame of the
given kind with `n` elements. -/
def decodeEntries (kind : Option (String × String)) (n : Nat) : List (String × Source) :=
  match kind with
  | none =>
    if n = 19 then alertFields.map (fun p => (p.1, Source.element p.2))
    else if n = 28 then strategyFields.map (fun p => (p.1, Source.element p.2))
    else []
  | some (exchange, dataType) =>
    (if exchange = "6" then
      commodityHeaderEntries ++ (List.range (n - 22)).flatMap commodityBlock
    else if dataType = "1" then quoteEntries n
    else depthEntries exchange) ++ labelEntries exchange n

/-- The table that a run of assignments builds from the empty map. -/
def decodeTable (kind : Option (String × String)) (n : Nat) : List (String × Source) :=
  (decodeEntries kind n).foldl (fun m p => Assoc.set m p.1 p.2) []

/-- The record holds, field by field and in order, the values of the sources of
the table on the frame. -/
def Decodes (data : List GoVal) (r : Record) (table : List (String × Source)) : Prop :=
  List.Forall₂ (fun kv p => kv.1 = p.1 ∧ p.2.eval data = .ok kv.2) r table

/-- A 21-element quote frame whose first element is `8!1`. -/
def bfoQuoteFrame : List GoVal :=
  .str "8!1" :: equityFrame.drop 1

/-- A market-depth frame of exchange id 4 with one row of eight columns. -/
def nseDepthFrame : List GoVal :=
  [.str "4!2", .num 1699999999,
   .strRows [["100.5", "10", "1", "B", "100.6", "20", "2", "S"]]]

/-- A 19-element flat frame. -/
def alertFrame : List GoVal :=
  (List.range 19).map (fun i => GoVal.str (toString i))

/-- A 28-element flat frame. -/
def strategyFrame : List GoVal :=
  (List.range 28).map (fun i => GoVal.str (toString i))

/-- A second 21-element quote frame of the exchange id 4. -/
def otherEquityFrame : List GoVal :=
  [.str "4!1", .num 200, .num 201, .num 199, .num 202, .num 2, .num 200, .num 20, .num 201,
   .num 25, .num 6, .num 200.5, .num 2000, .num 700, .num 500, .num 60000, .str "down",
   .num 190, .num 210, .num 1700000000, .num 200]

/-- The number that a sequence of decimal digits denotes. -/
def digitsValue (l : List Char) : Nat :=
  l.foldl (fun a c => 10 * a + (c.toNat - 48)) 0

/-- A commodity frame of 24 elements: the header and two depth rows. -/
def commodityDepthFrame : List GoVal :=
  [.str "6!1", .num 0, .num 0, .num 0, .num 1000, .num 100, .num 5, .num 1699999999,
   .num 100, .num 600, .num 400, .num 0, .num 99, .num 100, .num 102, .num 98, .num 0,
   .num 12, .num 40, .num 120, .num 80, .num 50000,
   .arr [.num 10, .num 100, .num 2, .num 0, .num 15, .num 101, .num 3, .num 0],
   .arr [.num 20, .num 99, .num 4, .num 0, .num 25, .num 102, .num 5, .num 0]]

/-- The field names of a depth row for an exchange id, by column. -/
def depthColumns (exchange : String) : List String :=
  if exchange = "1" then ["BestBuyRate", "BestBuyQty", "BestSellRate", "BestSellQty"]
  else if exchange = "8" then
    ["BestBuyRate", "BestBuyQty", "BuyNoOfOrders", "BestSellRate", "BestSellQty",
     "SellNoOfOrders"]
  else
    ["BestBuyRate", "BestBuyQty", "BuyNoOfOrders", "BuyFlag", "BestSellRate", "BestSellQty",
     "SellNoOfOrders", "SellFlag"]

/-- The record of the row at index `i`: under each field name, suffixed with
`i + 1`, the string in its column. -/
def depthRecord (exchange : String) (i : Nat) (lis : List String) : Record :=
  ((depthColumns exchange).zip lis).map (fun p => (numbered p.1 (i + 1), GoVal.str p.2))

/-- Two depth rows of six columns. -/
def bfoDepthRows : List (List String) :=
  [["100.5", "10", "1", "100.6", "20", "2"], ["100.4", "30", "3", "100.7", "40", "4"]]

/-- The exchange ids for which the closing switch of `parseData` has a case. -/
def labelledIds : List String := ["1", "4", "6", "13"]

/-- The names that `parseOhlcData` gives to the fields before the last one of a
line of `n` fields, in the order of the fields. -/
def ohlcNames (n : Nat) : List String :=
  if n = 9 then
    ["exchange_code", "stock_code", "low", "high", "open", "close", "volume", "datetime"]
  else if n = 11 then
    ["exchange_code", "stock_code", "expiry_date", "low", "high", "open", "close", "volume",
     "oi", "datetime"]
  else if n = 13 then
    ["exchange_code", "stock_code", "expiry_date", "strike_price", "right_type", "low", "high",
     "open", "close", "volume", "oi", "datetime"]
  else []

/-- The record with the entry `interval` for the last field, translated through
`FeedIntervalMap`, and one entry for each field before it, under the given names. -/
def ohlcRecord (names fields : List String) : Record :=
  ("interval", .str (GoMap.str FeedIntervalMap (fields.getLastD ""))) ::
    (names.zip fields).map (fun p => (p.1, GoVal.str p.2))

/-- A line of nine fields. -/
def equityOhlcLine : String := "NSE,ITC,431.5,433,432,432.5,1200,2024-03-28 10:15:00,1MIN"

/-- What an instance holds besides its three handlers and the order counter. -/
def settings (b : BreezeInstance) : BreezeInstance :=
  { b with
    SIORateRefreshHandler := none
    SIOOrderRefreshHandler := none
    SIOOhlcvStreamHandler := none
    OrderConnect := 0 }

/-- The instance `bfoFutureInstance` with the interval tables of `config.go`. -/
def bfoConfiguredInstance : BreezeInstance :=
  { bfoFutureInstance with
    ConfigIntervalTypesStream := INTERVAL_TYPES
    ConfigChannelIntervalMap := ChannelIntervalMap }

/-- The instance `bfoConfiguredInstance` with an open rate-refresh channel that
watches the quote id `8.1!870001` of the BFO future. -/
def bfoWatchingInstance : BreezeInstance :=
  { bfoConfiguredInstance with
    SIORateRefreshHandler := some { conn := some {}, tokenlist := [("8.1!870001", true)] } }

/-- The watch set of a handler field; empty for a nil handler. -/
def watchSetOf (h : Option SocketEventBreeze) : Finset String :=
  match h with
  | none => ∅
  | some s => s.watchSet

/-- The room set of a handler field; empty for a nil handler. -/
def roomSetOf (h : Option SocketEventBreeze) : Finset String :=
  match h with
  | none => ∅
  | some s => s.roomSet

/-- The tokens and rooms of one channel that are in its sets after a subscribe
without having been there before it, and that are still there after the
unsubscribe: `before`, `after` and `final` are the handler field before the
subscribe, after it, and after the unsubscribe. -/
def leftOver (before after final : Option SocketEventBreeze) : Finset String :=
  ((watchSetOf after \ watchSetOf before) ∩ watchSetOf final) ∪
    ((roomSetOf after \ roomSetOf before) ∩ roomSetOf final)

/-- What a subscribe added and the unsubscribe left, over the three channels. -/
def leftOvers (b b2 b3 : BreezeInstance) : Finset String :=
  leftOver b.SIORateRefreshHandler b2.SIORateRefreshHandler b3.SIORateRefreshHandler ∪
    leftOver b.SIOOrderRefreshHandler b2.SIOOrderRefreshHandler b3.SIOOrderRefreshHandler ∪
    leftOver b.SIOOhlcvStreamHandler b2.SIOOhlcvStreamHandler b3.SIOOhlcvStreamHandler

/-- The handler field is nil or its handler has a transport. -/
def Live (h : Option SocketEventBreeze) : Prop :=
  ∀ s, h = some s → s.conn.isSome = true

/-- The non-empty ones of the two ids of an instrument. -/
def idSet (quoteId depthId : String) : Finset String :=
  ({quoteId, depthId} : Finset String).erase ""

/-- A commodity frame of 22 elements whose element 7 is a text. -/
def commodityTextTimeFrame : List GoVal :=
  [.str "6!1", .num 0, .num 0, .num 0, .num 1000, .num 100, .num 5, .str "09:15:00",
   .num 100, .num 600, .num 400, .num 0, .num 99, .num 100, .num 102, .num 98, .num 0,
   .num 12, .num 40, .num 120, .num 80, .num 50000]

/-- A depth row of three columns. -/
def shortDepthRows : List (List String) :=
  [["100.5", "10", "100.6"]]

/-- The token is watched on the channel of the handler field: the handler
exists, the token is in its watch set, and its join frame was handed to the
transport. -/
def watchedOn (h : Option SocketEventBreeze) (t : String) : Prop :=
  ∃ s, h = some s ∧ t ∈ s.watchSet ∧ joinFrame (.one t) ∈ s.frames

/-- The room is joined on the channel of the handler field: the handler exists,
the room is in its room set, and its join frame was handed to the transport. -/
def joinedOn (h : Option SocketEventBreeze) (t : String) : Prop :=
  ∃ s, h = some s ∧ t ∈ s.roomSet ∧ streamFrame t ∈ s.frames

/-- The notify frame was handed to the transport of the handler field. -/
def notifiedOn (h : Option SocketEventBreeze) : Prop :=
  ∃ s, h = some s ∧ notifyFrame ∈ s.frames

/-- The connected instance with the interval tables of `config.go`. -/
def connectedConfiguredInstance : BreezeInstance :=
  { connectedInstance with
    ConfigIntervalTypesStream := INTERVAL_TYPES
    ConfigChannelIntervalMap := ChannelIntervalMap }

/-! ## Lemmas on the run-time model -/

theorem splitChars_of_not_mem (sep : Char) (l : List Char) (h : sep ∉ l) :
    splitChars sep l = [l] := by
  induction l with
  | nil => rfl
  | cons c cs ih =>
    have hc : c ≠ sep := fun e => h (by simp [e])
    have hcs : sep ∉ cs := fun e => h (List.mem_cons_of_mem _ e)
    simp [splitChars, hc, ih hcs]

theorem splitChars_append_sep (sep : Char) (l1 l2 : List Char) (h : sep ∉ l1) :
    splitChars sep (l1 ++ sep :: l2) = l1 :: splitChars sep l2 := by
  induction l1 with
  | nil => simp [splitChars]
  | cons c cs ih =>
    have hc : c ≠ sep := fun e => h (by simp [e])
    have hcs : sep ∉ cs := fun e => h (List.mem_cons_of_mem _ e)
    simp [splitChars, hc, ih hcs]

theorem goSplit_of_not_mem (s : String) (sep : Char) (h : sep ∉ s.data) :
    goSplit s sep = [s] := by
  simp [goSplit, splitChars_of_not_mem sep s.data h]

theorem goSplit_append_sep (s1 s2 : String) (sep : Char) (h : sep ∉ s1.data) :
    goSplit (s1 ++ String.singleton sep ++ s2) sep = s1 :: goSplit s2 sep := by
  simp [goSplit, String.data_append, splitChars_append_sep sep s1.data s2.data h]

theorem goSplit_streamSymbol (id suffix token : String) (hid : '.' ∉ id.data)
    (hsuf : '.' ∉ suffix.data) (htok : '.' ∉ token.data) :
    goSplit (id ++ "." ++ suffix ++ "!" ++ token) '.' = [id, suffix ++ "!" ++ token] := by
  have h1 : id ++ "." ++ suffix ++ "!" ++ token = id ++ String.singleton '.' ++ (suffix ++ "!" ++ token) := by
    simp [String.append_assoc]; rfl
  rw [h1, goSplit_append_sep _ _ _ hid, goSplit_of_not_mem]
  simp [String.data_append, hsuf, htok]

theorem goSplit_bang (suffix token : String) (hsuf : '!' ∉ suffix.data) (htok : '!' ∉ token.data) :
    goSplit (suffix ++ "!" ++ token) '!' = [suffix, token] := by
  have h1 : suffix ++ "!" ++ token = suffix ++ String.singleton '!' ++ token := rfl
  rw [h1, goSplit_append_sep _ _ _ hsuf, goSplit_of_not_mem _ _ htok]

@[simp] theorem GoResult.pure_eq {α : Type} (a : α) : (pure a : GoResult α) = .ok a := rfl
@[simp] theorem GoResult.ok_bind {α β : Type} (a : α) (f : α → GoResult β) :
    (GoResult.ok a >>= f) = f a := rfl
@[simp] theorem GoResult.err_bind {α β : Type} (e : GoError) (f : α → GoResult β) :
    (GoResult.err e >>= f) = .err e := rfl
@[simp] theorem GoResult.panic_bind {α β : Type} (f : α → GoResult β) :
    (GoResult.panic >>= f) = .panic := rfl

theorem getData_streamSymbol (b : BreezeInstance) (id suffix token : String)
    (hid : '.' ∉ id.data) (hsuf : '.' ∉ suffix.data ∧ '!' ∉ suffix.data)
    (htok : '.' ∉ token.data ∧ '!' ∉ token.data) :
    GetDataFromStockTokenValue b (id ++ "." ++ suffix ++ "!" ++ token) =
      resolveStockToken b (id ++ "." ++ suffix ++ "!" ++ token) id token := by
  unfold GetDataFromStockTokenValue
  rw [goSplit_streamSymbol id suffix token hid hsuf.1 htok.1]
  simp only [goSplit_bang suffix token hsuf.2 htok.2]

/-! ## The composite-key codec and the token registry -/

/-- Claim C6: `getStockTokenValue`, called with quotes or depth requested, a known
exchange and a non-empty symbol. For BSE and NSE the outcome is that of reading
the symbol itself in the partition, whatever the product type, expiry, strike
and right. For NDX, MCX, NFO and BFO it fails with the expiry error when the
expiry is empty, with the product-type error when the product type is neither
futures nor options, and for options with the strike error when the strike is
empty and the right error when the right is neither put nor call; in every other
case the key read in the partition is `FUT-<symbol>-<expiry>` for futures and
`OPT-<symbol>-<expiry>-<strike>-PE` (put) or `-CE` (call) for options. -/
theorem C6_getStockTokenValue_validation (b : BreezeInstance)
    (exchangeCode stockCode productType expiryDate strikePrice right name : String)
    (q d : Bool) (i : Nat)
    (hreq : q = true ∨ d = true)
    (hname : Assoc.get? (tokenExchangeCodeList b) exchangeCode = some name)
    (hpart : Assoc.get? partitionIndex exchangeCode = some i)
    (hsym : stockCode ≠ "") :
    ((exchangeCode = "BSE" ∨ exchangeCode = "NSE") →
      getStockTokenValue b exchangeCode stockCode productType expiryDate strikePrice right q d =
        (do let t ← stockScript b i stockCode
            tokenIds b name t q d)) ∧
    ((exchangeCode = "NDX" ∨ exchangeCode = "MCX" ∨ exchangeCode = "NFO" ∨
        exchangeCode = "BFO") →
      (expiryDate = "" →
        getStockTokenValue b exchangeCode stockCode productType expiryDate strikePrice right q d =
          .err (subscribeException b "EXPIRY_DATE_EXCEPTION")) ∧
      (expiryDate ≠ "" → productType ≠ "futures" → productType ≠ "options" →
        getStockTokenValue b exchangeCode stockCode productType expiryDate strikePrice right q d =
          .err (subscribeException b "PRODUCT_TYPE_EXCEPTION")) ∧
      (expiryDate ≠ "" → productType = "options" → strikePrice = "" →
        getStockTokenValue b exchangeCode stockCode productType expiryDate strikePrice right q d =
          .err (subscribeException b "STRIKE_PRICE_EXCEPTION")) ∧
      (expiryDate ≠ "" → productType = "options" → strikePrice ≠ "" →
        right ≠ "put" → right ≠ "call" →
        getStockTokenValue b exchangeCode stockCode productType expiryDate strikePrice right q d =
          .err (subscribeException b "RIGHT_EXCEPTION")) ∧
      (expiryDate ≠ "" → productType = "futures" →
        getStockTokenValue b exchangeCode stockCode productType expiryDate strikePrice right q d =
          (do let t ← stockScript b i ("FUT-" ++ stockCode ++ "-" ++ expiryDate)
              tokenIds b name t q d)) ∧
      (expiryDate ≠ "" → productType = "options" → strikePrice ≠ "" → right = "put" →
        getStockTokenValue b exchangeCode stockCode productType expiryDate strikePrice right q d =
          (do let t ← stockScript b i
                ("OPT-" ++ stockCode ++ "-" ++ expiryDate ++ "-" ++ strikePrice ++ "-PE")
              tokenIds b name t q d)) ∧
      (expiryDate ≠ "" → productType = "options" → strikePrice ≠ "" → right = "call" →
        getStockTokenValue b exchangeCode stockCode productType expiryDate strikePrice right q d =
          (do let t ← stockScript b i
                ("OPT-" ++ stockCode ++ "-" ++ expiryDate ++ "-" ++ strikePrice ++ "-CE")
              tokenIds b name t q d))) := by
  have hq : (!q && !d) = false := by rcases hreq with h | h <;> simp [h]
  have hF : "FUT" ++ "-" = "FUT-" := rfl
  have hO : "OPT" ++ "-" = "OPT-" := rfl
  have hfo : ("futures" : String) ≠ "options" := by decide
  constructor
  · intro hex
    rcases hex with rfl | rfl <;>
      simp [partitionIndex, Assoc.get?] at hpart <;>
      subst hpart <;>
      simp [getStockTokenValue, hq, hname, hsym, tokenValueOf]
  · intro hex
    have hder : ∀ key, derivativeToken b exchangeCode key = stockScript b i key := by
      intro key
      rcases hex with rfl | rfl | rfl | rfl <;>
        simp [partitionIndex, Assoc.get?] at hpart <;>
        subst hpart <;>
        simp [derivativeToken]
    have hne : exchangeCode ≠ "BSE" ∧ exchangeCode ≠ "NSE" := by
      rcases hex with rfl | rfl | rfl | rfl <;> decide
    refine ⟨?_, ?_, ?_, ?_, ?_, ?_, ?_⟩
    · intro he
      simp [getStockTokenValue, hq, hname, hsym, tokenValueOf, hne, contractDetailValue, he]
    · intro he h1 h2
      simp [getStockTokenValue, hq, hname, hsym, tokenValueOf, hne, contractDetailValue, he, h1, h2]
    · intro he h1 h2
      simp [getStockTokenValue, hq, hname, hsym, tokenValueOf, hne, contractDetailValue, he, h1, h2]
    · intro he h1 h2 h3 h4
      simp [getStockTokenValue, hq, hname, hsym, tokenValueOf, hne, contractDetailValue, he, h1,
        h2, h3, h4]
    · intro he h1
      simp [getStockTokenValue, hq, hname, hsym, tokenValueOf, hne, contractDetailValue, he, h1,
        hder, hF, hfo]
    · intro he h1 h2 h3
      simp [getStockTokenValue, hq, hname, hsym, tokenValueOf, hne, contractDetailValue, he, h1,
        h2, h3, hder, hO]
    · intro he h1 h2 h3
      simp [getStockTokenValue, hq, hname, hsym, tokenValueOf, hne, contractDetailValue, he, h1,
        h2, h3, hder, hO]

theorem GoResult.bind_eq_ok {α β : Type} (x : GoResult α) (f : α → GoResult β) (y : β)
    (h : (x >>= f) = .ok y) : ∃ a, x = .ok a ∧ f a = .ok y := by
  cases x with
  | ok a => exact ⟨a, rfl, h⟩
  | err e => cases h
  | panic => cases h

theorem tokenIds_eq_ok (b : BreezeInstance) (name token quoteId depthId : String) (q d : Bool)
    (h : tokenIds b name token q d = .ok (quoteId, depthId)) :
    token ≠ "" ∧ quoteId = (if q = true then name ++ "1!" ++ token else "") ∧
      depthId = (if d = true then name ++ "2!" ++ token else "") := by
  unfold tokenIds at h
  split at h
  · cases h
  · rename_i hne
    injection h with h
    injection h with h1 h2
    exact ⟨hne, h1.symm, h2.symm⟩

theorem tokenExchange_cases (b : BreezeInstance) (ex name : String)
    (h : Assoc.get? (tokenExchangeCodeList b) ex = some name) :
    (ex = "BSE" ∧ name = "1.") ∨ (ex = "NSE" ∧ name = "4.") ∨ (ex = "NDX" ∧ name = "13.") ∨
      (ex = "MCX" ∧ name = "6.") ∨ (ex = "NFO" ∧ name = "4.") ∨
      (ex = "BFO" ∧ name = (if b.Interval = "" then "8." else "2.")) := by
  simp only [tokenExchangeCodeList, Assoc.get?] at h
  split_ifs at h <;> simp_all

/-- Claim C7: whenever `getStockTokenValue` succeeds, the quote id is `<id>.1!<token>`
if quotes were requested and empty otherwise, and the depth id is
`<id>.2!<token>` if depth was requested and empty otherwise, where the token is
the non-empty one read in the partition of the exchange under the key of the
instrument, and the id is 1 for BSE, 4 for NSE and NFO, 13 for NDX, 6 for MCX,
and for BFO 8 when the instance has no interval and 2 when it has one. -/
theorem C7_subscription_channel_ids (b : BreezeInstance)
    (exchangeCode stockCode productType expiryDate strikePrice right quoteId depthId : String)
    (q d : Bool)
    (h : getStockTokenValue b exchangeCode stockCode productType expiryDate strikePrice right
      q d = .ok (quoteId, depthId)) :
    ∃ id token key i,
      ((exchangeCode = "BSE" ∧ id = "1" ∧ key = stockCode) ∨
       (exchangeCode = "NSE" ∧ id = "4" ∧ key = stockCode) ∨
       (exchangeCode = "NDX" ∧ id = "13" ∧
         contractDetailValue b stockCode productType expiryDate strikePrice right = .ok key) ∨
       (exchangeCode = "MCX" ∧ id = "6" ∧
         contractDetailValue b stockCode productType expiryDate strikePrice right = .ok key) ∨
       (exchangeCode = "NFO" ∧ id = "4" ∧
         contractDetailValue b stockCode productType expiryDate strikePrice right = .ok key) ∨
       (exchangeCode = "BFO" ∧ id = (if b.Interval = "" then "8" else "2") ∧
         contractDetailValue b stockCode productType expiryDate strikePrice right = .ok key)) ∧
      Assoc.get? partitionIndex exchangeCode = some i ∧
      stockScript b i key = .ok token ∧ token ≠ "" ∧
      quoteId = (if q = true then id ++ ".1!" ++ token else "") ∧
      depthId = (if d = true then id ++ ".2!" ++ token else "") := by
  unfold getStockTokenValue at h
  split at h
  · cases h
  · split at h
    · cases h
    · rename_i name hname
      split at h
      · cases h
      · obtain ⟨token, htv, hids⟩ := GoResult.bind_eq_ok _ _ _ h
        obtain ⟨hne, hq, hd⟩ := tokenIds_eq_ok b name token quoteId depthId q d hids
        rcases tokenExchange_cases b exchangeCode name hname with
          ⟨rfl, rfl⟩ | ⟨rfl, rfl⟩ | ⟨rfl, rfl⟩ | ⟨rfl, rfl⟩ | ⟨rfl, rfl⟩ | ⟨rfl, rfl⟩
        · refine ⟨"1", token, stockCode, 0, Or.inl ⟨rfl, rfl, rfl⟩, rfl, ?_, hne, ?_, ?_⟩
          · simpa [tokenValueOf] using htv
          · rw [hq]; rfl
          · rw [hd]; rfl
        · refine ⟨"4", token, stockCode, 1, Or.inr (Or.inl ⟨rfl, rfl, rfl⟩), rfl, ?_, hne, ?_, ?_⟩
          · simpa [tokenValueOf] using htv
          · rw [hq]; rfl
          · rw [hd]; rfl
        · simp only [tokenValueOf] at htv
          obtain ⟨key, hkey, hder⟩ := GoResult.bind_eq_ok _ _ _ htv
          refine ⟨"13", token, key, 2, Or.inr (Or.inr (Or.inl ⟨rfl, rfl, hkey⟩)), rfl, ?_, hne,
            ?_, ?_⟩
          · simpa [derivativeToken] using hder
          · rw [hq]; rfl
          · rw [hd]; rfl
        · simp only [tokenValueOf] at htv
          obtain ⟨key, hkey, hder⟩ := GoResult.bind_eq_ok _ _ _ htv
          refine ⟨"6", token, key, 3, Or.inr (Or.inr (Or.inr (Or.inl ⟨rfl, rfl, hkey⟩))), rfl,
            ?_, hne, ?_, ?_⟩
          · simpa [derivativeToken] using hder
          · rw [hq]; rfl
          · rw [hd]; rfl
        · simp only [tokenValueOf] at htv
          obtain ⟨key, hkey, hder⟩ := GoResult.bind_eq_ok _ _ _ htv
          refine ⟨"4", token, key, 4,
            Or.inr (Or.inr (Or.inr (Or.inr (Or.inl ⟨rfl, rfl, hkey⟩)))), rfl, ?_, hne, ?_, ?_⟩
          · simpa [derivativeToken] using hder
          · rw [hq]; rfl
          · rw [hd]; rfl
        · simp only [tokenValueOf] at htv
          obtain ⟨key, hkey, hder⟩ := GoResult.bind_eq_ok _ _ _ htv
          refine ⟨if b.Interval = "" then "8" else "2", token, key, 5,
            Or.inr (Or.inr (Or.inr (Or.inr (Or.inr ⟨rfl, rfl, hkey⟩)))), rfl, ?_, hne, ?_, ?_⟩
          · simpa [derivativeToken] using hder
          · rw [hq]; split_ifs <;> rfl
          · rw [hd]; split_ifs <;> rfl

/-- Claim C1, evaluated on the code: the NFO future `FUT-NIFTY-28-Mar-2024` is
registered under the token `53001`, `getStockTokenValue` builds its key and
returns the quote id `4.1!53001`, and `GetDataFromStockTokenValue` on that id
panics at `stockData[0:5]` instead of recovering the product type and expiry. -/
theorem C1_registered_future_decode_panics :
    stockScript nfoFutureInstance 4 "FUT-NIFTY-28-Mar-2024" = .ok "53001" ∧
    tokenScript nfoFutureInstance 4 "53001" = .ok (some ["FUT-NIFTY-28-Mar-2024", "NIFTY"]) ∧
    getStockTokenValue nfoFutureInstance "NFO" "NIFTY" "futures" "28-Mar-2024" "" "" true false =
      .ok ("4.1!53001", "") ∧
    GetDataFromStockTokenValue nfoFutureInstance "4.1!53001" = .panic :=
  ⟨rfl, rfl, rfl, rfl⟩

/-- Claim C2 fails outside the cash partitions. The BFO future
`FUT-SENSEX-28-Mar-2024` gets the ids `8.1!870001` and `8.2!870001`, and
`GetDataFromStockTokenValue` answers both with the unknown-exchange error, as its
exchange table has no entry for the id 8. The NFO future of
`sharedTokenInstance` gets the id `4.1!2885`, which is resolved in the NSE
partition, consulted first, to the instrument `RELIANCE INDUSTRIES`. -/
theorem C2_reverse_fails_for_bfo_and_shared_token :
    (stockScript bfoFutureInstance 5 "FUT-SENSEX-28-Mar-2024" = .ok "870001" ∧
     tokenScript bfoFutureInstance 5 "870001" =
       .ok (some ["FUT-SENSEX-28-Mar-2024", "SENSEX"]) ∧
     getStockTokenValue bfoFutureInstance "BFO" "SENSEX" "futures" "28-Mar-2024" "" "" true true =
       .ok ("8.1!870001", "8.2!870001") ∧
     GetDataFromStockTokenValue bfoFutureInstance "8.1!870001" =
       .err (subscribeException bfoFutureInstance "WRONG_EXCHANGE_CODE_EXCEPTION") ∧
     GetDataFromStockTokenValue bfoFutureInstance "8.2!870001" =
       .err (subscribeException bfoFutureInstance "WRONG_EXCHANGE_CODE_EXCEPTION")) ∧
    (stockScript sharedTokenInstance 4 "FUT-NIFTY-28-Mar-2024" = .ok "2885" ∧
     tokenScript sharedTokenInstance 4 "2885" =
       .ok (some ["FUT-NIFTY-28-Mar-2024", "NIFTY"]) ∧
     getStockTokenValue sharedTokenInstance "NFO" "NIFTY" "futures" "28-Mar-2024" "" ""
       true false = .ok ("4.1!2885", "") ∧
     GetDataFromStockTokenValue sharedTokenInstance "4.1!2885" =
       .ok [("stock_name", .str "RELIANCE INDUSTRIES")]) :=
  ⟨⟨rfl, rfl, rfl, rfl, rfl⟩, ⟨rfl, rfl, rfl, rfl⟩⟩

/-- Claim C9, evaluated on the code: the token `43567` is absent from the NSE
partition and present in the NFO partition, and the stream symbol `4.1!43567`
makes `GetDataFromStockTokenValue` panic at `stockData[0:5]` instead of returning
the metadata of the NFO option; the token `2885` of the NSE partition resolves to
its display name alone. -/
theorem C9_nfo_fallback_panics :
    tokenScript nseNfoInstance 1 "43567" = .ok none ∧
    tokenScript nseNfoInstance 4 "43567" =
      .ok (some ["OPT-NIFTY-28-Mar-2024-22000-CE", "NIFTY"]) ∧
    GetDataFromStockTokenValue nseNfoInstance "4.1!43567" = .panic ∧
    GetDataFromStockTokenValue nseNfoInstance "4.1!2885" =
      .ok [("stock_name", .str "RELIANCE INDUSTRIES")] :=
  ⟨rfl, rfl, rfl, rfl⟩

/-- A registry entry of fewer than five elements, such as the pairs that
`getStockScriptList` stores, makes the derivative branch of
`GetDataFromStockTokenValue` panic. -/
theorem stockDataRecord_short (stockData : List String) (exchangeCodeName : String)
    (hex : exchangeCodeName ≠ "NSE" ∧ exchangeCodeName ≠ "BSE") (hlen : stockData.length < 5) :
    stockDataRecord stockData exchangeCodeName = .panic := by
  unfold stockDataRecord
  have h5 : ¬ (5 ≤ stockData.length) := by omega
  cases h1 : idx stockData 1 with
  | err e => simp [idx] at h1; split at h1 <;> cases h1
  | panic => rfl
  | ok name =>
    cases h0 : idx stockData 0 with
    | err e => simp [idx] at h0; split at h0 <;> cases h0
    | panic => simp [hex]
    | ok composite =>
      cases hp : idx (goSplit composite '-') 0 with
      | err e => simp [idx] at hp; split at hp <;> cases hp
      | panic => simp [hex, hp]
      | ok productType => simp [hex, hp, sliceTo, h5]

/-- Claim C2, amended: for the BSE and the NSE partition and every instrument
registered in it with a non-empty symbol and a non-empty token free of `.` and
`!`, `getStockTokenValue` succeeds and each id it was asked for (quote, depth)
is resolved by `GetDataFromStockTokenValue` to the display name of that
instrument. -/
theorem C2_cash_lookup_then_reverse (b : BreezeInstance)
    (exchangeCode stockCode token name productType expiryDate strikePrice right : String)
    (q d : Bool) (i : Nat)
    (hex : (exchangeCode = "BSE" ∧ i = 0) ∨ (exchangeCode = "NSE" ∧ i = 1))
    (hreq : q = true ∨ d = true)
    (hsym : stockCode ≠ "")
    (hfwd : stockScript b i stockCode = .ok token)
    (hrev : tokenScript b i token = .ok (some [stockCode, name]))
    (hne : token ≠ "")
    (hdot : '.' ∉ token.data) (hbang : '!' ∉ token.data) :
    ∃ quoteId depthId,
      getStockTokenValue b exchangeCode stockCode productType expiryDate strikePrice right q d =
        .ok (quoteId, depthId) ∧
      (q = true → GetDataFromStockTokenValue b quoteId = .ok [("stock_name", .str name)]) ∧
      (d = true → GetDataFromStockTokenValue b depthId = .ok [("stock_name", .str name)]) := by
  have hq : (!q && !d) = false := by rcases hreq with h | h <;> simp [h]
  have key : ∀ (id suffix exname : String), '.' ∉ id.data →
      ('.' ∉ suffix.data ∧ '!' ∉ suffix.data) →
      Assoc.get? dataExchangeCodeList id = some exname →
      lookupStockData b exname token = .ok (some [stockCode, name], exname) →
      (exname = "NSE" ∨ exname = "BSE") →
      GetDataFromStockTokenValue b (id ++ "." ++ suffix ++ "!" ++ token) =
        .ok [("stock_name", .str name)] := by
    intro id suffix exname h1 h2 h3 h4 h5
    rw [getData_streamSymbol b id suffix token h1 h2 ⟨hdot, hbang⟩]
    rcases h5 with rfl | rfl <;> simp [resolveStockToken, h3, h4] <;> rfl
  rcases hex with ⟨rfl, rfl⟩ | ⟨rfl, rfl⟩
  · refine ⟨if q = true then "1" ++ "." ++ "1" ++ "!" ++ token else "",
      if d = true then "1" ++ "." ++ "2" ++ "!" ++ token else "", ?_, ?_, ?_⟩
    · simp [getStockTokenValue, hq, tokenExchangeCodeList, Assoc.get?, hsym, tokenValueOf, hfwd,
        tokenIds, hne]
    · intro hq1
      rw [if_pos hq1]
      exact key "1" "1" "BSE" (by decide) (by decide) rfl (by simp [lookupStockData, hrev])
        (Or.inr rfl)
    · intro hd1
      rw [if_pos hd1]
      exact key "1" "2" "BSE" (by decide) (by decide) rfl (by simp [lookupStockData, hrev])
        (Or.inr rfl)
  · refine ⟨if q = true then "4" ++ "." ++ "1" ++ "!" ++ token else "",
      if d = true then "4" ++ "." ++ "2" ++ "!" ++ token else "", ?_, ?_, ?_⟩
    · simp [getStockTokenValue, hq, tokenExchangeCodeList, Assoc.get?, hsym, tokenValueOf, hfwd,
        tokenIds, hne]
    · intro hq1
      rw [if_pos hq1]
      exact key "4" "1" "NSE" (by decide) (by decide) rfl (by simp [lookupStockData, hrev])
        (Or.inl rfl)
    · intro hd1
      rw [if_pos hd1]
      exact key "4" "2" "NSE" (by decide) (by decide) rfl (by simp [lookupStockData, hrev])
        (Or.inl rfl)

/-- Witness of `C2_cash_lookup_then_reverse`: `RELIANCE` in the NSE partition. -/
theorem C2_cash_lookup_then_reverse_witness :
    ∃ quoteId depthId,
      getStockTokenValue nseNfoInstance "NSE" "RELIANCE" "" "" "" "" true true =
        .ok (quoteId, depthId) ∧
      (true = true → GetDataFromStockTokenValue nseNfoInstance quoteId =
        .ok [("stock_name", .str "RELIANCE INDUSTRIES")]) ∧
      (true = true → GetDataFromStockTokenValue nseNfoInstance depthId =
        .ok [("stock_name", .str "RELIANCE INDUSTRIES")]) :=
  C2_cash_lookup_then_reverse nseNfoInstance "NSE" "RELIANCE" "2885" "RELIANCE INDUSTRIES"
    "" "" "" "" true true 1 (Or.inr ⟨rfl, rfl⟩) (Or.inl rfl) (by decide) rfl rfl (by decide)
    (by decide) (by decide)

/-- Witness of `C6_getStockTokenValue_validation`: the NFO future of
`nfoFutureInstance` is read under the key `FUT-NIFTY-28-Mar-2024`. -/
theorem C6_getStockTokenValue_validation_witness :
    getStockTokenValue nfoFutureInstance "NFO" "NIFTY" "futures" "28-Mar-2024" "" "" true false =
      (do let t ← stockScript nfoFutureInstance 4 ("FUT-" ++ "NIFTY" ++ "-" ++ "28-Mar-2024")
          tokenIds nfoFutureInstance "4." t true false) :=
  ((C6_getStockTokenValue_validation nfoFutureInstance "NFO" "NIFTY" "futures" "28-Mar-2024"
    "" "" "4." true false 4 (Or.inl rfl) rfl rfl (by decide)).2
      (Or.inr (Or.inr (Or.inl rfl)))).2.2.2.2.1 (by decide) rfl

/-- Witness of `C7_subscription_channel_ids`: the ids of the NFO future of
`nfoFutureInstance`. -/
theorem C7_subscription_channel_ids_witness :
    ∃ id token key i,
      (("NFO" = "BSE" ∧ id = "1" ∧ key = "NIFTY") ∨
       ("NFO" = "NSE" ∧ id = "4" ∧ key = "NIFTY") ∨
       ("NFO" = "NDX" ∧ id = "13" ∧
         contractDetailValue nfoFutureInstance "NIFTY" "futures" "28-Mar-2024" "" "" =
           .ok key) ∨
       ("NFO" = "MCX" ∧ id = "6" ∧
         contractDetailValue nfoFutureInstance "NIFTY" "futures" "28-Mar-2024" "" "" =
           .ok key) ∨
       ("NFO" = "NFO" ∧ id = "4" ∧
         contractDetailValue nfoFutureInstance "NIFTY" "futures" "28-Mar-2024" "" "" =
           .ok key) ∨
       ("NFO" = "BFO" ∧ id = (if nfoFutureInstance.Interval = "" then "8" else "2") ∧
         contractDetailValue nfoFutureInstance "NIFTY" "futures" "28-Mar-2024" "" "" =
           .ok key)) ∧
      Assoc.get? partitionIndex "NFO" = some i ∧
      stockScript nfoFutureInstance i key = .ok token ∧ token ≠ "" ∧
      "4.1!53001" = (if true = true then id ++ ".1!" ++ token else "") ∧
      "" = (if false = true then id ++ ".2!" ++ token else "") :=
  C7_subscription_channel_ids nfoFutureInstance "NFO" "NIFTY" "futures" "28-Mar-2024" "" ""
    "4.1!53001" "" true false rfl

@[simp] theorem idx_isErr {α : Type} (xs : List α) (i : Nat) : (idx xs i).isErr = false := by
  unfold idx
  split <;> rfl

@[simp] theorem tuxToUserValue_isErr (b : BreezeInstance) (table : String) (data : List GoVal)
    (i : Nat) : (tuxToUserValue b table data i).isErr = false := by
  unfold tuxToUserValue
  cases h : idx data i with
  | err e => have := idx_isErr data i; simp [h, GoResult.isErr] at this
  | panic => rfl
  | ok v => cases v <;> rfl

theorem assign_panic (entries : List (String × GoResult GoVal)) (r : Record)
    (hno : ∀ e ∈ entries, e.2.isErr = false) (hp : ∃ e ∈ entries, e.2 = .panic) :
    assign entries r = .panic := by
  induction entries generalizing r with
  | nil => obtain ⟨e, he, -⟩ := hp; cases he
  | cons kv rest ih =>
    obtain ⟨k, v⟩ := kv
    cases v with
    | panic => rfl
    | err e => have := hno (k, .err e) (by simp); simp [GoResult.isErr] at this
    | ok x =>
      have hrest : ∃ e ∈ rest, e.2 = .panic := by
        obtain ⟨e, he, hpe⟩ := hp
        rcases List.mem_cons.1 he with h | h
        · subst h; cases hpe
        · exact ⟨e, h, hpe⟩
      exact ih (Assoc.set r k x) (fun e he => hno e (List.mem_cons_of_mem _ he)) hrest

theorem idx_panic {α : Type} (xs : List α) (i : Nat) (h : xs.length ≤ i) : idx xs i = .panic := by
  unfold idx
  rw [List.get?_eq_none.2 h]

/-- Claim C5, evaluated on the code: every flat frame of length 42 or 43 makes
`parseData` panic, since both order branches read `data[46]`; no order record is
built and no code is translated. -/
theorem C5_order_frames_panic (b : BreezeInstance) (first : GoVal) (rest : List GoVal)
    (hflat : isFlatHead first = true)
    (hlen : (first :: rest).length = 42 ∨ (first :: rest).length = 43) :
    parseData b (first :: rest) = .panic := by
  have h46 : idx (first :: rest) 46 = .panic := idx_panic _ _ (by rcases hlen with h | h <;> omega)
  rcases hlen with h | h
  · have : assign (orderEntriesV1 b (first :: rest)) [] = .panic := by
      apply assign_panic
      · simp [orderEntriesV1]
      · exact ⟨("systemPartnerCode", idx (first :: rest) 46), by simp [orderEntriesV1], h46⟩
    simp only [parseData, hflat, h, this]
    rfl
  · have : assign (orderEntriesV2 b (first :: rest)) [] = .panic := by
      apply assign_panic
      · simp [orderEntriesV2]
      · exact ⟨("systemPartnerCode", idx (first :: rest) 46), by simp [orderEntriesV2], h46⟩
    simp only [parseData, hflat, h, this]
    rfl

/-- Claim C4, evaluated on the code: `parseData` panics on the frame `[5]` (the
unchecked `data[0].(string)`), on the one-element quote frame `["4!1"]` (index
out of range) and on a depth frame whose rows are a decoded JSON array (the
assertion `data[2].([][]string)`). -/
theorem C4_parseData_panics (b : BreezeInstance) :
    parseData b [.num 5] = .panic ∧
    parseData b [.str "4!1"] = .panic ∧
    parseData b [.str "4!2", .num 1699999999,
      .arr [.arr [.str "100.5", .str "10", .str "100.6", .str "20"]]] = .panic :=
  ⟨rfl, rfl, rfl⟩

/-- Witness of `C5_order_frames_panic`: a flat frame of 42 strings. -/
theorem C5_order_frames_panic_witness :
    isFlatHead (.str "N") = true ∧ orderFrame42.length = 42 ∧
      parseData {} orderFrame42 = .panic :=
  ⟨by decide, by decide,
    C5_order_frames_panic {} (.str "N") (List.replicate 41 (.str "N")) (by decide)
      (Or.inl (by decide))⟩

theorem Assoc.get?_set_ne {V : Type} (m : List (String × V)) (k k2 : String) (v : V)
    (h : k ≠ k2) : Assoc.get? (Assoc.set m k v) k2 = Assoc.get? m k2 := by
  induction m with
  | nil => simp [Assoc.set, Assoc.get?, h]
  | cons kv rest ih =>
    obtain ⟨k1, v1⟩ := kv
    by_cases h1 : k1 = k
    · subst h1
      simp [Assoc.set, Assoc.get?, h]
    · by_cases h2 : k1 = k2
      · subst h2
        simp [Assoc.set, Assoc.get?, h1]
      · simp [Assoc.set, Assoc.get?, h1, h2, ih]

theorem get?_exchangeLabel (exchange : String) (n : Nat) (d : Record) (k : String)
    (h : "exchange" ≠ k) : Assoc.get? (exchangeLabel exchange n d) k = Assoc.get? d k := by
  unfold exchangeLabel
  split_ifs <;> simp [Assoc.get?_set_ne _ _ _ _ h]

theorem goContains_append_bang (s t : String) : goContains (s ++ "!" ++ t) '!' = true := by
  simp [goContains, String.data_append]

theorem parseData_quote (b : BreezeInstance) (exchangeId : String) (rest : List GoVal)
    (hid : '!' ∉ exchangeId.data) (h6 : exchangeId ≠ "6") :
    parseData b (.str (exchangeId ++ "!1") :: rest) =
      (do let dataDict ← quoteDict (.str (exchangeId ++ "!1") :: rest)
          pure (some (exchangeLabel exchangeId (rest.length + 1) dataDict))) := by
  have e : exchangeId ++ "!" ++ "1" = exchangeId ++ "!1" := by
    rw [String.append_assoc]; rfl
  have hflat : isFlatHead (.str (exchangeId ++ "!1")) = false := by
    have h := goContains_append_bang exchangeId "1"
    rw [e] at h
    simp [isFlatHead, h]
  have hsplit : goSplit (exchangeId ++ "!1") '!' = [exchangeId, "1"] := by
    rw [← e]
    exact goSplit_bang exchangeId "1" hid (by decide)
  simp only [parseData, hflat]
  simp [parseTick, idx, asString, hsplit, h6]
  cases quoteDict (.str (exchangeId ++ "!1") :: rest) <;> rfl

theorem quoteHeader_ok (a0 a1 a2 a3 a4 a5 a6 a7 a8 a9 a10 a11 : GoVal) (tail : List GoVal) :
    assign (quoteHeader
        (a0 :: a1 :: a2 :: a3 :: a4 :: a5 :: a6 :: a7 :: a8 :: a9 :: a10 :: a11 :: tail)) [] =
      .ok
        [("symbol", a0), ("open", a1), ("last", a2), ("high", a3), ("low", a4), ("change", a5),
        ("bPrice", a6), ("bQty", a7), ("sPrice", a8), ("sQty", a9), ("ltq", a10), ("avgPrice",
        a11), ("quotes", .str "Quotes Data")] := by
  simp [quoteHeader, assign, idx, Assoc.set]

theorem quoteDict_21 (a0 a1 a2 a3 a4 a5 a6 a7 a8 a9 a10 a11 a12 a13 a14 a15 a16 a17 a18 a20 : GoVal) (x : ℚ) :
    quoteDict
      [a0, a1, a2, a3, a4, a5, a6, a7, a8, a9, a10, a11, a12, a13, a14, a15, a16, a17, a18,
      .num x, a20] =
      .ok
        [("symbol", a0), ("open", a1), ("last", a2), ("high", a3), ("low", a4), ("change", a5),
        ("bPrice", a6), ("bQty", a7), ("sPrice", a8), ("sQty", a9), ("ltq", a10), ("avgPrice",
        a11), ("quotes", .str "Quotes Data"), ("ttq", a12), ("totalBuyQt", a13), ("totalSellQ",
        a14), ("ttv", a15), ("trend", a16), ("lowerCktLm", a17), ("upperCktLm", a18), ("ltt",
        .time (int64OfFloat x)), ("close", a20)] := by
  rw [quoteDict, quoteHeader_ok]
  simp [quoteEntries21, assign, idx, Assoc.set, unixTime, asFloat]

theorem quoteDict_23 (a0 a1 a2 a3 a4 a5 a6 a7 a8 a9 a10 a11 a12 a13 a14 a15 a16 a17 a18 a19 a20 a22 : GoVal) (x : ℚ) :
    quoteDict
      [a0, a1, a2, a3, a4, a5, a6, a7, a8, a9, a10, a11, a12, a13, a14, a15, a16, a17, a18, a19,
      a20, .num x, a22] =
      .ok
        [("symbol", a0), ("open", a1), ("last", a2), ("high", a3), ("low", a4), ("change", a5),
        ("bPrice", a6), ("bQty", a7), ("sPrice", a8), ("sQty", a9), ("ltq", a10), ("avgPrice",
        a11), ("quotes", .str "Quotes Data"), ("OI", a12), ("CHNGOI", a13), ("ttq", a14),
        ("totalBuyQt", a15), ("totalSellQ", a16), ("ttv", a17), ("trend", a18), ("lowerCktLm",
        a19), ("upperCktLm", a20), ("ltt", .time (int64OfFloat x)), ("close", a22)] := by
  rw [quoteDict, quoteHeader_ok]
  simp [quoteEntries23, assign, idx, Assoc.set, unixTime, asFloat]

theorem quoteDict_other (a0 a1 a2 a3 a4 a5 a6 a7 a8 a9 a10 a11 : GoVal) (tail : List GoVal)
    (h21 : tail.length ≠ 9) (h23 : tail.length ≠ 11) :
    quoteDict (a0 :: a1 :: a2 :: a3 :: a4 :: a5 :: a6 :: a7 :: a8 :: a9 :: a10 :: a11 :: tail) =
      .ok
        [("symbol", a0), ("open", a1), ("last", a2), ("high", a3), ("low", a4), ("change", a5),
        ("bPrice", a6), ("bQty", a7), ("sPrice", a8), ("sQty", a9), ("ltq", a10), ("avgPrice",
        a11), ("quotes", .str "Quotes Data")] := by
  rw [quoteDict, quoteHeader_ok]
  simp [h21, h23]

/-- Claim C3, amended: for every frame of at least 12 elements whose first element
is `<exchangeId>!1` with an exchange id other than 6 and free of `!`, and whose
element 19 (for 21 elements) or 21 (for 23 elements) is a number, `parseData`
returns a record with the 12 header fields from elements 0..11; for 21 elements
it adds ttq, totalBuyQt, totalSellQ, ttv, trend, lowerCktLm, upperCktLm from
elements 12..18, close from element 20 and ltt, the calendar time of the epoch
seconds in element 19; for 23 elements it adds OI and CHNGOI from elements 12
and 13, the same seven fields from elements 14..20, close from element 22 and
ltt from element 21. The frame of the concrete scenario decodes with exchange
`NSE Equity`, ttq 1000, close 100 and ltt the calendar time of epoch 1699999999. -/
theorem C3_quote_frame_fields (b : BreezeInstance) :
    (∀ (exchangeId : String) (data : List GoVal),
      '!' ∉ exchangeId.data → exchangeId ≠ "6" →
      data.get? 0 = some (.str (exchangeId ++ "!1")) →
      12 ≤ data.length →
      (data.length = 21 → ∃ x, data.get? 19 = some (.num x)) →
      (data.length = 23 → ∃ x, data.get? 21 = some (.num x)) →
      ∃ r, parseData b data = .ok (some r) ∧
        carries r data quoteHeaderFields ∧
        (data.length = 21 → carries r data equityFields ∧
          ∃ x, data.get? 19 = some (.num x) ∧
            Assoc.get? r "ltt" = some (.time (int64OfFloat x))) ∧
        (data.length = 23 → carries r data derivativeFields ∧
          ∃ x, data.get? 21 = some (.num x) ∧
            Assoc.get? r "ltt" = some (.time (int64OfFloat x)))) ∧
    (∃ r, parseData b equityFrame = .ok (some r) ∧
      Assoc.get? r "exchange" = some (.str "NSE Equity") ∧
      Assoc.get? r "ttq" = some (.num 1000) ∧
      Assoc.get? r "close" = some (.num 100) ∧
      Assoc.get? r "ltt" = some (.time 1699999999)) := by
  refine ⟨?_, ⟨_, rfl, rfl, rfl, rfl, rfl⟩⟩
  intro exchangeId data hid h6 hhead hlen h21 h23
  rcases data with _ | ⟨a0, _ | ⟨a1, _ | ⟨a2, _ | ⟨a3, _ | ⟨a4, _ | ⟨a5, _ | ⟨a6, _ | ⟨a7, _ | ⟨a8, _ | ⟨a9, _ | ⟨a10, _ | ⟨a11, tail⟩⟩⟩⟩⟩⟩⟩⟩⟩⟩⟩⟩ <;>
    first
      | (exfalso; simp only [List.length_cons, List.length_nil] at hlen; omega)
      | skip
  simp only [List.get?_cons_zero, Option.some.injEq] at hhead
  subst hhead
  rw [parseData_quote b exchangeId _ hid h6]
  by_cases c21 : tail.length = 9
  · have hx := h21 (by simp [c21])
    rcases tail with _ | ⟨a12, _ | ⟨a13, _ | ⟨a14, _ | ⟨a15, _ | ⟨a16, _ | ⟨a17, _ | ⟨a18, _ | ⟨a19, _ | ⟨a20, _ | ⟨y, tail2⟩⟩⟩⟩⟩⟩⟩⟩⟩⟩ <;>
      first
        | (exfalso; simp only [List.length_cons, List.length_nil] at c21; omega)
        | skip
    obtain ⟨x, hx⟩ := hx
    simp only [List.get?_cons_succ, List.get?_cons_zero, Option.some.injEq] at hx
    subst hx
    rw [quoteDict_21]
    refine ⟨_, rfl, ?_, ?_, ?_⟩
    · intro p hp
      simp only [quoteHeaderFields, List.mem_cons, List.mem_singleton, List.not_mem_nil,
        or_false] at hp
      rcases hp with rfl | rfl | rfl | rfl | rfl | rfl | rfl | rfl | rfl | rfl | rfl | rfl <;>
        exact ⟨_, rfl, by rw [get?_exchangeLabel _ _ _ _ (by decide)]; simp [Assoc.get?]⟩
    · intro _
      refine ⟨?_, x, rfl, by rw [get?_exchangeLabel _ _ _ _ (by decide)]; simp [Assoc.get?]⟩
      intro p hp
      simp only [equityFields, List.mem_cons, List.mem_singleton, List.not_mem_nil,
        or_false] at hp
      rcases hp with rfl | rfl | rfl | rfl | rfl | rfl | rfl | rfl <;>
        exact ⟨_, rfl, by rw [get?_exchangeLabel _ _ _ _ (by decide)]; simp [Assoc.get?]⟩
    · intro h
      simp at h
  · by_cases c23 : tail.length = 11
    · have hx := h23 (by simp [c23])
      rcases tail with _ | ⟨a12, _ | ⟨a13, _ | ⟨a14, _ | ⟨a15, _ | ⟨a16, _ | ⟨a17, _ | ⟨a18, _ | ⟨a19, _ | ⟨a20, _ | ⟨a21, _ | ⟨a22, _ | ⟨y, tail2⟩⟩⟩⟩⟩⟩⟩⟩⟩⟩⟩⟩ <;>
        first
          | (exfalso; simp only [List.length_cons, List.length_nil] at c23; omega)
          | skip
      obtain ⟨x, hx⟩ := hx
      simp only [List.get?_cons_succ, List.get?_cons_zero, Option.some.injEq] at hx
      subst hx
      rw [quoteDict_23]
      refine ⟨_, rfl, ?_, ?_, ?_⟩
      · intro p hp
        simp only [quoteHeaderFields, List.mem_cons, List.mem_singleton, List.not_mem_nil,
          or_false] at hp
        rcases hp with rfl | rfl | rfl | rfl | rfl | rfl | rfl | rfl | rfl | rfl | rfl | rfl <;>
          exact ⟨_, rfl, by rw [get?_exchangeLabel _ _ _ _ (by decide)]; simp [Assoc.get?]⟩
      · intro h
        simp at h
      · intro _
        refine ⟨?_, x, rfl, by rw [get?_exchangeLabel _ _ _ _ (by decide)]; simp [Assoc.get?]⟩
        intro p hp
        simp only [derivativeFields, List.mem_cons, List.mem_singleton, List.not_mem_nil,
          or_false] at hp
        rcases hp with rfl | rfl | rfl | rfl | rfl | rfl | rfl | rfl | rfl | rfl <;>
          exact ⟨_, rfl, by rw [get?_exchangeLabel _ _ _ _ (by decide)]; simp [Assoc.get?]⟩
    · rw [quoteDict_other _ _ _ _ _ _ _ _ _ _ _ _ _ c21 c23]
      refine ⟨_, rfl, ?_, ?_, ?_⟩
      · intro p hp
        simp only [quoteHeaderFields, List.mem_cons, List.mem_singleton, List.not_mem_nil,
          or_false] at hp
        rcases hp with rfl | rfl | rfl | rfl | rfl | rfl | rfl | rfl | rfl | rfl | rfl | rfl <;>
          exact ⟨_, rfl, by rw [get?_exchangeLabel _ _ _ _ (by decide)]; simp [Assoc.get?]⟩
      · intro h
        simp only [List.length_cons] at h
        omega
      · intro h
        simp only [List.length_cons] at h
        omega

/-- Claim C3 fails for the exchange id 6: the 23-element frame starting `6!1` is
decoded by the commodity branch, and its record has none of the quote fields
`open`, `OI`, `close`. -/
theorem C3_exchange_6_is_not_a_quote :
    commodityQuoteFrame.length = 23 ∧
    commodityQuoteFrame.get? 0 = some (.str ("6" ++ "!1")) ∧
    ∃ r, parseData {} commodityQuoteFrame = .ok (some r) ∧
      Assoc.get? r "open" = none ∧ Assoc.get? r "OI" = none ∧ Assoc.get? r "close" = none ∧
      Assoc.get? r "exchange" = some (.str "Commodity") :=
  ⟨rfl, rfl, _, rfl, rfl, rfl, rfl, rfl⟩

/-- Witness of `C3_quote_frame_fields`: the frame of the concrete scenario. -/
theorem C3_quote_frame_fields_witness :
    ∃ r, parseData {} equityFrame = .ok (some r) ∧
      carries r equityFrame quoteHeaderFields ∧
      (equityFrame.length = 21 → carries r equityFrame equityFields ∧
        ∃ x, equityFrame.get? 19 = some (.num x) ∧
          Assoc.get? r "ltt" = some (.time (int64OfFloat x))) ∧
      (equityFrame.length = 23 → carries r equityFrame derivativeFields ∧
        ∃ x, equityFrame.get? 21 = some (.num x) ∧
          Assoc.get? r "ltt" = some (.time (int64OfFloat x))) :=
  (C3_quote_frame_fields {}).1 "4" equityFrame (by decide) (by decide) rfl (by decide)
    (fun _ => ⟨1699999999, rfl⟩) (fun h => absurd h (by decide))

/-! ## Watch sets -/

theorem Assoc.keys_set {V : Type} (m : List (String × V)) (k : String) (v : V) :
    (Assoc.keys (Assoc.set m k v)).toFinset = insert k (Assoc.keys m).toFinset := by
  induction m with
  | nil => simp [Assoc.set, Assoc.keys]
  | cons kv rest ih =>
    obtain ⟨k1, v1⟩ := kv
    by_cases h : k1 = k
    · subst h
      simp [Assoc.set, Assoc.keys]
    · have ih2 : (List.map Prod.fst (Assoc.set rest k v)).toFinset =
          insert k (List.map Prod.fst rest).toFinset := ih
      simp [Assoc.set, Assoc.keys, h, ih2, Finset.Insert.comm]

theorem Assoc.keys_erase {V : Type} (m : List (String × V)) (k : String) :
    (Assoc.keys (Assoc.erase m k)).toFinset = (Assoc.keys m).toFinset.erase k := by
  ext x
  simp only [Assoc.keys, Assoc.erase, List.mem_toFinset, List.mem_map, List.mem_filter,
    Finset.mem_erase, decide_eq_true_eq]
  constructor
  · rintro ⟨p, ⟨hp, hne⟩, rfl⟩
    exact ⟨hne, p, hp, rfl⟩
  · rintro ⟨hne, p, hp, rfl⟩
    exact ⟨p, ⟨hp, hne⟩, rfl⟩

theorem Assoc.erase_of_not_mem {V : Type} (m : List (String × V)) (k : String)
    (h : k ∉ (Assoc.keys m).toFinset) : Assoc.erase m k = m := by
  simp only [Assoc.keys, List.mem_toFinset, List.mem_map, not_exists, not_and] at h
  simp only [Assoc.erase]
  apply List.filter_eq_self.2
  intro p hp
  simp only [decide_eq_true_eq]
  exact fun e => h p hp e

theorem Assoc.keys_foldl_set (ts : List String) (m : List (String × Bool)) :
    (Assoc.keys (ts.foldl (fun m entry => Assoc.set m entry true) m)).toFinset =
      (Assoc.keys m).toFinset ∪ ts.toFinset := by
  induction ts generalizing m with
  | nil => simp
  | cons t rest ih =>
    simp only [List.foldl_cons, ih, Assoc.keys_set, List.toFinset_cons]
    ext x
    simp only [Finset.mem_union, Finset.mem_insert]
    tauto

theorem Assoc.keys_foldl_erase (ts : List String) (m : List (String × Bool)) :
    (Assoc.keys (ts.foldl (fun m entry => Assoc.erase m entry) m)).toFinset =
      (Assoc.keys m).toFinset \ ts.toFinset := by
  induction ts generalizing m with
  | nil => simp
  | cons t rest ih =>
    simp only [List.foldl_cons, ih, Assoc.keys_erase, List.toFinset_cons]
    ext x
    simp only [Finset.mem_sdiff, Finset.mem_erase, Finset.mem_insert]
    tauto

theorem toBeRemoved_nil (m : List (String × Bool)) (t : String)
    (h : t ∉ (Assoc.keys m).toFinset) :
    (Assoc.keys m).filter (fun room => roomEq room (.one t)) = [] := by
  apply List.filter_eq_nil_iff.2
  intro room hroom
  simp only [roomEq, decide_eq_true_eq]
  intro e
  subst e
  exact h (List.mem_toFinset.2 hroom)

theorem Watch_open (seb : SocketEventBreeze) (c : Conn) (data : WatchData)
    (hopen : seb.conn = some c) :
    seb.Watch data =
      .ok { seb with tokenlist := watched seb.tokenlist data,
                     conn := some (c.write (joinFrame data)) } := by
  simp only [SocketEventBreeze.Watch, hopen]

theorem Unwatch_open (seb : SocketEventBreeze) (c : Conn) (data : WatchData)
    (hopen : seb.conn = some c) :
    ∃ s, seb.Unwatch data = .ok s ∧
      s.tokenlist = unwatched seb.tokenlist data ∧
      s.ohlcstate = leftRooms seb.ohlcstate data ∧
      s.conn = some (c.write (leaveFrame data)) := by
  simp only [SocketEventBreeze.Unwatch, hopen]
  exact ⟨_, rfl, rfl, rfl, rfl⟩

/-- Claim C10: on an open connection with watch set S, `Watch(t)` yields S ∪ {t},
`Watch([t1,...,tn])` yields S ∪ {t1,...,tn}, and `Unwatch` removes exactly the
given tokens; hence from the empty set `Watch(t)` then `Unwatch(t)` gives the
empty set, after `Watch([t1,t2])` both are members, and `Unwatch` of a token in
neither set leaves both tables unchanged and hands exactly one more frame, the
leave frame of the token, to the transport. -/
theorem C10_watch_unwatch_sets (seb : SocketEventBreeze) (c : Conn) (hopen : seb.conn = some c) :
    (∀ t, ∃ s, seb.Watch (.one t) = .ok s ∧ s.watchSet = insert t seb.watchSet) ∧
    (∀ ts, ∃ s, seb.Watch (.many ts) = .ok s ∧ s.watchSet = seb.watchSet ∪ ts.toFinset) ∧
    (∀ t, ∃ s, seb.Unwatch (.one t) = .ok s ∧ s.watchSet = seb.watchSet.erase t) ∧
    (∀ ts, ∃ s, seb.Unwatch (.many ts) = .ok s ∧ s.watchSet = seb.watchSet \ ts.toFinset) ∧
    (seb.watchSet = ∅ → ∀ t, ∃ s1 s2, seb.Watch (.one t) = .ok s1 ∧
      s1.Unwatch (.one t) = .ok s2 ∧ s2.watchSet = ∅) ∧
    (∀ t1 t2, ∃ s, seb.Watch (.many [t1, t2]) = .ok s ∧ t1 ∈ s.watchSet ∧ t2 ∈ s.watchSet) ∧
    (∀ t, t ∉ seb.watchSet → t ∉ seb.roomSet →
      ∃ s, seb.Unwatch (.one t) = .ok s ∧ s.tokenlist = seb.tokenlist ∧
        s.ohlcstate = seb.ohlcstate ∧ s.frames = seb.frames ++ [leaveFrame (.one t)]) := by
  refine ⟨?_, ?_, ?_, ?_, ?_, ?_, ?_⟩
  · intro t
    exact ⟨_, Watch_open seb c _ hopen,
      by simp [SocketEventBreeze.watchSet, watched, Assoc.keys_set]⟩
  · intro ts
    exact ⟨_, Watch_open seb c _ hopen,
      by simp [SocketEventBreeze.watchSet, watched, Assoc.keys_foldl_set]⟩
  · intro t
    obtain ⟨s, hs, htl, -, -⟩ := Unwatch_open seb c (.one t) hopen
    exact ⟨s, hs, by simp [SocketEventBreeze.watchSet, htl, unwatched, Assoc.keys_erase]⟩
  · intro ts
    obtain ⟨s, hs, htl, -, -⟩ := Unwatch_open seb c (.many ts) hopen
    exact ⟨s, hs, by simp [SocketEventBreeze.watchSet, htl, unwatched, Assoc.keys_foldl_erase]⟩
  · intro hempty t
    obtain ⟨s2, hs2, htl, -, -⟩ :=
      Unwatch_open { seb with tokenlist := watched seb.tokenlist (.one t),
                              conn := some (c.write (joinFrame (.one t))) }
        (c.write (joinFrame (.one t))) (.one t) rfl
    refine ⟨_, s2, Watch_open seb c _ hopen, hs2, ?_⟩
    simp only [SocketEventBreeze.watchSet] at hempty
    simp [SocketEventBreeze.watchSet, htl, watched, unwatched, Assoc.keys_erase, Assoc.keys_set,
      hempty]
  · intro t1 t2
    have hk := Assoc.keys_foldl_set [t1, t2] seb.tokenlist
    refine ⟨_, Watch_open seb c _ hopen, ?_, ?_⟩ <;>
      (simp only [SocketEventBreeze.watchSet, watched]; rw [hk]; simp)
  · intro t hw hr
    obtain ⟨s, hs, htl, hoh, hconn⟩ := Unwatch_open seb c (.one t) hopen
    refine ⟨s, hs, ?_, ?_, ?_⟩
    · rw [htl]
      exact Assoc.erase_of_not_mem _ _ hw
    · rw [hoh, leftRooms, toBeRemoved_nil seb.ohlcstate t hr, List.foldl_nil]
    · simp [SocketEventBreeze.frames, hopen, hconn, Conn.write]

/-- Witness of `C10_watch_unwatch_sets`: watching then unwatching one token on an
open channel with empty sets. -/
theorem C10_watch_unwatch_sets_witness :
    openSocket.conn = some {} ∧ openSocket.watchSet = ∅ ∧
      ∃ s1 s2, openSocket.Watch (.one "4.1!2885") = .ok s1 ∧
        s1.Unwatch (.one "4.1!2885") = .ok s2 ∧ s2.watchSet = ∅ :=
  ⟨rfl, rfl, (C10_watch_unwatch_sets openSocket {} rfl).2.2.2.2.1 rfl "4.1!2885"⟩

/-! ## Replay, absent transports and the read loop -/

theorem isJoinFrame_rewatchFrame (tokens : List String) :
    isJoinFrame (rewatchFrame tokens) = true := by
  have h : (rewatchFrame tokens).data =
      ("\x7b\"type\": \"join\"").data ++
        ((", \"tokens\": \"").data ++ ((WatchData.many tokens).format ++ "\"\x7d").data) := by
    simp only [rewatchFrame, String.data_append, ← List.append_assoc]
    rfl
  simp only [isJoinFrame, h]
  exact List.isPrefixOf_iff_prefix.2 (List.prefix_append _ _)

theorem isJoinFrame_notifyFrame : isJoinFrame notifyFrame = false := by decide

/-- Claim C11 fails for a watch set of two tokens: `Rewatch` hands the notify
frame and a single join frame to the transport. -/
theorem C11_two_tokens_one_join_frame :
    twoTokenSocket.watchSet.card = 2 ∧
    ∃ s, twoTokenSocket.Rewatch ["4.1!2885", "4.1!1594"] = .ok s ∧
      s.frames = [notifyFrame, rewatchFrame ["4.1!2885", "4.1!1594"]] ∧
      joinCount s.frames = 1 :=
  ⟨by decide, _, rfl, rfl, by decide⟩

/-- Claim C11, amended: on an open connection `Rewatch` leaves both tables as
they are and hands to the transport the notify frame followed, when the watch
set is not empty, by exactly one join frame, which lists under the key `tokens`
every tracked token once (in the order the map iteration yields them); when the
watch set is empty no join frame follows. -/
theorem C11_rewatch_one_join_frame (seb : SocketEventBreeze) (c : Conn) (order : List String)
    (hopen : seb.conn = some c) (horder : order.Perm (Assoc.keys seb.tokenlist)) :
    ∃ s, seb.Rewatch order = .ok s ∧
      s.tokenlist = seb.tokenlist ∧ s.ohlcstate = seb.ohlcstate ∧
      order.toFinset = seb.watchSet ∧
      (seb.watchSet ≠ ∅ →
        s.frames = seb.frames ++ [notifyFrame, rewatchFrame order] ∧
        joinCount [notifyFrame, rewatchFrame order] = 1) ∧
      (seb.watchSet = ∅ →
        s.frames = seb.frames ++ [notifyFrame] ∧ joinCount [notifyFrame] = 0) := by
  have hset : order.toFinset = seb.watchSet := by
    simp only [SocketEventBreeze.watchSet]
    exact List.toFinset_eq_of_perm _ _ horder
  have hlen : seb.watchSet = ∅ ↔ seb.tokenlist = [] := by
    simp [SocketEventBreeze.watchSet, Assoc.keys]
  by_cases hnil : seb.tokenlist = []
  · refine ⟨{ seb with conn := some (c.write notifyFrame) }, ?_, rfl, rfl, hset, ?_, ?_⟩
    · simp [SocketEventBreeze.Rewatch, SocketEventBreeze.Notify, hopen, hnil]
    · intro h
      exact absurd (hlen.2 hnil) h
    · intro _
      refine ⟨?_, by decide⟩
      simp [SocketEventBreeze.frames, hopen, Conn.write]
  · have hpos : 0 < seb.tokenlist.length := List.length_pos.2 hnil
    refine ⟨{ seb with conn := some ((c.write notifyFrame).write (rewatchFrame order)) }, ?_,
      rfl, rfl, hset, ?_, ?_⟩
    · simp [SocketEventBreeze.Rewatch, SocketEventBreeze.Notify, hopen, hpos]
    · intro _
      refine ⟨?_, ?_⟩
      · simp [SocketEventBreeze.frames, hopen, Conn.write]
      · simp [joinCount, List.countP_cons, isJoinFrame_rewatchFrame, isJoinFrame_notifyFrame]
    · intro h
      exact absurd (hlen.1 h) hnil

/-- Witness of `C11_rewatch_one_join_frame`: the channel with two tokens. -/
theorem C11_rewatch_one_join_frame_witness :
    ∃ s, twoTokenSocket.Rewatch ["4.1!1594", "4.1!2885"] = .ok s ∧
      s.tokenlist = twoTokenSocket.tokenlist ∧ s.ohlcstate = twoTokenSocket.ohlcstate ∧
      ["4.1!1594", "4.1!2885"].toFinset = twoTokenSocket.watchSet ∧
      (twoTokenSocket.watchSet ≠ ∅ →
        s.frames = twoTokenSocket.frames ++
            [notifyFrame, rewatchFrame ["4.1!1594", "4.1!2885"]] ∧
        joinCount [notifyFrame, rewatchFrame ["4.1!1594", "4.1!2885"]] = 1) ∧
      (twoTokenSocket.watchSet = ∅ →
        s.frames = twoTokenSocket.frames ++ [notifyFrame] ∧ joinCount [notifyFrame] = 0) :=
  C11_rewatch_one_join_frame twoTokenSocket {} ["4.1!1594", "4.1!2885"] rfl
    (List.Perm.swap _ _ _)

/-- Claim C12, evaluated on the code: on a handler without transport `Watch` and
`WatchStreamData` return their not-connected errors, and `Unwatch`, which has no
error result and no test of `conn`, panics. -/
theorem C12_unwatch_without_transport_panics (seb : SocketEventBreeze) (data : WatchData)
    (room channel : String) (hclosed : seb.conn = none) :
    seb.Watch data = .err (.new "LIVESTREAM_SOCKET_CONNECTION_DISCONNECTED") ∧
    seb.WatchStreamData room channel = .err (.new "OHLC_SOCKET_CONNECTION_DISCONNECTED") ∧
    seb.Unwatch data = .panic := by
  simp [SocketEventBreeze.Watch, SocketEventBreeze.WatchStreamData, SocketEventBreeze.Unwatch,
    hclosed]

/-- Witness of `C12_unwatch_without_transport_panics`: a handler as
`NewSocketEventBreeze` makes it. -/
theorem C12_unwatch_without_transport_panics_witness :
    NewSocketEventBreeze.Watch (.one "4.1!2885") =
      .err (.new "LIVESTREAM_SOCKET_CONNECTION_DISCONNECTED") ∧
    NewSocketEventBreeze.WatchStreamData "4.1!2885" "1MIN" =
      .err (.new "OHLC_SOCKET_CONNECTION_DISCONNECTED") ∧
    NewSocketEventBreeze.Unwatch (.one "4.1!2885") = .panic :=
  C12_unwatch_without_transport_panics NewSocketEventBreeze (.one "4.1!2885") "4.1!2885" "1MIN"
    rfl

/-- Claim C20, evaluated on the code: a read that fails because the context was
cancelled is skipped like any other error, so the loop goes on; after any number
of such reads it has not returned, whereas one normal-closure error ends it. -/
theorem C20_cancellation_does_not_stop_read_loop :
    (∀ outcomes, readMessages (.cancelled :: outcomes) = readMessages outcomes) ∧
    (∀ n, (readMessages (List.replicate n .cancelled)).returned = false) ∧
    (readMessages [.closeError StatusNormalClosure]).returned = true := by
  refine ⟨fun _ => rfl, ?_, rfl⟩
  intro n
  induction n with
  | zero => rfl
  | succ k ih => exact ih

/-! ## Connecting, disconnecting and the reference feed -/

/-- Claim C13 fails on a fresh instance, whose rate-refresh handler is nil:
`SubscribeFeeds` and `UnsubscribeFeeds` for the stock token `4.1!2885` return a
nil response and a nil error, and leave the instance as it was. -/
theorem C13_no_error_without_rate_refresh :
    ({} : BreezeInstance).SIORateRefreshHandler = none ∧
    SubscribeFeeds {} "4.1!2885" "" "" "" "" "" "" "" false false false .accepted =
      .ok ({}, { response := none, error := none }) ∧
    UnsubscribeFeeds {} "4.1!2885" "" "" "" "" "" "" "" false false false =
      .ok ({}, { response := none, error := none }) := by
  decide

/-- Claim C13, amended: when the rate-refresh handler is nil, `SubscribeFeeds`
with an empty or accepted interval, and `UnsubscribeFeeds` for an instrument
(no order notification, a token outside the strategy list) with an empty or
accepted interval, return a nil response and a nil error; no handler is
created or touched, and `SubscribeFeeds` only records the interval. -/
theorem C13_nil_reply_without_rate_refresh (b : BreezeInstance)
    (stockToken exchangeCode stockCode productType expiryDate strikePrice right interval : String)
    (q d n : Bool) (net : Dial)
    (hrate : b.SIORateRefreshHandler = none)
    (hval : interval = "" ∨ contains b.ConfigIntervalTypesStream interval = true) :
    SubscribeFeeds b stockToken exchangeCode stockCode productType expiryDate strikePrice right
        interval q d n net =
      .ok ({ b with Interval := interval }, { response := none, error := none }) ∧
    (n = false → contains STRATEGY_SUBSCRIPTION stockToken = false →
      UnsubscribeFeeds b stockToken exchangeCode stockCode productType expiryDate strikePrice
          right interval q d n =
        .ok (b, { response := none, error := none })) := by
  constructor
  · rcases hval with h | h <;>
      simp [SubscribeFeeds, unauthenticated, subscribeRouted, hrate, h]
  · intro hn hs
    rcases hval with h | h <;>
      simp [UnsubscribeFeeds, unsubscribeRouted, hrate, h, hn, hs]

/-- Witness of `C13_nil_reply_without_rate_refresh`: a fresh instance. -/
theorem C13_nil_reply_without_rate_refresh_witness :
    SubscribeFeeds {} "" "NSE" "RELIANCE" "" "" "" "" "" true false false .accepted =
      .ok ({ ({} : BreezeInstance) with Interval := "" }, { response := none, error := none }) ∧
    (false = false → contains STRATEGY_SUBSCRIPTION "" = false →
      UnsubscribeFeeds {} "" "NSE" "RELIANCE" "" "" "" "" "" true false false =
        .ok ({}, { response := none, error := none })) :=
  C13_nil_reply_without_rate_refresh {} "" "NSE" "RELIANCE" "" "" "" "" "" true false false
    .accepted rfl (Or.inl rfl)

/-- Claim C14, evaluated on the code: on the instance whose rate-refresh channel
is open and watches `4.1!2885`, a second `WSConnect` dials again: the handler
gets a new transport, on which only the authentication frame has been written,
a second read loop is started, and the watch set still holds the token; when
that dial is refused the handler is left without transport. The first
`WSConnect` had opened one transport and one read loop. -/
theorem C14_second_connect_dials_again :
    connectedInstance.SIORateRefreshHandler =
      some { conn := some { written := [authFrame "" ""] }, dials := 1, readLoops := 1 } ∧
    SubscribeFeeds connectedInstance "4.1!2885" "" "" "" "" "" "" "" false false false
        .accepted =
      .ok (subscribedInstance,
        { response := some (responseWith connectedInstance "STOCK_SUBSCRIBE_MESSAGE"
            "4.1!2885") }) ∧
    WSConnect subscribedInstance .accepted =
      ({ subscribedInstance with
          SIORateRefreshHandler :=
            some { conn := some { written := [authFrame "" ""] },
                   tokenlist := [("4.1!2885", true)], dials := 2, readLoops := 2 } }, none) ∧
    WSConnect subscribedInstance (.refused (.new "dial tcp: connection refused")) =
      ({ subscribedInstance with
          SIORateRefreshHandler :=
            some { conn := none, tokenlist := [("4.1!2885", true)], dials := 1,
                   readLoops := 1 } },
        some (.new "dial tcp: connection refused")) := by
  decide

/-- Claim C15 fails when the fetch fails on an instance with loaded tables:
`RELIANCE` was found in the NSE partition before the call, and after it both
tables are slices of six nil maps in which the same lookups find nothing. -/
theorem C15_failed_fetch_resets_tables :
    stockScript nseNfoInstance 1 "RELIANCE" = .ok "2885" ∧
    tokenScript nseNfoInstance 1 "2885" = .ok (some ["RELIANCE", "RELIANCE INDUSTRIES"]) ∧
    ∃ b, getStockScriptList nseNfoInstance (.fetchFailed (.new "Get: timeout")) =
        .ok (b, some (.new "Get: timeout")) ∧
      b.StockScriptDictList = List.replicate 6 none ∧
      b.TokenScriptDictList = List.replicate 6 none ∧
      stockScript b 1 "RELIANCE" = .ok "" ∧
      tokenScript b 1 "2885" = .ok none :=
  ⟨rfl, rfl, _, rfl, rfl, rfl, rfl, rfl⟩

/-- Claim C16, evaluated on the code: a feed with a single NSE row makes
`getStockScriptList` panic, at the assignment into the nil map of the partition. -/
theorem C16_loading_a_row_panics :
    getStockScriptList {} (.records [relianceRow]) = .panic := by
  decide

/-- Claim C19, evaluated on the code: after a `WSConnect` whose dial is refused
the rate-refresh handler exists without transport, and `WSDisconnect` panics in
`OnDisconnect` instead of returning its three responses. -/
theorem C19_disconnect_after_refused_dial_panics :
    WSConnect {} (.refused (.new "dial tcp: connection refused")) =
      (refusedInstance, some (.new "dial tcp: connection refused")) ∧
    refusedInstance.SIORateRefreshHandler = some { conn := none } ∧
    WSDisconnect refusedInstance = .panic := by
  decide

theorem storeRow_nil (b : BreezeInstance) (row : List String) (i keyAt : Nat) (hi : i < 6)
    (hs : b.StockScriptDictList = List.replicate 6 none) :
    (storeRow b row i keyAt).isOk = false := by
  unfold storeRow
  cases h1 : idx row keyAt with
  | err e => rfl
  | panic => rfl
  | ok key =>
    cases h2 : idx row 5 with
    | err e => rfl
    | panic => rfl
    | ok token =>
      interval_cases i <;> simp [setEntry, hs, idx] <;> rfl

theorem loadRow_nil (b b2 : BreezeInstance) (row : List String)
    (hs : b.StockScriptDictList = List.replicate 6 none)
    (h : loadRow b row = .ok b2) : b2 = b := by
  unfold loadRow at h
  cases h2 : idx row 2 with
  | err e => simp [h2] at h
  | panic => simp [h2] at h
  | ok exchange =>
    simp only [h2, GoResult.ok_bind] at h
    have key : ∀ i keyAt, i < 6 → storeRow b row i keyAt ≠ .ok b2 := by
      intro i keyAt hi e
      have := storeRow_nil b row i keyAt hi hs
      rw [e] at this
      cases this
    split_ifs at h
    · exact absurd h (key 0 3 (by omega))
    · exact absurd h (key 1 3 (by omega))
    · exact absurd h (key 2 7 (by omega))
    · exact absurd h (key 3 7 (by omega))
    · exact absurd h (key 4 7 (by omega))
    · exact absurd h (key 5 7 (by omega))
    · injection h with h
      exact h.symm

theorem loadRows_nil (rows : List (List String)) (b b2 : BreezeInstance)
    (hs : b.StockScriptDictList = List.replicate 6 none)
    (h : loadRows b rows = .ok b2) : b2 = b := by
  induction rows generalizing b with
  | nil =>
    injection h with h
    exact h.symm
  | cons row rest ih =>
    simp only [loadRows] at h
    obtain ⟨b1, h1, h2⟩ := GoResult.bind_eq_ok _ _ _ h
    have e := loadRow_nil b b1 row hs h1
    subst e
    exact ih b1 hs h2

/-- Whenever `getStockScriptList` returns, with or without an error, both tables
are the slices of six nil maps it made at its start: no row is ever stored. -/
theorem getStockScriptList_ok (b b2 : BreezeInstance) (feed : Feed) (e : Option GoError)
    (h : getStockScriptList b feed = .ok (b2, e)) :
    b2 = { b with StockScriptDictList := List.replicate 6 none,
                  TokenScriptDictList := List.replicate 6 none } := by
  cases feed with
  | fetchFailed e1 =>
    simp only [getStockScriptList] at h
    injection h with h
    injection h with h1 h2
    exact h1.symm
  | readFailed e1 =>
    simp only [getStockScriptList] at h
    injection h with h
    injection h with h1 h2
    exact h1.symm
  | records rows =>
    simp only [getStockScriptList] at h
    obtain ⟨b1, h1, h2⟩ := GoResult.bind_eq_ok _ _ _ h
    have e1 := loadRows_nil rows _ b1 rfl h1
    injection h2 with h2
    injection h2 with h3 h4
    rw [← h3, e1]

/-- Claim C15, amended: whenever `getStockScriptList` returns an error, the fetch
or the read of the delimited data has failed, and both tables of all six
partitions are empty (nil) maps, whatever they held before the call: every
lookup in them finds nothing. -/
theorem C15_failure_leaves_empty_tables (b b2 : BreezeInstance) (feed : Feed) (e : GoError)
    (h : getStockScriptList b feed = .ok (b2, some e)) :
    (feed = .fetchFailed e ∨ feed = .readFailed e) ∧
    b2.StockScriptDictList = List.replicate 6 none ∧
    b2.TokenScriptDictList = List.replicate 6 none ∧
    ∀ i key, i < 6 → stockScript b2 i key = .ok "" ∧ tokenScript b2 i key = .ok none := by
  have hb := getStockScriptList_ok b b2 feed (some e) h
  refine ⟨?_, by rw [hb], by rw [hb], ?_⟩
  · cases feed with
    | fetchFailed e1 =>
      simp only [getStockScriptList] at h
      injection h with h
      injection h with h1 h2
      injection h2 with h2
      exact Or.inl (by rw [h2])
    | readFailed e1 =>
      simp only [getStockScriptList] at h
      injection h with h
      injection h with h1 h2
      injection h2 with h2
      exact Or.inr (by rw [h2])
    | records rows =>
      simp only [getStockScriptList] at h
      obtain ⟨b1, h1, h2⟩ := GoResult.bind_eq_ok _ _ _ h
      injection h2 with h2
      injection h2 with h3 h4
      cases h4
  · intro i key hi
    subst hb
    simp only [stockScript, tokenScript]
    interval_cases i <;> exact ⟨rfl, rfl⟩

/-- Witness of `C15_failure_leaves_empty_tables`: a failed read on an instance
with loaded tables. -/
theorem C15_failure_leaves_empty_tables_witness :
    (Feed.readFailed (.new "record on line 2: wrong number of fields") =
        .fetchFailed (.new "record on line 2: wrong number of fields") ∨
      Feed.readFailed (.new "record on line 2: wrong number of fields") =
        .readFailed (.new "record on line 2: wrong number of fields")) ∧
    clearedInstance.StockScriptDictList = List.replicate 6 none ∧
    clearedInstance.TokenScriptDictList = List.replicate 6 none ∧
    ∀ i key, i < 6 →
      stockScript clearedInstance i key = .ok "" ∧ tokenScript clearedInstance i key = .ok none :=
  C15_failure_leaves_empty_tables nseNfoInstance clearedInstance
    (.readFailed (.new "record on line 2: wrong number of fields"))
    (.new "record on line 2: wrong number of fields") rfl

/-! ## Subscription routing -/

/-- Claim C17 fails for a strategy token while no order-refresh handler exists:
on the instance whose rate-refresh channel alone is open, `SubscribeFeeds` for
`one_click_fno` watches the token on the rate-refresh channel and leaves the
order-refresh handler nil. -/
theorem C17_strategy_token_without_order_handler :
    contains STRATEGY_SUBSCRIPTION "one_click_fno" = true ∧
    connectedInstance.SIOOrderRefreshHandler = none ∧
    ∃ b reply r,
      SubscribeFeeds connectedInstance "one_click_fno" "" "" "" "" "" "" "" false false false
        .accepted = .ok (b, reply) ∧
      reply.error = none ∧
      b.SIOOrderRefreshHandler = none ∧ b.SIOOhlcvStreamHandler = none ∧
      b.SIORateRefreshHandler = some r ∧ r.watchSet = {"one_click_fno"} ∧
      r.frames = [authFrame "" "", joinFrame (.one "one_click_fno")] :=
  ⟨by decide, rfl, _, _, _, rfl, rfl, rfl, rfl, rfl, by decide, rfl⟩

theorem watchOn_some (seb : SocketEventBreeze) (data : WatchData) :
    ∃ s, watchOn (some seb) data = .ok s := by
  cases h : seb.conn with
  | none => exact ⟨seb, by simp [watchOn, SocketEventBreeze.Watch, h]⟩
  | some c => exact ⟨_, by simp only [watchOn, SocketEventBreeze.Watch, h]; rfl⟩

theorem streamOn_some (seb : SocketEventBreeze) (data channel : String) :
    ∃ s, streamOn (some seb) data channel = .ok s := by
  cases h : seb.conn with
  | none => exact ⟨seb, by simp [streamOn, SocketEventBreeze.WatchStreamData, h]⟩
  | some c => exact ⟨_, by simp only [streamOn, SocketEventBreeze.WatchStreamData, h]; rfl⟩

theorem wsConnect_ohlc (b : BreezeInstance) (net : Dial) :
    ∃ h, (_wsConnect b false true false net).1 = { b with SIOOhlcvStreamHandler := some h } := by
  exact ⟨_, rfl⟩

theorem joinOhlc_spec (b : BreezeInstance) (token interval : String) (net : Dial) :
    ∃ b2 e, joinOhlc b token interval net = .ok (b2, e) ∧
      b2.SIORateRefreshHandler = b.SIORateRefreshHandler ∧
      b2.SIOOrderRefreshHandler = b.SIOOrderRefreshHandler ∧
      b2.OrderConnect = b.OrderConnect ∧
      (e = none → ∃ h1 h2, streamOn (some h1) token interval = .ok h2 ∧
        b2.SIOOhlcvStreamHandler = some h2) := by
  unfold joinOhlc
  cases hh : b.SIOOhlcvStreamHandler with
  | some h =>
    obtain ⟨h2, hs⟩ := streamOn_some h token interval
    refine ⟨{ b with SIOOhlcvStreamHandler := some h2 }, none, ?_, rfl, rfl, rfl, ?_⟩
    · simp [hh, hs]
    · intro _
      exact ⟨h, h2, hs, rfl⟩
  | none =>
    cases net with
    | refused e =>
      exact ⟨_, some e, rfl, rfl, rfl, rfl, fun h => by cases h⟩
    | authFailed e =>
      exact ⟨_, some e, rfl, rfl, rfl, rfl, fun h => by cases h⟩
    | accepted =>
      obtain ⟨h2, hs⟩ :=
        streamOn_some ((orNew none).Connect b.UserID b.SessionKey .accepted).1 token interval
      refine ⟨{ b with SIOOhlcvStreamHandler := some h2 }, none, ?_, rfl, rfl, rfl,
        fun _ => ⟨_, h2, hs, rfl⟩⟩
      simp only [hh, _wsConnect]
      simp [SocketEventBreeze.Connect, hs] at hs ⊢

theorem watchIds_spec (b : BreezeInstance) (r : SocketEventBreeze) (quoteId depthId : String)
    (hrate : b.SIORateRefreshHandler = some r) :
    ∃ b2, watchIds b quoteId depthId = .ok b2 ∧
      b2.SIOOrderRefreshHandler = b.SIOOrderRefreshHandler ∧
      b2.SIOOhlcvStreamHandler = b.SIOOhlcvStreamHandler ∧
      b2.OrderConnect = b.OrderConnect := by
  unfold watchIds
  by_cases hq : quoteId = "" <;> by_cases hd : depthId = ""
  · exact ⟨b, by simp [hq, hd], rfl, rfl, rfl⟩
  · obtain ⟨s, hs⟩ := watchOn_some r (.one depthId)
    exact ⟨{ b with SIORateRefreshHandler := some s }, by simp [hq, hd, hrate, hs], rfl, rfl, rfl⟩
  · obtain ⟨s, hs⟩ := watchOn_some r (.one quoteId)
    exact ⟨{ b with SIORateRefreshHandler := some s }, by simp [hq, hd, hrate, hs], rfl, rfl, rfl⟩
  · obtain ⟨s, hs⟩ := watchOn_some r (.one quoteId)
    obtain ⟨s2, hs2⟩ := watchOn_some s (.one depthId)
    exact ⟨{ b with SIORateRefreshHandler := some s2 }, by simp [hq, hd, hrate, hs, hs2],
      rfl, rfl, rfl⟩

theorem wsConnect_order_frame (b : BreezeInstance) (orderFlag strategyFlag : Bool) (net : Dial)
    (hflag : (orderFlag || strategyFlag) = true) :
    ∃ o1, (_wsConnect b orderFlag false strategyFlag net).1.SIOOrderRefreshHandler = some o1 ∧
      (_wsConnect b orderFlag false strategyFlag net).1.SIORateRefreshHandler =
        b.SIORateRefreshHandler ∧
      (_wsConnect b orderFlag false strategyFlag net).1.SIOOhlcvStreamHandler =
        b.SIOOhlcvStreamHandler := by
  unfold _wsConnect
  rw [if_pos hflag]
  by_cases h0 : b.OrderConnect = 0
  · rw [if_pos h0]
    exact ⟨_, rfl, rfl, rfl⟩
  · rw [if_neg h0]
    exact ⟨_, rfl, rfl, rfl⟩

theorem wsConnect_order_notify (b : BreezeInstance) (net : Dial)
    (hpre : b.OrderConnect = 0 ∨ ∃ o c, b.SIOOrderRefreshHandler = some o ∧ o.conn = some c)
    (hnone : (_wsConnect b true false false net).2 = none) :
    ∃ o1 o2 : SocketEventBreeze,
      (_wsConnect b true false false net).1.SIOOrderRefreshHandler = some o1 ∧
      o1.Notify = .ok o2 := by
  unfold _wsConnect at hnone ⊢
  simp only [Bool.or_false, if_true] at hnone ⊢
  by_cases h0 : b.OrderConnect = 0
  · rw [if_pos h0] at hnone ⊢
    cases net with
    | refused e => simp [SocketEventBreeze.Connect] at hnone
    | authFailed e => simp [SocketEventBreeze.Connect] at hnone
    | accepted => exact ⟨_, _, rfl, rfl⟩
  · rw [if_neg h0] at hnone ⊢
    rcases hpre with h | ⟨o, c, ho, hc⟩
    · exact absurd h h0
    · refine ⟨o, { o with conn := some (c.write notifyFrame) }, ?_, ?_⟩
      · simp [ho, orNew]
      · simp [SocketEventBreeze.Notify, hc]

theorem SubscribeFeeds_valid (b : BreezeInstance)
    (stockToken exchangeCode stockCode productType expiryDate strikePrice right interval : String)
    (q d n : Bool) (net : Dial)
    (hauth : unauthenticated b = false)
    (hval : interval = "" ∨ contains b.ConfigIntervalTypesStream interval = true) :
    SubscribeFeeds b stockToken exchangeCode stockCode productType expiryDate strikePrice right
        interval q d n net =
      subscribeRouted { b with Interval := interval } stockToken exchangeCode stockCode
        productType expiryDate strikePrice right (channelCode b interval) q d n net := by
  have hauth2 : ∀ i, unauthenticated { b with Interval := i } = false := fun _ => hauth
  rcases hval with h | h <;> simp [SubscribeFeeds, hauth2, h, channelCode]

theorem subscribeRouted_spec (b : BreezeInstance) (r : SocketEventBreeze)
    (stockToken exchangeCode stockCode productType expiryDate strikePrice right code : String)
    (q d n : Bool) (net : Dial)
    (hrate : b.SIORateRefreshHandler = some r) :
    (∀ o, b.SIOOrderRefreshHandler = some o → contains STRATEGY_SUBSCRIPTION stockToken = true →
      ∃ b2 reply, subscribeRouted b stockToken exchangeCode stockCode productType expiryDate
          strikePrice right code q d n net = .ok (b2, reply) ∧
        b2.SIORateRefreshHandler = some r ∧
        b2.SIOOhlcvStreamHandler = b.SIOOhlcvStreamHandler ∧
        (reply.error = none → ∃ o1 o2, watchOn (some o1) (.one stockToken) = .ok o2 ∧
          b2.SIOOrderRefreshHandler = some o2)) ∧
    ((b.SIOOrderRefreshHandler = none ∨ contains STRATEGY_SUBSCRIPTION stockToken = false) →
      (n = true →
        (b.OrderConnect = 0 ∨ ∃ o c, b.SIOOrderRefreshHandler = some o ∧ o.conn = some c) →
        ∃ b2 reply, subscribeRouted b stockToken exchangeCode stockCode productType expiryDate
            strikePrice right code q d n net = .ok (b2, reply) ∧
          b2.SIORateRefreshHandler = some r ∧
          b2.SIOOhlcvStreamHandler = b.SIOOhlcvStreamHandler ∧
          (reply.error = none → ∃ o1 o2 : SocketEventBreeze, o1.Notify = .ok o2 ∧
            b2.SIOOrderRefreshHandler = some o2)) ∧
      (n = false → stockToken ≠ "" → code ≠ "" →
        ∃ b2 reply, subscribeRouted b stockToken exchangeCode stockCode productType expiryDate
            strikePrice right code q d n net = .ok (b2, reply) ∧
          b2.SIORateRefreshHandler = some r ∧
          b2.SIOOrderRefreshHandler = b.SIOOrderRefreshHandler ∧
          (reply.error = none → ∃ h1 h2,
            streamOn (some h1) stockToken code = .ok h2 ∧
            b2.SIOOhlcvStreamHandler = some h2)) ∧
      (n = false → stockToken ≠ "" → code = "" →
        ∃ b2 reply r2, subscribeRouted b stockToken exchangeCode stockCode productType expiryDate
            strikePrice right code q d n net = .ok (b2, reply) ∧
          reply.error = none ∧
          watchOn (some r) (.one stockToken) = .ok r2 ∧
          b2.SIORateRefreshHandler = some r2 ∧
          b2.SIOOrderRefreshHandler = b.SIOOrderRefreshHandler ∧
          b2.SIOOhlcvStreamHandler = b.SIOOhlcvStreamHandler) ∧
      (n = false → stockToken = "" →
        ∀ quoteId depthId,
          getStockTokenValue b exchangeCode stockCode productType
            expiryDate strikePrice right q d = .ok (quoteId, depthId) →
          (code ≠ "" →
            ∃ b2 reply, subscribeRouted b stockToken exchangeCode stockCode productType
                expiryDate strikePrice right code q d n net = .ok (b2, reply) ∧
              b2.SIORateRefreshHandler = some r ∧
              b2.SIOOrderRefreshHandler = b.SIOOrderRefreshHandler ∧
              (reply.error = none → ∃ h1 h2,
                streamOn (some h1) quoteId code = .ok h2 ∧
                b2.SIOOhlcvStreamHandler = some h2)) ∧
          (code = "" →
            ∃ b2 reply, subscribeRouted b stockToken exchangeCode stockCode productType
                expiryDate strikePrice right code q d n net = .ok (b2, reply) ∧
              reply.error = none ∧
              watchIds b quoteId depthId = .ok b2 ∧
              b2.SIOOrderRefreshHandler = b.SIOOrderRefreshHandler ∧
              b2.SIOOhlcvStreamHandler = b.SIOOhlcvStreamHandler))) := by
  refine ⟨?_, ?_⟩
  · intro o ho hs
    obtain ⟨o1, h1, h2, h3⟩ := wsConnect_order_frame b false true net rfl
    unfold subscribeRouted
    rw [hrate]
    simp only [ho, Option.isSome_some, hs, and_self, if_true]
    rcases hc : _wsConnect b false false true net with ⟨b1, e⟩
    rw [hc] at h1 h2 h3
    simp only at h1 h2 h3
    cases e with
    | some e =>
      exact ⟨b1, { error := some e }, rfl, by rw [h2, hrate], h3, fun h => by cases h⟩
    | none =>
      obtain ⟨o2, hw⟩ := watchOn_some o1 (.one stockToken)
      refine ⟨{ b1 with SIOOrderRefreshHandler := some o2 },
        { response := some (responseWith b "STRATEGY_STREAM_SUBSCRIBED" stockToken) }, ?_,
        by simp [h2, hrate], by simp [h3], fun _ => ⟨o1, o2, hw, rfl⟩⟩
      simp [h1, hw]
  · intro hns
    have hcond : ¬ (b.SIOOrderRefreshHandler.isSome = true ∧
        contains STRATEGY_SUBSCRIPTION stockToken = true) := by
      rintro ⟨h1, h2⟩
      rcases hns with h | h
      · simp [h] at h1
      · simp [h] at h2
    refine ⟨?_, ?_, ?_, ?_⟩
    · intro hn hpre
      obtain ⟨o1, h1, h2, h3⟩ := wsConnect_order_frame b true false net rfl
      have hnot := wsConnect_order_notify b net hpre
      unfold subscribeRouted
      rw [hrate]
      simp only [hcond, if_false, hn, if_true]
      rcases hc : _wsConnect b true false false net with ⟨b1, e⟩
      rw [hc] at h1 h2 h3 hnot
      simp only at h1 h2 h3 hnot
      cases e with
      | some e =>
        exact ⟨b1, { error := some e }, rfl, by rw [h2, hrate], h3, fun h => by cases h⟩
      | none =>
        obtain ⟨o1b, o2, ho1, hno⟩ := hnot rfl
        refine ⟨{ b1 with SIOOrderRefreshHandler := some o2 },
          { response := some (responseOf b "ORDER_NOTIFICATION_SUBSRIBED") }, ?_,
          by simp [h2, hrate], by simp [h3], fun _ => ⟨o1b, o2, hno, rfl⟩⟩
        simp [ho1, hno]
    · intro hn htok hcode
      obtain ⟨b2, e, hj, f1, f2, -, f4⟩ := joinOhlc_spec b stockToken code net
      unfold subscribeRouted
      rw [hrate]
      simp only [hcond, if_false, hn, htok, hcode, ne_eq, not_false_eq_true, if_true, hj,
        Bool.false_eq_true, GoResult.ok_bind]
      cases e with
      | some e =>
        exact ⟨b2, { error := some e }, rfl, by rw [f1, hrate], f2, fun h => by cases h⟩
      | none =>
        exact ⟨b2, _, rfl, by rw [f1, hrate], f2, fun _ => f4 rfl⟩
    · intro hn htok hcode
      obtain ⟨r2, hw⟩ := watchOn_some r (.one stockToken)
      refine ⟨{ b with SIORateRefreshHandler := some r2 },
        { response := some (responseWith b "STOCK_SUBSCRIBE_MESSAGE" stockToken) }, r2, ?_, rfl,
        hw, rfl, rfl, rfl⟩
      unfold subscribeRouted
      rw [hrate]
      simp [hcond, hn, htok, hcode, hw, hrate]
    · intro hn htok quoteId depthId hids
      subst htok
      constructor
      · intro hcode
        obtain ⟨b2, e, hj, f1, f2, -, f4⟩ := joinOhlc_spec b quoteId code net
        unfold subscribeRouted
        rw [hrate]
        simp only [hcond, if_false, hn, hcode, ne_eq, not_true_eq_false,
          not_false_eq_true, if_true, hj, Bool.false_eq_true, false_and, GoResult.ok_bind, hids]
        cases e with
        | some e =>
          exact ⟨b2, { error := some e }, rfl, by rw [f1, hrate], f2, fun h => by cases h⟩
        | none =>
          exact ⟨b2, _, rfl, by rw [f1, hrate], f2, fun _ => f4 rfl⟩
      · intro hcode
        obtain ⟨b2, hw, f2, f3, -⟩ := watchIds_spec b r quoteId depthId hrate
        refine ⟨b2, { response := some (responseWith b "STOCK_SUBSCRIBE_MESSAGE" stockCode) },
          ?_, rfl, hw, f2, f3⟩
        unfold subscribeRouted
        rw [hrate]
        simp [hcond, hn, hcode, hids, hw]

/-- Claim C18: `SubscribeFeeds` (on an instance whose rate-refresh handler, if
any, is authenticated) and `UnsubscribeFeeds`, given a non-empty interval that
is not in the configured list of stream intervals, return the invalid-interval
error; no handler is created, connected, disconnected or changed
(`SubscribeFeeds` only records the interval). For an accepted interval the rest
of either function runs with the entry of the channel-interval map in place of
the interval. -/
theorem C18_interval_validation (b : BreezeInstance)
    (stockToken exchangeCode stockCode productType expiryDate strikePrice right interval : String)
    (q d n : Bool) (net : Dial)
    (hne : interval ≠ "")
    (hauth : ∀ h, b.SIORateRefreshHandler = some h → h.authentication = true) :
    (contains b.ConfigIntervalTypesStream interval = false →
      SubscribeFeeds b stockToken exchangeCode stockCode productType expiryDate strikePrice
          right interval q d n net =
        .ok ({ b with Interval := interval },
          { response := none,
            error := some (.new (GoMap.str b.ExceptMessage "STREAM_OHLC_INTERVAL_ERROR")) }) ∧
      UnsubscribeFeeds b stockToken exchangeCode stockCode productType expiryDate strikePrice
          right interval q d n =
        .ok (b,
          { response := none,
            error := some (.new (GoMap.str b.ExceptMessage "STREAM_OHLC_INTERVAL_ERROR")) })) ∧
    (contains b.ConfigIntervalTypesStream interval = true →
      SubscribeFeeds b stockToken exchangeCode stockCode productType expiryDate strikePrice
          right interval q d n net =
        subscribeRouted { b with Interval := interval } stockToken exchangeCode stockCode
          productType expiryDate strikePrice right
          (GoMap.str b.ConfigChannelIntervalMap interval) q d n net ∧
      UnsubscribeFeeds b stockToken exchangeCode stockCode productType expiryDate strikePrice
          right interval q d n =
        unsubscribeRouted b stockToken exchangeCode stockCode productType expiryDate
          strikePrice right (GoMap.str b.ConfigChannelIntervalMap interval) q d n) := by
  have hun : ∀ i, unauthenticated { b with Interval := i } = false := by
    intro i
    simp only [unauthenticated]
    cases hr : b.SIORateRefreshHandler with
    | none => rfl
    | some h => simp [hauth h hr]
  constructor
  · intro hc
    constructor
    · simp [SubscribeFeeds, hun, hne, hc]
    · simp [UnsubscribeFeeds, hne, hc]
  · intro hc
    constructor
    · simp [SubscribeFeeds, hun, hne, hc]
    · simp [UnsubscribeFeeds, hne, hc]

/-- Witness of `C18_interval_validation`: the interval `2minute` on an instance
configured with the tables of `config.go`. -/
theorem C18_interval_validation_witness :
    SubscribeFeeds configuredInstance "4.1!2885" "" "" "" "" "" "" "2minute" false false false
        .accepted =
      .ok ({ configuredInstance with Interval := "2minute" },
        { response := none,
          error := some (.new (GoMap.str configuredInstance.ExceptMessage
            "STREAM_OHLC_INTERVAL_ERROR")) }) ∧
    UnsubscribeFeeds configuredInstance "4.1!2885" "" "" "" "" "" "" "2minute" false false false =
      .ok (configuredInstance,
        { response := none,
          error := some (.new (GoMap.str configuredInstance.ExceptMessage
            "STREAM_OHLC_INTERVAL_ERROR")) }) :=
  (C18_interval_validation configuredInstance "4.1!2885" "" "" "" "" "" "" "2minute" false false
    false .accepted (by decide) (fun h hh => by cases hh)).1 (by decide)

theorem disconnectHandler_ok (b : BreezeInstance) (handler : Option SocketEventBreeze)
    (k1 k2 : String) (ht : ∀ s, handler = some s → ∃ c, s.conn = some c) :
    disconnectHandler b handler k1 k2 =
      .ok (responseOf b (if handler = none then k1 else k2)) := by
  cases handler with
  | none => rfl
  | some s =>
    obtain ⟨c, hc⟩ := ht s rfl
    simp [disconnectHandler, SocketEventBreeze.OnDisconnect, hc]

/-- When every handler that exists has a transport, `WSDisconnect` returns three
responses, in the order rate refresh, OHLC stream, order refresh, and leaves no
handler; a second call then changes nothing and returns the three
not-connected responses. -/
theorem WSDisconnect_with_transports (b : BreezeInstance)
    (hr : ∀ h, b.SIORateRefreshHandler = some h → ∃ c, h.conn = some c)
    (hh : ∀ h, b.SIOOhlcvStreamHandler = some h → ∃ c, h.conn = some c)
    (ho : ∀ h, b.SIOOrderRefreshHandler = some h → ∃ c, h.conn = some c) :
    ∃ b2, WSDisconnect b =
        .ok (b2,
          [responseOf b (if b.SIORateRefreshHandler = none then "RATE_REFRESH_NOT_CONNECTED"
            else "RATE_REFRESH_DISCONNECTED"),
           responseOf b (if b.SIOOhlcvStreamHandler = none then "OHLCV_STREAM_NOT_CONNECTED"
            else "OHLCV_STREAM_DISCONNECTED"),
           responseOf b (if b.SIOOrderRefreshHandler = none then "ORDER_REFRESH_NOT_CONNECTED"
            else "ORDER_REFRESH_DISCONNECTED")]) ∧
      b2.SIORateRefreshHandler = none ∧ b2.SIOOhlcvStreamHandler = none ∧
      b2.SIOOrderRefreshHandler = none ∧
      b2.OrderConnect = (if b.SIOOrderRefreshHandler = none then b.OrderConnect else 0) ∧
      WSDisconnect b2 =
        .ok (b2, [responseOf b "RATE_REFRESH_NOT_CONNECTED",
          responseOf b "OHLCV_STREAM_NOT_CONNECTED", responseOf b "ORDER_REFRESH_NOT_CONNECTED"]) := by
  have e1 := disconnectHandler_ok b b.SIORateRefreshHandler
    "RATE_REFRESH_NOT_CONNECTED" "RATE_REFRESH_DISCONNECTED" hr
  have e2 := disconnectHandler_ok { b with SIORateRefreshHandler := none }
    b.SIOOhlcvStreamHandler "OHLCV_STREAM_NOT_CONNECTED" "OHLCV_STREAM_DISCONNECTED" hh
  have e3 := disconnectHandler_ok
    { b with SIORateRefreshHandler := none, SIOOhlcvStreamHandler := none }
    b.SIOOrderRefreshHandler "ORDER_REFRESH_NOT_CONNECTED" "ORDER_REFRESH_DISCONNECTED" ho
  have hW : WSDisconnect b =
      .ok ((match b.SIOOrderRefreshHandler with
            | none => { b with SIORateRefreshHandler := none, SIOOhlcvStreamHandler := none }
            | some _ =>
              { b with
                SIORateRefreshHandler := none
                SIOOhlcvStreamHandler := none
                OrderConnect := 0
                SIOOrderRefreshHandler := none }),
        [responseOf b (if b.SIORateRefreshHandler = none then "RATE_REFRESH_NOT_CONNECTED"
            else "RATE_REFRESH_DISCONNECTED"),
         responseOf b (if b.SIOOhlcvStreamHandler = none then "OHLCV_STREAM_NOT_CONNECTED"
            else "OHLCV_STREAM_DISCONNECTED"),
         responseOf b (if b.SIOOrderRefreshHandler = none then "ORDER_REFRESH_NOT_CONNECTED"
            else "ORDER_REFRESH_DISCONNECTED")]) := by
    simp only [WSDisconnect, e1, e2, e3, GoResult.ok_bind, GoResult.pure_eq]
    rfl
  rw [hW]
  cases h3 : b.SIOOrderRefreshHandler with
  | none =>
    refine ⟨_, rfl, rfl, rfl, rfl, rfl, ?_⟩
    simp only [WSDisconnect, disconnectHandler, h3, GoResult.ok_bind, GoResult.pure_eq]
    rfl
  | some o =>
    refine ⟨_, rfl, rfl, rfl, rfl, rfl, ?_⟩
    simp only [WSDisconnect, disconnectHandler, GoResult.ok_bind, GoResult.pure_eq]
    rfl

/-! ## Rooms, control frames and the teardown of the OHLC stream -/

theorem Assoc.keys_set_list {V : Type} (m : List (String × V)) (k : String) (v : V) :
    Assoc.keys (Assoc.set m k v) = if k ∈ Assoc.keys m then Assoc.keys m else Assoc.keys m ++ [k] := by
  induction m with
  | nil => simp [Assoc.set, Assoc.keys]
  | cons kv rest ih =>
    obtain ⟨k1, v1⟩ := kv
    by_cases h : k1 = k
    · subst h
      simp [Assoc.set, Assoc.keys]
    · have h2 : ¬ k = k1 := fun e => h e.symm
      simp only [Assoc.keys] at ih
      simp only [Assoc.set, Assoc.keys, h, if_false, List.map_cons, ih, List.mem_cons, h2,
        false_or]
      split_ifs <;> simp

theorem Assoc.keys_set_nodup {V : Type} (m : List (String × V)) (k : String) (v : V)
    (h : (Assoc.keys m).Nodup) : (Assoc.keys (Assoc.set m k v)).Nodup := by
  rw [Assoc.keys_set_list]
  split_ifs with hk
  · exact h
  · exact List.Nodup.append h (List.nodup_singleton k) (by simpa using hk)

theorem Assoc.mem_keys_of_get? {V : Type} (m : List (String × V)) (k : String) (v : V)
    (h : Assoc.get? m k = some v) : k ∈ Assoc.keys m := by
  induction m with
  | nil => simp [Assoc.get?] at h
  | cons kv rest ih =>
    obtain ⟨k1, v1⟩ := kv
    by_cases h1 : k1 = k
    · simp [Assoc.keys, h1]
    · simp only [Assoc.get?, h1, if_false] at h
      simp only [Assoc.keys, List.map_cons, List.mem_cons]
      exact Or.inr (ih h)

theorem WatchStreamData_open (seb : SocketEventBreeze) (c : Conn) (t channel : String)
    (hopen : seb.conn = some c) :
    ∃ s, seb.WatchStreamData t channel = .ok s ∧
      s.conn = some (c.write (streamFrame t)) ∧ s.tokenlist = seb.tokenlist ∧
      s.roomSet = insert t seb.roomSet ∧
      ((Assoc.keys seb.ohlcstate).Nodup → (Assoc.keys s.ohlcstate).Nodup) := by
  simp only [SocketEventBreeze.WatchStreamData, hopen]
  refine ⟨_, rfl, rfl, rfl, ?_, ?_⟩
  · simp only [SocketEventBreeze.roomSet]
    split_ifs with h
    · cases hg : Assoc.get? seb.ohlcstate t with
      | none => simp [hg] at h
      | some v =>
        have := Assoc.mem_keys_of_get? _ _ _ hg
        simp [this]
    · exact Assoc.keys_set _ _ _
  · intro hn
    show (Assoc.keys (if _ then _ else _)).Nodup
    split_ifs
    · exact hn
    · exact Assoc.keys_set_nodup _ _ _ hn

theorem RewatchOHLC_open (order : List String) (seb : SocketEventBreeze) (c : Conn)
    (hopen : seb.conn = some c) :
    seb.RewatchOHLC order =
      .ok { seb with conn := some { c with written := c.written ++ order.map roomFrame } } := by
  induction order generalizing seb c with
  | nil =>
    simp only [SocketEventBreeze.RewatchOHLC, List.map_nil, List.append_nil]
    cases seb
    simp only at hopen
    subst hopen
    rfl
  | cons room rest ih =>
    simp only [SocketEventBreeze.RewatchOHLC, hopen]
    rw [ih _ (c.write (roomFrame room)) rfl]
    simp [Conn.write]

theorem roomSet_leftRooms (m : List (String × Bool)) (t : String) :
    (Assoc.keys (leftRooms m (.one t))).toFinset = (Assoc.keys m).toFinset.erase t := by
  simp only [leftRooms, Assoc.keys_foldl_erase]
  ext x
  simp only [Finset.mem_sdiff, List.mem_toFinset, List.mem_filter, roomEq, decide_eq_true_eq,
    Finset.mem_erase]
  tauto

/-- Claim C21 fails: two `WatchStreamData` calls for one token with the
intervals `1MIN` and `5MIN` leave a single room, `RewatchOHLC` replays a single
frame, and unwatching the token leaves no room. -/
theorem C21_two_intervals_one_room :
    ∃ s1 s2 s3 s4,
      openSocket.WatchStreamData "4.1!2885" "1MIN" = .ok s1 ∧
      s1.WatchStreamData "4.1!2885" "5MIN" = .ok s2 ∧
      s2.roomSet = {"4.1!2885"} ∧ s2.roomSet.card = 1 ∧
      s2.RewatchOHLC (Assoc.keys s2.ohlcstate) = .ok s3 ∧
      s3.frames = s2.frames ++ [roomFrame "4.1!2885"] ∧
      s2.Unwatch (.one "4.1!2885") = .ok s4 ∧ s4.roomSet = ∅ :=
  ⟨_, _, _, _, rfl, rfl, by decide, by decide, rfl, rfl, rfl, by decide⟩

/-- Claim C21, amended: the room set tracks OHLC subscriptions by token alone.
On an open connection `WatchStreamData(t, i1)` followed by
`WatchStreamData(t, i2)` adds the one room `t` to the room set, whatever the
intervals, and writes the join frame of `t` twice; `RewatchOHLC` then changes
neither set and writes one join frame for each tracked room; and unwatching `t`
removes the room `t` and leaves every other room tracked. -/
theorem C21_rooms_are_tokens (seb : SocketEventBreeze) (c : Conn) (t i1 i2 : String)
    (hopen : seb.conn = some c) (hkeys : (Assoc.keys seb.ohlcstate).Nodup) :
    ∃ s1 s2, seb.WatchStreamData t i1 = .ok s1 ∧ s1.WatchStreamData t i2 = .ok s2 ∧
      s2.roomSet = insert t seb.roomSet ∧ s2.watchSet = seb.watchSet ∧
      s2.frames = seb.frames ++ [streamFrame t, streamFrame t] ∧
      (∀ order, order.Perm (Assoc.keys s2.ohlcstate) →
        ∃ s3, s2.RewatchOHLC order = .ok s3 ∧
          s3.ohlcstate = s2.ohlcstate ∧ s3.tokenlist = s2.tokenlist ∧
          s3.frames = s2.frames ++ order.map roomFrame ∧
          order.Nodup ∧ order.toFinset = s2.roomSet) ∧
      ∃ s4, s2.Unwatch (.one t) = .ok s4 ∧ s4.roomSet = seb.roomSet.erase t := by
  obtain ⟨s1, h1, c1, t1, r1, n1⟩ := WatchStreamData_open seb c t i1 hopen
  obtain ⟨s2, h2, c2, t2, r2, n2⟩ := WatchStreamData_open s1 _ t i2 c1
  have hn2 := n2 (n1 hkeys)
  refine ⟨s1, s2, h1, h2, ?_, ?_, ?_, ?_, ?_⟩
  · rw [r2, r1]
    simp
  · simp only [SocketEventBreeze.watchSet, t2, t1]
  · simp [SocketEventBreeze.frames, c2, hopen, Conn.write]
  · intro order hperm
    refine ⟨_, RewatchOHLC_open order s2 _ c2, rfl, rfl, ?_, ?_, ?_⟩
    · simp [SocketEventBreeze.frames, c2]
    · exact hperm.nodup_iff.2 hn2
    · simp only [SocketEventBreeze.roomSet]
      exact List.toFinset_eq_of_perm _ _ hperm
  · obtain ⟨s4, h4, -, o4, -⟩ := Unwatch_open s2 _ (.one t) c2
    refine ⟨s4, h4, ?_⟩
    have e2 : (Assoc.keys s2.ohlcstate).toFinset = insert t (Assoc.keys seb.ohlcstate).toFinset := by
      have := r2
      simp only [SocketEventBreeze.roomSet] at this r1
      rw [this, r1]
      simp
    simp only [SocketEventBreeze.roomSet, o4, roomSet_leftRooms, e2]
    simp

/-- Witness of `C21_rooms_are_tokens`: the channel that has joined one room. -/
theorem C21_rooms_are_tokens_witness :
    ∃ s1 s2, oneRoomSocket.WatchStreamData "4.1!1594" "1MIN" = .ok s1 ∧
      s1.WatchStreamData "4.1!1594" "5MIN" = .ok s2 ∧
      s2.roomSet = insert "4.1!1594" oneRoomSocket.roomSet ∧
      s2.watchSet = oneRoomSocket.watchSet ∧
      s2.frames = oneRoomSocket.frames ++ [streamFrame "4.1!1594", streamFrame "4.1!1594"] ∧
      (∀ order, order.Perm (Assoc.keys s2.ohlcstate) →
        ∃ s3, s2.RewatchOHLC order = .ok s3 ∧
          s3.ohlcstate = s2.ohlcstate ∧ s3.tokenlist = s2.tokenlist ∧
          s3.frames = s2.frames ++ order.map roomFrame ∧
          order.Nodup ∧ order.toFinset = s2.roomSet) ∧
      ∃ s4, s2.Unwatch (.one "4.1!1594") = .ok s4 ∧
        s4.roomSet = oneRoomSocket.roomSet.erase "4.1!1594" :=
  C21_rooms_are_tokens oneRoomSocket {} "4.1!1594" "1MIN" "5MIN" rfl (by decide)

theorem joinFrame_eq (data : WatchData) :
    joinFrame data = controlFrame "join" "data" data.format := by
  apply String.ext
  simp only [joinFrame, controlFrame, String.data_append, List.append_assoc]
  rfl

theorem leaveFrame_eq (data : WatchData) :
    leaveFrame data = controlFrame "leave" "data" data.format := by
  apply String.ext
  simp only [leaveFrame, controlFrame, String.data_append, List.append_assoc]
  rfl

theorem streamFrame_eq (t : String) : streamFrame t = controlFrame "join" "data" t := by
  apply String.ext
  simp only [streamFrame, controlFrame, String.data_append, List.append_assoc]
  rfl

theorem carriesData_controlFrame (v : String) :
    carriesData (controlFrame "join" "data" v) = true ∧
    carriesData (controlFrame "leave" "data" v) = true := by
  have h1 : (controlFrame "join" "data" v).data =
      ("\x7b\"type\": \"join\", \"data\": \"").data ++ (v ++ "\"\x7d").data := by
    simp only [controlFrame, String.data_append, List.append_assoc]
    rfl
  have h2 : (controlFrame "leave" "data" v).data =
      ("\x7b\"type\": \"leave\", \"data\": \"").data ++ (v ++ "\"\x7d").data := by
    simp only [controlFrame, String.data_append, List.append_assoc]
    rfl
  constructor
  · simp only [carriesData, h1, Bool.or_eq_true]
    exact Or.inl (List.isPrefixOf_iff_prefix.2 (List.prefix_append _ _))
  · simp only [carriesData, h2, Bool.or_eq_true]
    exact Or.inr (List.isPrefixOf_iff_prefix.2 (List.prefix_append _ _))

theorem isJoinFrame_roomFrame (room : String) : isJoinFrame (roomFrame room) = true := by
  have h : (roomFrame room).data =
      ("\x7b\"type\": \"join\"").data ++ ((", \"room\": \"").data ++ (room ++ "\"\x7d").data) := by
    simp only [roomFrame, String.data_append, ← List.append_assoc]
    rfl
  simp only [isJoinFrame, h]
  exact List.isPrefixOf_iff_prefix.2 (List.prefix_append _ _)

/-- Claim C22 fails for the replay operations: `Rewatch` writes the notify
frame, which is neither a join nor a leave frame, and a join frame without the
key `data`; the join frame of `RewatchOHLC` has no key `data` either. -/
theorem C22_replay_frames_without_data_key :
    ∃ s1 s2, twoTokenSocket.Rewatch ["4.1!2885", "4.1!1594"] = .ok s1 ∧
      s1.frames = [notifyFrame, rewatchFrame ["4.1!2885", "4.1!1594"]] ∧
      carriesData notifyFrame = false ∧
      carriesData (rewatchFrame ["4.1!2885", "4.1!1594"]) = false ∧
      oneRoomSocket.RewatchOHLC ["4.1!2885"] = .ok s2 ∧
      s2.frames = [roomFrame "4.1!2885"] ∧
      carriesData (roomFrame "4.1!2885") = false :=
  ⟨_, _, rfl, rfl, by decide, by decide, rfl, rfl, by decide⟩

/-- Claim C22, amended: on an open connection `Watch` and `WatchStreamData`
write one join frame and `Unwatch` writes one leave frame, each a textual frame
that carries the token, or the `%v` text of the token list, under the key
`data`. `Rewatch` writes the notify frame and then at most one frame, of type
join; `RewatchOHLC` writes one frame of type join for each room it is given. -/
theorem C22_control_frames (seb : SocketEventBreeze) (c : Conn) (hopen : seb.conn = some c) :
    (∀ data, ∃ s, seb.Watch data = .ok s ∧
      s.frames = seb.frames ++ [controlFrame "join" "data" data.format]) ∧
    (∀ t channel, ∃ s, seb.WatchStreamData t channel = .ok s ∧
      s.frames = seb.frames ++ [controlFrame "join" "data" t]) ∧
    (∀ data, ∃ s, seb.Unwatch data = .ok s ∧
      s.frames = seb.frames ++ [controlFrame "leave" "data" data.format]) ∧
    (∀ v, carriesData (controlFrame "join" "data" v) = true ∧
      carriesData (controlFrame "leave" "data" v) = true) ∧
    (∀ order, ∃ s joins, seb.Rewatch order = .ok s ∧
      s.frames = seb.frames ++ notifyFrame :: joins ∧ joins.length ≤ 1 ∧
      ∀ f ∈ joins, isJoinFrame f = true) ∧
    (∀ order, ∃ s joins, seb.RewatchOHLC order = .ok s ∧
      s.frames = seb.frames ++ joins ∧ joins.length = order.length ∧
      ∀ f ∈ joins, isJoinFrame f = true) := by
  refine ⟨?_, ?_, ?_, carriesData_controlFrame, ?_, ?_⟩
  · intro data
    refine ⟨_, Watch_open seb c data hopen, ?_⟩
    simp [SocketEventBreeze.frames, hopen, Conn.write, joinFrame_eq]
  · intro t channel
    obtain ⟨s, hs, hc, -⟩ := WatchStreamData_open seb c t channel hopen
    refine ⟨s, hs, ?_⟩
    simp [SocketEventBreeze.frames, hopen, hc, Conn.write, streamFrame_eq]
  · intro data
    obtain ⟨s, hs, -, -, hc⟩ := Unwatch_open seb c data hopen
    refine ⟨s, hs, ?_⟩
    simp [SocketEventBreeze.frames, hopen, hc, Conn.write, leaveFrame_eq]
  · intro order
    by_cases hlen : seb.tokenlist.length > 0
    · refine ⟨{ seb with conn := some ((c.write notifyFrame).write (rewatchFrame order)) },
        [rewatchFrame order], ?_, ?_, by simp, ?_⟩
      · simp [SocketEventBreeze.Rewatch, SocketEventBreeze.Notify, hopen, hlen]
      · simp [SocketEventBreeze.frames, hopen, Conn.write]
      · intro f hf
        simp only [List.mem_singleton] at hf
        subst hf
        exact isJoinFrame_rewatchFrame order
    · refine ⟨{ seb with conn := some (c.write notifyFrame) }, [], ?_, ?_, by simp, ?_⟩
      · simp only [SocketEventBreeze.Rewatch, SocketEventBreeze.Notify, hopen, GoResult.ok_bind]
        simp [hlen]
      · simp [SocketEventBreeze.frames, hopen, Conn.write]
      · intro f hf
        cases hf
  · intro order
    refine ⟨_, order.map roomFrame, RewatchOHLC_open order seb c hopen, ?_, by simp, ?_⟩
    · simp [SocketEventBreeze.frames, hopen]
    · intro f hf
      obtain ⟨room, -, rfl⟩ := List.mem_map.1 hf
      exact isJoinFrame_roomFrame room

/-- Witness of `C22_control_frames`: the channel that watches two tokens. -/
theorem C22_control_frames_witness :
    ∃ s, twoTokenSocket.Watch (.many ["4.1!2885", "4.1!1594"]) = .ok s ∧
      s.frames = twoTokenSocket.frames ++
        [controlFrame "join" "data" (WatchData.many ["4.1!2885", "4.1!1594"]).format] :=
  (C22_control_frames twoTokenSocket {} rfl).1 (.many ["4.1!2885", "4.1!1594"])

/-- Claim C24 fails on the instance whose rate-refresh channel is open and
watches `4.1!2885` while no OHLC stream exists: `WSDisconnectOhlc` reports that
the OHLC stream is not connected, and the rate-refresh handler is gone. -/
theorem C24_ohlc_teardown_drops_rate_refresh :
    subscribedInstance.SIORateRefreshHandler.isSome = true ∧
    subscribedInstance.SIOOhlcvStreamHandler = none ∧
    WSDisconnectOhlc subscribedInstance =
      .ok ({ subscribedInstance with SIORateRefreshHandler := none },
        responseOf subscribedInstance "OHLCV_STREAM_NOT_CONNECTED") := by
  decide

/-- Claim C24, amended: `WSDisconnectOhlc`, called while every rate-refresh or
OHLC handler that exists has a transport, disconnects and clears the
rate-refresh handler as well as the OHLC handler, reports on the OHLC stream
alone, and leaves the order-refresh handler, the order connect counter and
every other field unchanged. -/
theorem C24_ohlc_teardown (b : BreezeInstance)
    (hr : ∀ h, b.SIORateRefreshHandler = some h → ∃ c, h.conn = some c)
    (hh : ∀ h, b.SIOOhlcvStreamHandler = some h → ∃ c, h.conn = some c) :
    ∃ b2, WSDisconnectOhlc b =
        .ok (b2, responseOf b (if b.SIOOhlcvStreamHandler = none then "OHLCV_STREAM_NOT_CONNECTED"
          else "OHLCV_STREAM_DISCONNECTED")) ∧
      b2 = { b with SIORateRefreshHandler := none, SIOOhlcvStreamHandler := none } ∧
      b2.SIORateRefreshHandler = none ∧ b2.SIOOhlcvStreamHandler = none ∧
      b2.SIOOrderRefreshHandler = b.SIOOrderRefreshHandler ∧
      b2.OrderConnect = b.OrderConnect := by
  refine ⟨_, ?_, rfl, rfl, rfl, rfl, rfl⟩
  cases h1 : b.SIORateRefreshHandler with
  | none =>
    cases h2 : b.SIOOhlcvStreamHandler with
    | none =>
      simp only [WSDisconnectOhlc, disconnectOhlcHandler, h1, h2]
      cases b
      simp only at h1 h2
      subst h1 h2
      rfl
    | some o =>
      obtain ⟨c, hc⟩ := hh o h2
      simp only [WSDisconnectOhlc, disconnectOhlcHandler, h1, h2, GoResult.pure_eq,
        GoResult.ok_bind, SocketEventBreeze.OnDisconnect, hc]
      cases b
      simp only at h1 h2
      subst h1 h2
      rfl
  | some r =>
    obtain ⟨c, hc⟩ := hr r h1
    cases h2 : b.SIOOhlcvStreamHandler with
    | none =>
      simp only [WSDisconnectOhlc, disconnectOhlcHandler, h1, h2, GoResult.pure_eq,
        GoResult.ok_bind, SocketEventBreeze.OnDisconnect, hc]
      cases b
      simp only at h1 h2
      subst h1 h2
      rfl
    | some o =>
      obtain ⟨c2, hc2⟩ := hh o h2
      simp only [WSDisconnectOhlc, disconnectOhlcHandler, h1, h2, GoResult.pure_eq,
        GoResult.ok_bind, SocketEventBreeze.OnDisconnect, hc, hc2]
      cases b
      simp only at h1 h2
      subst h1 h2
      rfl

/-- Witness of `C24_ohlc_teardown`: the instance whose three channels are open. -/
theorem C24_ohlc_teardown_witness :
    ∃ b2, WSDisconnectOhlc streamingInstance =
        .ok (b2, responseOf streamingInstance
          (if streamingInstance.SIOOhlcvStreamHandler = none then "OHLCV_STREAM_NOT_CONNECTED"
            else "OHLCV_STREAM_DISCONNECTED")) ∧
      b2 = { streamingInstance with SIORateRefreshHandler := none, SIOOhlcvStreamHandler := none } ∧
      b2.SIORateRefreshHandler = none ∧ b2.SIOOhlcvStreamHandler = none ∧
      b2.SIOOrderRefreshHandler = streamingInstance.SIOOrderRefreshHandler ∧
      b2.OrderConnect = streamingInstance.OrderConnect :=
  C24_ohlc_teardown streamingInstance
    (fun h hh => by
      obtain rfl := Option.some.inj (show some _ = some h from hh)
      exact ⟨_, rfl⟩)
    (fun h hh => by
      obtain rfl := Option.some.inj (show some _ = some h from hh)
      exact ⟨_, rfl⟩)

/-! ## The order connect counter -/

theorem orderOk_frame (b b2 : BreezeInstance) (h1 : b2.OrderConnect = b.OrderConnect)
    (h2 : b2.SIOOrderRefreshHandler = b.SIOOrderRefreshHandler) (h : OrderCounterOk b) :
    OrderCounterOk b2 := by
  unfold OrderCounterOk at *
  rw [h1, h2]
  exact h

theorem orderOk_handler (b b2 : BreezeInstance) (o : SocketEventBreeze)
    (h1 : b2.OrderConnect = b.OrderConnect) (h2 : b2.SIOOrderRefreshHandler = some o)
    (h : OrderCounterOk b) : OrderCounterOk b2 := by
  unfold OrderCounterOk at *
  rw [h1, h2]
  exact ⟨h.1, fun _ => rfl⟩

theorem orderOk_cleared (b2 : BreezeInstance) (h1 : b2.OrderConnect = 0) : OrderCounterOk b2 := by
  unfold OrderCounterOk
  rw [h1]
  exact ⟨Or.inl rfl, fun h => absurd h (by decide)⟩

theorem orderOk_wsConnect (b : BreezeInstance) (orderFlag ohlcvFlag strategyFlag : Bool)
    (net : Dial) (h : OrderCounterOk b) :
    OrderCounterOk (_wsConnect b orderFlag ohlcvFlag strategyFlag net).1 := by
  unfold _wsConnect
  by_cases hflag : (orderFlag || strategyFlag) = true
  · rw [if_pos hflag]
    by_cases h0 : b.OrderConnect = 0
    · rw [if_pos h0]
      exact ⟨Or.inr (by simp [h0]), fun _ => rfl⟩
    · rw [if_neg h0]
      exact orderOk_handler b _ _ rfl rfl h
  · rw [if_neg hflag]
    by_cases ho : ohlcvFlag = true
    · rw [if_pos ho]
      exact orderOk_frame b _ rfl rfl h
    · rw [if_neg ho]
      exact orderOk_frame b _ rfl rfl h

theorem subscribeRouted_orderOk (b b2 : BreezeInstance)
    (stockToken exchangeCode stockCode productType expiryDate strikePrice right interval : String)
    (q d n : Bool) (net : Dial) (reply : Reply)
    (h : subscribeRouted b stockToken exchangeCode stockCode productType expiryDate strikePrice
      right interval q d n net = .ok (b2, reply))
    (hb : OrderCounterOk b) : OrderCounterOk b2 := by
  unfold subscribeRouted at h
  cases hr : b.SIORateRefreshHandler with
  | none =>
    simp only [hr, GoResult.ok.injEq, Prod.mk.injEq] at h
    rw [← h.1]
    exact hb
  | some r =>
    simp only [hr] at h
    split_ifs at h with c1 c2 c3 c4 c5 c6
    · have hc := orderOk_wsConnect b false false true net hb
      generalize _wsConnect b false false true net = c at h hc
      obtain ⟨cb, ce⟩ := c
      cases ce with
      | some e =>
        simp only [GoResult.ok.injEq, Prod.mk.injEq] at h
        rw [← h.1]
        exact hc
      | none =>
        simp only at h
        obtain ⟨o, -, h2⟩ := GoResult.bind_eq_ok _ _ _ h
        simp only [GoResult.pure_eq, GoResult.ok.injEq, Prod.mk.injEq] at h2
        rw [← h2.1]
        exact orderOk_handler cb _ o rfl rfl hc
    · have hc := orderOk_wsConnect b true false false net hb
      generalize _wsConnect b true false false net = c at h hc
      obtain ⟨cb, ce⟩ := c
      cases ce with
      | some e =>
        simp only [GoResult.ok.injEq, Prod.mk.injEq] at h
        rw [← h.1]
        exact hc
      | none =>
        simp only at h
        cases ho : cb.SIOOrderRefreshHandler with
        | none => simp [ho] at h
        | some seb =>
          simp only [ho] at h
          obtain ⟨o, -, h2⟩ := GoResult.bind_eq_ok _ _ _ h
          simp only [GoResult.pure_eq, GoResult.ok.injEq, Prod.mk.injEq] at h2
          rw [← h2.1]
          exact orderOk_handler cb _ o rfl rfl hc
    · obtain ⟨r2, hj, h2⟩ := GoResult.bind_eq_ok _ _ _ h
      obtain ⟨b3, e3, hj3, -, f2, f3, -⟩ := joinOhlc_spec b stockToken interval net
      rw [hj3] at hj
      simp only [GoResult.ok.injEq] at hj
      subst hj
      cases e3 with
      | some e =>
        simp only [GoResult.pure_eq, GoResult.ok.injEq, Prod.mk.injEq] at h2
        rw [← h2.1]
        exact orderOk_frame b _ f3 f2 hb
      | none =>
        simp only [GoResult.pure_eq, GoResult.ok.injEq, Prod.mk.injEq] at h2
        rw [← h2.1]
        exact orderOk_frame b _ f3 f2 hb
    · obtain ⟨o, -, h2⟩ := GoResult.bind_eq_ok _ _ _ h
      simp only [GoResult.pure_eq, GoResult.ok.injEq, Prod.mk.injEq] at h2
      rw [← h2.1]
      exact orderOk_frame b _ rfl rfl hb
    · simp only [GoResult.ok.injEq, Prod.mk.injEq] at h
      rw [← h.1]
      exact hb
    · cases hg : getStockTokenValue b exchangeCode stockCode productType expiryDate strikePrice
          right q d with
      | panic => simp [hg] at h
      | err e =>
        simp only [hg, GoResult.ok.injEq, Prod.mk.injEq] at h
        rw [← h.1]
        exact hb
      | ok ids =>
        simp only [hg] at h
        obtain ⟨r2, hj, h2⟩ := GoResult.bind_eq_ok _ _ _ h
        obtain ⟨b3, e3, hj3, -, f2, f3, -⟩ := joinOhlc_spec b ids.1 interval net
        rw [hj3] at hj
        simp only [GoResult.ok.injEq] at hj
        subst hj
        cases e3 with
        | some e =>
          simp only [GoResult.pure_eq, GoResult.ok.injEq, Prod.mk.injEq] at h2
          rw [← h2.1]
          exact orderOk_frame b _ f3 f2 hb
        | none =>
          simp only [GoResult.pure_eq, GoResult.ok.injEq, Prod.mk.injEq] at h2
          rw [← h2.1]
          exact orderOk_frame b _ f3 f2 hb
    · cases hg : getStockTokenValue b exchangeCode stockCode productType expiryDate strikePrice
          right q d with
      | panic => simp [hg] at h
      | err e =>
        simp only [hg, GoResult.ok.injEq, Prod.mk.injEq] at h
        rw [← h.1]
        exact hb
      | ok ids =>
        simp only [hg] at h
        obtain ⟨r2, hj, h2⟩ := GoResult.bind_eq_ok _ _ _ h
        obtain ⟨b3, hj3, f2, -, f3⟩ := watchIds_spec b r ids.1 ids.2 hr
        rw [hj3] at hj
        simp only [GoResult.ok.injEq] at hj
        subst hj
        simp only [GoResult.pure_eq, GoResult.ok.injEq, Prod.mk.injEq] at h2
        rw [← h2.1]
        exact orderOk_frame b _ f3 f2 hb

theorem SubscribeFeeds_orderOk (b b2 : BreezeInstance)
    (stockToken exchangeCode stockCode productType expiryDate strikePrice right interval : String)
    (q d n : Bool) (net : Dial) (reply : Reply)
    (h : SubscribeFeeds b stockToken exchangeCode stockCode productType expiryDate strikePrice
      right interval q d n net = .ok (b2, reply))
    (hb : OrderCounterOk b) : OrderCounterOk b2 := by
  have hb1 : OrderCounterOk { b with Interval := interval } := orderOk_frame b _ rfl rfl hb
  unfold SubscribeFeeds at h
  simp only at h
  split_ifs at h with c1 c2
  · simp only [GoResult.ok.injEq, Prod.mk.injEq] at h
    rw [← h.1]
    exact hb1
  · simp only [GoResult.ok.injEq, Prod.mk.injEq] at h
    rw [← h.1]
    exact hb1
  · exact subscribeRouted_orderOk _ _ _ _ _ _ _ _ _ _ _ _ _ _ _ h hb1
  · exact subscribeRouted_orderOk _ _ _ _ _ _ _ _ _ _ _ _ _ _ _ h hb1

theorem leaveOhlc_order (b b2 : BreezeInstance) (token : String)
    (h : leaveOhlc b token = .ok b2) :
    b2.OrderConnect = b.OrderConnect ∧ b2.SIOOrderRefreshHandler = b.SIOOrderRefreshHandler := by
  unfold leaveOhlc at h
  cases ho : b.SIOOhlcvStreamHandler with
  | none =>
    simp only [ho, GoResult.ok.injEq] at h
    rw [← h]
    exact ⟨rfl, rfl⟩
  | some seb =>
    simp only [ho] at h
    obtain ⟨o, -, h2⟩ := GoResult.bind_eq_ok _ _ _ h
    simp only [GoResult.pure_eq, GoResult.ok.injEq] at h2
    rw [← h2]
    exact ⟨rfl, rfl⟩

theorem unwatchIds_order (b b2 : BreezeInstance) (quoteId depthId : String)
    (h : unwatchIds b quoteId depthId = .ok b2) :
    b2.OrderConnect = b.OrderConnect ∧ b2.SIOOrderRefreshHandler = b.SIOOrderRefreshHandler := by
  unfold unwatchIds at h
  by_cases hq : quoteId = ""
  · by_cases hd : depthId = ""
    · simp [hq, hd] at h
      rw [← h]
      exact ⟨rfl, rfl⟩
    · cases hu : unwatchOn b.SIORateRefreshHandler (.one depthId) with
      | ok o =>
        simp [hq, hd, hu] at h
        rw [← h]
        exact ⟨rfl, rfl⟩
      | err e => simp [hq, hd, hu] at h
      | panic => simp [hq, hd, hu] at h
  · cases hu : unwatchOn b.SIORateRefreshHandler (.one quoteId) with
    | err e => simp [hq, hu] at h
    | panic => simp [hq, hu] at h
    | ok o =>
      by_cases hd : depthId = ""
      · simp [hq, hd, hu] at h
        rw [← h]
        exact ⟨rfl, rfl⟩
      · cases hu2 : unwatchOn (some o) (.one depthId) with
        | ok o2 =>
          simp [hq, hd, hu, hu2] at h
          rw [← h]
          exact ⟨rfl, rfl⟩
        | err e => simp [hq, hd, hu, hu2] at h
        | panic => simp [hq, hd, hu, hu2] at h

theorem unsubscribeRouted_orderOk (b b2 : BreezeInstance)
    (stockToken exchangeCode stockCode productType expiryDate strikePrice right interval : String)
    (q d n : Bool) (reply : Reply)
    (h : unsubscribeRouted b stockToken exchangeCode stockCode productType expiryDate strikePrice
      right interval q d n = .ok (b2, reply))
    (hb : OrderCounterOk b) : OrderCounterOk b2 := by
  unfold unsubscribeRouted at h
  split_ifs at h with c1 c2
  · cases ho : b.SIOOrderRefreshHandler with
    | none =>
      simp only [ho, GoResult.ok.injEq, Prod.mk.injEq] at h
      rw [← h.1]
      exact hb
    | some seb =>
      simp only [ho] at h
      obtain ⟨o, -, h2⟩ := GoResult.bind_eq_ok _ _ _ h
      simp only [GoResult.pure_eq, GoResult.ok.injEq, Prod.mk.injEq] at h2
      rw [← h2.1]
      exact orderOk_cleared _ rfl
  · cases ho : b.SIOOrderRefreshHandler with
    | none =>
      simp only [ho, GoResult.ok.injEq, Prod.mk.injEq] at h
      rw [← h.1]
      exact hb
    | some seb =>
      simp only [ho] at h
      obtain ⟨o, -, h2⟩ := GoResult.bind_eq_ok _ _ _ h
      simp only [GoResult.pure_eq, GoResult.ok.injEq, Prod.mk.injEq] at h2
      rw [← h2.1]
      exact orderOk_handler b _ o rfl rfl hb
  all_goals
    cases hr : b.SIORateRefreshHandler with
    | none =>
      simp only [hr, GoResult.ok.injEq, Prod.mk.injEq] at h
      rw [← h.1]
      exact hb
    | some r => ?_
  · simp only [hr] at h
    obtain ⟨o, ho, h2⟩ := GoResult.bind_eq_ok _ _ _ h
    simp only [GoResult.pure_eq, GoResult.ok.injEq, Prod.mk.injEq] at h2
    rw [← h2.1]
    obtain ⟨f1, f2⟩ := leaveOhlc_order _ _ _ ho
    exact orderOk_frame b _ f1 f2 hb
  · simp only [hr] at h
    obtain ⟨o, ho, h2⟩ := GoResult.bind_eq_ok _ _ _ h
    simp only [GoResult.pure_eq, GoResult.ok_bind, GoResult.ok.injEq, Prod.mk.injEq] at h2
    rw [← h2.1]
    exact orderOk_frame b _ rfl rfl hb
  · simp only [hr] at h
    cases hg : getStockTokenValue b exchangeCode stockCode productType expiryDate strikePrice
        right q d with
    | panic => simp [hg] at h
    | err e =>
      simp only [hg, GoResult.ok.injEq, Prod.mk.injEq] at h
      rw [← h.1]
      exact hb
    | ok ids =>
      simp only [hg] at h
      obtain ⟨o, ho, h2⟩ := GoResult.bind_eq_ok _ _ _ h
      simp only [GoResult.pure_eq, GoResult.ok.injEq, Prod.mk.injEq] at h2
      rw [← h2.1]
      obtain ⟨f1, f2⟩ := leaveOhlc_order _ _ _ ho
      exact orderOk_frame b _ f1 f2 hb
  · simp only [hr] at h
    cases hg : getStockTokenValue b exchangeCode stockCode productType expiryDate strikePrice
        right q d with
    | panic => simp [hg] at h
    | err e =>
      simp only [hg, GoResult.ok.injEq, Prod.mk.injEq] at h
      rw [← h.1]
      exact hb
    | ok ids =>
      simp only [hg] at h
      obtain ⟨o, ho, h2⟩ := GoResult.bind_eq_ok _ _ _ h
      simp only [GoResult.pure_eq, GoResult.ok.injEq, Prod.mk.injEq] at h2
      rw [← h2.1]
      obtain ⟨f1, f2⟩ := unwatchIds_order _ _ _ _ ho
      exact orderOk_frame b _ f1 f2 hb

theorem UnsubscribeFeeds_orderOk (b b2 : BreezeInstance)
    (stockToken exchangeCode stockCode productType expiryDate strikePrice right interval : String)
    (q d n : Bool) (reply : Reply)
    (h : UnsubscribeFeeds b stockToken exchangeCode stockCode productType expiryDate strikePrice
      right interval q d n = .ok (b2, reply))
    (hb : OrderCounterOk b) : OrderCounterOk b2 := by
  unfold UnsubscribeFeeds at h
  split_ifs at h with c1 c2
  · simp only [GoResult.ok.injEq, Prod.mk.injEq] at h
    rw [← h.1]
    exact hb
  · exact unsubscribeRouted_orderOk _ _ _ _ _ _ _ _ _ _ _ _ _ _ h hb
  · exact unsubscribeRouted_orderOk _ _ _ _ _ _ _ _ _ _ _ _ _ _ h hb

theorem WSDisconnect_orderOk (b b2 : BreezeInstance) (responses : List Response)
    (h : WSDisconnect b = .ok (b2, responses)) (hb : OrderCounterOk b) : OrderCounterOk b2 := by
  unfold WSDisconnect at h
  obtain ⟨r1, -, h⟩ := GoResult.bind_eq_ok _ _ _ h
  obtain ⟨r2, -, h⟩ := GoResult.bind_eq_ok _ _ _ h
  obtain ⟨r3, -, h⟩ := GoResult.bind_eq_ok _ _ _ h
  simp only [GoResult.pure_eq, GoResult.ok.injEq, Prod.mk.injEq] at h
  rw [← h.1]
  cases ho : b.SIOOrderRefreshHandler with
  | none => exact orderOk_frame b _ rfl (by simp [ho]) hb
  | some o => exact orderOk_cleared _ rfl

theorem disconnectOhlcHandler_orderOk (b b2 : BreezeInstance) (response : Response)
    (h : disconnectOhlcHandler b = .ok (b2, response)) (hb : OrderCounterOk b) :
    OrderCounterOk b2 := by
  unfold disconnectOhlcHandler at h
  cases ho : b.SIOOhlcvStreamHandler with
  | none =>
    simp only [ho, GoResult.ok.injEq, Prod.mk.injEq] at h
    rw [← h.1]
    exact hb
  | some o =>
    simp only [ho] at h
    obtain ⟨o2, -, h2⟩ := GoResult.bind_eq_ok _ _ _ h
    simp only [GoResult.pure_eq, GoResult.ok.injEq, Prod.mk.injEq] at h2
    rw [← h2.1]
    exact orderOk_frame b _ rfl rfl hb

theorem WSDisconnectOhlc_orderOk (b b2 : BreezeInstance) (response : Response)
    (h : WSDisconnectOhlc b = .ok (b2, response)) (hb : OrderCounterOk b) :
    OrderCounterOk b2 := by
  unfold WSDisconnectOhlc at h
  cases hr : b.SIORateRefreshHandler with
  | none =>
    simp only [hr] at h
    exact disconnectOhlcHandler_orderOk _ _ _ h hb
  | some r =>
    simp only [hr] at h
    obtain ⟨o, -, h2⟩ := GoResult.bind_eq_ok _ _ _ h
    exact disconnectOhlcHandler_orderOk _ _ _ h2 (orderOk_frame b _ rfl rfl hb)

theorem reachable_orderOk (b : BreezeInstance) (h : Reachable b) : OrderCounterOk b := by
  induction h with
  | fresh b _ _ h3 h4 =>
    exact orderOk_cleared b h4
  | connect b net _ ih => exact orderOk_wsConnect b false false false net ih
  | subscribe b b2 _ _ _ _ _ _ _ _ _ _ _ _ _ _ hs ih =>
    exact SubscribeFeeds_orderOk _ _ _ _ _ _ _ _ _ _ _ _ _ _ _ hs ih
  | unsubscribe b b2 _ _ _ _ _ _ _ _ _ _ _ _ _ hs ih =>
    exact UnsubscribeFeeds_orderOk _ _ _ _ _ _ _ _ _ _ _ _ _ _ hs ih
  | disconnect b b2 _ _ hs ih => exact WSDisconnect_orderOk _ _ _ hs ih
  | disconnectOhlc b b2 _ _ hs ih => exact WSDisconnectOhlc_orderOk _ _ _ hs ih

/-- Claim C30: in every state reachable from a fresh instance through
`WSConnect`, `SubscribeFeeds`, `UnsubscribeFeeds`, `WSDisconnect` and
`WSDisconnectOhlc`, the order connect counter is 0 or 1 and is 1 only while an
order-refresh handler exists; and while it is 1 a `_wsConnect` for the order
or the strategy channel returns without error and leaves the instance as it
was, so that no transport is opened. -/
theorem C30_order_connect_counter (b : BreezeInstance) (h : Reachable b) :
    (b.OrderConnect = 0 ∨ b.OrderConnect = 1) ∧
    (b.OrderConnect = 1 → b.SIOOrderRefreshHandler.isSome = true) ∧
    (b.OrderConnect = 1 → ∀ (orderFlag ohlcvFlag strategyFlag : Bool) (net : Dial),
      (orderFlag || strategyFlag) = true →
      _wsConnect b orderFlag ohlcvFlag strategyFlag net = (b, none)) := by
  obtain ⟨h1, h2⟩ := reachable_orderOk b h
  refine ⟨h1, h2, ?_⟩
  intro hc orderFlag ohlcvFlag strategyFlag net hflag
  have h0 : ¬ b.OrderConnect = 0 := by rw [hc]; decide
  have hs := h2 hc
  unfold _wsConnect
  rw [if_pos hflag, if_neg h0]
  cases b with
  | mk u k r o =>
    cases o with
    | none => simp at hs
    | some o => rfl

/-- Witness of `C30_order_connect_counter`: the instance after `WSConnect` and
a `SubscribeFeeds` for order notifications. -/
theorem C30_order_connect_counter_witness :
    Reachable notifiedInstance ∧
    (notifiedInstance.OrderConnect = 0 ∨ notifiedInstance.OrderConnect = 1) ∧
    (notifiedInstance.OrderConnect = 1 → notifiedInstance.SIOOrderRefreshHandler.isSome = true) ∧
    (notifiedInstance.OrderConnect = 1 → ∀ (orderFlag ohlcvFlag strategyFlag : Bool) (net : Dial),
      (orderFlag || strategyFlag) = true →
      _wsConnect notifiedInstance orderFlag ohlcvFlag strategyFlag net = (notifiedInstance, none)) :=
  have hr : Reachable notifiedInstance :=
    Reachable.subscribe connectedInstance notifiedInstance "" "" "" "" "" "" "" "" false false true
      .accepted { response := some (responseOf connectedInstance "ORDER_NOTIFICATION_SUBSRIBED") }
      (Reachable.connect {} .accepted (Reachable.fresh {} rfl rfl rfl rfl)) (by decide)
  ⟨hr, C30_order_connect_counter notifiedInstance hr⟩

/-! ## Dispatch of inbound messages by event -/

theorem assign_append (l1 l2 : List (String × GoResult GoVal)) (r : Record) :
    assign (l1 ++ l2) r = assign l1 r >>= assign l2 := by
  induction l1 generalizing r with
  | nil => rfl
  | cons kv rest ih =>
    obtain ⟨k, v⟩ := kv
    cases v with
    | ok x => exact ih (Assoc.set r k x)
    | err e => rfl
    | panic => rfl

theorem Decodes.set (data : List GoVal) (r : Record) (t : List (String × Source))
    (k : String) (v : GoVal) (src : Source) (h : Decodes data r t)
    (hv : src.eval data = .ok v) : Decodes data (Assoc.set r k v) (Assoc.set t k src) := by
  unfold Decodes at *
  induction h with
  | nil => exact List.Forall₂.cons ⟨rfl, hv⟩ List.Forall₂.nil
  | @cons kv p r1 t1 hkp _ ih =>
    obtain ⟨k1, v1⟩ := kv
    obtain ⟨k2, s2⟩ := p
    obtain ⟨e, he⟩ := hkp
    simp only at e
    subst e
    by_cases hk : k1 = k
    · simp only [Assoc.set, hk, if_true]
      exact List.Forall₂.cons ⟨rfl, hv⟩ (by assumption)
    · simp only [Assoc.set, hk, if_false]
      exact List.Forall₂.cons ⟨rfl, he⟩ ih

theorem assign_decodes (data : List GoVal) (entries : List (String × Source)) (r0 r : Record)
    (t0 : List (String × Source)) (h0 : Decodes data r0 t0)
    (h : assign (entries.map (fun p => (p.1, p.2.eval data))) r0 = .ok r) :
    Decodes data r (entries.foldl (fun m p => Assoc.set m p.1 p.2) t0) := by
  induction entries generalizing r0 t0 with
  | nil =>
    simp only [List.map_nil, assign, GoResult.ok.injEq] at h
    subst h
    exact h0
  | cons p rest ih =>
    simp only [List.map_cons, assign] at h
    obtain ⟨x, hx, h2⟩ := GoResult.bind_eq_ok _ _ _ h
    exact ih _ _ (Decodes.set data r0 t0 p.1 x p.2 h0 hx) h2

theorem Decodes.keys (data : List GoVal) (r : Record) (t : List (String × Source))
    (h : Decodes data r t) : Assoc.keys r = Assoc.keys t := by
  unfold Decodes at h
  induction h with
  | nil => rfl
  | cons hkp _ ih =>
    simp only [Assoc.keys, List.map_cons, List.cons.injEq] at ih ⊢
    exact ⟨hkp.1, ih⟩

theorem Decodes.length (data : List GoVal) (r : Record) (t : List (String × Source))
    (h : Decodes data r t) : r.length = t.length :=
  List.Forall₂.length_eq h

theorem Decodes.get? (data : List GoVal) (r : Record) (t : List (String × Source))
    (h : Decodes data r t) (k : String) :
    (∀ v, Assoc.get? r k = some v → ∃ src, Assoc.get? t k = some src ∧ src.eval data = .ok v) ∧
    (∀ src, Assoc.get? t k = some src → ∃ v, Assoc.get? r k = some v ∧ src.eval data = .ok v) := by
  unfold Decodes at h
  induction h with
  | nil => simp [Assoc.get?]
  | @cons kv p r1 t1 hkp _ ih =>
    obtain ⟨k1, v1⟩ := kv
    obtain ⟨k2, s2⟩ := p
    obtain ⟨e, he⟩ := hkp
    simp only at e he
    subst e
    by_cases hk : k1 = k
    · simp only [Assoc.get?, hk, if_true, Option.some.injEq]
      constructor
      · intro v hv
        subst hv
        exact ⟨s2, rfl, he⟩
      · intro src hs
        subst hs
        exact ⟨v1, rfl, he⟩
    · simp only [Assoc.get?, hk, if_false]
      exact ih

theorem assign_isOk (data : List GoVal) (entries : List (String × Source)) (r0 : Record)
    (h : ∀ p ∈ entries, ∃ v, p.2.eval data = .ok v) :
    ∃ r, assign (entries.map (fun p => (p.1, p.2.eval data))) r0 = .ok r := by
  induction entries generalizing r0 with
  | nil => exact ⟨r0, rfl⟩
  | cons p rest ih =>
    obtain ⟨v, hv⟩ := h p (List.mem_cons_self _ _)
    simp only [List.map_cons, assign, hv, GoResult.ok_bind]
    exact ih _ (fun q hq => h q (List.mem_cons_of_mem _ hq))

theorem tableSet_fresh (entries t0 : List (String × Source))
    (h : (Assoc.keys (t0 ++ entries)).Nodup) :
    entries.foldl (fun m p => Assoc.set m p.1 p.2) t0 = t0 ++ entries := by
  induction entries generalizing t0 with
  | nil => simp
  | cons p rest ih =>
    have hp : p.1 ∉ Assoc.keys t0 := by
      simp only [Assoc.keys, List.map_append, List.map_cons] at h
      have := (List.nodup_append.1 h).2.2
      intro hm
      exact this hm (List.mem_cons_self _ _)
    have hset : Assoc.set t0 p.1 p.2 = t0 ++ [p] := by
      clear h ih
      induction t0 with
      | nil => rfl
      | cons q t ih2 =>
        have hq : q.1 ≠ p.1 := fun e => hp (by simp [Assoc.keys, e])
        have ht : p.1 ∉ Assoc.keys t := fun hm => hp (by
          simp only [Assoc.keys, List.map_cons, List.mem_cons]
          exact Or.inr hm)
        simp only [Assoc.set, hq, if_false, List.cons_append, ih2 ht]
    simp only [List.foldl_cons, hset]
    rw [ih (t0 ++ [p]) (by simpa using h)]
    simp

theorem Assoc.get?_of_mem {V : Type} (t : List (String × V)) (k : String) (v : V)
    (hn : (Assoc.keys t).Nodup) (hm : (k, v) ∈ t) : Assoc.get? t k = some v := by
  induction t with
  | nil => cases hm
  | cons q rest ih =>
    obtain ⟨k1, v1⟩ := q
    simp only [Assoc.keys, List.map_cons, List.nodup_cons] at hn
    rcases List.mem_cons.1 hm with e | hm2
    · injection e with e1 e2
      subst e1 e2
      simp [Assoc.get?]
    · have hne : k1 ≠ k := by
        intro e
        subst e
        exact hn.1 (List.mem_map.2 ⟨(k1, v), hm2, rfl⟩)
      simp only [Assoc.get?, hne, if_false]
      exact ih hn.2 hm2

theorem iclickData_eq (data : List GoVal) :
    iclickData data =
      assign ((decodeEntries none 19).map (fun p => (p.1, p.2.eval data))) [] := by
  rfl

theorem strategyDict_eq (data : List GoVal) :
    strategyDict data =
      assign ((decodeEntries none 28).map (fun p => (p.1, p.2.eval data))) [] := by
  rfl

theorem depthDict_eq (data : List GoVal) (exchange : String) :
    depthDict data exchange =
      assign ((depthEntries exchange).map (fun p => (p.1, p.2.eval data))) [] := by
  rfl

theorem quoteDict_eq (data : List GoVal) :
    quoteDict data =
      assign ((quoteEntries data.length).map (fun p => (p.1, p.2.eval data))) [] := by
  unfold quoteDict quoteEntries
  rw [List.map_append, assign_append]
  by_cases h21 : data.length = 21
  · simp only [h21, if_true]
    rfl
  · by_cases h23 : data.length = 23
    · simp only [h23, if_true]
      rfl
    · simp only [h21, h23, if_false]
      rfl

theorem exchangeLabel_eq (data : List GoVal) (exchange : String) (n : Nat) (d : Record) :
    assign ((labelEntries exchange n).map (fun p => (p.1, p.2.eval data))) d =
      .ok (exchangeLabel exchange n d) := by
  unfold labelEntries displayLabel exchangeLabel
  split_ifs <;> rfl

theorem commodityBlock_eval (data : List GoVal) (j : Nat) (v : GoVal)
    (hv : data.get? (22 + j) = some v) :
    (commodityBlock j).map (fun p => (p.1, p.2.eval data)) =
      [(numbered "Quantity" j, asArr v >>= fun row => idx row 0),
       (numbered "OrderPrice" j, asArr v >>= fun row => idx row 1),
       (numbered "TotalOrders" j, asArr v >>= fun row => idx row 2),
       (numbered "Reserved" j, asArr v >>= fun row => idx row 3),
       (numbered "SellQuantity" j, asArr v >>= fun row => idx row 4),
       (numbered "SellOrderPrice" j, asArr v >>= fun row => idx row 5),
       (numbered "SellTotalOrders" j, asArr v >>= fun row => idx row 6),
       (numbered "SellReserved" j, asArr v >>= fun row => idx row 7)] := by
  have hi : idx data (22 + j) = .ok v := by
    unfold idx
    rw [hv]
  simp [commodityBlock, depthBlockFields, Source.eval, hi]

theorem commodityRows_eq (data : List GoVal) (rows : List GoVal) (j : Nat) (r : Record)
    (h : data.drop (22 + j) = rows) :
    commodityRows j rows r =
      assign (((List.range rows.length).flatMap (fun i => commodityBlock (j + i))).map
        (fun p => (p.1, p.2.eval data))) r := by
  induction rows generalizing j r with
  | nil => rfl
  | cons v rest ih =>
    have hv : data.get? (22 + j) = some v := by
      have := congrArg List.head? h
      simpa [List.head?_drop] using this
    have hrest : data.drop (22 + (j + 1)) = rest := by
      have := congrArg List.tail h
      simpa [List.tail_drop, Nat.add_assoc] using this
    have hshift : (List.range rest.length).flatMap (fun i => commodityBlock (j + (i + 1))) =
        (List.range rest.length).flatMap (fun i => commodityBlock (j + 1 + i)) := by
      congr 1
      funext i
      congr 1
      omega
    have hfun : (fun r2 => commodityRows (j + 1) rest r2) =
        assign (((List.range rest.length).flatMap (fun i => commodityBlock (j + 1 + i))).map
          (fun p => (p.1, p.2.eval data))) :=
      funext (fun r2 => ih (j + 1) r2 hrest)
    simp only [List.length_cons, List.range_succ_eq_map, List.flatMap_cons, List.flatMap_map,
      Function.comp_def, Nat.succ_eq_add_one, Nat.add_zero, List.map_append, assign_append,
      commodityBlock_eval data j v hv, hshift]
    rw [← hfun]
    rfl

theorem commodityDict_eq (data : List GoVal) :
    commodityDict data =
      assign ((commodityHeaderEntries ++
        (List.range (data.length - 22)).flatMap commodityBlock).map
          (fun p => (p.1, p.2.eval data))) [] := by
  unfold commodityDict
  rw [List.map_append, assign_append]
  have h := fun r => commodityRows_eq data (data.drop 22) 0 r rfl
  simp only [Nat.zero_add, List.length_drop] at h
  simp only [h]
  rfl

theorem parseTick_eq (s : String) (rest : List GoVal) (exchange dataType : String)
    (more : List String) (hs : goSplit s '!' = exchange :: dataType :: more) :
    parseTick (.str s :: rest) =
      assign ((decodeEntries (some (exchange, dataType)) (rest.length + 1)).map
        (fun p => (p.1, p.2.eval (.str s :: rest)))) [] := by
  simp only [parseTick, idx, List.get?_cons_zero, GoResult.ok_bind, asString, hs,
    List.get?_cons_succ, List.length_cons, decodeEntries, List.map_append, assign_append,
    exchangeLabel_eq, GoResult.pure_eq]
  by_cases h6 : exchange = "6"
  · simp only [h6, if_true]
    rw [commodityDict_eq]
    simp only [List.length_cons, List.map_append]
    cases assign _ [] <;>
      simp only [GoResult.ok_bind, GoResult.err_bind, GoResult.panic_bind, exchangeLabel_eq]
  · by_cases h1 : dataType = "1"
    · simp only [h6, h1, if_true, if_false]
      rw [quoteDict_eq]
      simp only [List.length_cons]
      cases assign _ [] <;>
      simp only [GoResult.ok_bind, GoResult.err_bind, GoResult.panic_bind, exchangeLabel_eq]
    · simp only [h6, h1, if_false]
      rw [depthDict_eq]
      cases assign _ [] <;>
      simp only [GoResult.ok_bind, GoResult.err_bind, GoResult.panic_bind, exchangeLabel_eq]

theorem GoResult.map_some_eq_ok {α : Type} (x : GoResult α) (a : α)
    (h : (some <$> x) = GoResult.ok (some a)) : x = .ok a := by
  cases x with
  | ok y =>
    have h2 : GoResult.ok (some y) = GoResult.ok (some a) := h
    injection h2 with h3
    injection h3 with h4
    rw [h4]
  | err e => cases h
  | panic => cases h

theorem parseData_flat_order_panics (b : BreezeInstance) (first : GoVal) (rest : List GoVal)
    (hflat : isFlatHead first = true)
    (hlen : (first :: rest).length = 42 ∨ (first :: rest).length = 43) :
    parseData b (first :: rest) = .panic := by
  have h46 : idx (first :: rest) 46 = .panic := idx_panic _ _ (by rcases hlen with h | h <;> omega)
  rcases hlen with h | h
  · have : assign (orderEntriesV1 b (first :: rest)) [] = .panic := by
      apply assign_panic
      · simp [orderEntriesV1]
      · exact ⟨("systemPartnerCode", idx (first :: rest) 46), by simp [orderEntriesV1], h46⟩
    simp only [parseData, hflat, h, this]
    rfl
  · have : assign (orderEntriesV2 b (first :: rest)) [] = .panic := by
      apply assign_panic
      · simp [orderEntriesV2]
      · exact ⟨("systemPartnerCode", idx (first :: rest) 46), by simp [orderEntriesV2], h46⟩
    simp only [parseData, hflat, h, this]
    rfl

theorem parseData_tick (b : BreezeInstance) (first : GoVal) (rest : List GoVal)
    (h : isFlatHead first = false ∨
      ((first :: rest).length ≠ 19 ∧ (first :: rest).length ≠ 28 ∧
        (first :: rest).length ≠ 42 ∧ (first :: rest).length ≠ 43)) :
    parseData b (first :: rest) = some <$> parseTick (first :: rest) := by
  unfold parseData
  rcases h with h | ⟨h1, h2, h3, h4⟩
  · simp [h]
  · show (if _ then _ else _) = _
    rw [if_neg (fun c => h1 c.2), if_neg (fun c => h2 c.2), if_neg (fun c => h3 c.2),
      if_neg (fun c => h4 c.2)]

theorem decodes_of_assign (data : List GoVal) (kind : Option (String × String)) (r : Record)
    (h : assign ((decodeEntries kind data.length).map (fun p => (p.1, p.2.eval data))) [] =
      .ok r) : Decodes data r (decodeTable kind data.length) :=
  assign_decodes data _ [] r [] List.Forall₂.nil h

theorem parseData_decodes (b : BreezeInstance) (data : List GoVal) (r : Record)
    (h : parseData b data = .ok (some r)) :
    Decodes data r (decodeTable (frameKind data) data.length) := by
  cases data with
  | nil => cases h
  | cons first rest =>
    by_cases hflat : isFlatHead first = true
    · cases first with
      | str s =>
        have hc : '!' ∉ s.data := by
          simpa [isFlatHead, goContains] using hflat
        have hsplit : goSplit s '!' = [s] := goSplit_of_not_mem s '!' hc
        have hkind : frameKind (.str s :: rest) = none := by
          simp [frameKind, hsplit]
        rw [hkind]
        by_cases h19 : (GoVal.str s :: rest).length = 19
        · have e : parseData b (.str s :: rest) = some <$> iclickData (.str s :: rest) := by
            simp [parseData, hflat, h19]
          rw [e] at h
          have h2 := GoResult.map_some_eq_ok _ _ h
          rw [iclickData_eq, ← h19] at h2
          exact decodes_of_assign _ _ _ h2
        · by_cases h28 : (GoVal.str s :: rest).length = 28
          · have e : parseData b (.str s :: rest) = some <$> strategyDict (.str s :: rest) := by
              simp [parseData, hflat, h28]
            rw [e] at h
            have h2 := GoResult.map_some_eq_ok _ _ h
            rw [strategyDict_eq, ← h28] at h2
            exact decodes_of_assign _ _ _ h2
          · by_cases h4x : (GoVal.str s :: rest).length = 42 ∨ (GoVal.str s :: rest).length = 43
            · rw [parseData_flat_order_panics b _ rest hflat h4x] at h
              cases h
            · rw [parseData_tick b _ rest (Or.inr ⟨h19, h28, fun e => h4x (Or.inl e),
                fun e => h4x (Or.inr e)⟩)] at h
              have h2 := GoResult.map_some_eq_ok _ _ h
              simp [parseTick, idx, asString, hsplit] at h2
      | _ => simp [isFlatHead] at hflat
    · have hflat2 : isFlatHead first = false := by simpa using hflat
      rw [parseData_tick b first rest (Or.inl hflat2)] at h
      have h2 := GoResult.map_some_eq_ok _ _ h
      cases first with
      | str s =>
        cases hsplit : goSplit s '!' with
        | nil => simp [parseTick, idx, asString, hsplit] at h2
        | cons exchange t =>
          cases t with
          | nil => simp [parseTick, idx, asString, hsplit] at h2
          | cons dataType more =>
            have hkind : frameKind (.str s :: rest) = some (exchange, dataType) := by
              simp [frameKind, hsplit]
            rw [hkind]
            rw [parseTick_eq s rest exchange dataType more hsplit] at h2
            exact decodes_of_assign (.str s :: rest) _ _ h2
      | _ => simp [parseTick, idx, asString] at h2

/-- Claim C29: the shape of a record is decided by the kind of the frame (the
exchange id and the stream type of its first element, or the absence of `!` in
it) and by its length. For two frames of the same kind and length on which
`parseData` returns records, the records have the same field names, in the
same order, and every field has a source (a frame position, or a fixed text)
from which both records take its value. -/
theorem C29_shape_by_kind_and_length (b : BreezeInstance) (data1 data2 : List GoVal)
    (r1 r2 : Record)
    (h1 : parseData b data1 = .ok (some r1)) (h2 : parseData b data2 = .ok (some r2))
    (hkind : frameKind data1 = frameKind data2) (hlen : data1.length = data2.length) :
    Assoc.keys r1 = Assoc.keys r2 ∧
    ∀ k v1, Assoc.get? r1 k = some v1 →
      ∃ (src : Source) (v2 : GoVal), Assoc.get? r2 k = some v2 ∧
        src.eval data1 = .ok v1 ∧ src.eval data2 = .ok v2 := by
  have d1 := parseData_decodes b data1 r1 h1
  have d2 := parseData_decodes b data2 r2 h2
  rw [hkind, hlen] at d1
  refine ⟨by rw [Decodes.keys _ _ _ d1, Decodes.keys _ _ _ d2], ?_⟩
  intro k v1 hv1
  obtain ⟨src, hsrc, he1⟩ := (Decodes.get? _ _ _ d1 k).1 v1 hv1
  obtain ⟨v2, hv2, he2⟩ := (Decodes.get? _ _ _ d2 k).2 src hsrc
  exact ⟨src, v2, hv2, he1, he2⟩

theorem idx_eq_ok {α : Type} (xs : List α) (i : Nat) (v : α) (h : idx xs i = .ok v) :
    xs.get? i = some v := by
  unfold idx at h
  cases hg : xs.get? i with
  | none =>
    rw [hg] at h
    cases h
  | some a =>
    rw [hg] at h
    injection h with h
    rw [h]

theorem idx_of_lt {α : Type} (xs : List α) (i : Nat) (h : i < xs.length) :
    ∃ v, idx xs i = .ok v := by
  unfold idx
  cases hg : xs.get? i with
  | none => exact absurd (List.get?_eq_none.1 hg) (by omega)
  | some a => exact ⟨a, rfl⟩

theorem carries_of_decodes (data : List GoVal) (r : Record) (fields : List (String × Nat))
    (t : List (String × Source)) (hd : Decodes data r t)
    (ht : ∀ p ∈ fields, Assoc.get? t p.1 = some (.element p.2)) : carries r data fields := by
  intro p hp
  obtain ⟨v, hv, he⟩ := (Decodes.get? data r t hd p.1).2 _ (ht p hp)
  exact ⟨v, idx_eq_ok _ _ _ he, hv⟩

theorem parseData_flat (b : BreezeInstance) (data : List GoVal)
    (fields : List (String × Nat)) (n : Nat) (hn : data.length = n)
    (hentries : decodeEntries none n = fields.map (fun p => (p.1, Source.element p.2)))
    (htable : decodeTable none n = fields.map (fun p => (p.1, Source.element p.2)))
    (hnodup : (fields.map Prod.fst).Nodup)
    (hpos : ∀ p ∈ fields, p.2 < n)
    (hdec : ∀ r, assign ((decodeEntries none n).map (fun p => (p.1, p.2.eval data))) [] = .ok r →
      parseData b data = .ok (some r)) :
    ∃ r, parseData b data = .ok (some r) ∧ Assoc.keys r = fields.map Prod.fst ∧
      carries r data fields ∧ r.length = fields.length ∧ (Assoc.keys r).Nodup := by
  have hok : ∀ p ∈ decodeEntries none n, ∃ v, p.2.eval data = .ok v := by
    intro p hp
    rw [hentries] at hp
    obtain ⟨q, hq, rfl⟩ := List.mem_map.1 hp
    exact idx_of_lt data q.2 (by rw [hn]; exact hpos q hq)
  obtain ⟨r, hr⟩ := assign_isOk data _ [] hok
  have hd : Decodes data r (decodeTable none n) := by
    have := decodes_of_assign data none r (by rw [hn]; exact hr)
    rw [hn] at this
    exact this
  have hkeys : Assoc.keys r = fields.map Prod.fst := by
    rw [Decodes.keys _ _ _ hd, htable]
    simp [Assoc.keys, Function.comp_def]
  refine ⟨r, hdec r hr, hkeys, ?_, ?_, ?_⟩
  · apply carries_of_decodes data r fields _ hd
    intro p hp
    rw [htable]
    apply Assoc.get?_of_mem
    · simpa [Assoc.keys, Function.comp_def] using hnodup
    · exact List.mem_map.2 ⟨p, hp, rfl⟩
  · rw [Decodes.length _ _ _ hd, htable, List.length_map]
  · rw [hkeys]
    exact hnodup

/-- Claim C28: for a flat frame, whose first element is a string without `!`,
the length alone decides the shape. A 19-element frame yields a record of
exactly 19 fields, field k being element k, named in the documented order
from `stock_name` to `subscription_type`; a 28-element frame yields a record of
exactly 26 fields, taken from the elements 0..6, 8, 9 and 11..27. -/
theorem C28_flat_frames_by_length (b : BreezeInstance) (data : List GoVal) (s : String)
    (hhead : data.get? 0 = some (.str s)) (hflat : goContains s '!' = false) :
    (data.length = 19 →
      ∃ r, parseData b data = .ok (some r) ∧ Assoc.keys r = alertFields.map Prod.fst ∧
        carries r data alertFields ∧ r.length = 19 ∧ (Assoc.keys r).Nodup) ∧
    (data.length = 28 →
      ∃ r, parseData b data = .ok (some r) ∧ Assoc.keys r = strategyFields.map Prod.fst ∧
        carries r data strategyFields ∧ r.length = 26 ∧ (Assoc.keys r).Nodup) ∧
    alertFields.map Prod.snd = List.range 19 ∧
    strategyFields.map Prod.snd = List.range 7 ++ [8, 9] ++ List.range' 11 17 := by
  have hfirst : ∃ rest, data = .str s :: rest := by
    cases data with
    | nil => simp at hhead
    | cons a rest =>
      simp only [List.get?_cons_zero, Option.some.injEq] at hhead
      exact ⟨rest, by rw [hhead]⟩
  obtain ⟨rest, rfl⟩ := hfirst
  have hf : isFlatHead (.str s) = true := by simp [isFlatHead, hflat]
  refine ⟨?_, ?_, by decide, by decide⟩
  · intro hn
    apply parseData_flat b _ alertFields 19 hn rfl (by decide) (by decide)
      (by decide)
    intro r hr
    have e : parseData b (.str s :: rest) = some <$> iclickData (.str s :: rest) := by
      simp only [parseData, hf, hn, true_and, if_true]
    rw [e, iclickData_eq, hr]
    rfl
  · intro hn
    apply parseData_flat b _ strategyFields 28 hn rfl (by decide) (by decide)
      (by decide)
    intro r hr
    have e : parseData b (.str s :: rest) = some <$> strategyDict (.str s :: rest) := by
      simp only [parseData, hf, hn, true_and, if_true]
      simp
    rw [e, strategyDict_eq, hr]
    rfl

/-- Witness of `C28_flat_frames_by_length`: a flat frame of 19 strings. -/
theorem C28_flat_frames_by_length_witness :
    ∃ r, parseData {} alertFrame = .ok (some r) ∧ Assoc.keys r = alertFields.map Prod.fst ∧
      carries r alertFrame alertFields ∧ r.length = 19 ∧ (Assoc.keys r).Nodup :=
  (C28_flat_frames_by_length {} alertFrame "0" rfl (by decide)).1 rfl

theorem Assoc.get?_set_self {V : Type} (m : List (String × V)) (k : String) (v : V) :
    Assoc.get? (Assoc.set m k v) k = some v := by
  induction m with
  | nil => simp [Assoc.set, Assoc.get?]
  | cons kv rest ih =>
    obtain ⟨k1, v1⟩ := kv
    by_cases h : k1 = k
    · simp [Assoc.set, Assoc.get?, h]
    · simp [Assoc.set, Assoc.get?, h, ih]

theorem Assoc.get?_foldl_set_none (entries t0 : List (String × Source)) (k : String)
    (h0 : Assoc.get? t0 k = none) (h : ∀ p ∈ entries, p.1 ≠ k) :
    Assoc.get? (entries.foldl (fun m p => Assoc.set m p.1 p.2) t0) k = none := by
  induction entries generalizing t0 with
  | nil => exact h0
  | cons p rest ih =>
    simp only [List.foldl_cons]
    apply ih
    · rw [Assoc.get?_set_ne _ _ _ _ (h p (List.mem_cons_self _ _))]
      exact h0
    · exact fun q hq => h q (List.mem_cons_of_mem _ hq)

theorem decodeTable_exchange (exchange dataType : String) (n : Nat) :
    Assoc.get? (decodeTable (some (exchange, dataType)) n) "exchange" =
      (displayLabel exchange n).map Source.text := by
  unfold decodeTable decodeEntries
  simp only [List.foldl_append]
  cases hl : displayLabel exchange n with
  | some label =>
    simp only [labelEntries, hl, List.foldl_cons, List.foldl_nil, Option.map_some']
    exact Assoc.get?_set_self _ _ _
  | none =>
    simp only [labelEntries, hl, List.foldl_nil, Option.map_none']
    have h6 : exchange ≠ "6" := by
      intro e
      subst e
      simp [displayLabel] at hl
    simp only [h6, if_false]
    apply Assoc.get?_foldl_set_none _ [] _ rfl
    intro p hp e
    have hk : p.1 ∈ (if dataType = "1" then quoteEntries n else depthEntries exchange).map
        Prod.fst := List.mem_map_of_mem _ hp
    rw [e] at hk
    revert hk
    split_ifs with h1
    · unfold quoteEntries
      split_ifs <;> decide
    · simp [depthEntries]

/-- Claim C27 fails for the exchange id 8 and for a depth frame of the exchange
id 4: the records of the 21-element quote frame starting `8!1` and of the
3-element depth frame starting `4!2` carry no `exchange` field. -/
theorem C27_no_label_for_bfo_and_depth :
    bfoQuoteFrame.length = 21 ∧ frameKind bfoQuoteFrame = some ("8", "1") ∧
    (∃ r, parseData {} bfoQuoteFrame = .ok (some r) ∧ Assoc.get? r "exchange" = none ∧
      Assoc.get? r "quotes" = some (.str "Quotes Data")) ∧
    frameKind nseDepthFrame = some ("4", "2") ∧
    (∃ r, parseData {} nseDepthFrame = .ok (some r) ∧ Assoc.get? r "exchange" = none ∧
      Assoc.get? r "quotes" = some (.str "Market Depth")) :=
  ⟨rfl, by decide, ⟨_, rfl, rfl, rfl⟩, by decide, ⟨_, rfl, rfl, rfl⟩⟩

/-- Claim C27, amended: every record that `parseData` produces for a frame whose
first element is `<exchange id>!<stream type>`, through the commodity, quote or
market-depth branch, carries the `exchange` label `BSE` for the id 1,
`NSE Currency` for 13, `Commodity` for 6, and for 4 `NSE Equity` when the frame
has 21 elements and `NSE Futures & Options` when it has 23; for the id 4 with
any other length and for every other id, 2 and 8 included, the record has no
`exchange` field. -/
theorem C27_exchange_label (b : BreezeInstance) (data : List GoVal) (r : Record)
    (exchange dataType : String)
    (h : parseData b data = .ok (some r))
    (hkind : frameKind data = some (exchange, dataType)) :
    Assoc.get? r "exchange" = (displayLabel exchange data.length).map GoVal.str ∧
    displayLabel "1" data.length = some "BSE" ∧
    displayLabel "13" data.length = some "NSE Currency" ∧
    displayLabel "6" data.length = some "Commodity" ∧
    (data.length = 21 → displayLabel "4" data.length = some "NSE Equity") ∧
    (data.length = 23 → displayLabel "4" data.length = some "NSE Futures & Options") ∧
    (data.length ≠ 21 → data.length ≠ 23 → displayLabel "4" data.length = none) ∧
    (exchange ≠ "1" → exchange ≠ "13" → exchange ≠ "6" → exchange ≠ "4" →
      displayLabel exchange data.length = none) := by
  have hd := parseData_decodes b data r h
  rw [hkind] at hd
  have ht := decodeTable_exchange exchange dataType data.length
  refine ⟨?_, ?_, ?_, ?_, ?_, ?_, ?_, ?_⟩
  · cases hl : displayLabel exchange data.length with
    | some label =>
      rw [hl] at ht
      obtain ⟨v, hv, he⟩ := (Decodes.get? _ _ _ hd "exchange").2 _ ht
      simp only [Source.eval, GoResult.ok.injEq] at he
      rw [hv, ← he]
      rfl
    | none =>
      rw [hl] at ht
      cases hr : Assoc.get? r "exchange" with
      | none => rfl
      | some v =>
        obtain ⟨src, hs, -⟩ := (Decodes.get? _ _ _ hd "exchange").1 v hr
        rw [ht] at hs
        cases hs
  · simp [displayLabel]
  · simp [displayLabel]
  · simp [displayLabel]
  · intro h21
    simp [displayLabel, h21]
  · intro h23
    simp [displayLabel, h23]
  · intro h21 h23
    simp [displayLabel, h21, h23]
  · intro h1 h13 h6 h4
    simp [displayLabel, h1, h13, h6, h4]

/-- Witness of `C27_exchange_label`: the quote frame of the concrete scenario. -/
theorem C27_exchange_label_witness :
    ∃ r, parseData {} equityFrame = .ok (some r) ∧
      Assoc.get? r "exchange" = some (.str "NSE Equity") :=
  ⟨_, rfl, (C27_exchange_label {} equityFrame _ "4" "1" rfl (by decide)).1⟩

/-- Witness of `C29_shape_by_kind_and_length`: two 21-element quote frames of
the exchange id 4. -/
theorem C29_shape_by_kind_and_length_witness :
    ∃ r1 r2, parseData {} equityFrame = .ok (some r1) ∧
      parseData {} otherEquityFrame = .ok (some r2) ∧
      Assoc.keys r1 = Assoc.keys r2 ∧
      ∀ k v1, Assoc.get? r1 k = some v1 →
        ∃ (src : Source) (v2 : GoVal), Assoc.get? r2 k = some v2 ∧
          src.eval equityFrame = .ok v1 ∧ src.eval otherEquityFrame = .ok v2 :=
  ⟨_, _, rfl, rfl,
    C29_shape_by_kind_and_length {} equityFrame otherEquityFrame _ _ rfl rfl (by decide) rfl⟩

/-! ## Numbered fields: commodity frames and depth rows -/

theorem toDigitsCore_append (fuel n : Nat) (ds : List Char) :
    Nat.toDigitsCore 10 fuel n ds = Nat.toDigitsCore 10 fuel n [] ++ ds := by
  induction fuel generalizing n ds with
  | zero => rfl
  | succ f ih =>
    simp only [Nat.toDigitsCore]
    split_ifs with h0
    · rfl
    · rw [ih (n / 10) (Nat.digitChar (n % 10) :: ds), ih (n / 10) [Nat.digitChar (n % 10)]]
      simp

theorem digitChar_value (k : Nat) (h : k < 10) : (Nat.digitChar k).toNat - 48 = k := by
  interval_cases k <;> rfl

theorem digitsValue_toDigitsCore (fuel n : Nat) (h : n < fuel) :
    digitsValue (Nat.toDigitsCore 10 fuel n []) = n := by
  induction fuel generalizing n with
  | zero => omega
  | succ f ih =>
    simp only [Nat.toDigitsCore]
    split_ifs with h0
    · simp only [digitsValue, List.foldl_cons, List.foldl_nil, Nat.mul_zero, Nat.zero_add]
      rw [digitChar_value _ (Nat.mod_lt _ (by decide))]
      have := Nat.div_add_mod n 10
      omega
    · rw [toDigitsCore_append]
      have hlt : n / 10 < f := by
        have := Nat.div_add_mod n 10
        omega
      have e := ih (n / 10) hlt
      simp only [digitsValue, List.foldl_append, List.foldl_cons, List.foldl_nil] at e ⊢
      rw [e, digitChar_value _ (Nat.mod_lt _ (by decide))]
      have := Nat.div_add_mod n 10
      omega

theorem toString_nat_injective (i j : Nat) (h : toString i = toString j) : i = j := by
  have h2 : Nat.toDigits 10 i = Nat.toDigits 10 j := by
    have := congrArg String.data h
    exact this
  have e1 := digitsValue_toDigitsCore (i + 1) i (by omega)
  have e2 := digitsValue_toDigitsCore (j + 1) j (by omega)
  unfold Nat.toDigits at h2
  rw [h2] at e1
  omega

theorem append_cons_inj {α : Type} (a : α) (l1 l2 r1 r2 : List α) (h1 : a ∉ l1) (h2 : a ∉ l2)
    (h : l1 ++ a :: r1 = l2 ++ a :: r2) : l1 = l2 ∧ r1 = r2 := by
  induction l1 generalizing l2 with
  | nil =>
    cases l2 with
    | nil =>
      simp only [List.nil_append, List.cons.injEq, true_and] at h
      exact ⟨rfl, h⟩
    | cons b t =>
      simp only [List.nil_append, List.cons_append, List.cons.injEq] at h
      exact absurd (by simp [h.1]) h2
  | cons c t ih =>
    cases l2 with
    | nil =>
      simp only [List.nil_append, List.cons_append, List.cons.injEq] at h
      exact absurd (by simp [h.1]) h1
    | cons b t2 =>
      simp only [List.cons_append, List.cons.injEq] at h
      have ht : a ∉ t := fun hm => h1 (List.mem_cons_of_mem _ hm)
      have ht2 : a ∉ t2 := fun hm => h2 (List.mem_cons_of_mem _ hm)
      obtain ⟨e1, e2⟩ := ih t2 ht ht2 h.2
      exact ⟨by rw [h.1, e1], e2⟩

theorem numbered_data (name : String) (n : Nat) :
    (numbered name n).data = name.data ++ '-' :: (toString n).data := by
  simp only [numbered, String.data_append, List.append_assoc]
  rfl

theorem numbered_inj (a b : String) (i j : Nat) (ha : '-' ∉ a.data) (hb : '-' ∉ b.data)
    (h : numbered a i = numbered b j) : a = b ∧ i = j := by
  have h2 := congrArg String.data h
  rw [numbered_data, numbered_data] at h2
  obtain ⟨e1, e2⟩ := append_cons_inj '-' _ _ _ _ ha hb h2
  exact ⟨String.ext e1, toString_nat_injective i j (String.ext e2)⟩

theorem numbered_has_dash (name : String) (n : Nat) : '-' ∈ (numbered name n).data := by
  rw [numbered_data]
  simp

theorem commodityBlock_keys (j : Nat) :
    Assoc.keys (commodityBlock j) = depthBlockFields.map (fun p => numbered p.1 j) := by
  simp [Assoc.keys, commodityBlock, Function.comp_def]

theorem depthBlockFields_nodash : ∀ p ∈ depthBlockFields, '-' ∉ p.1.data := by decide

theorem commodityBlock_keys_nodup (j : Nat) : (Assoc.keys (commodityBlock j)).Nodup := by
  rw [commodityBlock_keys]
  apply List.Nodup.map_on
  · intro p hp q hq h
    have hpq := (numbered_inj p.1 q.1 j j (depthBlockFields_nodash p hp)
      (depthBlockFields_nodash q hq) h).1
    have hall : ∀ p ∈ depthBlockFields, ∀ q ∈ depthBlockFields, p.1 = q.1 → p = q := by decide
    exact hall p hp q hq hpq
  · decide

theorem commodityBlocks_keys_nodup (m : Nat) :
    (Assoc.keys ((List.range m).flatMap commodityBlock)).Nodup := by
  have e : Assoc.keys ((List.range m).flatMap commodityBlock) =
      (List.range m).flatMap (fun j => Assoc.keys (commodityBlock j)) := by
    simp [Assoc.keys, List.map_flatMap]
  rw [e, List.nodup_flatMap]
  refine ⟨fun j _ => commodityBlock_keys_nodup j, ?_⟩
  apply List.Pairwise.imp _ (List.nodup_range m)
  intro i j hij
  intro k hki hkj
  simp only [commodityBlock_keys] at hki hkj
  obtain ⟨p, hp, rfl⟩ := List.mem_map.1 hki
  obtain ⟨q, hq, hqe⟩ := List.mem_map.1 hkj
  exact hij (numbered_inj q.1 p.1 j i (depthBlockFields_nodash q hq)
    (depthBlockFields_nodash p hp) hqe).2.symm

theorem commodityBlocks_keys_dash (m : Nat) :
    ∀ k ∈ Assoc.keys ((List.range m).flatMap commodityBlock), '-' ∈ k.data := by
  intro k hk
  simp only [Assoc.keys, List.mem_map, List.mem_flatMap, List.mem_range] at hk
  obtain ⟨p, ⟨j, -, hp⟩, rfl⟩ := hk
  simp only [commodityBlock, List.mem_map] at hp
  obtain ⟨q, -, rfl⟩ := hp
  exact numbered_has_dash q.1 j

theorem commodityEntries_nodup (dataType : String) (n : Nat) :
    (Assoc.keys (decodeEntries (some ("6", dataType)) n)).Nodup := by
  have hl : labelEntries "6" n = [("exchange", Source.text "Commodity")] := by
    simp [labelEntries, displayLabel]
  simp only [decodeEntries, if_true, hl, Assoc.keys, List.map_append]
  have hb := commodityBlocks_keys_nodup (n - 22)
  have hdash := commodityBlocks_keys_dash (n - 22)
  simp only [Assoc.keys] at hb hdash
  rw [List.nodup_append]
  refine ⟨?_, by simp, ?_⟩
  · rw [List.nodup_append]
    refine ⟨by decide, hb, ?_⟩
    intro k hk1 hk2
    have h1 : ∀ k ∈ commodityHeaderEntries.map Prod.fst, '-' ∉ k.data := by decide
    exact h1 k hk1 (hdash k hk2)
  · intro k hk1 hk2
    simp only [List.map_cons, List.map_nil, List.mem_singleton] at hk2
    subst hk2
    rcases List.mem_append.1 hk1 with h | h
    · revert h
      decide
    · exact absurd (hdash _ h) (by decide)

theorem commodityTable_eq (dataType : String) (n : Nat) :
    decodeTable (some ("6", dataType)) n = decodeEntries (some ("6", dataType)) n := by
  unfold decodeTable
  rw [tableSet_fresh _ [] (by simpa using commodityEntries_nodup dataType n)]
  simp

theorem commodityEntries_length (dataType : String) (n : Nat) :
    (decodeEntries (some ("6", dataType)) n).length = 23 + 8 * (n - 22) := by
  have hl : labelEntries "6" n = [("exchange", Source.text "Commodity")] := by
    simp [labelEntries, displayLabel]
  have hb : ((List.range (n - 22)).flatMap commodityBlock).length = 8 * (n - 22) := by
    generalize n - 22 = m
    induction m with
    | zero => rfl
    | succ k ih =>
      rw [List.range_succ, List.flatMap_append, List.length_append, ih]
      simp [commodityBlock, depthBlockFields]
      omega
  simp only [decodeEntries, if_true, hl, List.length_append, hb]
  simp [commodityHeaderEntries]
  omega

theorem frameKind_some (data : List GoVal) (exchange dataType : String)
    (h : frameKind data = some (exchange, dataType)) :
    ∃ s rest more, data = .str s :: rest ∧ goSplit s '!' = exchange :: dataType :: more ∧
      isFlatHead (.str s) = false := by
  unfold frameKind at h
  cases data with
  | nil => cases h
  | cons first rest =>
    cases first with
    | str s =>
      simp only at h
      cases hs : goSplit s '!' with
      | nil => simp [hs] at h
      | cons e t =>
        cases t with
        | nil => simp [hs] at h
        | cons d more =>
          simp only [hs, Option.some.injEq, Prod.mk.injEq] at h
          refine ⟨s, rest, more, rfl, by rw [hs, h.1, h.2], ?_⟩
          by_cases hc : '!' ∈ s.data
          · simp [isFlatHead, goContains, hc]
          · rw [goSplit_of_not_mem s '!' hc] at hs
            simp at hs
    | _ => cases h

theorem commodityEntries_mem_block (dataType : String) (n j : Nat) (p : String × Nat)
    (hj : 22 + j < n) (hp : p ∈ depthBlockFields) :
    (numbered p.1 j, Source.cell (22 + j) p.2) ∈ decodeEntries (some ("6", dataType)) n := by
  simp only [decodeEntries, if_true]
  apply List.mem_append_left
  apply List.mem_append_right
  rw [List.mem_flatMap]
  exact ⟨j, List.mem_range.2 (by omega), List.mem_map.2 ⟨p, hp, rfl⟩⟩

theorem commodityEntries_isOk (data : List GoVal) (dataType : String) (x : ℚ)
    (hlen : 22 ≤ data.length) (htime : data.get? 7 = some (.num x))
    (hrows : ∀ j, 22 + j < data.length →
      ∃ row, data.get? (22 + j) = some (.arr row) ∧ 8 ≤ row.length) :
    ∀ p ∈ decodeEntries (some ("6", dataType)) data.length, ∃ v, p.2.eval data = .ok v := by
  intro p hp
  have hl : labelEntries "6" data.length = [("exchange", Source.text "Commodity")] := by
    simp [labelEntries, displayLabel]
  simp only [decodeEntries, if_true, hl, List.mem_append, List.mem_singleton] at hp
  rcases hp with (hp | hp) | hp
  · have h7 : idx data 7 = .ok (.num x) := by
      unfold idx
      rw [htime]
    have hall : ∀ q ∈ commodityHeaderEntries,
        q.2 = .time 7 ∨ ∃ i, i < 22 ∧ q.2 = .element i := by decide
    rcases hall p hp with e | ⟨i, hi, e⟩
    · rw [e]
      exact ⟨.time (int64OfFloat x), by simp [Source.eval, h7, unixTime, asFloat]⟩
    · rw [e]
      exact idx_of_lt data i (by omega)
  · rw [List.mem_flatMap] at hp
    obtain ⟨j, hj, hp⟩ := hp
    have hj2 : 22 + j < data.length := by
      have := List.mem_range.1 hj
      omega
    obtain ⟨row, hrow, h8⟩ := hrows j hj2
    simp only [commodityBlock, List.mem_map] at hp
    obtain ⟨q, hq, rfl⟩ := hp
    have hk : q.2 < 8 := by
      have hall : ∀ q ∈ depthBlockFields, q.2 < 8 := by decide
      exact hall q hq
    have hi : idx data (22 + j) = .ok (.arr row) := by
      unfold idx
      rw [hrow]
    obtain ⟨v, hv⟩ := idx_of_lt row q.2 (by omega)
    exact ⟨v, by simp [Source.eval, hi, asArr, hv]⟩
  · rw [hp]
    exact ⟨_, rfl⟩

/-- The record of a commodity frame whose element 7 is a number: for a frame
whose first element has the exchange id 6, whose length n is at least 22, and
each of whose n-22 trailing elements is an array of at least 8 entries,
`parseData` returns a record that holds the header fields taken from the
elements 0..21, `ltt` being the calendar time of element 7; for each trailing
element, at position 22+j, the eight fields suffixed `-j` taken from its entries
0..7; and `exchange`, the text `Commodity`: 23 + 8(n-22) fields in all. -/
theorem commodityFrame_record (b : BreezeInstance) (data : List GoVal) (dataType : String)
    (x : ℚ)
    (hkind : frameKind data = some ("6", dataType))
    (hlen : 22 ≤ data.length)
    (htime : data.get? 7 = some (.num x))
    (hrows : ∀ j, 22 + j < data.length →
      ∃ row, data.get? (22 + j) = some (.arr row) ∧ 8 ≤ row.length) :
    ∃ r, parseData b data = .ok (some r) ∧
      carries r data commodityHeaderFields ∧
      Assoc.get? r "ltt" = some (.time (int64OfFloat x)) ∧
      (∀ j row, 22 + j < data.length → data.get? (22 + j) = some (.arr row) →
        ∀ p ∈ depthBlockFields,
          ∃ v, row.get? p.2 = some v ∧ Assoc.get? r (numbered p.1 j) = some v) ∧
      Assoc.get? r "exchange" = some (.str "Commodity") ∧
      r.length = 23 + 8 * (data.length - 22) ∧ (Assoc.keys r).Nodup := by
  obtain ⟨s, rest, more, rfl, hsplit, hflat⟩ := frameKind_some data "6" dataType hkind
  obtain ⟨r, hr⟩ := assign_isOk (.str s :: rest) _ []
    (commodityEntries_isOk (.str s :: rest) dataType x hlen htime hrows)
  have hd := decodes_of_assign (.str s :: rest) _ r hr
  rw [commodityTable_eq] at hd
  have hnodup := commodityEntries_nodup dataType (GoVal.str s :: rest).length
  have hget : ∀ k src, (k, src) ∈ decodeEntries (some ("6", dataType))
      (GoVal.str s :: rest).length → ∃ v, Assoc.get? r k = some v ∧
        src.eval (.str s :: rest) = .ok v := fun k src hm =>
    (Decodes.get? _ _ _ hd k).2 src (Assoc.get?_of_mem _ k src hnodup hm)
  have hparse : parseData b (.str s :: rest) = .ok (some r) := by
    rw [parseData_tick b _ rest (Or.inl hflat), parseTick_eq s rest "6" dataType more hsplit]
    rw [List.length_cons] at hr
    rw [hr]
    rfl
  refine ⟨r, hparse, ?_, ?_, ?_, ?_, ?_, ?_⟩
  · intro p hp
    have hm : (p.1, Source.element p.2) ∈ decodeEntries (some ("6", dataType))
        (GoVal.str s :: rest).length := by
      simp only [decodeEntries, if_true]
      apply List.mem_append_left
      apply List.mem_append_left
      revert p
      decide
    obtain ⟨v, hv, he⟩ := hget _ _ hm
    exact ⟨v, idx_eq_ok _ _ _ he, hv⟩
  · have hm : ("ltt", Source.time 7) ∈ decodeEntries (some ("6", dataType))
        (GoVal.str s :: rest).length := by
      simp only [decodeEntries, if_true]
      apply List.mem_append_left
      apply List.mem_append_left
      decide
    obtain ⟨v, hv, he⟩ := hget _ _ hm
    have h7 : idx (GoVal.str s :: rest) 7 = .ok (.num x) := by
      unfold idx
      rw [htime]
    simp only [Source.eval, h7, GoResult.ok_bind, unixTime, asFloat, GoResult.pure_eq,
      GoResult.ok.injEq] at he
    rw [hv, ← he]
  · intro j row hj hrow p hp
    obtain ⟨v, hv, he⟩ := hget _ _ (commodityEntries_mem_block dataType _ j p hj hp)
    have hi : idx (GoVal.str s :: rest) (22 + j) = .ok (.arr row) := by
      unfold idx
      rw [hrow]
    simp only [Source.eval, hi, GoResult.ok_bind, asArr] at he
    exact ⟨v, idx_eq_ok _ _ _ he, hv⟩
  · have hm : ("exchange", Source.text "Commodity") ∈ decodeEntries (some ("6", dataType))
        (GoVal.str s :: rest).length := by
      have hl : labelEntries "6" (GoVal.str s :: rest).length =
          [("exchange", Source.text "Commodity")] := by
        simp [labelEntries, displayLabel]
      simp only [decodeEntries, if_true, hl]
      exact List.mem_append_right _ (List.mem_singleton.2 rfl)
    obtain ⟨v, hv, he⟩ := hget _ _ hm
    simp only [Source.eval, GoResult.ok.injEq] at he
    rw [hv, ← he]
  · rw [Decodes.length _ _ _ hd, commodityEntries_length]
  · rw [Decodes.keys _ _ _ hd]
    exact hnodup

theorem numbered_eq_iff (a b : String) (n : Nat) : numbered a n = numbered b n ↔ a = b := by
  constructor
  · intro h
    have h2 := congrArg String.data h
    simp only [numbered, String.data_append] at h2
    exact String.ext (List.append_cancel_right (List.append_cancel_right h2))
  · intro h
    rw [h]

theorem depthRow_eq (exchange : String) (i : Nat) (lis : List String)
    (h : (depthColumns exchange).length ≤ lis.length) :
    depthRow exchange i lis = .ok (depthRecord exchange i lis) := by
  unfold depthColumns at h
  by_cases h1 : exchange = "1"
  · have hlen : 4 ≤ lis.length := by simpa [h1] using h
    rcases lis with _ | ⟨a0, _ | ⟨a1, _ | ⟨a2, _ | ⟨a3, tail⟩⟩⟩⟩ <;>
      first
        | (exfalso; simp only [List.length_cons, List.length_nil] at hlen; omega)
        | skip
    simp [depthRow, depthRecord, depthColumns, h1, assign, idx, Assoc.set, numbered_eq_iff]
  · by_cases h8 : exchange = "8"
    · have hlen : 6 ≤ lis.length := by simpa [h8] using h
      rcases lis with _ | ⟨a0, _ | ⟨a1, _ | ⟨a2, _ | ⟨a3, _ | ⟨a4, _ | ⟨a5, tail⟩⟩⟩⟩⟩⟩ <;>
        first
          | (exfalso; simp only [List.length_cons, List.length_nil] at hlen; omega)
          | skip
      simp [depthRow, depthRecord, depthColumns, h8, assign, idx, Assoc.set, numbered_eq_iff]
    · have hlen : 8 ≤ lis.length := by simpa [h1, h8] using h
      rcases lis with _ | ⟨a0, _ | ⟨a1, _ | ⟨a2, _ | ⟨a3, _ | ⟨a4, _ | ⟨a5, _ | ⟨a6, _ | ⟨a7, tail⟩⟩⟩⟩⟩⟩⟩⟩ <;>
        first
          | (exfalso; simp only [List.length_cons, List.length_nil] at hlen; omega)
          | skip
      simp [depthRow, depthRecord, depthColumns, h1, h8, assign, idx, Assoc.set,
        numbered_eq_iff]

theorem parseMarketDepthFrom_eq (exchange : String) (rows : List (List String)) (i : Nat)
    (h : ∀ lis ∈ rows, (depthColumns exchange).length ≤ lis.length) :
    parseMarketDepthFrom exchange i rows =
      .ok ((rows.enumFrom i).map (fun p => depthRecord exchange p.1 p.2)) := by
  induction rows generalizing i with
  | nil => rfl
  | cons lis rest ih =>
    simp only [parseMarketDepthFrom, depthRow_eq exchange i lis (h lis (List.mem_cons_self _ _)),
      GoResult.ok_bind, ih (i + 1) (fun l hl => h l (List.mem_cons_of_mem _ hl)),
      GoResult.pure_eq, List.enumFrom_cons, List.map_cons]

theorem depthColumns_nodup (exchange : String) : (depthColumns exchange).Nodup := by
  unfold depthColumns
  split_ifs <;> decide

theorem depthRecord_keys (exchange : String) (i : Nat) (lis : List String)
    (h : (depthColumns exchange).length ≤ lis.length) :
    Assoc.keys (depthRecord exchange i lis) =
      (depthColumns exchange).map (fun name => numbered name (i + 1)) := by
  have e := List.map_fst_zip (depthColumns exchange) lis h
  simp only [Assoc.keys, depthRecord, List.map_map, Function.comp_def]
  conv_rhs => rw [← e]
  simp [Function.comp_def]

/-- The records of rows that have at least the columns of the layout of the
exchange id: `parseMarketDepth` returns one record per row, in input order. The
record of the row at position i, counted from 1, has 4 fields when the exchange
id is 1, 6 fields when it is 8, and 8 fields for every other id; every field
name is suffixed with i, and every field holds the string of its column. -/
theorem marketDepth_records (data : List (List String)) (exchange : String)
    (hrows : ∀ lis ∈ data, (depthColumns exchange).length ≤ lis.length) :
    ∃ depth, parseMarketDepth data exchange = .ok depth ∧ depth.length = data.length ∧
      ∀ i lis, data.get? i = some lis →
        ∃ dict, depth.get? i = some dict ∧
          Assoc.keys dict = (depthColumns exchange).map (fun name => numbered name (i + 1)) ∧
          (Assoc.keys dict).Nodup ∧
          (∀ k name, (depthColumns exchange).get? k = some name →
            ∃ cell, lis.get? k = some cell ∧
              Assoc.get? dict (numbered name (i + 1)) = some (.str cell)) ∧
          (exchange = "1" → dict.length = 4 ∧ depthColumns exchange =
            ["BestBuyRate", "BestBuyQty", "BestSellRate", "BestSellQty"]) ∧
          (exchange = "8" → dict.length = 6 ∧ depthColumns exchange =
            ["BestBuyRate", "BestBuyQty", "BuyNoOfOrders", "BestSellRate", "BestSellQty",
             "SellNoOfOrders"]) ∧
          (exchange ≠ "1" → exchange ≠ "8" → dict.length = 8 ∧ depthColumns exchange =
            ["BestBuyRate", "BestBuyQty", "BuyNoOfOrders", "BuyFlag", "BestSellRate",
             "BestSellQty", "SellNoOfOrders", "SellFlag"]) := by
  refine ⟨_, parseMarketDepthFrom_eq exchange data 0 hrows, by simp, ?_⟩
  intro i lis hi
  have hlis := hrows lis (List.get?_mem hi)
  have hkeys := depthRecord_keys exchange i lis hlis
  have hnodup : (Assoc.keys (depthRecord exchange i lis)).Nodup := by
    rw [hkeys]
    exact List.Nodup.map_on (fun a _ c _ hac => (numbered_eq_iff a c (i + 1)).1 hac)
      (depthColumns_nodup exchange)
  have hlen : (depthRecord exchange i lis).length = (depthColumns exchange).length := by
    have := congrArg List.length hkeys
    simpa [Assoc.keys] using this
  refine ⟨depthRecord exchange i lis, ?_, hkeys, hnodup, ?_, ?_, ?_, ?_⟩
  · rw [List.get?_eq_getElem?] at hi
    simp [hi]
  · intro k name hk
    have hklt : k < lis.length := by
      have := (List.get?_eq_some.1 hk).1
      omega
    obtain ⟨cell, hcell⟩ : ∃ cell, lis.get? k = some cell :=
      ⟨lis.get ⟨k, hklt⟩, List.get?_eq_get hklt⟩
    refine ⟨cell, hcell, ?_⟩
    apply Assoc.get?_of_mem _ _ _ hnodup
    have hz : ((depthColumns exchange).zip lis).get? k = some (name, cell) :=
      (List.get?_zip_eq_some _ _ _ _).2 ⟨hk, hcell⟩
    exact List.mem_map.2 ⟨(name, cell), List.get?_mem hz, rfl⟩
  · intro h1
    rw [hlen]
    simp [depthColumns, h1]
  · intro h8
    rw [hlen]
    simp [depthColumns, h8]
  · intro h1 h8
    rw [hlen]
    simp [depthColumns, h1, h8]

/-! ## The symbol of a labelled record and the token codec -/

theorem splitChars_head (sep : Char) (l : List Char) :
    ∃ ps, splitChars sep l = l.takeWhile (fun c => c ≠ sep) :: ps := by
  induction l with
  | nil => exact ⟨[], rfl⟩
  | cons c cs ih =>
    obtain ⟨ps, hps⟩ := ih
    by_cases h : c = sep
    · exact ⟨splitChars sep cs, by simp [splitChars, h]⟩
    · exact ⟨ps, by simp [splitChars, h, hps]⟩

theorem takeWhile_ne_of_mem (sep : Char) (l : List Char) (h : sep ∈ l) :
    ∃ t, l = l.takeWhile (fun c => c ≠ sep) ++ sep :: t := by
  induction l with
  | nil => cases h
  | cons c cs ih =>
    by_cases hc : c = sep
    · exact ⟨cs, by simp [hc]⟩
    · have hm : sep ∈ cs := by
        rcases List.mem_cons.1 h with e | e
        · exact absurd e.symm hc
        · exact e
      obtain ⟨t, ht⟩ := ih hm
      refine ⟨t, ?_⟩
      have hd : decide (c ≠ sep) = true := by simpa using hc
      rw [List.takeWhile_cons, hd]
      simp only [if_true, List.cons_append]
      rw [← ht]

theorem takeWhile_ne_append (sep c : Char) (l1 l2 : List Char) (h1 : sep ∉ l1) (hc : c ≠ sep) :
    c ∈ (l1 ++ c :: l2).takeWhile (fun x => x ≠ sep) := by
  induction l1 with
  | nil => simp [hc]
  | cons a rest ih =>
    have ha : a ≠ sep := fun e => h1 (by simp [e])
    have hr : sep ∉ rest := fun e => h1 (List.mem_cons_of_mem _ e)
    simp only [List.cons_append, List.takeWhile_cons, ha, ne_eq, not_false_eq_true, decide_True]
    exact List.mem_cons_of_mem _ (ih hr)

theorem labelledIds_plain : ∀ e ∈ labelledIds, '.' ∉ e.data ∧ '!' ∉ e.data := by decide

theorem dataExchangeCodeList_keys :
    ∀ p ∈ dataExchangeCodeList, p.1 ∈ labelledIds := by decide

theorem dataExchangeCodeList_get?_none (x : String) (h : x ∉ labelledIds) :
    Assoc.get? dataExchangeCodeList x = none := by
  cases hx : Assoc.get? dataExchangeCodeList x with
  | none => rfl
  | some v =>
    exfalso
    apply h
    have hall : ∀ k, (Assoc.get? dataExchangeCodeList k).isSome = true → k ∈ labelledIds := by
      intro k hk
      simp only [dataExchangeCodeList, Assoc.get?] at hk
      unfold labelledIds
      split_ifs at hk <;> simp_all
    exact hall x (by rw [hx]; rfl)

theorem getData_labelled (b : BreezeInstance) (s e : String)
    (hhead : (goSplit s '!').head? = some e) (he : e ∈ labelledIds) :
    GetDataFromStockTokenValue b s =
      .err (subscribeException b "WRONG_EXCHANGE_CODE_EXCEPTION") := by
  obtain ⟨ps, hps⟩ := splitChars_head '!' s.data
  have hE : s.data.takeWhile (fun c => c ≠ '!') = e.data := by
    simp only [goSplit, hps, List.map_cons, List.head?_cons, Option.some.injEq] at hhead
    rw [← hhead]
  obtain ⟨qs, hqs⟩ := splitChars_head '.' s.data
  unfold GetDataFromStockTokenValue
  simp only [goSplit, hqs, List.map_cons]
  cases qs with
  | nil => rfl
  | cons second more =>
    simp only [List.map_cons]
    have hdot : '.' ∈ s.data := by
      by_contra hn
      rw [splitChars_of_not_mem _ _ hn] at hqs
      simp at hqs
    obtain ⟨t, ht⟩ := takeWhile_ne_of_mem '.' s.data hdot
    have hX : String.mk (s.data.takeWhile (fun c => c ≠ '.')) ∉ labelledIds := by
      intro hx
      have hplain := (labelledIds_plain _ hx).2
      simp only at hplain
      have hmem := takeWhile_ne_append '!' '.' _ t hplain (by decide)
      rw [← ht, hE] at hmem
      exact (labelledIds_plain e he).1 hmem
    have hnone := dataExchangeCodeList_get?_none _ hX
    cases hsp : (splitChars '!' second).map String.mk with
    | nil => rfl
    | cons a rest =>
      cases rest with
      | nil => rfl
      | cons tok rest2 =>
        simp only [resolveStockToken, hnone]

theorem enrich_labelled (b : BreezeInstance) (r : Record) (s e : String)
    (hsym : Assoc.get? r "symbol" = some (.str s))
    (hhead : (goSplit s '!').head? = some e) (he : e ∈ labelledIds) :
    enrich b (some r) = .ok (some r) := by
  simp [enrich, hsym, asString, getData_labelled b s e hhead he]

theorem Assoc.get?_foldl_set_ne (entries t0 : List (String × Source)) (k : String)
    (h : ∀ p ∈ entries, p.1 ≠ k) :
    Assoc.get? (entries.foldl (fun m p => Assoc.set m p.1 p.2) t0) k = Assoc.get? t0 k := by
  induction entries generalizing t0 with
  | nil => rfl
  | cons p rest ih =>
    simp only [List.foldl_cons]
    rw [ih _ (fun q hq => h q (List.mem_cons_of_mem _ hq)),
      Assoc.get?_set_ne _ _ _ _ (h p (List.mem_cons_self _ _))]

theorem labelEntries_keys (exchange : String) (n : Nat) :
    ∀ p ∈ labelEntries exchange n, p.1 = "exchange" := by
  intro p hp
  unfold labelEntries at hp
  cases hl : displayLabel exchange n with
  | none => simp [hl] at hp
  | some l =>
    simp only [hl, List.mem_singleton] at hp
    rw [hp]

theorem quoteEntries_cons (n : Nat) :
    ∃ rest, quoteEntries n = ("symbol", .element 0) :: rest ∧ ∀ p ∈ rest, p.1 ≠ "symbol" := by
  unfold quoteEntries
  refine ⟨_, rfl, ?_⟩
  intro p hp e
  have hk := List.mem_map_of_mem Prod.fst hp
  rw [e] at hk
  revert hk
  split_ifs <;> decide

theorem decodeTable_symbol (exchange dataType : String) (n : Nat) :
    Assoc.get? (decodeTable (some (exchange, dataType)) n) "symbol" = some (.element 0) := by
  by_cases h6 : exchange = "6"
  · subst h6
    rw [commodityTable_eq]
    simp [decodeEntries, commodityHeaderEntries, Assoc.get?]
  · unfold decodeTable decodeEntries
    simp only [h6, if_false, List.foldl_append]
    rw [Assoc.get?_foldl_set_ne _ _ _ (fun p hp => by
      rw [labelEntries_keys exchange n p hp]; decide)]
    by_cases h1 : dataType = "1"
    · obtain ⟨rest, hrest, hne⟩ := quoteEntries_cons n
      simp only [h1, if_true, hrest, List.foldl_cons]
      rw [Assoc.get?_foldl_set_ne _ _ _ hne]
      rfl
    · simp only [h1, if_false, depthEntries, List.foldl_cons, List.foldl_nil]
      rfl

theorem flatTable_exchange (n : Nat) : Assoc.get? (decodeTable none n) "exchange" = none := by
  unfold decodeTable decodeEntries
  apply Assoc.get?_foldl_set_none _ [] _ rfl
  intro p hp e
  have hk := List.mem_map_of_mem Prod.fst hp
  rw [e] at hk
  revert hk
  simp only
  split_ifs <;> decide

theorem displayLabel_labelled (e : String) : e ∈ labelledIds ↔ ∃ n, displayLabel e n ≠ none := by
  constructor
  · intro h
    refine ⟨21, ?_⟩
    revert e
    decide
  · rintro ⟨n, hn⟩
    unfold displayLabel at hn
    unfold labelledIds
    split_ifs at hn <;> simp_all

theorem labelled_record (b : BreezeInstance) (data : List GoVal) (r : Record)
    (h : parseData b data = .ok (some r)) (hl : Assoc.get? r "exchange" ≠ none) :
    ∃ s e, Assoc.get? r "symbol" = some (.str s) ∧ (goSplit s '!').head? = some e ∧
      e ∈ labelledIds := by
  have hd := parseData_decodes b data r h
  cases hr : Assoc.get? r "exchange" with
  | none => exact absurd hr hl
  | some v =>
    obtain ⟨src, hs, -⟩ := (Decodes.get? _ _ _ hd "exchange").1 v hr
    cases hk : frameKind data with
    | none =>
      rw [hk, flatTable_exchange] at hs
      cases hs
    | some kind =>
      obtain ⟨exchange, dataType⟩ := kind
      rw [hk] at hd hs
      obtain ⟨s, rest, more, hdata, hsplit, -⟩ := frameKind_some data exchange dataType hk
      obtain ⟨w, hw, hev⟩ :=
        (Decodes.get? _ _ _ hd "symbol").2 _ (decodeTable_symbol exchange dataType data.length)
      refine ⟨s, exchange, ?_, by rw [hsplit]; rfl, ?_⟩
      · rw [hw, hdata] at *
        simp only [Source.eval, idx, List.get?_cons_zero, GoResult.ok.injEq] at hev
        rw [hev]
      · rw [displayLabel_labelled]
        refine ⟨data.length, ?_⟩
        rw [decodeTable_exchange] at hs
        intro hn
        rw [hn] at hs
        cases hs

/-- Claim C31: the ids with a case in the closing switch of `parseData` are 1, 4,
6 and 13; for every string whose part before the first `!` is one of them,
`GetDataFromStockTokenValue` returns the wrong-exchange-code error on every
instance, whatever its registry holds; hence every record of `parseData` that
carries an `exchange` label has such a string as its `symbol`, the enrichment of
`onMessage` leaves it as it is, and the callbacks receive it without metadata. -/
theorem C31_labelled_symbols_are_never_enriched :
    (∀ e, e ∈ labelledIds ↔ ∃ n, displayLabel e n ≠ none) ∧
    (∀ (b : BreezeInstance) (s e : String), (goSplit s '!').head? = some e → e ∈ labelledIds →
      GetDataFromStockTokenValue b s =
        .err (subscribeException b "WRONG_EXCHANGE_CODE_EXCEPTION")) ∧
    (∀ (b : BreezeInstance) (data : List GoVal) (r : Record),
      parseData b data = .ok (some r) → Assoc.get? r "exchange" ≠ none →
      ∃ s e, Assoc.get? r "symbol" = some (.str s) ∧ (goSplit s '!').head? = some e ∧
        e ∈ labelledIds ∧
        ∀ (b2 : BreezeInstance), enrich b2 (some r) = .ok (some r) ∧
          ∀ (h : Hooks) (v : GoVal), h.ParseData v = .ok (some r) →
            onMessage b2 h v = .ok ((if h.OnTicks then [Callback.OnTicks (some r)] else []) ++
              (if h.OnTicks2 then [Callback.OnTicks2 (some r)] else []))) := by
  refine ⟨displayLabel_labelled, getData_labelled, ?_⟩
  intro b data r h hl
  obtain ⟨s, e, hsym, hhead, he⟩ := labelled_record b data r h hl
  refine ⟨s, e, hsym, hhead, he, fun b2 => ?_⟩
  have hen := enrich_labelled b2 r s e hsym hhead he
  refine ⟨hen, fun hk v hv => ?_⟩
  simp [onMessage, hv, hen]

/-- Witness of `C31_labelled_symbols_are_never_enriched`: the symbol `4!1` and the
record of the 21-element quote frame that starts with it. -/
theorem C31_labelled_symbols_are_never_enriched_witness :
    GetDataFromStockTokenValue nseNfoInstance "4!1" =
      .err (subscribeException nseNfoInstance "WRONG_EXCHANGE_CODE_EXCEPTION") ∧
    ∃ r, parseData {} equityFrame = .ok (some r) ∧
      Assoc.get? r "exchange" = some (.str "NSE Equity") ∧
      Assoc.get? r "symbol" = some (.str "4!1") ∧
      enrich nseNfoInstance (some r) = .ok (some r) :=
  ⟨C31_labelled_symbols_are_never_enriched.2.1 nseNfoInstance "4!1" "4" (by decide) (by decide),
    _, rfl, rfl, rfl,
    (let ⟨_, _, _, _, _, hall⟩ := C31_labelled_symbols_are_never_enriched.2.2 {} equityFrame _ rfl
      (by intro hc; cases hc); (hall nseNfoInstance).1)⟩

/-! ## The record of an OHLC line -/

theorem parseOhlcData_9 (b : BreezeInstance) (data : String)
    (f0 f1 f2 f3 f4 f5 f6 f7 f8 : String)
    (h : goSplit data ',' = [f0, f1, f2, f3, f4, f5, f6, f7, f8]) :
    parseOhlcData b data = .ok
      [("interval", .str (GoMap.str FeedIntervalMap f8)), ("exchange_code", .str f0),
       ("stock_code", .str f1), ("low", .str f2), ("high", .str f3), ("open", .str f4),
       ("close", .str f5), ("volume", .str f6), ("datetime", .str f7)] := by
  unfold parseOhlcData
  simp only [h]
  rfl

theorem parseOhlcData_11 (b : BreezeInstance) (data : String)
    (f0 f1 f2 f3 f4 f5 f6 f7 f8 f9 f10 : String)
    (h : goSplit data ',' = [f0, f1, f2, f3, f4, f5, f6, f7, f8, f9, f10]) :
    parseOhlcData b data = .ok
      [("interval", .str (GoMap.str FeedIntervalMap f10)), ("exchange_code", .str f0),
       ("stock_code", .str f1), ("expiry_date", .str f2), ("low", .str f3), ("high", .str f4),
       ("open", .str f5), ("close", .str f6), ("volume", .str f7), ("oi", .str f8),
       ("datetime", .str f9)] := by
  unfold parseOhlcData
  simp only [h]
  rfl

theorem parseOhlcData_13 (b : BreezeInstance) (data : String)
    (f0 f1 f2 f3 f4 f5 f6 f7 f8 f9 f10 f11 f12 : String)
    (h : goSplit data ',' = [f0, f1, f2, f3, f4, f5, f6, f7, f8, f9, f10, f11, f12]) :
    parseOhlcData b data = .ok
      [("interval", .str (GoMap.str FeedIntervalMap f12)), ("exchange_code", .str f0),
       ("stock_code", .str f1), ("expiry_date", .str f2), ("strike_price", .str f3),
       ("right_type", .str f4), ("low", .str f5), ("high", .str f6), ("open", .str f7),
       ("close", .str f8), ("volume", .str f9), ("oi", .str f10), ("datetime", .str f11)] := by
  unfold parseOhlcData
  simp only [h]
  rfl

theorem parseOhlcData_other (b : BreezeInstance) (data : String)
    (h9 : (goSplit data ',').length ≠ 9) (h11 : (goSplit data ',').length ≠ 11)
    (h13 : (goSplit data ',').length ≠ 13) : parseOhlcData b data = .ok [] := by
  unfold parseOhlcData
  simp only [h9, h11, h13, if_false]

theorem length_succ_split {α : Type} (l : List α) (n : Nat) (h : l.length = n + 1) :
    ∃ a t, l = a :: t ∧ t.length = n := by
  cases l with
  | nil => cases h
  | cons a t => exact ⟨a, t, rfl, by simpa using h⟩

theorem parseOhlcData_named (b : BreezeInstance) (data : String)
    (h : (goSplit data ',').length = 9 ∨ (goSplit data ',').length = 11 ∨
      (goSplit data ',').length = 13) :
    parseOhlcData b data =
      .ok (ohlcRecord (ohlcNames (goSplit data ',').length) (goSplit data ',')) := by
  rcases h with h | h | h
  · obtain ⟨f0, t0, e0, h0⟩ := length_succ_split _ _ h
    obtain ⟨f1, t1, rfl, h1⟩ := length_succ_split _ _ h0
    obtain ⟨f2, t2, rfl, h2⟩ := length_succ_split _ _ h1
    obtain ⟨f3, t3, rfl, h3⟩ := length_succ_split _ _ h2
    obtain ⟨f4, t4, rfl, h4⟩ := length_succ_split _ _ h3
    obtain ⟨f5, t5, rfl, h5⟩ := length_succ_split _ _ h4
    obtain ⟨f6, t6, rfl, h6⟩ := length_succ_split _ _ h5
    obtain ⟨f7, t7, rfl, h7⟩ := length_succ_split _ _ h6
    obtain ⟨f8, t8, rfl, h8⟩ := length_succ_split _ _ h7
    obtain rfl := List.length_eq_zero.1 h8
    rw [parseOhlcData_9 b data _ _ _ _ _ _ _ _ _ e0, e0]
    rfl
  · obtain ⟨f0, t0, e0, h0⟩ := length_succ_split _ _ h
    obtain ⟨f1, t1, rfl, h1⟩ := length_succ_split _ _ h0
    obtain ⟨f2, t2, rfl, h2⟩ := length_succ_split _ _ h1
    obtain ⟨f3, t3, rfl, h3⟩ := length_succ_split _ _ h2
    obtain ⟨f4, t4, rfl, h4⟩ := length_succ_split _ _ h3
    obtain ⟨f5, t5, rfl, h5⟩ := length_succ_split _ _ h4
    obtain ⟨f6, t6, rfl, h6⟩ := length_succ_split _ _ h5
    obtain ⟨f7, t7, rfl, h7⟩ := length_succ_split _ _ h6
    obtain ⟨f8, t8, rfl, h8⟩ := length_succ_split _ _ h7
    obtain ⟨f9, t9, rfl, h9⟩ := length_succ_split _ _ h8
    obtain ⟨f10, t10, rfl, h10⟩ := length_succ_split _ _ h9
    obtain rfl := List.length_eq_zero.1 h10
    rw [parseOhlcData_11 b data _ _ _ _ _ _ _ _ _ _ _ e0, e0]
    rfl
  · obtain ⟨f0, t0, e0, h0⟩ := length_succ_split _ _ h
    obtain ⟨f1, t1, rfl, h1⟩ := length_succ_split _ _ h0
    obtain ⟨f2, t2, rfl, h2⟩ := length_succ_split _ _ h1
    obtain ⟨f3, t3, rfl, h3⟩ := length_succ_split _ _ h2
    obtain ⟨f4, t4, rfl, h4⟩ := length_succ_split _ _ h3
    obtain ⟨f5, t5, rfl, h5⟩ := length_succ_split _ _ h4
    obtain ⟨f6, t6, rfl, h6⟩ := length_succ_split _ _ h5
    obtain ⟨f7, t7, rfl, h7⟩ := length_succ_split _ _ h6
    obtain ⟨f8, t8, rfl, h8⟩ := length_succ_split _ _ h7
    obtain ⟨f9, t9, rfl, h9⟩ := length_succ_split _ _ h8
    obtain ⟨f10, t10, rfl, h10⟩ := length_succ_split _ _ h9
    obtain ⟨f11, t11, rfl, h11⟩ := length_succ_split _ _ h10
    obtain ⟨f12, t12, rfl, h12⟩ := length_succ_split _ _ h11
    obtain rfl := List.length_eq_zero.1 h12
    rw [parseOhlcData_13 b data _ _ _ _ _ _ _ _ _ _ _ _ _ e0, e0]
    rfl

theorem ohlcNames_facts :
    ∀ n ∈ [9, 11, 13], (ohlcNames n).length + 1 = n ∧ (ohlcNames n).Nodup ∧
      "interval" ∉ ohlcNames n := by decide

theorem ohlcRecord_keys (names fields : List String) (h : names.length + 1 = fields.length) :
    Assoc.keys (ohlcRecord names fields) = "interval" :: names := by
  unfold ohlcRecord Assoc.keys
  simp only [List.map_cons, List.map_map]
  congr 1
  have : (Prod.fst ∘ fun p : String × String => (p.1, GoVal.str p.2)) = Prod.fst := rfl
  rw [this, List.map_fst_zip]
  omega

/-- Claim C34: `parseOhlcData` splits its input at the commas and returns the
empty record unless there are 9, 11 or 13 fields. With 9 fields the record has
the 9 entries `exchange_code`, `stock_code`, `low`, `high`, `open`, `close`,
`volume`, `datetime` for the fields 0 to 7 in that order, and `interval`; with
11 fields `expiry_date` and `oi` are added, with 13 fields `expiry_date`,
`strike_price`, `right_type` and `oi`. In the three cases `interval` is the
last field translated through `FeedIntervalMap`, every field before the last
is the value of one entry, in the order of the fields, under names that are
distinct, and the record has as many entries as the line has fields. -/
theorem C34_ohlc_record (b : BreezeInstance) (data : String) :
    ((goSplit data ',').length ≠ 9 → (goSplit data ',').length ≠ 11 →
      (goSplit data ',').length ≠ 13 → parseOhlcData b data = .ok []) ∧
    (∀ f0 f1 f2 f3 f4 f5 f6 f7 f8, goSplit data ',' = [f0, f1, f2, f3, f4, f5, f6, f7, f8] →
      parseOhlcData b data = .ok
        [("interval", .str (GoMap.str FeedIntervalMap f8)), ("exchange_code", .str f0),
         ("stock_code", .str f1), ("low", .str f2), ("high", .str f3), ("open", .str f4),
         ("close", .str f5), ("volume", .str f6), ("datetime", .str f7)]) ∧
    (∀ f0 f1 f2 f3 f4 f5 f6 f7 f8 f9 f10,
      goSplit data ',' = [f0, f1, f2, f3, f4, f5, f6, f7, f8, f9, f10] →
      parseOhlcData b data = .ok
        [("interval", .str (GoMap.str FeedIntervalMap f10)), ("exchange_code", .str f0),
         ("stock_code", .str f1), ("expiry_date", .str f2), ("low", .str f3),
         ("high", .str f4), ("open", .str f5), ("close", .str f6), ("volume", .str f7),
         ("oi", .str f8), ("datetime", .str f9)]) ∧
    (∀ f0 f1 f2 f3 f4 f5 f6 f7 f8 f9 f10 f11 f12,
      goSplit data ',' = [f0, f1, f2, f3, f4, f5, f6, f7, f8, f9, f10, f11, f12] →
      parseOhlcData b data = .ok
        [("interval", .str (GoMap.str FeedIntervalMap f12)), ("exchange_code", .str f0),
         ("stock_code", .str f1), ("expiry_date", .str f2), ("strike_price", .str f3),
         ("right_type", .str f4), ("low", .str f5), ("high", .str f6), ("open", .str f7),
         ("close", .str f8), ("volume", .str f9), ("oi", .str f10),
         ("datetime", .str f11)]) ∧
    ((goSplit data ',').length = 9 ∨ (goSplit data ',').length = 11 ∨
        (goSplit data ',').length = 13 →
      parseOhlcData b data =
        .ok (ohlcRecord (ohlcNames (goSplit data ',').length) (goSplit data ',')) ∧
      (ohlcRecord (ohlcNames (goSplit data ',').length) (goSplit data ',')).length =
        (goSplit data ',').length ∧
      Assoc.keys (ohlcRecord (ohlcNames (goSplit data ',').length) (goSplit data ',')) =
        "interval" :: ohlcNames (goSplit data ',').length ∧
      ("interval" :: ohlcNames (goSplit data ',').length).Nodup) ∧
    FeedIntervalMap = some [("1MIN", "1minute"), ("5MIN", "5minute"), ("30MIN", "30minute"),
      ("1SEC", "1second")] := by
  refine ⟨parseOhlcData_other b data, parseOhlcData_9 b data, parseOhlcData_11 b data,
    parseOhlcData_13 b data, fun h => ?_, rfl⟩
  have hmem : (goSplit data ',').length ∈ [9, 11, 13] := by
    rcases h with h | h | h <;> simp [h]
  obtain ⟨hlen, hnd, hni⟩ := ohlcNames_facts _ hmem
  have hkeys := ohlcRecord_keys _ _ hlen
  refine ⟨parseOhlcData_named b data h, ?_, hkeys, List.nodup_cons.2 ⟨hni, hnd⟩⟩
  have := congrArg List.length hkeys
  simp only [Assoc.keys, List.length_map, List.length_cons] at this
  omega

/-- Witness of `C34_ohlc_record`: a line of nine fields whose last field is `1MIN`. -/
theorem C34_ohlc_record_witness :
    goSplit equityOhlcLine ',' =
      ["NSE", "ITC", "431.5", "433", "432", "432.5", "1200", "2024-03-28 10:15:00", "1MIN"] ∧
    parseOhlcData {} equityOhlcLine = .ok
      [("interval", .str "1minute"), ("exchange_code", .str "NSE"), ("stock_code", .str "ITC"),
       ("low", .str "431.5"), ("high", .str "433"), ("open", .str "432"),
       ("close", .str "432.5"), ("volume", .str "1200"),
       ("datetime", .str "2024-03-28 10:15:00")] :=
  ⟨by decide, (C34_ohlc_record {} equityOhlcLine).2.1 "NSE" "ITC" "431.5" "433" "432" "432.5" "1200"
    "2024-03-28 10:15:00" "1MIN" (by decide)⟩

/-! ## The interval stored by `SubscribeFeeds` -/

theorem wsConnect_settings (b : BreezeInstance) (orderFlag ohlcvFlag strategyFlag : Bool)
    (net : Dial) : settings (_wsConnect b orderFlag ohlcvFlag strategyFlag net).1 = settings b := by
  unfold _wsConnect
  split_ifs <;> rfl

theorem joinOhlc_settings (b b2 : BreezeInstance) (token interval : String) (net : Dial)
    (e : Option GoError) (h : joinOhlc b token interval net = .ok (b2, e)) :
    settings b2 = settings b := by
  unfold joinOhlc at h
  cases ho : b.SIOOhlcvStreamHandler with
  | none =>
    simp only [ho] at h
    have hc := wsConnect_settings b false true false net
    generalize _wsConnect b false true false net = c at h hc
    obtain ⟨cb, ce⟩ := c
    cases ce with
    | some e2 =>
      simp only [GoResult.ok.injEq, Prod.mk.injEq] at h
      rw [← h.1]
      exact hc
    | none =>
      simp only at h
      obtain ⟨o, -, h2⟩ := GoResult.bind_eq_ok _ _ _ h
      simp only [GoResult.pure_eq, GoResult.ok.injEq, Prod.mk.injEq] at h2
      rw [← h2.1, ← hc]
      rfl
  | some seb =>
    simp only [ho] at h
    obtain ⟨o, -, h2⟩ := GoResult.bind_eq_ok _ _ _ h
    simp only [GoResult.pure_eq, GoResult.ok.injEq, Prod.mk.injEq] at h2
    rw [← h2.1]
    rfl

theorem watchIds_settings (b b2 : BreezeInstance) (quoteId depthId : String)
    (h : watchIds b quoteId depthId = .ok b2) : settings b2 = settings b := by
  unfold watchIds at h
  by_cases hq : quoteId = ""
  · by_cases hd : depthId = ""
    · simp [hq, hd] at h
      rw [← h]
    · cases hu : watchOn b.SIORateRefreshHandler (.one depthId) with
      | ok o =>
        simp [hq, hd, hu] at h
        rw [← h]
        rfl
      | err e => simp [hq, hd, hu] at h
      | panic => simp [hq, hd, hu] at h
  · cases hu : watchOn b.SIORateRefreshHandler (.one quoteId) with
    | err e => simp [hq, hu] at h
    | panic => simp [hq, hu] at h
    | ok o =>
      by_cases hd : depthId = ""
      · simp [hq, hd, hu] at h
        rw [← h]
        rfl
      · cases hu2 : watchOn (some o) (.one depthId) with
        | ok o2 =>
          simp [hq, hd, hu, hu2] at h
          rw [← h]
          rfl
        | err e => simp [hq, hd, hu, hu2] at h
        | panic => simp [hq, hd, hu, hu2] at h

theorem subscribeRouted_settings (b b2 : BreezeInstance)
    (stockToken exchangeCode stockCode productType expiryDate strikePrice right interval : String)
    (q d n : Bool) (net : Dial) (reply : Reply)
    (h : subscribeRouted b stockToken exchangeCode stockCode productType expiryDate strikePrice
      right interval q d n net = .ok (b2, reply)) : settings b2 = settings b := by
  unfold subscribeRouted at h
  cases hr : b.SIORateRefreshHandler with
  | none =>
    simp only [hr, GoResult.ok.injEq, Prod.mk.injEq] at h
    rw [← h.1]
  | some r =>
    simp only [hr] at h
    split_ifs at h with c1 c2 c3 c4 c5 c6
    · have hc := wsConnect_settings b false false true net
      generalize _wsConnect b false false true net = c at h hc
      obtain ⟨cb, ce⟩ := c
      cases ce with
      | some e =>
        simp only [GoResult.ok.injEq, Prod.mk.injEq] at h
        rw [← h.1]
        exact hc
      | none =>
        simp only at h
        obtain ⟨o, -, h2⟩ := GoResult.bind_eq_ok _ _ _ h
        simp only [GoResult.pure_eq, GoResult.ok.injEq, Prod.mk.injEq] at h2
        rw [← h2.1, ← hc]
        rfl
    · have hc := wsConnect_settings b true false false net
      generalize _wsConnect b true false false net = c at h hc
      obtain ⟨cb, ce⟩ := c
      cases ce with
      | some e =>
        simp only [GoResult.ok.injEq, Prod.mk.injEq] at h
        rw [← h.1]
        exact hc
      | none =>
        simp only at h
        cases ho : cb.SIOOrderRefreshHandler with
        | none => simp [ho] at h
        | some seb =>
          simp only [ho] at h
          obtain ⟨o, -, h2⟩ := GoResult.bind_eq_ok _ _ _ h
          simp only [GoResult.pure_eq, GoResult.ok.injEq, Prod.mk.injEq] at h2
          rw [← h2.1, ← hc]
          rfl
    · obtain ⟨r2, hj, h2⟩ := GoResult.bind_eq_ok _ _ _ h
      obtain ⟨rb, re⟩ := r2
      have hs := joinOhlc_settings _ _ _ _ _ _ hj
      cases re with
      | some e =>
        simp only [GoResult.pure_eq, GoResult.ok.injEq, Prod.mk.injEq] at h2
        rw [← h2.1]
        exact hs
      | none =>
        simp only [GoResult.pure_eq, GoResult.ok.injEq, Prod.mk.injEq] at h2
        rw [← h2.1]
        exact hs
    · obtain ⟨o, -, h2⟩ := GoResult.bind_eq_ok _ _ _ h
      simp only [GoResult.pure_eq, GoResult.ok.injEq, Prod.mk.injEq] at h2
      rw [← h2.1]
      rfl
    · simp only [GoResult.ok.injEq, Prod.mk.injEq] at h
      rw [← h.1]
    · cases hg : getStockTokenValue b exchangeCode stockCode productType expiryDate strikePrice
          right q d with
      | panic => simp [hg] at h
      | err e =>
        simp only [hg, GoResult.ok.injEq, Prod.mk.injEq] at h
        rw [← h.1]
      | ok ids =>
        simp only [hg] at h
        obtain ⟨r2, hj, h2⟩ := GoResult.bind_eq_ok _ _ _ h
        obtain ⟨rb, re⟩ := r2
        have hs := joinOhlc_settings _ _ _ _ _ _ hj
        cases re with
        | some e =>
          simp only [GoResult.pure_eq, GoResult.ok.injEq, Prod.mk.injEq] at h2
          rw [← h2.1]
          exact hs
        | none =>
          simp only [GoResult.pure_eq, GoResult.ok.injEq, Prod.mk.injEq] at h2
          rw [← h2.1]
          exact hs
    · cases hg : getStockTokenValue b exchangeCode stockCode productType expiryDate strikePrice
          right q d with
      | panic => simp [hg] at h
      | err e =>
        simp only [hg, GoResult.ok.injEq, Prod.mk.injEq] at h
        rw [← h.1]
      | ok ids =>
        simp only [hg] at h
        obtain ⟨r2, hj, h2⟩ := GoResult.bind_eq_ok _ _ _ h
        simp only [GoResult.pure_eq, GoResult.ok.injEq, Prod.mk.injEq] at h2
        rw [← h2.1]
        exact watchIds_settings _ _ _ _ hj

theorem SubscribeFeeds_settings (b b2 : BreezeInstance)
    (stockToken exchangeCode stockCode productType expiryDate strikePrice right interval : String)
    (q d n : Bool) (net : Dial) (reply : Reply)
    (h : SubscribeFeeds b stockToken exchangeCode stockCode productType expiryDate strikePrice
      right interval q d n net = .ok (b2, reply)) :
    settings b2 = settings { b with Interval := interval } := by
  unfold SubscribeFeeds at h
  simp only at h
  split_ifs at h with c1 c2
  · simp only [GoResult.ok.injEq, Prod.mk.injEq] at h
    rw [← h.1]
  · simp only [GoResult.ok.injEq, Prod.mk.injEq] at h
    rw [← h.1]
  · exact subscribeRouted_settings _ _ _ _ _ _ _ _ _ _ _ _ _ _ _ h
  · exact subscribeRouted_settings _ _ _ _ _ _ _ _ _ _ _ _ _ _ _ h

theorem leaveOhlc_settings (b b2 : BreezeInstance) (token : String)
    (h : leaveOhlc b token = .ok b2) : settings b2 = settings b := by
  unfold leaveOhlc at h
  cases ho : b.SIOOhlcvStreamHandler with
  | none =>
    simp only [ho, GoResult.ok.injEq] at h
    rw [← h]
  | some seb =>
    simp only [ho] at h
    obtain ⟨o, -, h2⟩ := GoResult.bind_eq_ok _ _ _ h
    simp only [GoResult.pure_eq, GoResult.ok.injEq] at h2
    rw [← h2]
    rfl

theorem unwatchIds_settings (b b2 : BreezeInstance) (quoteId depthId : String)
    (h : unwatchIds b quoteId depthId = .ok b2) : settings b2 = settings b := by
  unfold unwatchIds at h
  by_cases hq : quoteId = ""
  · by_cases hd : depthId = ""
    · simp [hq, hd] at h
      rw [← h]
    · cases hu : unwatchOn b.SIORateRefreshHandler (.one depthId) with
      | ok o =>
        simp [hq, hd, hu] at h
        rw [← h]
        rfl
      | err e => simp [hq, hd, hu] at h
      | panic => simp [hq, hd, hu] at h
  · cases hu : unwatchOn b.SIORateRefreshHandler (.one quoteId) with
    | err e => simp [hq, hu] at h
    | panic => simp [hq, hu] at h
    | ok o =>
      by_cases hd : depthId = ""
      · simp [hq, hd, hu] at h
        rw [← h]
        rfl
      · cases hu2 : unwatchOn (some o) (.one depthId) with
        | ok o2 =>
          simp [hq, hd, hu, hu2] at h
          rw [← h]
          rfl
        | err e => simp [hq, hd, hu, hu2] at h
        | panic => simp [hq, hd, hu, hu2] at h

theorem unsubscribeRouted_settings (b b2 : BreezeInstance)
    (stockToken exchangeCode stockCode productType expiryDate strikePrice right interval : String)
    (q d n : Bool) (reply : Reply)
    (h : unsubscribeRouted b stockToken exchangeCode stockCode productType expiryDate strikePrice
      right interval q d n = .ok (b2, reply)) : settings b2 = settings b := by
  unfold unsubscribeRouted at h
  split_ifs at h with c1 c2
  · cases ho : b.SIOOrderRefreshHandler with
    | none =>
      simp only [ho, GoResult.ok.injEq, Prod.mk.injEq] at h
      rw [← h.1]
    | some seb =>
      simp only [ho] at h
      obtain ⟨o, -, h2⟩ := GoResult.bind_eq_ok _ _ _ h
      simp only [GoResult.pure_eq, GoResult.ok.injEq, Prod.mk.injEq] at h2
      rw [← h2.1]
      rfl
  · cases ho : b.SIOOrderRefreshHandler with
    | none =>
      simp only [ho, GoResult.ok.injEq, Prod.mk.injEq] at h
      rw [← h.1]
    | some seb =>
      simp only [ho] at h
      obtain ⟨o, -, h2⟩ := GoResult.bind_eq_ok _ _ _ h
      simp only [GoResult.pure_eq, GoResult.ok.injEq, Prod.mk.injEq] at h2
      rw [← h2.1]
      rfl
  all_goals
    cases hr : b.SIORateRefreshHandler with
    | none =>
      simp only [hr, GoResult.ok.injEq, Prod.mk.injEq] at h
      rw [← h.1]
    | some r => ?_
  · simp only [hr] at h
    obtain ⟨o, ho, h2⟩ := GoResult.bind_eq_ok _ _ _ h
    simp only [GoResult.pure_eq, GoResult.ok.injEq, Prod.mk.injEq] at h2
    rw [← h2.1]
    exact leaveOhlc_settings _ _ _ ho
  · simp only [hr] at h
    obtain ⟨o, ho, h2⟩ := GoResult.bind_eq_ok _ _ _ h
    simp only [GoResult.pure_eq, GoResult.ok_bind, GoResult.ok.injEq, Prod.mk.injEq] at h2
    rw [← h2.1]
    rfl
  · simp only [hr] at h
    cases hg : getStockTokenValue b exchangeCode stockCode productType expiryDate strikePrice
        right q d with
    | panic => simp [hg] at h
    | err e =>
      simp only [hg, GoResult.ok.injEq, Prod.mk.injEq] at h
      rw [← h.1]
    | ok ids =>
      simp only [hg] at h
      obtain ⟨o, ho, h2⟩ := GoResult.bind_eq_ok _ _ _ h
      simp only [GoResult.pure_eq, GoResult.ok.injEq, Prod.mk.injEq] at h2
      rw [← h2.1]
      exact leaveOhlc_settings _ _ _ ho
  · simp only [hr] at h
    cases hg : getStockTokenValue b exchangeCode stockCode productType expiryDate strikePrice
        right q d with
    | panic => simp [hg] at h
    | err e =>
      simp only [hg, GoResult.ok.injEq, Prod.mk.injEq] at h
      rw [← h.1]
    | ok ids =>
      simp only [hg] at h
      obtain ⟨o, ho, h2⟩ := GoResult.bind_eq_ok _ _ _ h
      simp only [GoResult.pure_eq, GoResult.ok.injEq, Prod.mk.injEq] at h2
      rw [← h2.1]
      exact unwatchIds_settings _ _ _ _ ho

theorem UnsubscribeFeeds_settings (b b2 : BreezeInstance)
    (stockToken exchangeCode stockCode productType expiryDate strikePrice right interval : String)
    (q d n : Bool) (reply : Reply)
    (h : UnsubscribeFeeds b stockToken exchangeCode stockCode productType expiryDate strikePrice
      right interval q d n = .ok (b2, reply)) : settings b2 = settings b := by
  unfold UnsubscribeFeeds at h
  split_ifs at h with c1 c2
  · simp only [GoResult.ok.injEq, Prod.mk.injEq] at h
    rw [← h.1]
  · exact unsubscribeRouted_settings _ _ _ _ _ _ _ _ _ _ _ _ _ _ h
  · exact unsubscribeRouted_settings _ _ _ _ _ _ _ _ _ _ _ _ _ _ h

theorem getStockTokenValue_settings (b : BreezeInstance) :
    getStockTokenValue (settings b) = getStockTokenValue b := rfl

/-- Claim C32 fails: on an instance whose `Interval` is empty, a `SubscribeFeeds`
call with the interval `2minute`, which is not an interval of the stream, returns
the interval error and leaves `Interval` equal to `2minute`. Before the call the
quote id of the BFO future is `8.1!870001` and an `UnsubscribeFeeds` without
interval removes it from the watch set; after the rejected call the id computed
is `2.1!870001`, and the same `UnsubscribeFeeds` leaves `8.1!870001` watched. -/
theorem C32_rejected_request_changes_interval :
    bfoWatchingInstance.Interval = "" ∧
    getStockTokenValue bfoWatchingInstance "BFO" "SENSEX" "futures" "28-Mar-2024" "" "" true
      false = .ok ("8.1!870001", "") ∧
    (∃ b3 reply r3, UnsubscribeFeeds bfoWatchingInstance "" "BFO" "SENSEX" "futures"
        "28-Mar-2024" "" "" "" true false false = .ok (b3, reply) ∧ reply.error = none ∧
      b3.SIORateRefreshHandler = some r3 ∧ r3.tokenlist = []) ∧
    ∃ b2 e, SubscribeFeeds bfoWatchingInstance "" "BFO" "SENSEX" "futures" "28-Mar-2024" "" ""
        "2minute" true false false .accepted = .ok (b2, { error := some e }) ∧
      e = .new (GoMap.str bfoWatchingInstance.ExceptMessage "STREAM_OHLC_INTERVAL_ERROR") ∧
      b2.Interval = "2minute" ∧
      getStockTokenValue b2 "BFO" "SENSEX" "futures" "28-Mar-2024" "" "" true false =
        .ok ("2.1!870001", "") ∧
      ∃ b4 reply r4, UnsubscribeFeeds b2 "" "BFO" "SENSEX" "futures" "28-Mar-2024" "" "" ""
          true false false = .ok (b4, reply) ∧ reply.error = none ∧
        b4.SIORateRefreshHandler = some r4 ∧ r4.tokenlist = [("8.1!870001", true)] :=
  ⟨rfl, rfl, ⟨_, _, _, rfl, rfl, rfl, rfl⟩, _, _, rfl, rfl, rfl, rfl, _, _, _, rfl, rfl, rfl, rfl⟩

/-- Claim C32, amended: `SubscribeFeeds` stores its interval argument in
`Interval` before any test, so after every call that returns, with an error or
without one, `Interval` is the interval argument of that call, whatever it was
before. The id that `getStockTokenValue` then takes for BFO is 8 when that
argument is empty and 2 otherwise, every later `getStockTokenValue` computes what
it computes on the instance before the call with that interval stored, and
`UnsubscribeFeeds` leaves `Interval` as it finds it. -/
theorem C32_interval_is_the_last_interval_argument (b b2 : BreezeInstance)
    (stockToken exchangeCode stockCode productType expiryDate strikePrice right interval : String)
    (q d n : Bool) (net : Dial) (reply : Reply)
    (h : SubscribeFeeds b stockToken exchangeCode stockCode productType expiryDate strikePrice
      right interval q d n net = .ok (b2, reply)) :
    b2.Interval = interval ∧
    Assoc.get? (tokenExchangeCodeList b2) "BFO" = some (if interval = "" then "8." else "2.") ∧
    getStockTokenValue b2 = getStockTokenValue { b with Interval := interval } ∧
    ∀ (b3 : BreezeInstance) (stockToken2 exchangeCode2 stockCode2 productType2 expiryDate2
        strikePrice2 right2 interval2 : String) (q2 d2 n2 : Bool) (reply2 : Reply),
      UnsubscribeFeeds b2 stockToken2 exchangeCode2 stockCode2 productType2 expiryDate2
        strikePrice2 right2 interval2 q2 d2 n2 = .ok (b3, reply2) → b3.Interval = interval := by
  have hs := SubscribeFeeds_settings _ _ _ _ _ _ _ _ _ _ _ _ _ _ _ h
  have hi0 : (settings b2).Interval = (settings { b with Interval := interval }).Interval :=
    congrArg BreezeInstance.Interval hs
  have hi : b2.Interval = interval := hi0
  refine ⟨hi, ?_, ?_, ?_⟩
  · simp [tokenExchangeCodeList, Assoc.get?, hi]
  · rw [← getStockTokenValue_settings b2, hs]
    rfl
  · intro b3 _ _ _ _ _ _ _ _ _ _ _ _ hu
    have hs3 := UnsubscribeFeeds_settings _ _ _ _ _ _ _ _ _ _ _ _ _ _ hu
    have hi3 : (settings b3).Interval = (settings b2).Interval :=
      congrArg BreezeInstance.Interval hs3
    exact (show b3.Interval = b2.Interval from hi3).trans hi

/-- Witness of `C32_interval_is_the_last_interval_argument`: the rejected request
for the interval `2minute`. -/
theorem C32_interval_is_the_last_interval_argument_witness :
    ∃ b2 reply, SubscribeFeeds bfoWatchingInstance "" "BFO" "SENSEX" "futures" "28-Mar-2024"
        "" "" "2minute" true false false .accepted = .ok (b2, reply) ∧
      reply.error.isSome = true ∧ b2.Interval = "2minute" ∧
      Assoc.get? (tokenExchangeCodeList b2) "BFO" = some "2." :=
  ⟨_, _, rfl, rfl,
    (C32_interval_is_the_last_interval_argument bfoWatchingInstance _ "" "BFO" "SENSEX"
      "futures" "28-Mar-2024" "" "" "2minute" true false false .accepted _ rfl).1,
    (C32_interval_is_the_last_interval_argument bfoWatchingInstance _ "" "BFO" "SENSEX"
      "futures" "28-Mar-2024" "" "" "2minute" true false false .accepted _ rfl).2.1⟩

/-! ## A subscribe followed by the same unsubscribe -/

theorem leftOver_eq_empty (before after final : Option SocketEventBreeze) (W R : Finset String)
    (hw : watchSetOf after ⊆ watchSetOf before ∪ W)
    (hr : roomSetOf after ⊆ roomSetOf before ∪ R)
    (hW : ∀ t ∈ W, t ∉ watchSetOf final) (hR : ∀ t ∈ R, t ∉ roomSetOf final) :
    leftOver before after final = ∅ := by
  rw [Finset.eq_empty_iff_forall_not_mem]
  intro t ht
  simp only [leftOver, Finset.mem_union, Finset.mem_inter, Finset.mem_sdiff] at ht
  rcases ht with ⟨⟨h1, h2⟩, h3⟩ | ⟨⟨h1, h2⟩, h3⟩
  · rcases Finset.mem_union.1 (hw h1) with h | h
    · exact h2 h
    · exact hW t h h3
  · rcases Finset.mem_union.1 (hr h1) with h | h
    · exact h2 h
    · exact hR t h h3

theorem leftOver_same (before final : Option SocketEventBreeze) :
    leftOver before before final = ∅ :=
  leftOver_eq_empty before before final ∅ ∅ (by simp) (by simp) (by simp) (by simp)

theorem leftOver_none (before after : Option SocketEventBreeze) :
    leftOver before after none = ∅ :=
  leftOver_eq_empty before after none (watchSetOf after) (roomSetOf after)
    Finset.subset_union_right Finset.subset_union_right
    (by simp [watchSetOf]) (by simp [roomSetOf])

theorem leftOver_unchanged (before after final : Option SocketEventBreeze)
    (hw : watchSetOf after = watchSetOf before) (hr : roomSetOf after = roomSetOf before) :
    leftOver before after final = ∅ :=
  leftOver_eq_empty before after final ∅ ∅ (by simp [hw]) (by simp [hr]) (by simp) (by simp)

theorem watchOn_sets (seb : SocketEventBreeze) (c : Conn) (t : String)
    (h : seb.conn = some c) :
    ∃ s c2, watchOn (some seb) (.one t) = .ok s ∧ s.conn = some c2 ∧
      s.watchSet = insert t seb.watchSet ∧ s.roomSet = seb.roomSet := by
  refine ⟨{ seb with tokenlist := watched seb.tokenlist (.one t),
                     conn := some (c.write (joinFrame (.one t))) }, _, ?_, rfl, ?_, rfl⟩
  · rw [watchOn, Watch_open seb c _ h]
  · simp only [SocketEventBreeze.watchSet, watched]
    exact Assoc.keys_set _ _ _

theorem streamOn_sets (seb : SocketEventBreeze) (c : Conn) (t channel : String)
    (h : seb.conn = some c) :
    ∃ s c2, streamOn (some seb) t channel = .ok s ∧ s.conn = some c2 ∧
      s.watchSet = seb.watchSet ∧ s.roomSet = insert t seb.roomSet := by
  obtain ⟨s, hs, hc, ht, hr, -⟩ := WatchStreamData_open seb c t channel h
  refine ⟨s, _, by rw [streamOn, hs], hc, ?_, hr⟩
  simp only [SocketEventBreeze.watchSet, ht]

theorem Unwatch_sets (seb : SocketEventBreeze) (c : Conn) (t : String)
    (h : seb.conn = some c) :
    ∃ s c2, seb.Unwatch (.one t) = .ok s ∧ s.conn = some c2 ∧
      s.watchSet = seb.watchSet.erase t ∧ s.roomSet = seb.roomSet.erase t := by
  obtain ⟨s, hs, ht, hr, hc⟩ := Unwatch_open seb c (.one t) h
  refine ⟨s, _, hs, hc, ?_, ?_⟩
  · simp only [SocketEventBreeze.watchSet, ht, unwatched]
    exact Assoc.keys_erase _ _
  · simp only [SocketEventBreeze.roomSet, hr]
    exact roomSet_leftRooms _ _

theorem Live.conn (h : Option SocketEventBreeze) (s : SocketEventBreeze) (hl : Live h)
    (hs : h = some s) : ∃ c, s.conn = some c :=
  Option.isSome_iff_exists.1 (hl s hs)

theorem orNew_sets (h : Option SocketEventBreeze) :
    (orNew h).watchSet = watchSetOf h ∧ (orNew h).roomSet = roomSetOf h := by
  cases h with
  | none => exact ⟨rfl, rfl⟩
  | some s => exact ⟨rfl, rfl⟩

theorem Connect_shape (seb : SocketEventBreeze) (userID sessionKey : String) (net : Dial)
    (hok : (seb.Connect userID sessionKey net).2 = none) :
    ∃ c, (seb.Connect userID sessionKey net).1.conn = some c ∧
      (seb.Connect userID sessionKey net).1.watchSet = seb.watchSet ∧
      (seb.Connect userID sessionKey net).1.roomSet = seb.roomSet := by
  cases net with
  | refused e => cases hok
  | authFailed e => cases hok
  | accepted => exact ⟨_, rfl, rfl, rfl⟩

theorem wsConnect_order_shape (b : BreezeInstance) (orderFlag strategyFlag : Bool) (net : Dial)
    (hflag : (orderFlag || strategyFlag) = true)
    (hok : (_wsConnect b orderFlag false strategyFlag net).2 = none) :
    ∃ o1, (_wsConnect b orderFlag false strategyFlag net).1.SIOOrderRefreshHandler = some o1 ∧
      o1.watchSet = watchSetOf b.SIOOrderRefreshHandler ∧
      o1.roomSet = roomSetOf b.SIOOrderRefreshHandler ∧
      (b.OrderConnect = 0 → ∃ c, o1.conn = some c) ∧
      (b.OrderConnect ≠ 0 → o1 = orNew b.SIOOrderRefreshHandler) ∧
      (_wsConnect b orderFlag false strategyFlag net).1.SIORateRefreshHandler =
        b.SIORateRefreshHandler ∧
      (_wsConnect b orderFlag false strategyFlag net).1.SIOOhlcvStreamHandler =
        b.SIOOhlcvStreamHandler := by
  unfold _wsConnect at hok ⊢
  rw [if_pos hflag] at hok ⊢
  by_cases h0 : b.OrderConnect = 0
  · rw [if_pos h0] at hok ⊢
    obtain ⟨c, hc, hw, hr⟩ := Connect_shape _ _ _ _ hok
    exact ⟨_, rfl, hw.trans (orNew_sets _).1, hr.trans (orNew_sets _).2, fun _ => ⟨c, hc⟩,
      fun hn => absurd h0 hn, rfl, rfl⟩
  · rw [if_neg h0]
    exact ⟨_, rfl, (orNew_sets _).1, (orNew_sets _).2, fun h => absurd h h0, fun _ => rfl,
      rfl, rfl⟩

theorem joinOhlc_shape (b b2 : BreezeInstance) (token interval : String) (net : Dial)
    (hlive : Live b.SIOOhlcvStreamHandler)
    (h : joinOhlc b token interval net = .ok (b2, none)) :
    ∃ h2 c2, b2.SIOOhlcvStreamHandler = some h2 ∧ h2.conn = some c2 ∧
      h2.watchSet = watchSetOf b.SIOOhlcvStreamHandler ∧
      h2.roomSet = insert token (roomSetOf b.SIOOhlcvStreamHandler) ∧
      b2.SIORateRefreshHandler = b.SIORateRefreshHandler ∧
      b2.SIOOrderRefreshHandler = b.SIOOrderRefreshHandler := by
  unfold joinOhlc at h
  cases ho : b.SIOOhlcvStreamHandler with
  | none =>
    simp only [ho] at h
    have hc : (_wsConnect b false true false net).1.SIOOhlcvStreamHandler =
          some ((orNew b.SIOOhlcvStreamHandler).Connect b.UserID b.SessionKey net).1 ∧
        (_wsConnect b false true false net).2 =
          ((orNew b.SIOOhlcvStreamHandler).Connect b.UserID b.SessionKey net).2 ∧
        (_wsConnect b false true false net).1.SIORateRefreshHandler = b.SIORateRefreshHandler ∧
        (_wsConnect b false true false net).1.SIOOrderRefreshHandler =
          b.SIOOrderRefreshHandler := ⟨rfl, rfl, rfl, rfl⟩
    generalize _wsConnect b false true false net = c at h hc
    obtain ⟨cb, ce⟩ := c
    obtain ⟨hc1, hc2, hc3, hc4⟩ := hc
    simp only at hc1 hc2 hc3 hc4
    cases ce with
    | some e2 => simp at h
    | none =>
      simp only at h
      obtain ⟨c1, hconn, hw, hr⟩ := Connect_shape _ _ _ _ hc2.symm
      rw [hc1] at h
      obtain ⟨s, c2, hs, hsc, hsw, hsr⟩ := streamOn_sets _ c1 token interval hconn
      rw [hs] at h
      simp only [GoResult.ok_bind, GoResult.pure_eq, GoResult.ok.injEq, Prod.mk.injEq,
        and_true] at h
      subst h
      refine ⟨s, c2, rfl, hsc, ?_, ?_, hc3, hc4⟩
      · rw [hsw, hw, ho]
        rfl
      · rw [hsr, hr, ho]
        rfl
  | some seb =>
    simp only [ho] at h
    obtain ⟨c1, hconn⟩ := Live.conn _ _ hlive ho
    obtain ⟨s, c2, hs, hsc, hsw, hsr⟩ := streamOn_sets seb c1 token interval hconn
    rw [hs] at h
    simp only [GoResult.ok_bind, GoResult.pure_eq, GoResult.ok.injEq, Prod.mk.injEq,
      and_true] at h
    subst h
    exact ⟨s, c2, rfl, hsc, hsw, hsr, rfl, rfl⟩

theorem leaveOhlc_shape (b : BreezeInstance) (h2 : SocketEventBreeze) (c2 : Conn)
    (token : String) (ho : b.SIOOhlcvStreamHandler = some h2) (hc : h2.conn = some c2) :
    ∃ b3 h3, leaveOhlc b token = .ok b3 ∧ b3.SIOOhlcvStreamHandler = some h3 ∧
      h3.watchSet = h2.watchSet.erase token ∧ h3.roomSet = h2.roomSet.erase token ∧
      b3.SIORateRefreshHandler = b.SIORateRefreshHandler ∧
      b3.SIOOrderRefreshHandler = b.SIOOrderRefreshHandler := by
  obtain ⟨s, c3, hs, -, hw, hr⟩ := Unwatch_sets h2 c2 token hc
  refine ⟨{ b with SIOOhlcvStreamHandler := some s }, s, ?_, rfl, hw, hr, rfl, rfl⟩
  simp [leaveOhlc, ho, hs]

theorem watchIds_shape (b : BreezeInstance) (r : SocketEventBreeze) (c : Conn)
    (quoteId depthId : String) (hr : b.SIORateRefreshHandler = some r) (hc : r.conn = some c) :
    ∃ b2 r2 c2, watchIds b quoteId depthId = .ok b2 ∧ b2.SIORateRefreshHandler = some r2 ∧
      r2.conn = some c2 ∧ r2.watchSet = r.watchSet ∪ idSet quoteId depthId ∧
      r2.roomSet = r.roomSet ∧
      b2.SIOOrderRefreshHandler = b.SIOOrderRefreshHandler ∧
      b2.SIOOhlcvStreamHandler = b.SIOOhlcvStreamHandler := by
  unfold watchIds
  by_cases hq : quoteId = ""
  · by_cases hd : depthId = ""
    · refine ⟨b, r, c, by simp [hq, hd], hr, hc, ?_, rfl, rfl, rfl⟩
      simp [idSet, hq, hd]
    · obtain ⟨s, c2, hs, hsc, hsw, hsr⟩ := watchOn_sets r c depthId hc
      refine ⟨{ b with SIORateRefreshHandler := some s }, s, c2, by simp [hq, hd, hr, hs], rfl,
        hsc, ?_, hsr, rfl, rfl⟩
      rw [hsw]
      ext x
      simp only [idSet, hq, Finset.mem_insert, Finset.mem_union, Finset.mem_erase,
        Finset.mem_singleton]
      constructor
      · rintro (h | h)
        · exact Or.inr ⟨by rw [h]; exact hd, Or.inr h⟩
        · exact Or.inl h
      · rintro (h | ⟨h1, h2 | h2⟩)
        · exact Or.inr h
        · exact absurd h2 h1
        · exact Or.inl h2
  · obtain ⟨s, c2, hs, hsc, hsw, hsr⟩ := watchOn_sets r c quoteId hc
    by_cases hd : depthId = ""
    · refine ⟨{ b with SIORateRefreshHandler := some s }, s, c2, by simp [hq, hd, hr, hs], rfl,
        hsc, ?_, hsr, rfl, rfl⟩
      rw [hsw]
      ext x
      simp only [idSet, hd, Finset.mem_insert, Finset.mem_union, Finset.mem_erase,
        Finset.mem_singleton]
      constructor
      · rintro (h | h)
        · exact Or.inr ⟨by rw [h]; exact hq, Or.inl h⟩
        · exact Or.inl h
      · rintro (h | ⟨h1, h2 | h2⟩)
        · exact Or.inr h
        · exact Or.inl h2
        · exact absurd h2 h1
    · obtain ⟨s2, c3, hs2, hsc2, hsw2, hsr2⟩ := watchOn_sets s c2 depthId hsc
      refine ⟨{ b with SIORateRefreshHandler := some s2 }, s2, c3,
        by simp [hq, hd, hr, hs, hs2], rfl, hsc2, ?_, hsr2.trans hsr, rfl, rfl⟩
      rw [hsw2, hsw]
      ext x
      simp only [idSet, Finset.mem_insert, Finset.mem_union, Finset.mem_erase,
        Finset.mem_singleton]
      constructor
      · rintro (h | h | h)
        · exact Or.inr ⟨by rw [h]; exact hd, Or.inr h⟩
        · exact Or.inr ⟨by rw [h]; exact hq, Or.inl h⟩
        · exact Or.inl h
      · rintro (h | ⟨-, h2 | h2⟩)
        · exact Or.inr (Or.inr h)
        · exact Or.inr (Or.inl h2)
        · exact Or.inl h2

theorem unwatchIds_shape (b : BreezeInstance) (r : SocketEventBreeze) (c : Conn)
    (quoteId depthId : String) (hr : b.SIORateRefreshHandler = some r) (hc : r.conn = some c) :
    ∃ b3 r3, unwatchIds b quoteId depthId = .ok b3 ∧ b3.SIORateRefreshHandler = some r3 ∧
      (∀ t ∈ idSet quoteId depthId, t ∉ r3.watchSet) ∧
      b3.SIOOrderRefreshHandler = b.SIOOrderRefreshHandler ∧
      b3.SIOOhlcvStreamHandler = b.SIOOhlcvStreamHandler := by
  unfold unwatchIds
  by_cases hq : quoteId = ""
  · by_cases hd : depthId = ""
    · refine ⟨b, r, by simp [hq, hd], hr, ?_, rfl, rfl⟩
      simp [idSet, hq, hd]
    · obtain ⟨s, c2, hs, hsc, hsw, hsr⟩ := Unwatch_sets r c depthId hc
      refine ⟨{ b with SIORateRefreshHandler := some s }, s,
        by simp [hq, hd, hr, hs, unwatchOn], rfl, ?_, rfl, rfl⟩
      intro t ht
      simp only [idSet, hq, Finset.mem_insert, Finset.mem_erase, Finset.mem_singleton] at ht
      rcases ht with ⟨h1, h2 | h2⟩
      · exact absurd h2 h1
      · rw [hsw, h2]
        simp
  · obtain ⟨s, c2, hs, hsc, hsw, hsr⟩ := Unwatch_sets r c quoteId hc
    by_cases hd : depthId = ""
    · refine ⟨{ b with SIORateRefreshHandler := some s }, s,
        by simp [hq, hd, hr, hs, unwatchOn], rfl, ?_, rfl, rfl⟩
      intro t ht
      simp only [idSet, hd, Finset.mem_insert, Finset.mem_erase, Finset.mem_singleton] at ht
      rcases ht with ⟨h1, h2 | h2⟩
      · rw [hsw, h2]
        simp
      · exact absurd h2 h1
    · obtain ⟨s2, c3, hs2, hsc2, hsw2, hsr2⟩ := Unwatch_sets s c2 depthId hsc
      refine ⟨{ b with SIORateRefreshHandler := some s2 }, s2,
        by simp [hq, hd, hr, hs, hs2, unwatchOn], rfl, ?_, rfl, rfl⟩
      intro t ht
      simp only [idSet, Finset.mem_insert, Finset.mem_erase, Finset.mem_singleton] at ht
      rcases ht with ⟨-, h2 | h2⟩
      · rw [hsw2, hsw, h2]
        simp
      · rw [hsw2, h2]
        simp

theorem leftOvers_eq_empty (b b2 b3 : BreezeInstance)
    (h1 : leftOver b.SIORateRefreshHandler b2.SIORateRefreshHandler b3.SIORateRefreshHandler = ∅)
    (h2 : leftOver b.SIOOrderRefreshHandler b2.SIOOrderRefreshHandler
      b3.SIOOrderRefreshHandler = ∅)
    (h3 : leftOver b.SIOOhlcvStreamHandler b2.SIOOhlcvStreamHandler
      b3.SIOOhlcvStreamHandler = ∅) : leftOvers b b2 b3 = ∅ := by
  simp [leftOvers, h1, h2, h3]

theorem leftOver_congr (before after final : Option SocketEventBreeze)
    (h : after = before) : leftOver before after final = ∅ := by
  rw [h]
  exact leftOver_same _ _

theorem unsubscribe_notification (b2 : BreezeInstance) (o : SocketEventBreeze) (c : Conn)
    (stockToken exchangeCode stockCode productType expiryDate strikePrice right code : String)
    (q d : Bool) (ho : b2.SIOOrderRefreshHandler = some o) (hc : o.conn = some c) :
    ∃ b3 reply3, unsubscribeRouted b2 stockToken exchangeCode stockCode productType expiryDate
        strikePrice right code q d true = .ok (b3, reply3) ∧ reply3.error = none ∧
      b3.SIOOrderRefreshHandler = none ∧
      b3.SIORateRefreshHandler = b2.SIORateRefreshHandler ∧
      b3.SIOOhlcvStreamHandler = b2.SIOOhlcvStreamHandler := by
  refine ⟨{ b2 with SIOOrderRefreshHandler := none, OrderConnect := 0 },
    { response := some (responseOf b2 "ORDER_REFRESH_DISCONNECTED") }, ?_, rfl, rfl, rfl, rfl⟩
  simp [unsubscribeRouted, ho, SocketEventBreeze.OnDisconnect, hc]

theorem unsubscribe_strategy (b2 : BreezeInstance) (o : SocketEventBreeze) (c : Conn)
    (stockToken exchangeCode stockCode productType expiryDate strikePrice right code : String)
    (q d : Bool) (hs : contains STRATEGY_SUBSCRIPTION stockToken = true)
    (ho : b2.SIOOrderRefreshHandler = some o) (hc : o.conn = some c) :
    ∃ b3 reply3 s3, unsubscribeRouted b2 stockToken exchangeCode stockCode productType
        expiryDate strikePrice right code q d false = .ok (b3, reply3) ∧ reply3.error = none ∧
      b3.SIOOrderRefreshHandler = some s3 ∧
      s3.watchSet = o.watchSet.erase stockToken ∧ s3.roomSet = o.roomSet.erase stockToken ∧
      b3.SIORateRefreshHandler = b2.SIORateRefreshHandler ∧
      b3.SIOOhlcvStreamHandler = b2.SIOOhlcvStreamHandler := by
  obtain ⟨s3, c3, hs3, -, hw3, hr3⟩ := Unwatch_sets o c stockToken hc
  refine ⟨{ b2 with SIOOrderRefreshHandler := some s3 },
    { response := some (responseWith b2 "STRATEGY_STREAM_UNSUBSCRIBED" stockToken) }, s3, ?_,
    rfl, rfl, hw3, hr3, rfl, rfl⟩
  simp [unsubscribeRouted, hs, ho, hs3]

theorem unsubscribe_token (b2 : BreezeInstance) (r2 : SocketEventBreeze) (c2 : Conn)
    (stockToken exchangeCode stockCode productType expiryDate strikePrice right : String)
    (q d : Bool) (hs : contains STRATEGY_SUBSCRIPTION stockToken = false)
    (ht : stockToken ≠ "")
    (hr : b2.SIORateRefreshHandler = some r2) (hc : r2.conn = some c2) :
    ∃ b3 reply3 r3, unsubscribeRouted b2 stockToken exchangeCode stockCode productType
        expiryDate strikePrice right "" q d false = .ok (b3, reply3) ∧ reply3.error = none ∧
      b3.SIORateRefreshHandler = some r3 ∧
      r3.watchSet = r2.watchSet.erase stockToken ∧ r3.roomSet = r2.roomSet.erase stockToken ∧
      b3.SIOOrderRefreshHandler = b2.SIOOrderRefreshHandler ∧
      b3.SIOOhlcvStreamHandler = b2.SIOOhlcvStreamHandler := by
  obtain ⟨s3, c3, hs3, -, hw3, hr3⟩ := Unwatch_sets r2 c2 stockToken hc
  refine ⟨{ b2 with SIORateRefreshHandler := some s3 },
    { response := some (responseWith b2 "STOCK_UNSUBSCRIBE_MESSAGE" stockToken) }, s3, ?_,
    rfl, rfl, hw3, hr3, rfl, rfl⟩
  simp [unsubscribeRouted, hs, hr, ht, unwatchOn, hs3]

theorem unsubscribe_room (b2 : BreezeInstance) (r2 h2 : SocketEventBreeze) (c2 : Conn)
    (stockToken exchangeCode stockCode productType expiryDate strikePrice right code : String)
    (q d : Bool) (hs : contains STRATEGY_SUBSCRIPTION stockToken = false)
    (ht : stockToken ≠ "") (hcode : code ≠ "")
    (hr : b2.SIORateRefreshHandler = some r2)
    (ho : b2.SIOOhlcvStreamHandler = some h2) (hc : h2.conn = some c2) :
    ∃ b3 reply3 h3, unsubscribeRouted b2 stockToken exchangeCode stockCode productType
        expiryDate strikePrice right code q d false = .ok (b3, reply3) ∧ reply3.error = none ∧
      b3.SIOOhlcvStreamHandler = some h3 ∧
      h3.watchSet = h2.watchSet.erase stockToken ∧ h3.roomSet = h2.roomSet.erase stockToken ∧
      b3.SIORateRefreshHandler = b2.SIORateRefreshHandler ∧
      b3.SIOOrderRefreshHandler = b2.SIOOrderRefreshHandler := by
  obtain ⟨b3, h3, hl, ho3, hw3, hr3, f1, f2⟩ := leaveOhlc_shape b2 h2 c2 stockToken ho hc
  refine ⟨b3, { response := some (responseWith b2 "STOCK_UNSUBSCRIBE_MESSAGE" stockToken) },
    h3, ?_, rfl, ho3, hw3, hr3, f1, f2⟩
  simp [unsubscribeRouted, hs, hr, ht, hcode, hl]

theorem unsubscribe_instrument_room (b2 : BreezeInstance) (r2 h2 : SocketEventBreeze)
    (c2 : Conn)
    (exchangeCode stockCode productType expiryDate strikePrice right code : String)
    (q d : Bool) (ids : String × String) (hcode : code ≠ "")
    (hg : getStockTokenValue b2 exchangeCode stockCode productType expiryDate strikePrice right
      q d = .ok ids)
    (hr : b2.SIORateRefreshHandler = some r2)
    (ho : b2.SIOOhlcvStreamHandler = some h2) (hc : h2.conn = some c2) :
    ∃ b3 reply3 h3, unsubscribeRouted b2 "" exchangeCode stockCode productType
        expiryDate strikePrice right code q d false = .ok (b3, reply3) ∧ reply3.error = none ∧
      b3.SIOOhlcvStreamHandler = some h3 ∧
      h3.watchSet = h2.watchSet.erase ids.1 ∧ h3.roomSet = h2.roomSet.erase ids.1 ∧
      b3.SIORateRefreshHandler = b2.SIORateRefreshHandler ∧
      b3.SIOOrderRefreshHandler = b2.SIOOrderRefreshHandler := by
  obtain ⟨b3, h3, hl, ho3, hw3, hr3, f1, f2⟩ := leaveOhlc_shape b2 h2 c2 ids.1 ho hc
  refine ⟨b3, { response := some (responseWith b2 "STOCK_UNSUBSCRIBE_MESSAGE" stockCode) },
    h3, ?_, rfl, ho3, hw3, hr3, f1, f2⟩
  have hs : contains STRATEGY_SUBSCRIPTION "" = false := by decide
  simp [unsubscribeRouted, hs, hr, hcode, hg, hl]

theorem unsubscribe_instrument (b2 : BreezeInstance) (r2 : SocketEventBreeze) (c2 : Conn)
    (exchangeCode stockCode productType expiryDate strikePrice right : String)
    (q d : Bool) (ids : String × String)
    (hg : getStockTokenValue b2 exchangeCode stockCode productType expiryDate strikePrice right
      q d = .ok ids)
    (hr : b2.SIORateRefreshHandler = some r2) (hc : r2.conn = some c2) :
    ∃ b3 reply3 r3, unsubscribeRouted b2 "" exchangeCode stockCode productType
        expiryDate strikePrice right "" q d false = .ok (b3, reply3) ∧ reply3.error = none ∧
      b3.SIORateRefreshHandler = some r3 ∧
      (∀ t ∈ idSet ids.1 ids.2, t ∉ r3.watchSet) ∧
      b3.SIOOrderRefreshHandler = b2.SIOOrderRefreshHandler ∧
      b3.SIOOhlcvStreamHandler = b2.SIOOhlcvStreamHandler := by
  obtain ⟨b3, r3, hu, hr3, hd, f1, f2⟩ := unwatchIds_shape b2 r2 c2 ids.1 ids.2 hr hc
  refine ⟨b3, { response := some (responseWith b2 "STOCK_UNSUBSCRIBE_MESSAGE" stockCode) },
    r3, ?_, rfl, hr3, hd, f1, f2⟩
  have hs : contains STRATEGY_SUBSCRIPTION "" = false := by decide
  simp [unsubscribeRouted, hs, hr, hg, hu]

theorem subset_union_insert (A : Finset String) (t : String) : insert t A ⊆ A ∪ {t} := by
  intro x hx
  rcases Finset.mem_insert.1 hx with h | h
  · exact Finset.mem_union_right _ (Finset.mem_singleton.2 h)
  · exact Finset.mem_union_left _ h

theorem roundTrip_routed (b b2 : BreezeInstance) (r : SocketEventBreeze) (c : Conn)
    (stockToken exchangeCode stockCode productType expiryDate strikePrice right code : String)
    (q d n : Bool) (net : Dial) (reply : Reply)
    (hr : b.SIORateRefreshHandler = some r) (hc : r.conn = some c)
    (horder : Live b.SIOOrderRefreshHandler) (hohlc : Live b.SIOOhlcvStreamHandler)
    (hstrat : contains STRATEGY_SUBSCRIPTION stockToken = true →
      b.SIOOrderRefreshHandler.isSome = true)
    (hsub : subscribeRouted b stockToken exchangeCode stockCode productType expiryDate
      strikePrice right code q d n net = .ok (b2, reply))
    (hok : reply.error = none) :
    ∃ b3 reply3, unsubscribeRouted b2 stockToken exchangeCode stockCode productType expiryDate
        strikePrice right code q d n = .ok (b3, reply3) ∧ reply3.error = none ∧
      leftOvers b b2 b3 = ∅ := by
  have hset := subscribeRouted_settings _ _ _ _ _ _ _ _ _ _ _ _ _ _ _ hsub
  unfold subscribeRouted at hsub
  simp only [hr] at hsub
  by_cases c1 : b.SIOOrderRefreshHandler.isSome = true ∧
      contains STRATEGY_SUBSCRIPTION stockToken = true
  · -- the strategy route
    rw [if_pos c1] at hsub
    obtain ⟨o, ho⟩ := Option.isSome_iff_exists.1 c1.1
    have hshape := wsConnect_order_shape b false true net rfl
    generalize _wsConnect b false false true net = cc at hsub hshape
    obtain ⟨cb, ce⟩ := cc
    cases ce with
    | some e =>
      simp only [GoResult.ok.injEq, Prod.mk.injEq] at hsub
      rw [← hsub.2] at hok
      cases hok
    | none =>
      obtain ⟨o1, ho1, hw1, hr1, h0, hn0, hrate, hohlcF⟩ := hshape rfl
      simp only at ho1 hrate hohlcF hsub
      have hconn : ∃ c1, o1.conn = some c1 := by
        by_cases hz : b.OrderConnect = 0
        · exact h0 hz
        · rw [hn0 hz, ho]
          exact Live.conn _ _ horder ho
      obtain ⟨k1, hk1⟩ := hconn
      obtain ⟨s, c2, hso, hsc, hsw, hsr⟩ := watchOn_sets o1 k1 stockToken hk1
      rw [ho1, hso] at hsub
      simp only [GoResult.ok_bind, GoResult.pure_eq, GoResult.ok.injEq, Prod.mk.injEq] at hsub
      obtain ⟨hb2, -⟩ := hsub
      subst hb2
      cases n with
      | true =>
        obtain ⟨b3, reply3, hu, he, f1, f2, f3⟩ := unsubscribe_notification
          { cb with SIOOrderRefreshHandler := some s } s c2 stockToken exchangeCode stockCode
          productType expiryDate strikePrice right code q d rfl hsc
        refine ⟨b3, reply3, hu, he, leftOvers_eq_empty _ _ _ (leftOver_congr _ _ _ hrate) ?_
          (leftOver_congr _ _ _ hohlcF)⟩
        rw [f1]
        exact leftOver_none _ _
      | false =>
        obtain ⟨b3, reply3, s3, hu, he, f1, hw3, hr3, f2, f3⟩ := unsubscribe_strategy
          { cb with SIOOrderRefreshHandler := some s } s c2 stockToken exchangeCode stockCode
          productType expiryDate strikePrice right code q d c1.2 rfl hsc
        refine ⟨b3, reply3, hu, he, leftOvers_eq_empty _ _ _ (leftOver_congr _ _ _ hrate) ?_
          (leftOver_congr _ _ _ hohlcF)⟩
        rw [f1]
        refine leftOver_eq_empty _ _ _ {stockToken} ∅ ?_ ?_ ?_ (by simp)
        · show s.watchSet ⊆ _
          rw [hsw, hw1]
          exact subset_union_insert _ _
        · show s.roomSet ⊆ _
          rw [hsr, hr1]
          exact Finset.subset_union_left
        · intro t ht
          rw [Finset.mem_singleton.1 ht]
          show stockToken ∉ s3.watchSet
          rw [hw3]
          simp
  · have hsf : contains STRATEGY_SUBSCRIPTION stockToken = false := by
      cases hcs : contains STRATEGY_SUBSCRIPTION stockToken with
      | false => rfl
      | true => exact absurd ⟨hstrat hcs, hcs⟩ c1
    rw [if_neg c1] at hsub
    cases n with
    | true =>
      -- the order-notification route
      simp only [if_true] at hsub
      have hshape := wsConnect_order_shape b true false net rfl
      generalize _wsConnect b true false false net = cc at hsub hshape
      obtain ⟨cb, ce⟩ := cc
      cases ce with
      | some e =>
        simp only [GoResult.ok.injEq, Prod.mk.injEq] at hsub
        rw [← hsub.2] at hok
        cases hok
      | none =>
        obtain ⟨o1, ho1, hw1, hr1, h0, hn0, hrate, hohlcF⟩ := hshape rfl
        simp only at ho1 hrate hohlcF hsub
        rw [ho1] at hsub
        simp only at hsub
        cases hk : o1.conn with
        | none => simp [SocketEventBreeze.Notify, hk] at hsub
        | some k1 =>
          simp only [SocketEventBreeze.Notify, hk, GoResult.ok_bind, GoResult.pure_eq,
            GoResult.ok.injEq, Prod.mk.injEq] at hsub
          obtain ⟨hb2, -⟩ := hsub
          obtain ⟨b3, reply3, hu, he, f1, f2, f3⟩ := unsubscribe_notification b2
            { o1 with conn := some (k1.write notifyFrame) } (k1.write notifyFrame) stockToken
            exchangeCode stockCode productType expiryDate strikePrice right code q d
            (by rw [← hb2]) rfl
          refine ⟨b3, reply3, hu, he, leftOvers_eq_empty _ _ _
            (leftOver_congr _ _ _ (by rw [← hb2]; exact hrate)) ?_
            (leftOver_congr _ _ _ (by rw [← hb2]; exact hohlcF))⟩
          rw [f1]
          exact leftOver_none _ _
    | false =>
      simp only [Bool.false_eq_true, if_false, false_and] at hsub
      by_cases ht : stockToken = ""
      · -- an instrument given by its codes
        subst ht
        simp only [ne_eq, not_true_eq_false, if_false] at hsub
        cases hg : getStockTokenValue b exchangeCode stockCode productType expiryDate
            strikePrice right q d with
        | panic => simp [hg] at hsub
        | err e =>
          simp only [hg, GoResult.ok.injEq, Prod.mk.injEq] at hsub
          rw [← hsub.2] at hok
          cases hok
        | ok ids =>
          simp only [hg] at hsub
          have hg2 : getStockTokenValue b2 exchangeCode stockCode productType expiryDate
              strikePrice right q d = .ok ids := by
            rw [← getStockTokenValue_settings b2, hset, getStockTokenValue_settings b, hg]
          by_cases hcode : code = ""
          · subst hcode
            simp only [ne_eq, not_true_eq_false, if_false] at hsub
            obtain ⟨bw, r2, k2, hwi, hr2, hk2, hw2, hrm2, f1, f2⟩ :=
              watchIds_shape b r c ids.1 ids.2 hr hc
            rw [hwi] at hsub
            simp only [GoResult.ok_bind, GoResult.pure_eq, GoResult.ok.injEq,
              Prod.mk.injEq] at hsub
            obtain ⟨hb2, -⟩ := hsub
            subst hb2
            obtain ⟨b3, reply3, r3, hu, he, hr3, hdrop, g1, g2⟩ := unsubscribe_instrument bw r2
              k2 exchangeCode stockCode productType expiryDate strikePrice right q d ids hg2
              hr2 hk2
            refine ⟨b3, reply3, hu, he, leftOvers_eq_empty _ _ _ ?_
              (leftOver_congr _ _ _ f1) (leftOver_congr _ _ _ f2)⟩
            rw [hr, hr2, hr3]
            refine leftOver_eq_empty _ _ _ (idSet ids.1 ids.2) ∅ ?_ ?_ hdrop (by simp)
            · show r2.watchSet ⊆ _
              rw [hw2]
              exact subset_rfl
            · show r2.roomSet ⊆ _
              rw [hrm2]
              exact Finset.subset_union_left
          · simp only [ne_eq, hcode, not_false_eq_true, if_true] at hsub
            obtain ⟨r2, hj, h2⟩ := GoResult.bind_eq_ok _ _ _ hsub
            obtain ⟨rb, re⟩ := r2
            cases re with
            | some e =>
              simp only [GoResult.pure_eq, GoResult.ok.injEq, Prod.mk.injEq] at h2
              rw [← h2.2] at hok
              cases hok
            | none =>
              simp only [GoResult.pure_eq, GoResult.ok.injEq, Prod.mk.injEq] at h2
              obtain ⟨hb2, -⟩ := h2
              subst hb2
              obtain ⟨h2, k2, ho2, hk2, hw2, hrm2, f1, f2⟩ :=
                joinOhlc_shape b rb ids.1 code net hohlc hj
              obtain ⟨b3, reply3, h3, hu, he, ho3, hw3, hr3, g1, g2⟩ :=
                unsubscribe_instrument_room rb r h2 k2 exchangeCode stockCode productType
                  expiryDate strikePrice right code q d ids hcode hg2 (f1.trans hr) ho2 hk2
              refine ⟨b3, reply3, hu, he, leftOvers_eq_empty _ _ _
                (leftOver_congr _ _ _ f1) (leftOver_congr _ _ _ f2) ?_⟩
              rw [ho2, ho3]
              refine leftOver_eq_empty _ _ _ ∅ {ids.1} ?_ ?_ (by simp) ?_
              · show h2.watchSet ⊆ _
                rw [hw2]
                exact Finset.subset_union_left
              · show h2.roomSet ⊆ _
                rw [hrm2]
                exact subset_union_insert _ _
              · intro t ht
                rw [Finset.mem_singleton.1 ht]
                show ids.1 ∉ h3.roomSet
                rw [hr3]
                simp
      · simp only [ne_eq, ht, not_false_eq_true, if_true] at hsub
        by_cases hcode : code = ""
        · -- a stock token on the rate-refresh channel
          subst hcode
          simp only [ne_eq, not_true_eq_false, if_false] at hsub
          obtain ⟨s, k2, hso, hk2, hw2, hrm2⟩ := watchOn_sets r c stockToken hc
          rw [hso] at hsub
          simp only [GoResult.ok_bind, GoResult.pure_eq, GoResult.ok.injEq,
            Prod.mk.injEq] at hsub
          obtain ⟨hb2, -⟩ := hsub
          subst hb2
          obtain ⟨b3, reply3, r3, hu, he, hr3, hw3, hrm3, g1, g2⟩ := unsubscribe_token
            { b with SIORateRefreshHandler := some s } s k2 stockToken exchangeCode stockCode
            productType expiryDate strikePrice right q d hsf ht rfl hk2
          refine ⟨b3, reply3, hu, he, leftOvers_eq_empty _ _ _ ?_
            (leftOver_congr _ _ _ rfl) (leftOver_congr _ _ _ rfl)⟩
          rw [hr, hr3]
          refine leftOver_eq_empty _ _ _ {stockToken} ∅ ?_ ?_ ?_ (by simp)
          · show s.watchSet ⊆ _
            rw [hw2]
            exact subset_union_insert _ _
          · show s.roomSet ⊆ _
            rw [hrm2]
            exact Finset.subset_union_left
          · intro t htm
            rw [Finset.mem_singleton.1 htm]
            show stockToken ∉ r3.watchSet
            rw [hw3]
            simp
        · -- a stock token on the OHLC channel
          simp only [ne_eq, hcode, not_false_eq_true, if_true] at hsub
          obtain ⟨r2, hj, h2⟩ := GoResult.bind_eq_ok _ _ _ hsub
          obtain ⟨rb, re⟩ := r2
          cases re with
          | some e =>
            simp only [GoResult.pure_eq, GoResult.ok.injEq, Prod.mk.injEq] at h2
            rw [← h2.2] at hok
            cases hok
          | none =>
            simp only [GoResult.pure_eq, GoResult.ok.injEq, Prod.mk.injEq] at h2
            obtain ⟨hb2, -⟩ := h2
            subst hb2
            obtain ⟨h2, k2, ho2, hk2, hw2, hrm2, f1, f2⟩ :=
              joinOhlc_shape b rb stockToken code net hohlc hj
            obtain ⟨b3, reply3, h3, hu, he, ho3, hw3, hr3, g1, g2⟩ :=
              unsubscribe_room rb r h2 k2 stockToken exchangeCode stockCode productType
                expiryDate strikePrice right code q d hsf ht hcode (f1.trans hr) ho2 hk2
            refine ⟨b3, reply3, hu, he, leftOvers_eq_empty _ _ _
              (leftOver_congr _ _ _ f1) (leftOver_congr _ _ _ f2) ?_⟩
            rw [ho2, ho3]
            refine leftOver_eq_empty _ _ _ ∅ {stockToken} ?_ ?_ (by simp) ?_
            · show h2.watchSet ⊆ _
              rw [hw2]
              exact Finset.subset_union_left
            · show h2.roomSet ⊆ _
              rw [hrm2]
              exact subset_union_insert _ _
            · intro t htm
              rw [Finset.mem_singleton.1 htm]
              show stockToken ∉ h3.roomSet
              rw [hr3]
              simp

/-- Claim C33 fails for a strategy token while no order-refresh handler exists:
on the instance whose rate-refresh channel is connected and which has no other
handler, `SubscribeFeeds` for the stock token `one_click_fno` succeeds and adds
the token to the watch set of the rate-refresh channel; `UnsubscribeFeeds` with
the same arguments returns the response that the strategy stream is not
connected, changes nothing, and the token is still watched. -/
theorem C33_strategy_token_stays_watched :
    ∃ b2 reply b3 reply3 r3,
      SubscribeFeeds connectedInstance "one_click_fno" "" "" "" "" "" "" "" false false false
        .accepted = .ok (b2, reply) ∧
      reply.error = none ∧
      reply.response =
        some (responseWith connectedInstance "STOCK_SUBSCRIBE_MESSAGE" "one_click_fno") ∧
      UnsubscribeFeeds b2 "one_click_fno" "" "" "" "" "" "" "" false false false =
        .ok (b3, reply3) ∧
      reply3.error = none ∧
      reply3.response = some (responseOf b2 "STRATEGY_STREAM_NOT_CONNECTED") ∧
      b3 = b2 ∧
      watchSetOf connectedInstance.SIORateRefreshHandler = ∅ ∧
      b3.SIORateRefreshHandler = some r3 ∧ r3.tokenlist = [("one_click_fno", true)] ∧
      "one_click_fno" ∈ leftOvers connectedInstance b2 b3 :=
  ⟨_, _, _, _, _, rfl, rfl, rfl, rfl, rfl, rfl, rfl, rfl, rfl, rfl, by decide⟩

/-- Claim C33, amended: on an instance whose rate-refresh channel is connected and
whose other handlers, where they exist, have a transport, for every argument
tuple for which `SubscribeFeeds` succeeds, except a stock token of the strategy
list while no order-refresh handler exists, `UnsubscribeFeeds` with the same
arguments immediately afterwards returns a response without error, and none of
the tokens or rooms that the subscribe added to the watch set or room set of a
channel is left in that set. -/
theorem C33_subscribe_then_unsubscribe (b b2 : BreezeInstance) (r : SocketEventBreeze)
    (c : Conn)
    (stockToken exchangeCode stockCode productType expiryDate strikePrice right interval : String)
    (q d n : Bool) (net : Dial) (reply : Reply)
    (hr : b.SIORateRefreshHandler = some r) (hc : r.conn = some c)
    (horder : Live b.SIOOrderRefreshHandler) (hohlc : Live b.SIOOhlcvStreamHandler)
    (hstrat : contains STRATEGY_SUBSCRIPTION stockToken = true →
      b.SIOOrderRefreshHandler.isSome = true)
    (hsub : SubscribeFeeds b stockToken exchangeCode stockCode productType expiryDate
      strikePrice right interval q d n net = .ok (b2, reply))
    (hok : reply.error = none) :
    ∃ b3 reply3, UnsubscribeFeeds b2 stockToken exchangeCode stockCode productType expiryDate
        strikePrice right interval q d n = .ok (b3, reply3) ∧ reply3.error = none ∧
      leftOvers b b2 b3 = ∅ := by
  have hs := SubscribeFeeds_settings _ _ _ _ _ _ _ _ _ _ _ _ _ _ _ hsub
  have h1 : (settings b2).ConfigIntervalTypesStream =
      (settings { b with Interval := interval }).ConfigIntervalTypesStream :=
    congrArg BreezeInstance.ConfigIntervalTypesStream hs
  have h2 : (settings b2).ConfigChannelIntervalMap =
      (settings { b with Interval := interval }).ConfigChannelIntervalMap :=
    congrArg BreezeInstance.ConfigChannelIntervalMap hs
  have h1b : b2.ConfigIntervalTypesStream = b.ConfigIntervalTypesStream := h1
  have h2b : b2.ConfigChannelIntervalMap = b.ConfigChannelIntervalMap := h2
  unfold SubscribeFeeds at hsub
  simp only at hsub
  unfold UnsubscribeFeeds
  rw [h1b, h2b]
  split_ifs at hsub with c1 c2 c3
  · simp only [GoResult.ok.injEq, Prod.mk.injEq] at hsub
    rw [← hsub.2] at hok
    cases hok
  · simp only [GoResult.ok.injEq, Prod.mk.injEq] at hsub
    rw [← hsub.2] at hok
    cases hok
  · rw [if_neg c2, if_pos c3]
    obtain ⟨b3, reply3, hu, he, hl⟩ := roundTrip_routed { b with Interval := interval } b2 r c
      _ _ _ _ _ _ _ _ _ _ _ _ _ hr hc horder hohlc hstrat hsub hok
    exact ⟨b3, reply3, hu, he, hl⟩
  · rw [if_neg c2, if_neg c3]
    obtain ⟨b3, reply3, hu, he, hl⟩ := roundTrip_routed { b with Interval := interval } b2 r c
      _ _ _ _ _ _ _ _ _ _ _ _ _ hr hc horder hohlc hstrat hsub hok
    exact ⟨b3, reply3, hu, he, hl⟩

/-- Witness of `C33_subscribe_then_unsubscribe`: the stock token `4.1!2885` on the
connected instance. -/
theorem C33_subscribe_then_unsubscribe_witness :
    ∃ b2 reply, SubscribeFeeds connectedInstance "4.1!2885" "" "" "" "" "" "" "" false false
        false .accepted = .ok (b2, reply) ∧ reply.error = none ∧
      b2.SIORateRefreshHandler.map SocketEventBreeze.tokenlist = some [("4.1!2885", true)] ∧
      ∃ b3 reply3, UnsubscribeFeeds b2 "4.1!2885" "" "" "" "" "" "" "" false false false =
          .ok (b3, reply3) ∧ reply3.error = none ∧ leftOvers connectedInstance b2 b3 = ∅ :=
  ⟨_, _, rfl, rfl, rfl,
    C33_subscribe_then_unsubscribe connectedInstance _ _ _ "4.1!2885" "" "" "" "" "" "" ""
      false false false .accepted _ rfl rfl (show Live none from fun _ h => by cases h)
      (show Live none from fun _ h => by cases h) (by decide) rfl rfl⟩

/-! ## Commodity frames and depth rows on the code -/

theorem asFloat_panic (v : GoVal) (h : ∀ x, v ≠ .num x) : asFloat v = .panic := by
  cases v with
  | num x => exact absurd rfl (h x)
  | _ => rfl

theorem commodityDict_panics (data : List GoVal) (v : GoVal) (h7 : data.get? 7 = some v)
    (hv : ∀ x, v ≠ .num x) : commodityDict data = .panic := by
  rcases data with _ | ⟨d0, _ | ⟨d1, _ | ⟨d2, _ | ⟨d3, _ | ⟨d4, _ | ⟨d5, _ | ⟨d6, _ |
    ⟨d7, tail⟩⟩⟩⟩⟩⟩⟩⟩ <;> try (simp at h7; done)
  simp only [List.get?_cons_succ, List.get?_cons_zero, Option.some.injEq] at h7
  subst h7
  simp [commodityDict, assign, idx, unixTime, asFloat_panic d7 hv]

theorem commodity_frame_panics (b : BreezeInstance) (data : List GoVal) (dataType : String)
    (v : GoVal) (hkind : frameKind data = some ("6", dataType))
    (h7 : data.get? 7 = some v) (hv : ∀ x, v ≠ .num x) : parseData b data = .panic := by
  obtain ⟨s, rest, more, rfl, hsplit, hflat⟩ := frameKind_some data "6" dataType hkind
  rw [parseData_tick b _ rest (Or.inl hflat)]
  have hc := commodityDict_panics _ v h7 hv
  simp only [parseTick, idx, List.get?_cons_zero, GoResult.ok_bind, asString, hsplit,
    List.get?_cons_succ, if_true, hc, GoResult.panic_bind]
  rfl

theorem depthRow_short (exchange : String) (i : Nat) (lis : List String)
    (h : lis.length < (depthColumns exchange).length) : depthRow exchange i lis = .panic := by
  unfold depthColumns at h
  by_cases h1 : exchange = "1"
  · have hlen : lis.length < 4 := by simpa [h1] using h
    rcases lis with _ | ⟨a0, _ | ⟨a1, _ | ⟨a2, _ | ⟨a3, tail⟩⟩⟩⟩ <;>
      first
        | (exfalso; simp only [List.length_cons, List.length_nil] at hlen; omega)
        | simp [depthRow, h1, assign, idx]
  · by_cases h8 : exchange = "8"
    · have hlen : lis.length < 6 := by simpa [h8] using h
      rcases lis with _ | ⟨a0, _ | ⟨a1, _ | ⟨a2, _ | ⟨a3, _ | ⟨a4, _ | ⟨a5, tail⟩⟩⟩⟩⟩⟩ <;>
        first
          | (exfalso; simp only [List.length_cons, List.length_nil] at hlen; omega)
          | simp [depthRow, h8, assign, idx]
    · have hlen : lis.length < 8 := by simpa [h1, h8] using h
      rcases lis with _ | ⟨a0, _ | ⟨a1, _ | ⟨a2, _ | ⟨a3, _ | ⟨a4, _ | ⟨a5, _ | ⟨a6, _ |
        ⟨a7, tail⟩⟩⟩⟩⟩⟩⟩⟩ <;>
        first
          | (exfalso; simp only [List.length_cons, List.length_nil] at hlen; omega)
          | simp [depthRow, h1, h8, assign, idx]

theorem parseMarketDepthFrom_short (exchange : String) (rows : List (List String)) (i : Nat)
    (h : ∃ lis ∈ rows, lis.length < (depthColumns exchange).length) :
    parseMarketDepthFrom exchange i rows = .panic := by
  induction rows generalizing i with
  | nil =>
    obtain ⟨lis, hl, -⟩ := h
    cases hl
  | cons lis rest ih =>
    by_cases hs : lis.length < (depthColumns exchange).length
    · simp [parseMarketDepthFrom, depthRow_short exchange i lis hs]
    · have hrest : ∃ l ∈ rest, l.length < (depthColumns exchange).length := by
        obtain ⟨l, hl, hlt⟩ := h
        rcases List.mem_cons.1 hl with e | e
        · exact absurd (e ▸ hlt) hs
        · exact ⟨l, e, hlt⟩
      simp [parseMarketDepthFrom, depthRow_eq exchange i lis (by omega), ih (i + 1) hrest]

/-- Claim C25, evaluated on the code: on every frame that meets the conditions of
the claim (first element with the exchange id 6, length n at least 22, each of
the n-22 trailing elements an array of at least 8 entries) `parseData` returns
the record of the claim when element 7 is a number: the header fields from the
elements 0..21 with `ltt` the calendar time of element 7, the eight fields
suffixed `-j` of each trailing element at position 22+j, and `exchange`, the
text `Commodity`, exactly 23 + 8(n-22) fields in all. When element 7 is anything
but a number, the unchecked assertion `data[7].(float64)` panics and no record
is returned. -/
theorem C25_commodity_frame_by_time_element (b : BreezeInstance) (data : List GoVal)
    (dataType : String)
    (hkind : frameKind data = some ("6", dataType))
    (hlen : 22 ≤ data.length)
    (hrows : ∀ j, 22 + j < data.length →
      ∃ row, data.get? (22 + j) = some (.arr row) ∧ 8 ≤ row.length) :
    (∀ x, data.get? 7 = some (.num x) →
      ∃ r, parseData b data = .ok (some r) ∧
        carries r data commodityHeaderFields ∧
        Assoc.get? r "ltt" = some (.time (int64OfFloat x)) ∧
        (∀ j row, 22 + j < data.length → data.get? (22 + j) = some (.arr row) →
          ∀ p ∈ depthBlockFields,
            ∃ v, row.get? p.2 = some v ∧ Assoc.get? r (numbered p.1 j) = some v) ∧
        Assoc.get? r "exchange" = some (.str "Commodity") ∧
        r.length = 23 + 8 * (data.length - 22) ∧ (Assoc.keys r).Nodup) ∧
    ((∀ x, data.get? 7 ≠ some (.num x)) → parseData b data = .panic) := by
  refine ⟨fun x htime => commodityFrame_record b data dataType x hkind hlen htime hrows,
    fun hno => ?_⟩
  have h7 : data.get? 7 = some (data.get ⟨7, by omega⟩) := List.get?_eq_get (by omega)
  refine commodity_frame_panics b data dataType _ hkind h7 (fun x hx => hno x ?_)
  rw [h7, hx]

/-- Witness of `C25_commodity_frame_by_time_element`: a frame with two depth rows
and a numeric element 7, whose record has 39 fields, and a 22-element frame
whose element 7 is a text, on which `parseData` panics. -/
theorem C25_commodity_frame_by_time_element_witness :
    (∃ r, parseData {} commodityDepthFrame = .ok (some r) ∧
      Assoc.get? r "ltt" = some (.time (int64OfFloat 1699999999)) ∧
      Assoc.get? r "exchange" = some (.str "Commodity") ∧
      r.length = 23 + 8 * (commodityDepthFrame.length - 22)) ∧
    commodityTextTimeFrame.length = 22 ∧
    frameKind commodityTextTimeFrame = some ("6", "1") ∧
    commodityTextTimeFrame.get? 7 = some (.str "09:15:00") ∧
    parseData {} commodityTextTimeFrame = .panic :=
  ⟨(let ⟨r, h1, _, h3, _, h5, h6, _⟩ :=
      (C25_commodity_frame_by_time_element {} commodityDepthFrame "1" (by decide) (by decide)
        (fun j hj => by
          have h2 : j = 0 ∨ j = 1 := by
            simp only [commodityDepthFrame, List.length_cons, List.length_nil] at hj
            omega
          rcases h2 with rfl | rfl
          · exact ⟨_, rfl, by decide⟩
          · exact ⟨_, rfl, by decide⟩)).1 1699999999 rfl
    ⟨r, h1, h3, h5, h6⟩),
   rfl, by decide, rfl,
   (C25_commodity_frame_by_time_element {} commodityTextTimeFrame "1" (by decide) (by decide)
      (fun j hj => by
        simp only [commodityTextTimeFrame, List.length_cons, List.length_nil] at hj
        omega)).2 (fun x hx => by cases hx)⟩

/-- Claim C26, evaluated on the code: when every row has at least the columns of
the layout of the exchange id (4 for the id 1, 6 for 8, 8 for any other),
`parseMarketDepth` returns exactly one record per row, in input order, the
record of the row at position i, counted from 1, having 4, 6 or 8 fields as the
claim lists them, every name suffixed with i and every field the string of its
column. When some row is shorter than the layout, the unchecked index `lis[k]`
panics and nothing is returned. -/
theorem C26_market_depth_by_row_length (data : List (List String)) (exchange : String) :
    ((∀ lis ∈ data, (depthColumns exchange).length ≤ lis.length) →
      ∃ depth, parseMarketDepth data exchange = .ok depth ∧ depth.length = data.length ∧
        ∀ i lis, data.get? i = some lis →
          ∃ dict, depth.get? i = some dict ∧
            Assoc.keys dict = (depthColumns exchange).map (fun name => numbered name (i + 1)) ∧
            (Assoc.keys dict).Nodup ∧
            (∀ k name, (depthColumns exchange).get? k = some name →
              ∃ cell, lis.get? k = some cell ∧
                Assoc.get? dict (numbered name (i + 1)) = some (.str cell)) ∧
            (exchange = "1" → dict.length = 4 ∧ depthColumns exchange =
              ["BestBuyRate", "BestBuyQty", "BestSellRate", "BestSellQty"]) ∧
            (exchange = "8" → dict.length = 6 ∧ depthColumns exchange =
              ["BestBuyRate", "BestBuyQty", "BuyNoOfOrders", "BestSellRate", "BestSellQty",
               "SellNoOfOrders"]) ∧
            (exchange ≠ "1" → exchange ≠ "8" → dict.length = 8 ∧ depthColumns exchange =
              ["BestBuyRate", "BestBuyQty", "BuyNoOfOrders", "BuyFlag", "BestSellRate",
               "BestSellQty", "SellNoOfOrders", "SellFlag"])) ∧
    ((∃ lis ∈ data, lis.length < (depthColumns exchange).length) →
      parseMarketDepth data exchange = .panic) :=
  ⟨marketDepth_records data exchange, parseMarketDepthFrom_short exchange data 0⟩

/-- Witness of `C26_market_depth_by_row_length`: two rows of six columns for the
exchange id 8, which give two records, and one row of three columns for the
exchange id 1, on which `parseMarketDepth` panics. -/
theorem C26_market_depth_by_row_length_witness :
    (∃ depth, parseMarketDepth bfoDepthRows "8" = .ok depth ∧
      depth.length = bfoDepthRows.length) ∧
    parseMarketDepth shortDepthRows "1" = .panic :=
  ⟨(let ⟨depth, h1, h2, _⟩ :=
      (C26_market_depth_by_row_length bfoDepthRows "8").1 (by decide)
    ⟨depth, h1, h2⟩),
   (C26_market_depth_by_row_length shortDepthRows "1").2 ⟨_, List.mem_singleton.2 rfl,
     by decide⟩⟩

/-! ## The target channel of a subscribe -/

theorem watchOn_open (seb : SocketEventBreeze) (c : Conn) (t : String)
    (h : seb.conn = some c) :
    ∃ s, watchOn (some seb) (.one t) = .ok s ∧ s.conn = some (c.write (joinFrame (.one t))) ∧
      s.watchSet = insert t seb.watchSet ∧ s.roomSet = seb.roomSet := by
  refine ⟨{ seb with tokenlist := watched seb.tokenlist (.one t),
                     conn := some (c.write (joinFrame (.one t))) }, ?_, rfl, ?_, rfl⟩
  · rw [watchOn, Watch_open seb c _ h]
  · simp only [SocketEventBreeze.watchSet, watched]
    exact Assoc.keys_set _ _ _

theorem watchedOn_of_watchOn (seb s : SocketEventBreeze) (c : Conn) (t : String)
    (hc : s.conn = some (c.write (joinFrame (.one t)))) (hw : s.watchSet = insert t seb.watchSet) :
    watchedOn (some s) t := by
  refine ⟨s, rfl, ?_, ?_⟩
  · rw [hw]
    exact Finset.mem_insert_self _ _
  · simp [SocketEventBreeze.frames, hc, Conn.write]

theorem frames_mono_write (s : SocketEventBreeze) (c : Conn) (frame f : String)
    (hc : s.conn = some (c.write frame)) (hf : f ∈ c.written) : f ∈ s.frames := by
  simp [SocketEventBreeze.frames, hc, Conn.write, hf]

theorem wsConnect_accepted (b : BreezeInstance) (orderFlag ohlcvFlag strategyFlag : Bool) :
    (_wsConnect b orderFlag ohlcvFlag strategyFlag .accepted).2 = none := by
  unfold _wsConnect
  split_ifs <;> rfl

theorem routed_strategy (b : BreezeInstance) (r o : SocketEventBreeze)
    (stockToken exchangeCode stockCode productType expiryDate strikePrice right code : String)
    (q d n : Bool) (net : Dial)
    (hr : b.SIORateRefreshHandler = some r)
    (ho : b.SIOOrderRefreshHandler = some o) (horder : Live b.SIOOrderRefreshHandler)
    (hs : contains STRATEGY_SUBSCRIPTION stockToken = true) :
    ∃ b2 reply, subscribeRouted b stockToken exchangeCode stockCode productType expiryDate
        strikePrice right code q d n net = .ok (b2, reply) ∧
      (net = .accepted → reply.error = none) ∧
      (reply.error = none → watchedOn b2.SIOOrderRefreshHandler stockToken) ∧
      b2.SIORateRefreshHandler = b.SIORateRefreshHandler ∧
      b2.SIOOhlcvStreamHandler = b.SIOOhlcvStreamHandler := by
  have hfr := wsConnect_order_frame b false true net rfl
  have hsh := wsConnect_order_shape b false true net rfl
  have hacc : net = .accepted → (_wsConnect b false false true net).2 = none := by
    intro hn
    rw [hn]
    exact wsConnect_accepted _ _ _ _
  unfold subscribeRouted
  simp only [hr]
  rw [if_pos ⟨by rw [ho]; rfl, hs⟩]
  generalize _wsConnect b false false true net = cc at hfr hsh hacc
  obtain ⟨cb, ce⟩ := cc
  obtain ⟨o0, -, hrate, hohlc⟩ := hfr
  simp only at hrate hohlc
  cases ce with
  | some e =>
    exact ⟨cb, { error := some e }, rfl, fun hn => (by cases hacc hn), fun h => (by cases h),
      hrate.trans hr, hohlc⟩
  | none =>
    obtain ⟨o1, ho1, hw1, hr1, h0, hn0, -, -⟩ := hsh rfl
    simp only at ho1
    have hconn : ∃ c1, o1.conn = some c1 := by
      by_cases hz : b.OrderConnect = 0
      · exact h0 hz
      · rw [hn0 hz, ho]
        exact Live.conn _ _ horder ho
    obtain ⟨c1, hc1⟩ := hconn
    obtain ⟨s, hso, hsc, hsw, -⟩ := watchOn_open o1 c1 stockToken hc1
    refine ⟨{ cb with SIOOrderRefreshHandler := some s },
      { response := some (responseWith b "STRATEGY_STREAM_SUBSCRIBED" stockToken) }, ?_,
      fun _ => rfl, fun _ => watchedOn_of_watchOn o1 s c1 stockToken hsc hsw, hrate.trans hr, hohlc⟩
    simp only [ho1, hso, GoResult.ok_bind, GoResult.pure_eq]

theorem routed_notify (b : BreezeInstance) (r : SocketEventBreeze)
    (stockToken exchangeCode stockCode productType expiryDate strikePrice right code : String)
    (q d : Bool) (net : Dial)
    (hr : b.SIORateRefreshHandler = some r) (horder : Live b.SIOOrderRefreshHandler)
    (hcount : b.OrderConnect = 0 ∨ b.SIOOrderRefreshHandler.isSome = true)
    (hns : b.SIOOrderRefreshHandler = none ∨ contains STRATEGY_SUBSCRIPTION stockToken = false) :
    ∃ b2 reply, subscribeRouted b stockToken exchangeCode stockCode productType expiryDate
        strikePrice right code q d true net = .ok (b2, reply) ∧
      (net = .accepted → reply.error = none) ∧
      (reply.error = none → notifiedOn b2.SIOOrderRefreshHandler ∧
        watchSetOf b2.SIOOrderRefreshHandler = watchSetOf b.SIOOrderRefreshHandler ∧
        roomSetOf b2.SIOOrderRefreshHandler = roomSetOf b.SIOOrderRefreshHandler) ∧
      b2.SIORateRefreshHandler = b.SIORateRefreshHandler ∧
      b2.SIOOhlcvStreamHandler = b.SIOOhlcvStreamHandler := by
  have hcond : ¬ (b.SIOOrderRefreshHandler.isSome = true ∧
      contains STRATEGY_SUBSCRIPTION stockToken = true) := by
    rintro ⟨h1, h2⟩
    rcases hns with h | h
    · rw [h] at h1
      cases h1
    · rw [h] at h2
      cases h2
  have hfr := wsConnect_order_frame b true false net rfl
  have hsh := wsConnect_order_shape b true false net rfl
  have hacc : net = .accepted → (_wsConnect b true false false net).2 = none := by
    intro hn
    rw [hn]
    exact wsConnect_accepted _ _ _ _
  unfold subscribeRouted
  simp only [hr]
  rw [if_neg hcond]
  simp only [if_true]
  generalize _wsConnect b true false false net = cc at hfr hsh hacc
  obtain ⟨cb, ce⟩ := cc
  obtain ⟨o0, -, hrate, hohlc⟩ := hfr
  simp only at hrate hohlc
  cases ce with
  | some e =>
    exact ⟨cb, { error := some e }, rfl, fun hn => (by cases hacc hn), fun h => (by cases h),
      hrate.trans hr, hohlc⟩
  | none =>
    obtain ⟨o1, ho1, hw1, hr1, h0, hn0, -, -⟩ := hsh rfl
    simp only at ho1
    have hconn : ∃ c1, o1.conn = some c1 := by
      by_cases hz : b.OrderConnect = 0
      · exact h0 hz
      · rcases hcount with h | h
        · exact absurd h hz
        · obtain ⟨o, ho⟩ := Option.isSome_iff_exists.1 h
          rw [hn0 hz, ho]
          exact Live.conn _ _ horder ho
    obtain ⟨c1, hc1⟩ := hconn
    refine ⟨{ cb with SIOOrderRefreshHandler := some { o1 with conn := some (c1.write notifyFrame) } },
      { response := some (responseOf b "ORDER_NOTIFICATION_SUBSRIBED") }, ?_,
      fun _ => rfl, fun _ => ⟨⟨_, rfl, ?_⟩, hw1, hr1⟩, hrate.trans hr, hohlc⟩
    · simp only [ho1, SocketEventBreeze.Notify, hc1, GoResult.ok_bind, GoResult.pure_eq]
    · simp [SocketEventBreeze.frames, Conn.write]

theorem joinedOn_of_stream (seb s : SocketEventBreeze) (c : Conn) (t : String)
    (hc : s.conn = some (c.write (streamFrame t))) (hr : s.roomSet = insert t seb.roomSet) :
    joinedOn (some s) t := by
  refine ⟨s, rfl, ?_, ?_⟩
  · rw [hr]
    exact Finset.mem_insert_self _ _
  · simp [SocketEventBreeze.frames, hc, Conn.write]

theorem joinOhlc_joined (b : BreezeInstance) (token interval : String) (net : Dial)
    (hlive : Live b.SIOOhlcvStreamHandler) :
    ∃ b2 e, joinOhlc b token interval net = .ok (b2, e) ∧
      (net = .accepted → e = none) ∧
      (e = none → joinedOn b2.SIOOhlcvStreamHandler token) ∧
      b2.SIORateRefreshHandler = b.SIORateRefreshHandler ∧
      b2.SIOOrderRefreshHandler = b.SIOOrderRefreshHandler := by
  unfold joinOhlc
  cases ho : b.SIOOhlcvStreamHandler with
  | none =>
    simp only
    have hc : (_wsConnect b false true false net).1.SIOOhlcvStreamHandler =
          some ((orNew b.SIOOhlcvStreamHandler).Connect b.UserID b.SessionKey net).1 ∧
        (_wsConnect b false true false net).2 =
          ((orNew b.SIOOhlcvStreamHandler).Connect b.UserID b.SessionKey net).2 ∧
        (_wsConnect b false true false net).1.SIORateRefreshHandler = b.SIORateRefreshHandler ∧
        (_wsConnect b false true false net).1.SIOOrderRefreshHandler =
          b.SIOOrderRefreshHandler := ⟨rfl, rfl, rfl, rfl⟩
    have hacc : net = .accepted → (_wsConnect b false true false net).2 = none := by
      intro hn
      rw [hn]
      exact wsConnect_accepted _ _ _ _
    generalize _wsConnect b false true false net = cc at hc hacc
    obtain ⟨cb, ce⟩ := cc
    obtain ⟨hc1, hc2, hc3, hc4⟩ := hc
    simp only at hc1 hc2 hc3 hc4
    cases ce with
    | some e2 =>
      exact ⟨cb, some e2, rfl, fun hn => (by cases hacc hn), fun h => (by cases h), hc3, hc4⟩
    | none =>
      obtain ⟨c1, hconn, -, -⟩ := Connect_shape _ _ _ _ hc2.symm
      obtain ⟨s, hs, hsc, -, hsr, -⟩ := WatchStreamData_open _ c1 token interval hconn
      refine ⟨{ cb with SIOOhlcvStreamHandler := some s }, none, ?_, fun _ => rfl,
        fun _ => joinedOn_of_stream _ s c1 token hsc hsr, hc3, hc4⟩
      simp only [hc1, streamOn, hs, GoResult.ok_bind, GoResult.pure_eq]
  | some seb =>
    simp only
    obtain ⟨c1, hconn⟩ := Live.conn _ _ hlive ho
    obtain ⟨s, hs, hsc, -, hsr, -⟩ := WatchStreamData_open seb c1 token interval hconn
    refine ⟨{ b with SIOOhlcvStreamHandler := some s }, none, ?_, fun _ => rfl,
      fun _ => joinedOn_of_stream _ s c1 token hsc hsr, rfl, rfl⟩
    simp only [ho, streamOn, hs, GoResult.ok_bind, GoResult.pure_eq]

theorem watchIds_watched (b : BreezeInstance) (r : SocketEventBreeze) (c : Conn)
    (quoteId depthId : String) (hr : b.SIORateRefreshHandler = some r) (hc : r.conn = some c) :
    ∃ b2, watchIds b quoteId depthId = .ok b2 ∧
      (∀ t ∈ idSet quoteId depthId, watchedOn b2.SIORateRefreshHandler t) ∧
      watchSetOf b2.SIORateRefreshHandler = r.watchSet ∪ idSet quoteId depthId ∧
      b2.SIOOrderRefreshHandler = b.SIOOrderRefreshHandler ∧
      b2.SIOOhlcvStreamHandler = b.SIOOhlcvStreamHandler := by
  obtain ⟨b2, r2, c2, hw, hr2, -, hset, -, f1, f2⟩ := watchIds_shape b r c quoteId depthId hr hc
  refine ⟨b2, hw, ?_, by rw [hr2]; exact hset, f1, f2⟩
  intro t ht
  have hmem : t ∈ r2.watchSet := by
    rw [hset]
    exact Finset.mem_union_right _ ht
  refine ⟨r2, hr2, hmem, ?_⟩
  simp only [idSet, Finset.mem_erase, Finset.mem_insert, Finset.mem_singleton] at ht
  obtain ⟨hne, hcase⟩ := ht
  unfold watchIds at hw
  by_cases hq : quoteId = ""
  · have htd : t = depthId := by
      rcases hcase with h | h
      · exact absurd (h.trans hq) hne
      · exact h
    have hd : depthId ≠ "" := fun e => hne (htd.trans e)
    obtain ⟨s, hs, hsc, -, -⟩ := watchOn_open r c depthId hc
    simp only [hq, ne_eq, not_true_eq_false, if_false, GoResult.pure_eq, GoResult.ok_bind, hd,
      not_false_eq_true, if_true, hr, hs, GoResult.ok.injEq] at hw
    rw [← hw] at hr2
    simp only [Option.some.injEq] at hr2
    rw [← hr2, htd]
    simp [SocketEventBreeze.frames, hsc, Conn.write]
  · obtain ⟨s, hs, hsc, -, -⟩ := watchOn_open r c quoteId hc
    by_cases hd : depthId = ""
    · have htq : t = quoteId := by
        rcases hcase with h | h
        · exact h
        · exact absurd (h.trans hd) hne
      simp only [hq, ne_eq, not_false_eq_true, if_true, hr, hs, GoResult.ok_bind,
        GoResult.pure_eq, hd, not_true_eq_false, if_false, GoResult.ok.injEq] at hw
      rw [← hw] at hr2
      simp only [Option.some.injEq] at hr2
      rw [← hr2, htq]
      simp [SocketEventBreeze.frames, hsc, Conn.write]
    · obtain ⟨s2, hs2, hsc2, -, -⟩ := watchOn_open s _ depthId hsc
      simp only [hq, ne_eq, not_false_eq_true, if_true, hr, hs, GoResult.ok_bind,
        GoResult.pure_eq, hd, hs2, GoResult.ok.injEq] at hw
      rw [← hw] at hr2
      simp only [Option.some.injEq] at hr2
      rw [← hr2]
      rcases hcase with h | h
      · rw [h]
        simp [SocketEventBreeze.frames, hsc2, Conn.write]
      · rw [h]
        simp [SocketEventBreeze.frames, hsc2, Conn.write]

theorem not_strategy_route (b : BreezeInstance) (stockToken : String)
    (hns : b.SIOOrderRefreshHandler = none ∨ contains STRATEGY_SUBSCRIPTION stockToken = false) :
    ¬ (b.SIOOrderRefreshHandler.isSome = true ∧
      contains STRATEGY_SUBSCRIPTION stockToken = true) := by
  rintro ⟨h1, h2⟩
  rcases hns with h | h
  · rw [h] at h1
    cases h1
  · rw [h] at h2
    cases h2

theorem routed_room (b : BreezeInstance) (r : SocketEventBreeze)
    (stockToken exchangeCode stockCode productType expiryDate strikePrice right code : String)
    (q d : Bool) (net : Dial)
    (hr : b.SIORateRefreshHandler = some r) (hohlc : Live b.SIOOhlcvStreamHandler)
    (hns : b.SIOOrderRefreshHandler = none ∨ contains STRATEGY_SUBSCRIPTION stockToken = false)
    (ht : stockToken ≠ "") (hcode : code ≠ "") :
    ∃ b2 reply, subscribeRouted b stockToken exchangeCode stockCode productType expiryDate
        strikePrice right code q d false net = .ok (b2, reply) ∧
      (net = .accepted → reply.error = none) ∧
      (reply.error = none → joinedOn b2.SIOOhlcvStreamHandler stockToken) ∧
      b2.SIORateRefreshHandler = b.SIORateRefreshHandler ∧
      b2.SIOOrderRefreshHandler = b.SIOOrderRefreshHandler := by
  obtain ⟨b2, e, hj, hacc, hjoin, f1, f2⟩ := joinOhlc_joined b stockToken code net hohlc
  unfold subscribeRouted
  simp only [hr]
  rw [if_neg (not_strategy_route b stockToken hns)]
  simp only [Bool.false_eq_true, if_false, ne_eq, ht, not_false_eq_true, if_true, hcode, hj,
    GoResult.ok_bind]
  cases e with
  | some e2 =>
    exact ⟨b2, { error := some e2 }, rfl, fun hn => (by cases hacc hn), fun h => (by cases h),
      f1.trans hr, f2⟩
  | none =>
    exact ⟨b2, { response := some (responseWith b "STOCK_SUBSCRIBE_MESSAGE" stockToken) }, rfl,
      fun _ => rfl, fun _ => hjoin rfl, f1.trans hr, f2⟩

theorem routed_instrument_room (b : BreezeInstance) (r : SocketEventBreeze)
    (exchangeCode stockCode productType expiryDate strikePrice right code : String)
    (q d : Bool) (net : Dial) (ids : String × String)
    (hr : b.SIORateRefreshHandler = some r) (hohlc : Live b.SIOOhlcvStreamHandler)
    (hg : getStockTokenValue b exchangeCode stockCode productType expiryDate strikePrice right
      q d = .ok ids)
    (hcode : code ≠ "") :
    ∃ b2 reply, subscribeRouted b "" exchangeCode stockCode productType expiryDate
        strikePrice right code q d false net = .ok (b2, reply) ∧
      (net = .accepted → reply.error = none) ∧
      (reply.error = none → joinedOn b2.SIOOhlcvStreamHandler ids.1) ∧
      b2.SIORateRefreshHandler = b.SIORateRefreshHandler ∧
      b2.SIOOrderRefreshHandler = b.SIOOrderRefreshHandler := by
  obtain ⟨b2, e, hj, hacc, hjoin, f1, f2⟩ := joinOhlc_joined b ids.1 code net hohlc
  have hns : ¬ (b.SIOOrderRefreshHandler.isSome = true ∧
      contains STRATEGY_SUBSCRIPTION "" = true) := fun h => by
    have : contains STRATEGY_SUBSCRIPTION "" = false := by decide
    rw [this] at h
    cases h.2
  unfold subscribeRouted
  simp only [hr]
  rw [if_neg hns]
  simp only [Bool.false_eq_true, if_false, ne_eq, not_true_eq_false, false_and, hg, hcode,
    not_false_eq_true, if_true, hj, GoResult.ok_bind]
  cases e with
  | some e2 =>
    exact ⟨b2, { error := some e2 }, rfl, fun hn => (by cases hacc hn), fun h => (by cases h),
      f1.trans hr, f2⟩
  | none =>
    exact ⟨b2, { response := some (responseWith b "STOCK_SUBSCRIBE_MESSAGE" stockCode) }, rfl,
      fun _ => rfl, fun _ => hjoin rfl, f1.trans hr, f2⟩

theorem routed_rate (b : BreezeInstance) (r : SocketEventBreeze) (c : Conn)
    (stockToken exchangeCode stockCode productType expiryDate strikePrice right : String)
    (q d : Bool) (net : Dial)
    (hr : b.SIORateRefreshHandler = some r) (hc : r.conn = some c)
    (hns : b.SIOOrderRefreshHandler = none ∨ contains STRATEGY_SUBSCRIPTION stockToken = false)
    (ht : stockToken ≠ "") :
    ∃ b2 reply, subscribeRouted b stockToken exchangeCode stockCode productType expiryDate
        strikePrice right "" q d false net = .ok (b2, reply) ∧
      reply.error = none ∧
      watchedOn b2.SIORateRefreshHandler stockToken ∧
      watchSetOf b2.SIORateRefreshHandler = insert stockToken r.watchSet ∧
      b2.SIOOrderRefreshHandler = b.SIOOrderRefreshHandler ∧
      b2.SIOOhlcvStreamHandler = b.SIOOhlcvStreamHandler := by
  obtain ⟨s, hs, hsc, hsw, -⟩ := watchOn_open r c stockToken hc
  refine ⟨{ b with SIORateRefreshHandler := some s },
    { response := some (responseWith b "STOCK_SUBSCRIBE_MESSAGE" stockToken) }, ?_, rfl,
    watchedOn_of_watchOn r s c stockToken hsc hsw, hsw, rfl, rfl⟩
  unfold subscribeRouted
  simp only [hr]
  rw [if_neg (not_strategy_route b stockToken hns)]
  simp only [Bool.false_eq_true, if_false, ne_eq, ht, not_false_eq_true, if_true,
    not_true_eq_false, hs, GoResult.ok_bind, GoResult.pure_eq]

theorem routed_instrument_rate (b : BreezeInstance) (r : SocketEventBreeze) (c : Conn)
    (exchangeCode stockCode productType expiryDate strikePrice right : String)
    (q d : Bool) (net : Dial) (ids : String × String)
    (hr : b.SIORateRefreshHandler = some r) (hc : r.conn = some c)
    (hg : getStockTokenValue b exchangeCode stockCode productType expiryDate strikePrice right
      q d = .ok ids) :
    ∃ b2 reply, subscribeRouted b "" exchangeCode stockCode productType expiryDate
        strikePrice right "" q d false net = .ok (b2, reply) ∧
      reply.error = none ∧
      (∀ t ∈ idSet ids.1 ids.2, watchedOn b2.SIORateRefreshHandler t) ∧
      watchSetOf b2.SIORateRefreshHandler = r.watchSet ∪ idSet ids.1 ids.2 ∧
      b2.SIOOrderRefreshHandler = b.SIOOrderRefreshHandler ∧
      b2.SIOOhlcvStreamHandler = b.SIOOhlcvStreamHandler := by
  obtain ⟨b2, hw, hall, hset, f1, f2⟩ := watchIds_watched b r c ids.1 ids.2 hr hc
  have hns : ¬ (b.SIOOrderRefreshHandler.isSome = true ∧
      contains STRATEGY_SUBSCRIPTION "" = true) := fun h => by
    have : contains STRATEGY_SUBSCRIPTION "" = false := by decide
    rw [this] at h
    cases h.2
  refine ⟨b2, { response := some (responseWith b "STOCK_SUBSCRIBE_MESSAGE" stockCode) }, ?_,
    rfl, hall, hset, f1, f2⟩
  unfold subscribeRouted
  simp only [hr]
  rw [if_neg hns]
  simp only [Bool.false_eq_true, if_false, ne_eq, not_true_eq_false, false_and, hg, hw,
    GoResult.ok_bind, GoResult.pure_eq]

/-- Claim C17, amended: on a connected instance (the rate-refresh channel has a
transport and is authenticated, the order-refresh and OHLC handlers have one
where they exist, and the order counter is 0 unless an order-refresh handler
exists) every `SubscribeFeeds` call with an empty or accepted interval returns,
without error whenever the dial it may make is accepted, and one channel is its
target while the handlers of the other two stay as they were. When no error is
returned: a token of the strategy list is in the watch set of the order-refresh
channel, with its join frame sent there, provided an order-refresh handler
already exists; otherwise an order-notification request sends the notify frame
on the order-refresh channel; otherwise a request whose interval has a non-empty
entry in the channel-interval map joins a room on the OHLC channel (the stock
token or, when none is given, the quote id of the instrument is in its room set,
with its join frame sent there); otherwise the stock token, or the non-empty
ones of the quote and depth ids of the instrument, are in the watch set of the
rate-refresh channel, with their join frames sent there. -/
theorem C17_subscribe_targets (b : BreezeInstance) (r : SocketEventBreeze) (c : Conn)
    (stockToken exchangeCode stockCode productType expiryDate strikePrice right interval : String)
    (q d n : Bool) (net : Dial)
    (hrate : b.SIORateRefreshHandler = some r) (hconn : r.conn = some c)
    (hauth : r.authentication = true)
    (horder : Live b.SIOOrderRefreshHandler) (hohlc : Live b.SIOOhlcvStreamHandler)
    (hcount : b.OrderConnect = 0 ∨ b.SIOOrderRefreshHandler.isSome = true)
    (hval : interval = "" ∨ contains b.ConfigIntervalTypesStream interval = true) :
    (b.SIOOrderRefreshHandler.isSome = true →
      contains STRATEGY_SUBSCRIPTION stockToken = true →
      ∃ b2 reply, SubscribeFeeds b stockToken exchangeCode stockCode productType expiryDate
          strikePrice right interval q d n net = .ok (b2, reply) ∧
        (net = .accepted → reply.error = none) ∧
        (reply.error = none → watchedOn b2.SIOOrderRefreshHandler stockToken) ∧
        b2.SIORateRefreshHandler = b.SIORateRefreshHandler ∧
        b2.SIOOhlcvStreamHandler = b.SIOOhlcvStreamHandler) ∧
    ((b.SIOOrderRefreshHandler = none ∨ contains STRATEGY_SUBSCRIPTION stockToken = false) →
      (n = true →
        ∃ b2 reply, SubscribeFeeds b stockToken exchangeCode stockCode productType expiryDate
            strikePrice right interval q d n net = .ok (b2, reply) ∧
          (net = .accepted → reply.error = none) ∧
          (reply.error = none → notifiedOn b2.SIOOrderRefreshHandler ∧
            watchSetOf b2.SIOOrderRefreshHandler = watchSetOf b.SIOOrderRefreshHandler ∧
            roomSetOf b2.SIOOrderRefreshHandler = roomSetOf b.SIOOrderRefreshHandler) ∧
          b2.SIORateRefreshHandler = b.SIORateRefreshHandler ∧
          b2.SIOOhlcvStreamHandler = b.SIOOhlcvStreamHandler) ∧
      (n = false → stockToken ≠ "" → channelCode b interval ≠ "" →
        ∃ b2 reply, SubscribeFeeds b stockToken exchangeCode stockCode productType expiryDate
            strikePrice right interval q d n net = .ok (b2, reply) ∧
          (net = .accepted → reply.error = none) ∧
          (reply.error = none → joinedOn b2.SIOOhlcvStreamHandler stockToken) ∧
          b2.SIORateRefreshHandler = b.SIORateRefreshHandler ∧
          b2.SIOOrderRefreshHandler = b.SIOOrderRefreshHandler) ∧
      (n = false → stockToken ≠ "" → channelCode b interval = "" →
        ∃ b2 reply, SubscribeFeeds b stockToken exchangeCode stockCode productType expiryDate
            strikePrice right interval q d n net = .ok (b2, reply) ∧
          reply.error = none ∧
          watchedOn b2.SIORateRefreshHandler stockToken ∧
          watchSetOf b2.SIORateRefreshHandler = insert stockToken r.watchSet ∧
          b2.SIOOrderRefreshHandler = b.SIOOrderRefreshHandler ∧
          b2.SIOOhlcvStreamHandler = b.SIOOhlcvStreamHandler) ∧
      (n = false → stockToken = "" →
        ∀ quoteId depthId,
          getStockTokenValue { b with Interval := interval } exchangeCode stockCode productType
            expiryDate strikePrice right q d = .ok (quoteId, depthId) →
          (channelCode b interval ≠ "" →
            ∃ b2 reply, SubscribeFeeds b stockToken exchangeCode stockCode productType
                expiryDate strikePrice right interval q d n net = .ok (b2, reply) ∧
              (net = .accepted → reply.error = none) ∧
              (reply.error = none → joinedOn b2.SIOOhlcvStreamHandler quoteId) ∧
              b2.SIORateRefreshHandler = b.SIORateRefreshHandler ∧
              b2.SIOOrderRefreshHandler = b.SIOOrderRefreshHandler) ∧
          (channelCode b interval = "" →
            ∃ b2 reply, SubscribeFeeds b stockToken exchangeCode stockCode productType
                expiryDate strikePrice right interval q d n net = .ok (b2, reply) ∧
              reply.error = none ∧
              (∀ t ∈ idSet quoteId depthId, watchedOn b2.SIORateRefreshHandler t) ∧
              watchSetOf b2.SIORateRefreshHandler = r.watchSet ∪ idSet quoteId depthId ∧
              b2.SIOOrderRefreshHandler = b.SIOOrderRefreshHandler ∧
              b2.SIOOhlcvStreamHandler = b.SIOOhlcvStreamHandler))) := by
  have hun : unauthenticated b = false := by simp [unauthenticated, hrate, hauth]
  have hsub := SubscribeFeeds_valid b stockToken exchangeCode stockCode productType expiryDate
    strikePrice right interval q d n net hun hval
  rw [hsub]
  refine ⟨fun ho hs => ?_, fun hns => ⟨fun hn => ?_, fun hn ht hcode => ?_,
    fun hn ht hcode => ?_, fun hn ht quoteId depthId hg => ⟨fun hcode => ?_, fun hcode => ?_⟩⟩⟩
  · obtain ⟨o, ho⟩ := Option.isSome_iff_exists.1 ho
    exact routed_strategy { b with Interval := interval } r o _ _ _ _ _ _ _ _ _ _ _ net hrate
      ho horder hs
  · subst hn
    exact routed_notify { b with Interval := interval } r _ _ _ _ _ _ _ _ _ _ net hrate horder
      hcount hns
  · subst hn
    exact routed_room { b with Interval := interval } r _ _ _ _ _ _ _ _ _ _ net hrate hohlc hns
      ht hcode
  · subst hn
    rw [hcode]
    exact routed_rate { b with Interval := interval } r c _ _ _ _ _ _ _ _ _ net hrate hconn hns
      ht
  · subst hn
    subst ht
    exact routed_instrument_room { b with Interval := interval } r _ _ _ _ _ _ _ _ _ net
      (quoteId, depthId) hrate hohlc hg hcode
  · subst hn
    subst ht
    rw [hcode]
    exact routed_instrument_rate { b with Interval := interval } r c _ _ _ _ _ _ _ _ net
      (quoteId, depthId) hrate hconn hg

/-- Witness of `C17_subscribe_targets`: on the connected instance with the
interval tables of `config.go`, a stock token without interval is watched on
the rate-refresh channel, and the same token with the interval `1minute` joins
a room on the OHLC channel, which the call connects. -/
theorem C17_subscribe_targets_witness :
    (∃ b2 reply,
      SubscribeFeeds connectedConfiguredInstance "4.1!2885" "" "" "" "" "" "" "" false false
        false .accepted = .ok (b2, reply) ∧
      reply.error = none ∧
      watchedOn b2.SIORateRefreshHandler "4.1!2885" ∧
      b2.SIOOrderRefreshHandler = none ∧ b2.SIOOhlcvStreamHandler = none) ∧
    (∃ b2 reply,
      SubscribeFeeds connectedConfiguredInstance "4.1!2885" "" "" "" "" "" "" "1minute" false
        false false .accepted = .ok (b2, reply) ∧
      reply.error = none ∧
      joinedOn b2.SIOOhlcvStreamHandler "4.1!2885" ∧
      b2.SIORateRefreshHandler = connectedConfiguredInstance.SIORateRefreshHandler ∧
      b2.SIOOrderRefreshHandler = none) :=
  ⟨(let ⟨b2, reply, h1, h2, h3, _, h5, h6⟩ :=
      ((C17_subscribe_targets connectedConfiguredInstance
        { conn := some { written := [authFrame "" ""] }, dials := 1, readLoops := 1 }
        { written := [authFrame "" ""] }
        "4.1!2885" "" "" "" "" "" "" "" false false false .accepted rfl rfl rfl
        (fun _ h => by cases h) (fun _ h => by cases h) (Or.inl rfl) (Or.inl rfl)).2
          (Or.inl rfl)).2.2.1 rfl (by decide) rfl
    ⟨b2, reply, h1, h2, h3, h5, h6⟩),
   (let ⟨b2, reply, h1, h2, h3, h4, h5⟩ :=
      ((C17_subscribe_targets connectedConfiguredInstance
        { conn := some { written := [authFrame "" ""] }, dials := 1, readLoops := 1 }
        { written := [authFrame "" ""] }
        "4.1!2885" "" "" "" "" "" "" "1minute" false false false .accepted rfl rfl rfl
        (fun _ h => by cases h) (fun _ h => by cases h) (Or.inl rfl) (Or.inr (by decide))).2
          (Or.inl rfl)).2.1 rfl (by decide) (by decide)
    ⟨b2, reply, h1, h2 rfl, h3 (h2 rfl), h4, h5⟩)⟩

end BreezeConnect
